import Mathlib

/-!
# SQLE: audit rules SQLE00111 / SQLE00121 and the audit-plan sample merge

A shallow embedding of

* `sqle/driver/mysql/rule/ai/rule_00121.go` (`RuleSQLE00121`),
* `sqle/driver/mysql/rule/ai/rule_00111.go` (`RuleSQLE00111`, `checkExprAndIndex`),
* `sqle/model/audit_plan.go` (`GetFingerprintMD5`, `UpdateSlowLogAuditPlanSQLs`),

followed by the theorems about them.

Go pointers and interfaces that may be nil are `Option`s; the mutated
`input.Res` is passed through explicitly; a returned `error` is an `Option String`.
-/

set_option autoImplicit false

namespace sqle

/-! ## The parsed statement (`github.com/pingcap/parser/ast`) -/

namespace ast

/-- The expression nodes that occur in the WHERE clauses considered here. -/
inductive ExprNode where
  | ColumnNameExpr (name : String)
  | ValueExpr (text : String)
  | BinaryOperationExpr (op : String) (l r : ExprNode)
  | FuncCallExpr (fnName : String) (args : List ExprNode)
  deriving Inhabited

/-- One ordering term of an ORDER BY clause. -/
structure ByItem where
  Expr : ExprNode
  Desc : Bool

/-- The node `ast.OrderByClause`; `Items` may be empty. -/
structure OrderByClause where
  Items : List ByItem

/-- The node `ast.Limit`. -/
structure Limit where
  Count : Nat
  Offset : Option Nat

/-- The node `ast.SelectStmt`: `Where`, `OrderBy` and `Limit` are nil-able in Go.
`From` keeps the referenced table names only. -/
structure SelectStmt where
  Text : String
  From : List String
  Where : Option ExprNode
  OrderBy : Option OrderByClause
  Limit : Option Limit

/-- The node `ast.UnionStmt`: `SelectList.Selects`. -/
structure UnionStmt where
  Text : String
  Selects : List SelectStmt

/-- The node `ast.InsertStmt`: the target table and the SELECT of an INSERT ... SELECT. -/
structure InsertStmt where
  Text : String
  Table : String
  Select : Option SelectStmt

/-- The node `ast.UpdateStmt`. -/
structure UpdateStmt where
  Text : String
  TableRefs : List String
  Where : Option ExprNode

/-- The node `ast.DeleteStmt`. -/
structure DeleteStmt where
  Text : String
  TableRefs : List String
  Where : Option ExprNode

/-- The dynamic type of `input.Node`: the five kinds the rules switch on, and
every other statement kind (DDL, SHOW, SET, ...) under `Other`. -/
inductive Node where
  | SelectStmt (s : SelectStmt)
  | UnionStmt (s : UnionStmt)
  | InsertStmt (s : InsertStmt)
  | UpdateStmt (s : UpdateStmt)
  | DeleteStmt (s : DeleteStmt)
  | Other (kind : String) (text : String)

/-- The method `Node.Text()`. -/
def Node.Text : Node → String
  | .SelectStmt s => s.Text
  | .UnionStmt s => s.Text
  | .InsertStmt s => s.Text
  | .UpdateStmt s => s.Text
  | .DeleteStmt s => s.Text
  | .Other _ text => text

end ast

/-! ## Rule results (`driverV2`) and the rule handler input (`rulepkg`) -/

/-- Modelled from the spec: the severity level of `driverV2` (`RuleLevelNotice`
in the rule files), "ordered: notice < warn < error". -/
inductive RuleLevel where
  | notice
  | warn
  | error
  deriving DecidableEq, Repr

/-- Rank of a severity in the order notice < warn < error. -/
def RuleLevel.rank : RuleLevel → Nat
  | .notice => 0
  | .warn => 1
  | .error => 2

/-- The larger of two severities. -/
def RuleLevel.max (a b : RuleLevel) : RuleLevel :=
  if a.rank < b.rank then b else a

/-- Modelled from the spec: the active rule `input.Rule` of `driverV2`, which is
not among the sources: its identifier, its severity and the message of its
handler. -/
structure Rule where
  Name : String
  Level : RuleLevel
  Message : String
  deriving DecidableEq, Repr

/-- Modelled from the spec: one rule result of a statement, "rule identifier +
severity + rendered message". -/
structure AuditResult where
  Level : RuleLevel
  RuleName : String
  Message : String
  deriving DecidableEq, Repr

/-- The result list `input.Res` of one statement. -/
abbrev AuditResults := List AuditResult

/-- The value `rulepkg.RuleHandlerInput`, with the fields the two handlers read;
`Ctx` is the session context through which the schema is reached. -/
structure RuleHandlerInput (Ctx : Type) where
  Ctx : Ctx
  Rule : Rule
  Res : AuditResults
  Node : ast.Node

/-- The helpers of packages `rule/ai/util` and `rulepkg` that the two rules call.
Their bodies are not part of the sources embedded here, so the rules take them
as parameters and every theorem about a rule holds for all of them. -/
structure Util (Ctx : Type) where
  /-- The helper `util.GetSelectStmt`: the SELECTs a statement flattens to. -/
  GetSelectStmt : ast.Node → List ast.SelectStmt
  /-- The helper `util.GetMathOpExpr`: the arithmetic expressions of a WHERE clause. -/
  GetMathOpExpr : ast.ExprNode → List ast.ExprNode
  /-- The helper `util.GetFuncExpr`: the texts of the function calls of a WHERE clause. -/
  GetFuncExpr : ast.ExprNode → List String
  /-- The helper `util.GetTableNames`: the tables a statement refers to. -/
  GetTableNames : ast.Node → List String
  /-- The helper `util.GetIndexExpressionsForTables`: the index expressions of the tables, or an error. -/
  GetIndexExpressionsForTables : Ctx → List String → Except String (List String)
  /-- The helper `rulepkg.AddResult`: records a result of the rule in the result list. -/
  AddResult : AuditResults → Rule → String → AuditResults

/-- What a rule handler leaves behind: the result list `*input.Res` after the
call, the returned `error`, and the lines written to the log. -/
structure RuleOutcome where
  Res : AuditResults
  Err : Option String
  Log : List String
  deriving DecidableEq, Repr

/-- Modelled from the spec: `util.IsStrInSlice`, whose body is not among the
sources; a function expression text is looked up in the index-expression set. -/
def IsStrInSlice (e : String) (indexExprs : List String) : Bool :=
  indexExprs.contains e

/-! ## `rule_00121.go` -/

/-- The rule identifier constant of `rule_00121.go`. -/
def SQLE00121 : String := "SQLE00121"

/-- The `for ... range util.GetSelectStmt(stmt)` loop of `RuleSQLE00121`, on the
SELECTs still to visit: the first SELECT with a LIMIT and without ordering term
adds the result and returns. -/
def RuleSQLE00121.scan {Ctx : Type} (u : Util Ctx) (input : RuleHandlerInput Ctx) :
    List ast.SelectStmt → AuditResults
  | [] => input.Res
  | selectStmt :: rest =>
    match selectStmt.Limit with
    | some _ =>
      match selectStmt.OrderBy with
      | none => u.AddResult input.Res input.Rule SQLE00121
      | some orderBy =>
        if orderBy.Items.length = 0 then u.AddResult input.Res input.Rule SQLE00121
        else RuleSQLE00121.scan u input rest
    | none => RuleSQLE00121.scan u input rest

/-- The handler `RuleSQLE00121`. -/
def RuleSQLE00121 {Ctx : Type} (u : Util Ctx) (input : RuleHandlerInput Ctx) : RuleOutcome :=
  match input.Node with
  | .SelectStmt _ | .UnionStmt _ | .InsertStmt _ | .UpdateStmt _ | .DeleteStmt _ =>
    { Res := RuleSQLE00121.scan u input (u.GetSelectStmt input.Node), Err := none, Log := [] }
  | .Other _ _ => { Res := input.Res, Err := none, Log := [] }

/-! ## `rule_00111.go` -/

/-- The rule identifier constant of `rule_00111.go`. -/
def SQLE00111 : String := "SQLE00111"

/-- The line `log.NewEntry().Errorf("get table index failed, sqle: %v, error: %v", ...)`. -/
def getTableIndexFailed (sqle err : String) : String :=
  "get table index failed, sqle: " ++ sqle ++ ", error: " ++ err

/-- The inner function `checkExprAndIndex` of `RuleSQLE00111`: the returned
flag and the log lines written. -/
def checkExprAndIndex {Ctx : Type} (u : Util Ctx) (stmt : ast.Node)
    (whereClause : Option ast.ExprNode) (input : RuleHandlerInput Ctx) : Bool × List String :=
  match whereClause with
  | none => (false, [])
  | some w =>
    if (u.GetMathOpExpr w).length > 0 then (true, [])
    else
      let funcExpr := u.GetFuncExpr w
      if funcExpr.length = 0 then (false, [])
      else
        match u.GetIndexExpressionsForTables input.Ctx (u.GetTableNames stmt) with
        | .error err => (false, [getTableIndexFailed input.Node.Text err])
        | .ok indexExprs => (funcExpr.any (fun e => !IsStrInSlice e indexExprs), [])

/-- The `for ... range util.GetSelectStmt(stmt)` loop of `RuleSQLE00111`: every
flagged SELECT adds a result, and the loop goes on. The state is the result
list and the log so far. -/
def RuleSQLE00111.scan {Ctx : Type} (u : Util Ctx) (stmt : ast.Node)
    (input : RuleHandlerInput Ctx) : List ast.SelectStmt → AuditResults × List String →
    AuditResults × List String
  | [], st => st
  | selectStmt :: rest, (res, log) =>
    let c := checkExprAndIndex u stmt selectStmt.Where { input with Res := res }
    if c.1 then
      RuleSQLE00111.scan u stmt input rest (u.AddResult res input.Rule SQLE00111, log ++ c.2)
    else
      RuleSQLE00111.scan u stmt input rest (res, log ++ c.2)

/-- The UPDATE and DELETE cases of `RuleSQLE00111`: one check of the statement's
own WHERE clause. -/
def RuleSQLE00111.single {Ctx : Type} (u : Util Ctx) (stmt : ast.Node)
    (whereClause : Option ast.ExprNode) (input : RuleHandlerInput Ctx) : RuleOutcome :=
  let c := checkExprAndIndex u stmt whereClause input
  if c.1 then
    { Res := u.AddResult input.Res input.Rule SQLE00111, Err := none, Log := c.2 }
  else
    { Res := input.Res, Err := none, Log := c.2 }

/-- The handler `RuleSQLE00111`. -/
def RuleSQLE00111 {Ctx : Type} (u : Util Ctx) (input : RuleHandlerInput Ctx) : RuleOutcome :=
  match input.Node with
  | .SelectStmt _ | .UnionStmt _ =>
    let st := RuleSQLE00111.scan u input.Node input (u.GetSelectStmt input.Node) (input.Res, [])
    { Res := st.1, Err := none, Log := st.2 }
  | .UpdateStmt stmt => RuleSQLE00111.single u input.Node stmt.Where input
  | .DeleteStmt stmt => RuleSQLE00111.single u input.Node stmt.Where input
  | _ => { Res := input.Res, Err := none, Log := [] }

/-! ## The helpers of `rule/ai/util` and `rulepkg`, from their description

The two rule files call helpers whose bodies are not among the embedded
sources. The definitions below follow the description of the rule engine and
give one concrete `Util`; the theorems about the rules do not depend on it,
except where they are stated for it. -/

/-- Modelled from the spec: the Schema Oracle behind `input.Ctx`, which is not
among the sources: for each known table the expressions of its functional
indexes; a table it does not know makes the lookup fail. -/
structure SchemaOracle where
  tables : List (String × List String)

namespace util

mutual
/-- Modelled from the spec: the text of an expression, as the restore of the
parser (not among the sources) prints it, used for "the specific function
expression text". -/
def restore : ast.ExprNode → String
  | .ColumnNameExpr name => name
  | .ValueExpr text => text
  | .BinaryOperationExpr op l r => restore l ++ op ++ restore r
  | .FuncCallExpr fnName args => fnName ++ "(" ++ restoreArgs args ++ ")"
/-- Modelled from the spec: the comma separated texts of the arguments of a call. -/
def restoreArgs : List ast.ExprNode → String
  | [] => ""
  | [e] => restore e
  | e :: es => restore e ++ ", " ++ restoreArgs es
end

/-- Modelled from the spec: the arithmetic operators ("any arithmetic operator
applied directly to a column reference"). -/
def isMathOp (op : String) : Bool :=
  ["+", "-", "*", "/", "%", "DIV", "MOD"].contains op

/-- Modelled from the spec: whether an expression is a column reference. -/
def isColumn : ast.ExprNode → Bool
  | .ColumnNameExpr _ => true
  | _ => false

mutual
/-- Modelled from the spec: `util.GetMathOpExpr`, which is not among the
sources: the arithmetic operations of a predicate tree that are applied
directly to a column reference. -/
def GetMathOpExpr : ast.ExprNode → List ast.ExprNode
  | .ColumnNameExpr _ => []
  | .ValueExpr _ => []
  | .BinaryOperationExpr op l r =>
    (if isMathOp op && (isColumn l || isColumn r) then [.BinaryOperationExpr op l r] else [])
      ++ GetMathOpExpr l ++ GetMathOpExpr r
  | .FuncCallExpr _ args => GetMathOpExprList args
/-- Modelled from the spec: `util.GetMathOpExpr` over the arguments of a call. -/
def GetMathOpExprList : List ast.ExprNode → List ast.ExprNode
  | [] => []
  | e :: es => GetMathOpExpr e ++ GetMathOpExprList es
end

mutual
/-- Modelled from the spec: `util.GetFuncExpr`, which is not among the sources:
the texts of the function calls of a predicate tree that wrap a column
reference. -/
def GetFuncExpr : ast.ExprNode → List String
  | .ColumnNameExpr _ => []
  | .ValueExpr _ => []
  | .BinaryOperationExpr _ l r => GetFuncExpr l ++ GetFuncExpr r
  | .FuncCallExpr fnName args =>
    (if args.any isColumn then [restore (.FuncCallExpr fnName args)] else [])
      ++ GetFuncExprList args
/-- Modelled from the spec: `util.GetFuncExpr` over the arguments of a call. -/
def GetFuncExprList : List ast.ExprNode → List String
  | [] => []
  | e :: es => GetFuncExpr e ++ GetFuncExprList es
end

/-- Modelled from the spec: `util.GetSelectStmt`, which is not among the
sources: a statement is flattened to its simple SELECTs, "SELECT branches of a
UNION, the SELECT embedded in an INSERT...SELECT". -/
def GetSelectStmt : ast.Node → List ast.SelectStmt
  | .SelectStmt s => [s]
  | .UnionStmt s => s.Selects
  | .InsertStmt s => s.Select.toList
  | _ => []

/-- Modelled from the spec: `util.GetTableNames`, which is not among the
sources: "the statement's referenced tables". -/
def GetTableNames : ast.Node → List String
  | .SelectStmt s => s.From
  | .UnionStmt s => s.Selects.flatMap (fun b => b.From)
  | .InsertStmt s => s.Table :: (s.Select.toList.flatMap (fun b => b.From))
  | .UpdateStmt s => s.TableRefs
  | .DeleteStmt s => s.TableRefs
  | .Other _ _ => []

/-- Modelled from the spec: `util.GetIndexExpressionsForTables`, which is not
among the sources: "fetching any functional-index expressions defined on those
tables"; the lookup fails on a table the oracle does not know. -/
def GetIndexExpressionsForTables (ctx : SchemaOracle) : List String → Except String (List String)
  | [] => .ok []
  | t :: ts =>
    match ctx.tables.lookup t with
    | none => .error ("table not found: " ++ t)
    | some exprs =>
      match GetIndexExpressionsForTables ctx ts with
      | .error err => .error err
      | .ok more => .ok (exprs ++ more)

end util

/-- Modelled from the spec: `rulepkg.AddResult`, which is not among the sources:
"at most one Result per (Statement, Rule) pair", "the Results still collapse to
one per rule, with severity taking the maximum observed". A rule already in the
list has its severity raised; otherwise a result is appended. -/
def AddResult (res : AuditResults) (rule : Rule) (ruleName : String) : AuditResults :=
  if res.any (fun r => r.RuleName == ruleName) then
    res.map (fun r =>
      if r.RuleName == ruleName then { r with Level := r.Level.max rule.Level } else r)
  else
    res ++ [{ Level := rule.Level, RuleName := ruleName, Message := rule.Message }]

/-- The helpers above, gathered as the parameter of the rules. -/
def util.model : Util SchemaOracle where
  GetSelectStmt := util.GetSelectStmt
  GetMathOpExpr := util.GetMathOpExpr
  GetFuncExpr := util.GetFuncExpr
  GetTableNames := util.GetTableNames
  GetIndexExpressionsForTables := util.GetIndexExpressionsForTables
  AddResult := AddResult

/-! ## Vocabulary of the statements about the rules -/

/-- Statement kinds, as the type switches of the rules tell them apart. -/
inductive ast.Kind where
  | select
  | union
  | insert
  | update
  | delete
  | other
  deriving DecidableEq, Repr

/-- The kind of a statement node. -/
def ast.Node.kind : ast.Node → ast.Kind
  | .SelectStmt _ => .select
  | .UnionStmt _ => .union
  | .InsertStmt _ => .insert
  | .UpdateStmt _ => .update
  | .DeleteStmt _ => .delete
  | .Other _ _ => .other

/-- A SELECT offends rule SQLE00121: it has a LIMIT clause and no ordering
term (no ORDER BY clause, or one with zero items). -/
def limitWithoutOrder (s : ast.SelectStmt) : Bool :=
  s.Limit.isSome && (match s.OrderBy with
    | none => true
    | some orderBy => orderBy.Items.isEmpty)

/-- The statement is a single SELECT (one that flattens to itself), an UPDATE
or a DELETE, and `whereClause` is its WHERE clause. -/
def singleStmtWhere {Ctx : Type} (u : Util Ctx) (node : ast.Node)
    (whereClause : Option ast.ExprNode) : Prop :=
  (∃ s, node = .SelectStmt s ∧ u.GetSelectStmt node = [s] ∧ s.Where = whereClause) ∨
  (∃ s, node = .UpdateStmt s ∧ s.Where = whereClause) ∨
  (∃ s, node = .DeleteStmt s ∧ s.Where = whereClause)

/-- The WHERE clauses rule SQLE00111 looks at in a statement: those of the
flattened SELECTs of a SELECT or UNION, and the own one of an UPDATE or DELETE. -/
def examinedWheres {Ctx : Type} (u : Util Ctx) (node : ast.Node) : List (Option ast.ExprNode) :=
  match node with
  | .SelectStmt _ | .UnionStmt _ => (u.GetSelectStmt node).map (fun s => s.Where)
  | .UpdateStmt s => [s.Where]
  | .DeleteStmt s => [s.Where]
  | _ => []

/-- The number of results named `ruleName` in a result list. -/
def resultCount (ruleName : String) (res : AuditResults) : Nat :=
  res.countP (fun r => r.RuleName == ruleName)

/-! ## Sample statements -/

namespace sample

/-- A schema in which table `t` has a functional index on `UPPER(name)` and one
on `a+1`, and table `plain` has none. -/
def oracle : SchemaOracle :=
  { tables := [("t", ["UPPER(name)", "a+1"]), ("plain", [])] }

/-- The rule SQLE00121 as registered: level notice. -/
def rule121 : Rule :=
  { Name := SQLE00121, Level := .notice, Message := "limit without order by" }

/-- The rule SQLE00111 as registered: level notice. -/
def rule111 : Rule :=
  { Name := SQLE00111, Level := .notice, Message := "function or arithmetic on a column" }

/-- The predicate `id=1`. -/
def whereId : ast.ExprNode :=
  .BinaryOperationExpr "=" (.ColumnNameExpr "id") (.ValueExpr "1")

/-- The predicate `UPPER(name)='X'`. -/
def whereUpper : ast.ExprNode :=
  .BinaryOperationExpr "=" (.FuncCallExpr "UPPER" [.ColumnNameExpr "name"]) (.ValueExpr "'X'")

/-- The predicate `a+1=2`. -/
def whereMath : ast.ExprNode :=
  .BinaryOperationExpr "=" (.BinaryOperationExpr "+" (.ColumnNameExpr "a") (.ValueExpr "1"))
    (.ValueExpr "2")

/-- The statement `SELECT * FROM t WHERE id=1 LIMIT 10`. -/
def selLimit : ast.SelectStmt :=
  { Text := "SELECT * FROM t WHERE id=1 LIMIT 10", From := ["t"], Where := some whereId,
    OrderBy := none, Limit := some { Count := 10, Offset := none } }

/-- The statement `SELECT * FROM t WHERE UPPER(name)='X'`. -/
def selUpper : ast.SelectStmt :=
  { Text := "SELECT * FROM t WHERE UPPER(name)='X'", From := ["t"], Where := some whereUpper,
    OrderBy := none, Limit := none }

/-- The statement `SELECT * FROM plain WHERE UPPER(name)='X'`, on the table without index. -/
def selUpperPlain : ast.SelectStmt :=
  { Text := "SELECT * FROM plain WHERE UPPER(name)='X'", From := ["plain"],
    Where := some whereUpper, OrderBy := none, Limit := none }

/-- The statement `SELECT * FROM missing WHERE UPPER(name)='X'`, on a table the
oracle does not know. -/
def selUpperMissing : ast.SelectStmt :=
  { Text := "SELECT * FROM missing WHERE UPPER(name)='X'", From := ["missing"],
    Where := some whereUpper, OrderBy := none, Limit := none }

/-- The statement `SELECT * FROM t WHERE a+1=2`. -/
def selMath : ast.SelectStmt :=
  { Text := "SELECT * FROM t WHERE a+1=2", From := ["t"], Where := some whereMath,
    OrderBy := none, Limit := none }

/-- The statement `UPDATE t SET b=0 WHERE a+1=2`. -/
def updMath : ast.UpdateStmt :=
  { Text := "UPDATE t SET b=0 WHERE a+1=2", TableRefs := ["t"], Where := some whereMath }

/-- A UNION of two SELECTs that both have a LIMIT and no ORDER BY. -/
def unionLimit : ast.UnionStmt :=
  { Text := "SELECT * FROM t WHERE id=1 LIMIT 10 UNION SELECT * FROM t WHERE id=1 LIMIT 10",
    Selects := [selLimit, selLimit] }

/-- A UNION of two SELECTs that both compute on a column in their WHERE clause. -/
def unionMath : ast.UnionStmt :=
  { Text := "SELECT * FROM t WHERE a+1=2 UNION SELECT * FROM t WHERE a+1=2",
    Selects := [selMath, selMath] }

end sample

/-! ## `model/audit_plan.go`: the info document and the SQL of the merge

The merge of a sample into a stored one is the `ON DUPLICATE KEY UPDATE` clause
that `UpdateSlowLogAuditPlanSQLs` appends to the batch insert. Its expressions
are embedded operator by operator. A number is a rational. The operators `+`,
`*` and `/` on the values of `JSON_EXTRACT` and `COALESCE` are those of the type
DOUBLE: each operand is taken as the nearest DOUBLE and the result is rounded to
the nearest DOUBLE. A cast of such a result to an integer rounds halves to the
even integer, and a cast to `DECIMAL(M,D)` rounds the shortest decimal text of
the DOUBLE. A result out of the range of DOUBLE or of the 64-bit integers is an
error of the statement: the functions `fails` say when. -/

/-- What `JSON_EXTRACT(info, '$.key')` finds at a key of the document: nothing
(the SQL value NULL), the JSON literal `null`, or a value. -/
inductive JSONField (α : Type) where
  | absent
  | null
  | value (a : α)
  deriving DecidableEq, Repr

/-- The JSON document of column `info`, with the keys the merge statements of
`audit_plan.go` read and write. A column that is NULL is the document with every
key absent. -/
structure Info where
  counter : JSONField ℚ := .absent
  last_receive_timestamp : JSONField String := .absent
  query_time_max : JSONField ℚ := .absent
  query_time_avg : JSONField ℚ := .absent
  row_examined_avg : JSONField ℚ := .absent
  first_query_at : JSONField String := .absent
  db_user : JSONField String := .absent
  endpoints : JSONField (List (Option String)) := .absent
  average_query_time : JSONField ℚ := .absent
  start_time : JSONField String := .absent
  deriving DecidableEq, Repr

namespace mysql

/-- A key of the document used as a number: NULL when absent; the JSON literal
`null` is not NULL and counts as 0 in arithmetic. -/
def num : JSONField ℚ → Option ℚ
  | .absent => none
  | .null => some 0
  | .value q => some q

/-- A key of the document as a JSON value: NULL when absent, else the JSON
literal `null` (`some none`) or the value. -/
def json {α : Type} : JSONField α → Option (Option α)
  | .absent => none
  | .null => some none
  | .value a => some (some a)

/-- The function `COALESCE(a, b)`. -/
def COALESCE {α : Type} (a b : Option α) : Option α :=
  match a with
  | some x => some x
  | none => b

/-- Rounding to the nearest integer, halves to the even integer (`rint`). -/
def roundHalfEven (q : ℚ) : ℤ :=
  if q - ⌊q⌋ < 1 / 2 then ⌊q⌋
  else if 1 / 2 < q - ⌊q⌋ then ⌊q⌋ + 1
  else if ⌊q⌋ % 2 = 0 then ⌊q⌋
  else ⌊q⌋ + 1

/-- The unit in the last place of the DOUBLE nearest to `q`: 53 significant
bits, and the grid of 2^-1074 of the subnormal numbers. -/
def ulp (q : ℚ) : ℚ :=
  (2 : ℚ) ^ (max (Int.log 2 |q|) (-1022) - 52)

/-- The DOUBLE (IEEE 754 binary64) nearest to a number, ties to the even
significand. The exponent has no upper bound here: a result of 2^1024 or more
in absolute value is an out of range error, see `doubleOutOfRange`. -/
def double (q : ℚ) : ℚ :=
  (roundHalfEven (q / ulp q) : ℚ) * ulp q

/-- The largest rounding error of DOUBLE near zero: half the grid of the
subnormal numbers. -/
def eta : ℚ :=
  (2 : ℚ) ^ (-(1075 : ℤ))

/-- The operator `a + b` on DOUBLE operands: NULL when an operand is NULL. -/
def add (a b : Option ℚ) : Option ℚ :=
  match a, b with
  | some x, some y => some (double (double x + double y))
  | _, _ => none

/-- The operator `a * b` on DOUBLE operands: NULL when an operand is NULL. -/
def mul (a b : Option ℚ) : Option ℚ :=
  match a, b with
  | some x, some y => some (double (double x * double y))
  | _, _ => none

/-- The operator `a / b` on DOUBLE operands: NULL when an operand is NULL, and
NULL on division by zero. -/
def div (a b : Option ℚ) : Option ℚ :=
  match a, b with
  | some x, some y => if double y = 0 then none else some (double (double x / double y))
  | _, _ => none

/-- Whether a DOUBLE result is out of the range of the type, which is an error
of the statement. -/
def doubleOutOfRange (v : Option ℚ) : Bool :=
  match v with
  | some q => decide ((2 : ℚ) ^ 1024 ≤ |q|)
  | none => false

/-- The function `GREATEST(a, b)`: NULL when an argument is NULL. -/
def GREATEST (a b : Option ℚ) : Option ℚ :=
  match a, b with
  | some x, some y => some (max x y)
  | _, _ => none

/-- Rounding to the nearest integer, halves away from zero. -/
def roundHalfAway (q : ℚ) : ℤ :=
  if 0 ≤ q then ⌊q + 1 / 2⌋ else -⌊-q + 1 / 2⌋

/-- A number rounded to `D` decimal places. -/
def roundDecimal (D : ℕ) (q : ℚ) : ℚ :=
  (roundHalfAway (q * 10 ^ D) : ℚ) / 10 ^ D

/-- The largest value of type `DECIMAL(M,D)`: `M` digits, `D` of them decimals. -/
def maxDecimal (M D : ℕ) : ℚ :=
  (10 ^ M - 1) / 10 ^ D

/-- The cast `CAST(v AS DECIMAL(M,D))`: NULL stays NULL; a number is rounded to
`D` decimal places, and a rounded value outside the range of the type becomes
the nearest bound of the range. -/
def castDecimal (M D : ℕ) (v : Option ℚ) : Option ℚ :=
  v.map (fun q =>
    if maxDecimal M D < roundDecimal D q then maxDecimal M D
    else if roundDecimal D q < -maxDecimal M D then -maxDecimal M D
    else roundDecimal D q)

/-- A number rounded to `n` significant decimal digits. -/
def roundSig (n : ℕ) (q : ℚ) : ℚ :=
  (roundHalfEven (q / (10 : ℚ) ^ (Int.log 10 |q| + 1 - (n : ℤ))) : ℚ) *
    (10 : ℚ) ^ (Int.log 10 |q| + 1 - (n : ℤ))

/-- The decimal text of a DOUBLE: the shortest decimal, of at most 17
significant digits, that reads back as the same DOUBLE. -/
def shortest (q : ℚ) : ℚ :=
  match (List.range 17).find? (fun n => decide (double (roundSig (n + 1) q) = q)) with
  | some n => roundSig (n + 1) q
  | none => roundSig 17 q

/-- The cast `CAST(v AS DECIMAL(M,D))` of a DOUBLE result: the decimal text of
the DOUBLE is rounded to `D` decimal places and kept within the range of the type. -/
def castDecimalDouble (M D : ℕ) (v : Option ℚ) : Option ℚ :=
  castDecimal M D (v.map shortest)

/-- The cast `CAST(v AS SIGNED)` of a DOUBLE result: NULL stays NULL; a number
is rounded to the nearest integer, halves to the even one. Out of the signed
64-bit range the cast is an error, see `signedOutOfRange`. -/
def castSigned (v : Option ℚ) : Option ℚ :=
  v.map (fun q => (roundHalfEven q : ℚ))

/-- Whether `CAST(v AS SIGNED)` of a DOUBLE result is out of the signed 64-bit
range, which is an error of the statement. -/
def signedOutOfRange (v : Option ℚ) : Bool :=
  match v with
  | some q => decide (roundHalfEven q < -(2 ^ 63 : ℤ) ∨ (2 ^ 63 - 1 : ℤ) < roundHalfEven q)
  | none => false

/-- The cast `CAST(v AS UNSIGNED)` of a DOUBLE result: NULL stays NULL; a number
is rounded to the nearest integer, halves to the even one. Out of the unsigned
64-bit range the cast is an error, see `unsignedOutOfRange`. -/
def castUnsigned (v : Option ℚ) : Option ℚ :=
  v.map (fun q => (roundHalfEven q : ℚ))

/-- Whether `CAST(v AS UNSIGNED)` of a DOUBLE result is out of the unsigned
64-bit range, which is an error of the statement. -/
def unsignedOutOfRange (v : Option ℚ) : Bool :=
  match v with
  | some q => decide (roundHalfEven q < 0 ∨ (2 ^ 64 - 1 : ℤ) < roundHalfEven q)
  | none => false

/-- Whether a DOUBLE operation of the weighted average of a merge is out of
range: the two products, their sum, the sum of the counters and the quotient. -/
def averageOutOfRange (avgInfo avgValues infoCounter valuesCounter : JSONField ℚ) : Bool :=
  doubleOutOfRange
      (mul (COALESCE (num avgInfo) (num avgValues)) (COALESCE (num infoCounter) (some 0))) ||
    doubleOutOfRange
      (mul (COALESCE (num avgValues) (some 0)) (COALESCE (num valuesCounter) (some 0))) ||
    doubleOutOfRange
      (add
        (mul (COALESCE (num avgInfo) (num avgValues)) (COALESCE (num infoCounter) (some 0)))
        (mul (COALESCE (num avgValues) (some 0)) (COALESCE (num valuesCounter) (some 0)))) ||
    doubleOutOfRange
      (add (COALESCE (num infoCounter) (some 0)) (COALESCE (num valuesCounter) (some 1))) ||
    doubleOutOfRange
      (div
        (add
          (mul (COALESCE (num avgInfo) (num avgValues)) (COALESCE (num infoCounter) (some 0)))
          (mul (COALESCE (num avgValues) (some 0)) (COALESCE (num valuesCounter) (some 0))))
        (add (COALESCE (num infoCounter) (some 0)) (COALESCE (num valuesCounter) (some 1))))

/-- The value that `JSON_SET(doc, '$.key', v)` leaves at the key: NULL is stored
as the JSON literal `null`. -/
def JSON_SET {α : Type} (v : Option α) : JSONField α :=
  match v with
  | none => .null
  | some a => .value a

/-- The value that `JSON_SET(doc, '$.key', v)` leaves at the key, for a JSON value `v`. -/
def JSON_SET_json {α : Type} (v : Option (Option α)) : JSONField α :=
  match v with
  | none => .null
  | some none => .null
  | some (some a) => .value a

/-- The expression `IF(JSON_TYPE(stored)="NULL", incoming, stored)`. `JSON_TYPE`
of NULL is NULL, which is not true, so only the JSON literal `null` selects the
incoming value. -/
def IF_JSON_TYPE_NULL {α : Type} (stored incoming : Option (Option α)) : Option (Option α) :=
  match stored with
  | some none => incoming
  | _ => stored

/-- A JSON value as the array `JSON_MERGE` merges: an array is itself, a scalar
(here the literal `null`) is wrapped. -/
def asArray (v : Option (List (Option String))) : List (Option String) :=
  match v with
  | none => [none]
  | some items => items

/-- The function `JSON_MERGE(a, b)` on arrays: NULL when an argument is NULL,
else the two arrays one after the other. -/
def JSON_MERGE (a b : Option (Option (List (Option String)))) :
    Option (Option (List (Option String))) :=
  match a, b with
  | some x, some y => some (some (asArray x ++ asArray y))
  | _, _ => none

end mysql

/-- The expression of `UpdateSlowLogAuditPlanSQLs` for `$.counter`; `info` is
the stored document, `values` the incoming one (`values(info)`). -/
def UpdateSlowLogAuditPlanSQLs.counter (info values : Info) : JSONField ℚ :=
  mysql.JSON_SET (mysql.castSigned
    (mysql.add (mysql.COALESCE (mysql.num values.counter) (some 0))
      (mysql.COALESCE (mysql.num info.counter) (some 0))))

/-- The expression of `UpdateSlowLogAuditPlanSQLs` for `$.query_time_max`. -/
def UpdateSlowLogAuditPlanSQLs.query_time_max (info values : Info) : JSONField ℚ :=
  mysql.JSON_SET (mysql.GREATEST
    (mysql.castDecimal 12 6 (mysql.COALESCE (mysql.num info.query_time_max) (some 0)))
    (mysql.castDecimal 12 6 (mysql.COALESCE (mysql.num values.query_time_max) (some 0))))

/-- The expression of `UpdateSlowLogAuditPlanSQLs` for `$.query_time_avg`. -/
def UpdateSlowLogAuditPlanSQLs.query_time_avg (info values : Info) : JSONField ℚ :=
  mysql.JSON_SET (mysql.castDecimalDouble 12 6
    (mysql.div
      (mysql.add
        (mysql.mul
          (mysql.COALESCE (mysql.num info.query_time_avg) (mysql.num values.query_time_avg))
          (mysql.COALESCE (mysql.num info.counter) (some 0)))
        (mysql.mul
          (mysql.COALESCE (mysql.num values.query_time_avg) (some 0))
          (mysql.COALESCE (mysql.num values.counter) (some 0))))
      (mysql.add
        (mysql.COALESCE (mysql.num info.counter) (some 0))
        (mysql.COALESCE (mysql.num values.counter) (some 1)))))

/-- The expression of `UpdateSlowLogAuditPlanSQLs` for `$.row_examined_avg`. -/
def UpdateSlowLogAuditPlanSQLs.row_examined_avg (info values : Info) : JSONField ℚ :=
  mysql.JSON_SET (mysql.castDecimalDouble 65 6
    (mysql.div
      (mysql.add
        (mysql.mul
          (mysql.COALESCE (mysql.num info.row_examined_avg) (mysql.num values.row_examined_avg))
          (mysql.COALESCE (mysql.num info.counter) (some 0)))
        (mysql.mul
          (mysql.COALESCE (mysql.num values.row_examined_avg) (some 0))
          (mysql.COALESCE (mysql.num values.counter) (some 0))))
      (mysql.add
        (mysql.COALESCE (mysql.num info.counter) (some 0))
        (mysql.COALESCE (mysql.num values.counter) (some 1)))))

/-- The `JSON_SET(COALESCE(info, '{}'), ...)` of `UpdateSlowLogAuditPlanSQLs`:
the document stored after an incoming sample met a stored one. The keys that
are not set keep their stored value. -/
def UpdateSlowLogAuditPlanSQLs.info (info values : Info) : Info :=
  { info with
    counter := UpdateSlowLogAuditPlanSQLs.counter info values
    last_receive_timestamp := mysql.JSON_SET_json (mysql.json values.last_receive_timestamp)
    query_time_max := UpdateSlowLogAuditPlanSQLs.query_time_max info values
    query_time_avg := UpdateSlowLogAuditPlanSQLs.query_time_avg info values
    row_examined_avg := UpdateSlowLogAuditPlanSQLs.row_examined_avg info values
    first_query_at := mysql.JSON_SET_json
      (mysql.IF_JSON_TYPE_NULL (mysql.json info.first_query_at) (mysql.json values.first_query_at))
    db_user := mysql.JSON_SET_json
      (mysql.IF_JSON_TYPE_NULL (mysql.json info.db_user) (mysql.json values.db_user))
    endpoints := mysql.JSON_SET_json
      (mysql.JSON_MERGE (mysql.json info.endpoints) (mysql.json values.endpoints)) }

/-- Whether the `ON DUPLICATE KEY UPDATE` clause of `UpdateSlowLogAuditPlanSQLs`
raises an out of range error on a stored and an incoming document: the counter
beyond the signed 64-bit range, or a DOUBLE operation of an average beyond the
range of DOUBLE. -/
def UpdateSlowLogAuditPlanSQLs.fails (info values : Info) : Bool :=
  mysql.signedOutOfRange
      (mysql.add (mysql.COALESCE (mysql.num values.counter) (some 0))
        (mysql.COALESCE (mysql.num info.counter) (some 0))) ||
    mysql.averageOutOfRange info.query_time_avg values.query_time_avg info.counter
      values.counter ||
    mysql.averageOutOfRange info.row_examined_avg values.row_examined_avg info.counter
      values.counter

/-- The average the merge is described by:
`(old_avg*old_count + incoming_avg*incoming_count) / (old_count + incoming_count)`. -/
def weightedAverage (oldAvg oldCount incomingAvg incomingCount : ℚ) : ℚ :=
  (oldAvg * oldCount + incomingAvg * incomingCount) / (oldCount + incomingCount)

/-! ## `model/audit_plan.go`: the merge key -/

/-- The record `AuditPlanSQLV2` (the embedded `Model` left out). -/
structure AuditPlanSQLV2 where
  AuditPlanID : Nat
  Fingerprint : String
  FingerprintMD5 : String
  SQLContent : String
  Info : Info
  Schema : String
  deriving DecidableEq, Repr

/-- The row after `ON DUPLICATE KEY UPDATE` of `UpdateSlowLogAuditPlanSQLs`:
`sql_content = VALUES(sql_content)`, `info = JSON_SET(...)`. -/
def UpdateSlowLogAuditPlanSQLs.row (stored incoming : AuditPlanSQLV2) : AuditPlanSQLV2 :=
  { stored with
    SQLContent := incoming.SQLContent
    Info := UpdateSlowLogAuditPlanSQLs.info stored.Info incoming.Info }

namespace json

/-- The backslash character. -/
def backslash : Char := Char.ofNat 92

/-- The double quote character. -/
def quote : Char := Char.ofNat 34

/-- A hexadecimal digit, as `encoding/json` writes it. -/
def hex (n : Nat) : Char :=
  if n < 10 then Char.ofNat (48 + n) else Char.ofNat (87 + n)

/-- The encoding of one character of a string by `json.Marshal` of the Go
library (HTML escaping on): quote and backslash get a backslash, the control
characters and `<`, `>`, `&` an escape, U+2028 and U+2029 an escape, every other
character is written as it is. The strings are valid UTF-8. Backspace and form
feed are written `\b` and `\f` as the library does from Go 1.22 on; before, they
took the `\u00XX` form of the other control characters. -/
def escapeRune (c : Char) : List Char :=
  if c = quote ∨ c = backslash then [backslash, c]
  else if c = Char.ofNat 8 then [backslash, 'b']
  else if c = Char.ofNat 12 then [backslash, 'f']
  else if c = Char.ofNat 10 then [backslash, 'n']
  else if c = Char.ofNat 13 then [backslash, 'r']
  else if c = Char.ofNat 9 then [backslash, 't']
  else if c.toNat < 32 ∨ c = '<' ∨ c = '>' ∨ c = '&' then
    [backslash, 'u', '0', '0', hex (c.toNat / 16), hex (c.toNat % 16)]
  else if c = Char.ofNat 8232 ∨ c = Char.ofNat 8233 then
    [backslash, 'u', '2', '0', '2', hex (c.toNat % 16)]
  else [c]

/-- The encoding of the characters of a string, without the enclosing quotes. -/
def escape (s : List Char) : List Char :=
  s.flatMap escapeRune

/-- The value of a hexadecimal digit. -/
def unhex (c : Char) : Nat :=
  if c.toNat < 58 then c.toNat - 48 else c.toNat - 87

/-- Reading back one encoded character from the front of a text; used to show
that the encoding loses nothing. -/
def readRune : List Char → Option (Char × List Char)
  | [] => none
  | c :: rest =>
    if c = backslash then
      match rest with
      | [] => none
      | d :: rest2 =>
        if d = 'b' then some (Char.ofNat 8, rest2)
        else if d = 'f' then some (Char.ofNat 12, rest2)
        else if d = 'n' then some (Char.ofNat 10, rest2)
        else if d = 'r' then some (Char.ofNat 13, rest2)
        else if d = 't' then some (Char.ofNat 9, rest2)
        else if d = 'u' then
          match rest2 with
          | a :: b :: x :: y :: rest3 =>
            some (Char.ofNat (4096 * unhex a + 256 * unhex b + 16 * unhex x + unhex y), rest3)
          | _ => none
        else some (d, rest2)
    else some (c, rest)

/-- The text of `json.Marshal(struct{Fingerprint, Schema string}{...})` up to
the characters of the fingerprint. -/
def identityHead : List Char :=
  [Char.ofNat 123, quote] ++ "Fingerprint".data ++ [quote, ':', quote]

/-- The text between the characters of the fingerprint and those of the schema. -/
def identityMiddle : List Char :=
  [quote, ',', quote] ++ "Schema".data ++ [quote, ':', quote]

/-- The text after the characters of the schema. -/
def identityTail : List Char :=
  [quote, Char.ofNat 125]

end json

/-- The string `sqlIdentityJSON` of `GetFingerprintMD5`: the JSON object of the
fingerprint and the schema. -/
def AuditPlanSQLV2.sqlIdentityJSON (a : AuditPlanSQLV2) : String :=
  String.mk (json.identityHead ++ json.escape a.Fingerprint.data ++ json.identityMiddle ++
    json.escape a.Schema.data ++ json.identityTail)

/-- The method `GetFingerprintMD5`; `Md5String` is `utils.Md5String`. -/
def AuditPlanSQLV2.GetFingerprintMD5 (Md5String : String → String) (a : AuditPlanSQLV2) :
    String :=
  if a.FingerprintMD5 ≠ "" then a.FingerprintMD5
  else Md5String a.sqlIdentityJSON

/-- An argument of the raw SQL statement (`interface{}` in Go). -/
inductive SQLArg where
  | uint (n : Nat)
  | string (s : String)
  | json (info : Info)
  deriving DecidableEq, Repr

/-- The function `getBatchInsertRawSQL`: one tuple of placeholders and six
arguments for each record. -/
def getBatchInsertRawSQL (Md5String : String → String) (auditPlanId : Nat)
    (sqls : List AuditPlanSQLV2) : String × List SQLArg :=
  let acc := sqls.foldl
    (fun (acc : List String × List SQLArg) sql =>
      (acc.1 ++ ["(?, ?, ?, ?, ?, ?)"],
        acc.2 ++ [.uint auditPlanId, .string (sql.GetFingerprintMD5 Md5String),
          .string sql.Fingerprint, .string sql.SQLContent, .json sql.Info, .string sql.Schema]))
    ([], [])
  ("INSERT INTO `audit_plan_sqls_v2` (`audit_plan_id`,`fingerprint_md5`, `fingerprint`, `sql_content`, `info`, `schema`) VALUES "
      ++ ", ".intercalate acc.1, acc.2)

/-- The merge key of a record in a batch for plan `auditPlanId`: the values of
the columns `audit_plan_id` and `fingerprint_md5`, on which table
`audit_plan_sqls_v2` has its unique index. -/
def mergeKey (Md5String : String → String) (auditPlanId : Nat) (sql : AuditPlanSQLV2) :
    Nat × String :=
  (auditPlanId, sql.GetFingerprintMD5 Md5String)

namespace sample

/-- A stored sample: counter 3, averages 10. -/
def storedInfo : Info :=
  { counter := .value 3, query_time_avg := .value 10, row_examined_avg := .value 10 }

/-- An incoming sample: counter 5, averages 20. -/
def incomingInfo : Info :=
  { counter := .value 5, query_time_avg := .value 20, row_examined_avg := .value 20 }

/-- A sample seen once whose query time average is 2000000 seconds. -/
def longInfo : Info :=
  { counter := .value 1, query_time_avg := .value 2000000, row_examined_avg := .value 1 }

/-- A record of schema `db1` with its `FingerprintMD5` already set. -/
def presetDb1 : AuditPlanSQLV2 :=
  { AuditPlanID := 1, Fingerprint := "select * from t where id = ?",
    FingerprintMD5 := "5d41402abc4b2a76b9719d911017c592",
    SQLContent := "select * from t where id = 1", Info := {}, Schema := "db1" }

/-- A record of the same fingerprint in schema `db2` with the same `FingerprintMD5` set. -/
def presetDb2 : AuditPlanSQLV2 :=
  { AuditPlanID := 1, Fingerprint := "select * from t where id = ?",
    FingerprintMD5 := "5d41402abc4b2a76b9719d911017c592",
    SQLContent := "select * from t where id = 2", Info := {}, Schema := "db2" }

/-- A fresh record of schema `db1`: `FingerprintMD5` not set. -/
def freshDb1 : AuditPlanSQLV2 :=
  { AuditPlanID := 1, Fingerprint := "select * from t where id = ?", FingerprintMD5 := "",
    SQLContent := "select * from t where id = 1", Info := {}, Schema := "db1" }

/-- A fresh record of the same fingerprint in schema `db2`. -/
def freshDb2 : AuditPlanSQLV2 :=
  { AuditPlanID := 1, Fingerprint := "select * from t where id = ?", FingerprintMD5 := "",
    SQLContent := "select * from t where id = 2", Info := {}, Schema := "db2" }

end sample

/-! ## `model/audit_plan.go`: the other merge statements

`UpdateDefaultAuditPlanSQLs`, `UpdateSlowLogCollectAuditPlanSQLs` and
`UpdateSlowLogCollectAuditPlanSQLsV2` append their own `ON DUPLICATE KEY UPDATE`
clause; each is embedded from its own SQL text. -/

/-- Whether a DOUBLE operation of the `average_query_time` of the slow log
collection is out of range, or its `CAST(... AS UNSIGNED)` is. -/
def mysql.collectAverageOutOfRange (avgInfo avgValues infoCounter valuesCounter : JSONField ℚ) :
    Bool :=
  mysql.doubleOutOfRange
      (mysql.mul (mysql.add (mysql.num avgInfo) (some 0)) (mysql.num infoCounter)) ||
    mysql.doubleOutOfRange
      (mysql.mul (mysql.add (mysql.num avgValues) (some 0)) (mysql.num valuesCounter)) ||
    mysql.doubleOutOfRange
      (mysql.add
        (mysql.mul (mysql.add (mysql.num avgInfo) (some 0)) (mysql.num infoCounter))
        (mysql.mul (mysql.add (mysql.num avgValues) (some 0)) (mysql.num valuesCounter))) ||
    mysql.doubleOutOfRange (mysql.add (mysql.num infoCounter) (mysql.num valuesCounter)) ||
    mysql.unsignedOutOfRange
      (mysql.div
        (mysql.add
          (mysql.mul (mysql.add (mysql.num avgInfo) (some 0)) (mysql.num infoCounter))
          (mysql.mul (mysql.add (mysql.num avgValues) (some 0)) (mysql.num valuesCounter)))
        (mysql.add (mysql.num infoCounter) (mysql.num valuesCounter)))

/-- The `JSON_SET(COALESCE(info, '{}'), ...)` of `UpdateDefaultAuditPlanSQLs`:
`$.counter` and `$.last_receive_timestamp`. -/
def UpdateDefaultAuditPlanSQLs.info (info values : Info) : Info :=
  { info with
    counter := mysql.JSON_SET (mysql.castSigned
      (mysql.add (mysql.COALESCE (mysql.num values.counter) (some 0))
        (mysql.COALESCE (mysql.num info.counter) (some 0))))
    last_receive_timestamp := mysql.JSON_SET_json (mysql.json values.last_receive_timestamp) }

/-- Whether the clause of `UpdateDefaultAuditPlanSQLs` raises an out of range
error: the counter beyond the signed 64-bit range. -/
def UpdateDefaultAuditPlanSQLs.fails (info values : Info) : Bool :=
  mysql.signedOutOfRange
    (mysql.add (mysql.COALESCE (mysql.num values.counter) (some 0))
      (mysql.COALESCE (mysql.num info.counter) (some 0)))

/-- The row after `ON DUPLICATE KEY UPDATE` of `UpdateDefaultAuditPlanSQLs`:
`sql_content = VALUES(sql_content)`, `info = JSON_SET(...)`. -/
def UpdateDefaultAuditPlanSQLs.row (stored incoming : AuditPlanSQLV2) : AuditPlanSQLV2 :=
  { stored with
    SQLContent := incoming.SQLContent
    Info := UpdateDefaultAuditPlanSQLs.info stored.Info incoming.Info }

/-- The `JSON_SET(COALESCE(info, '{}'), ...)` of `UpdateSlowLogCollectAuditPlanSQLs`:
`$.counter`, `$.last_receive_timestamp`, `$.average_query_time` (without
`COALESCE`, cast to `UNSIGNED`), `$.row_examined_avg` and `$.start_time`. -/
def UpdateSlowLogCollectAuditPlanSQLs.info (info values : Info) : Info :=
  { info with
    counter := mysql.JSON_SET (mysql.castSigned
      (mysql.add (mysql.COALESCE (mysql.num values.counter) (some 0))
        (mysql.COALESCE (mysql.num info.counter) (some 0))))
    last_receive_timestamp := mysql.JSON_SET_json (mysql.json values.last_receive_timestamp)
    average_query_time := mysql.JSON_SET (mysql.castUnsigned
      (mysql.div
        (mysql.add
          (mysql.mul (mysql.add (mysql.num info.average_query_time) (some 0))
            (mysql.num info.counter))
          (mysql.mul (mysql.add (mysql.num values.average_query_time) (some 0))
            (mysql.num values.counter)))
        (mysql.add (mysql.num info.counter) (mysql.num values.counter))))
    row_examined_avg := mysql.JSON_SET (mysql.castDecimalDouble 65 6
      (mysql.div
        (mysql.add
          (mysql.mul
            (mysql.COALESCE (mysql.num info.row_examined_avg)
              (mysql.num values.row_examined_avg))
            (mysql.COALESCE (mysql.num info.counter) (some 0)))
          (mysql.mul
            (mysql.COALESCE (mysql.num values.row_examined_avg) (some 0))
            (mysql.COALESCE (mysql.num values.counter) (some 0))))
        (mysql.add
          (mysql.COALESCE (mysql.num info.counter) (some 0))
          (mysql.COALESCE (mysql.num values.counter) (some 1)))))
    start_time := mysql.JSON_SET_json (mysql.json values.start_time) }

/-- Whether the clause of `UpdateSlowLogCollectAuditPlanSQLs`, which is also
that of `UpdateSlowLogCollectAuditPlanSQLsV2`, raises an out of range error. -/
def UpdateSlowLogCollectAuditPlanSQLs.fails (info values : Info) : Bool :=
  mysql.signedOutOfRange
      (mysql.add (mysql.COALESCE (mysql.num values.counter) (some 0))
        (mysql.COALESCE (mysql.num info.counter) (some 0))) ||
    mysql.collectAverageOutOfRange info.average_query_time values.average_query_time
      info.counter values.counter ||
    mysql.averageOutOfRange info.row_examined_avg values.row_examined_avg info.counter
      values.counter

/-- The row after `ON DUPLICATE KEY UPDATE` of `UpdateSlowLogCollectAuditPlanSQLs`. -/
def UpdateSlowLogCollectAuditPlanSQLs.row (stored incoming : AuditPlanSQLV2) :
    AuditPlanSQLV2 :=
  { stored with
    SQLContent := incoming.SQLContent
    Info := UpdateSlowLogCollectAuditPlanSQLs.info stored.Info incoming.Info }

/-- The `JSON_SET(COALESCE(info, '{}'), ...)` of `UpdateSlowLogCollectAuditPlanSQLsV2`,
on the `info` column of table `sql_manage_records`: the same five expressions
as in `UpdateSlowLogCollectAuditPlanSQLs`. -/
def UpdateSlowLogCollectAuditPlanSQLsV2.info (info values : Info) : Info :=
  { info with
    counter := mysql.JSON_SET (mysql.castSigned
      (mysql.add (mysql.COALESCE (mysql.num values.counter) (some 0))
        (mysql.COALESCE (mysql.num info.counter) (some 0))))
    last_receive_timestamp := mysql.JSON_SET_json (mysql.json values.last_receive_timestamp)
    average_query_time := mysql.JSON_SET (mysql.castUnsigned
      (mysql.div
        (mysql.add
          (mysql.mul (mysql.add (mysql.num info.average_query_time) (some 0))
            (mysql.num info.counter))
          (mysql.mul (mysql.add (mysql.num values.average_query_time) (some 0))
            (mysql.num values.counter)))
        (mysql.add (mysql.num info.counter) (mysql.num values.counter))))
    row_examined_avg := mysql.JSON_SET (mysql.castDecimalDouble 65 6
      (mysql.div
        (mysql.add
          (mysql.mul
            (mysql.COALESCE (mysql.num info.row_examined_avg)
              (mysql.num values.row_examined_avg))
            (mysql.COALESCE (mysql.num info.counter) (some 0)))
          (mysql.mul
            (mysql.COALESCE (mysql.num values.row_examined_avg) (some 0))
            (mysql.COALESCE (mysql.num values.counter) (some 0))))
        (mysql.add
          (mysql.COALESCE (mysql.num info.counter) (some 0))
          (mysql.COALESCE (mysql.num values.counter) (some 1)))))
    start_time := mysql.JSON_SET_json (mysql.json values.start_time) }

/-! ## `model/audit_plan.go`: the batch statement on the table

`s.db.Exec(raw, args...)` runs one `INSERT ... VALUES (...), (...) ON DUPLICATE
KEY UPDATE ...` statement. The value tuples are taken in their order; a tuple
whose values for the unique index `(audit_plan_id, fingerprint_md5)` are those
of a row of the table updates that row, any other tuple is inserted. -/

/-- The rows of table `audit_plan_sqls_v2`. -/
abbrev Table := List AuditPlanSQLV2

/-- The values of a row in the columns of the unique index
`uniq_audit_plan_sqls_v2_audit_plan_id_fingerprint_md5`. -/
def AuditPlanSQLV2.uniqueKey (r : AuditPlanSQLV2) : Nat × String :=
  (r.AuditPlanID, r.FingerprintMD5)

/-- The row of table `audit_plan_sqls_v2` that has the key, if there is one. -/
def Table.find (table : Table) (key : Nat × String) : Option AuditPlanSQLV2 :=
  List.find? (fun r => decide (r.uniqueKey = key)) table

/-- The number of rows of the table that have the key. -/
def Table.count (table : Table) (key : Nat × String) : Nat :=
  List.countP (fun r => decide (r.uniqueKey = key)) table

/-- The rows that the argument list of a batch insert stands for: six arguments
for the columns `audit_plan_id`, `fingerprint_md5`, `fingerprint`, `sql_content`,
`info`, `schema` of each value tuple. -/
def valueTuples : List SQLArg → List AuditPlanSQLV2
  | .uint auditPlanId :: .string md5 :: .string fingerprint :: .string content ::
      .json info :: .string schema :: rest =>
    { AuditPlanID := auditPlanId, Fingerprint := fingerprint, FingerprintMD5 := md5,
      SQLContent := content, Info := info, Schema := schema } :: valueTuples rest
  | _ => []

/-- One value tuple of `INSERT ... ON DUPLICATE KEY UPDATE`: `update stored
incoming` is the row the `ON DUPLICATE KEY UPDATE` clause leaves. -/
def insertOnDuplicateKeyUpdate (update : AuditPlanSQLV2 → AuditPlanSQLV2 → AuditPlanSQLV2)
    (table : Table) (row : AuditPlanSQLV2) : Table :=
  if table.any (fun r => decide (r.uniqueKey = row.uniqueKey)) then
    table.map (fun r => if r.uniqueKey = row.uniqueKey then update r row else r)
  else
    table ++ [row]

/-- Whether a value tuple raises an error: it meets a row of its key and the
`ON DUPLICATE KEY UPDATE` clause fails on the two documents. -/
def tupleFails (fails : Info → Info → Bool) (table : Table) (row : AuditPlanSQLV2) : Bool :=
  match table.find row.uniqueKey with
  | some stored => fails stored.Info row.Info
  | none => false

/-- Whether one of the value tuples, taken in their order, raises an error. -/
def batchFails (update : AuditPlanSQLV2 → AuditPlanSQLV2 → AuditPlanSQLV2)
    (fails : Info → Info → Bool) : Table → List AuditPlanSQLV2 → Bool
  | _, [] => false
  | table, row :: rest =>
    tupleFails fails table row ||
      batchFails update fails (insertOnDuplicateKeyUpdate update table row) rest

/-- The call `s.db.Exec(raw, args...)` of the merge functions: the table after
the statement and the error returned. A statement without value tuple is not
valid SQL, and a statement with a tuple that raises an out of range error fails
as a whole: both leave the table as it was. -/
def execInsertOnDuplicateKeyUpdate
    (update : AuditPlanSQLV2 → AuditPlanSQLV2 → AuditPlanSQLV2)
    (fails : Info → Info → Bool)
    (table : Table) (stmt : String × List SQLArg) : Table × Option String :=
  match valueTuples stmt.2 with
  | [] => (table, some "Error 1064: You have an error in your SQL syntax")
  | rows =>
    if batchFails update fails table rows then
      (table, some "Error 1690: value is out of range")
    else (rows.foldl (insertOnDuplicateKeyUpdate update) table, none)

/-- The function `UpdateDefaultAuditPlanSQLs` on the table: the table after the
call and the error returned. -/
def UpdateDefaultAuditPlanSQLs (Md5String : String → String) (table : Table)
    (auditPlanId : Nat) (sqls : List AuditPlanSQLV2) : Table × Option String :=
  execInsertOnDuplicateKeyUpdate UpdateDefaultAuditPlanSQLs.row
    UpdateDefaultAuditPlanSQLs.fails table (getBatchInsertRawSQL Md5String auditPlanId sqls)

/-- The function `UpdateSlowLogAuditPlanSQLs` on the table: the table after the
call and the error returned. -/
def UpdateSlowLogAuditPlanSQLs (Md5String : String → String) (table : Table)
    (auditPlanId : Nat) (sqls : List AuditPlanSQLV2) : Table × Option String :=
  execInsertOnDuplicateKeyUpdate UpdateSlowLogAuditPlanSQLs.row
    UpdateSlowLogAuditPlanSQLs.fails table (getBatchInsertRawSQL Md5String auditPlanId sqls)

/-- The function `UpdateSlowLogCollectAuditPlanSQLs` on the table: the table
after the call and the error returned. -/
def UpdateSlowLogCollectAuditPlanSQLs (Md5String : String → String) (table : Table)
    (auditPlanId : Nat) (sqls : List AuditPlanSQLV2) : Table × Option String :=
  execInsertOnDuplicateKeyUpdate UpdateSlowLogCollectAuditPlanSQLs.row
    UpdateSlowLogCollectAuditPlanSQLs.fails table
    (getBatchInsertRawSQL Md5String auditPlanId sqls)

/-! ## Vocabulary of the statements about the merge -/

/-- The row that the value tuple of a record stands for in a batch of plan
`auditPlanId`. -/
def valuesRow (Md5String : String → String) (auditPlanId : Nat) (sql : AuditPlanSQLV2) :
    AuditPlanSQLV2 :=
  { AuditPlanID := auditPlanId, Fingerprint := sql.Fingerprint,
    FingerprintMD5 := sql.GetFingerprintMD5 Md5String, SQLContent := sql.SQLContent,
    Info := sql.Info, Schema := sql.Schema }

/-- What the value tuple `row` makes of the row `state` found under its key:
the inserted row when there was none, the updated row otherwise. -/
def mergeInto (update : AuditPlanSQLV2 → AuditPlanSQLV2 → AuditPlanSQLV2)
    (state : Option AuditPlanSQLV2) (row : AuditPlanSQLV2) : Option AuditPlanSQLV2 :=
  match state with
  | none => some row
  | some stored => some (update stored row)

/-- The counter of a document is a natural number. -/
def Info.natCounter (info : Info) : Prop :=
  ∃ n : ℕ, info.counter = .value (n : ℚ)

/-- A numeric key of a document as a number, a missing one counting as 0: the
value of `COALESCE(JSON_EXTRACT(info, '$.key'), 0)`. -/
def JSONField.orZero (field : JSONField ℚ) : ℚ :=
  (mysql.COALESCE (mysql.num field) (some 0)).getD 0

/-- The sum of the counters of the rows that have the key. -/
def counterTotal (key : Nat × String) (rows : List AuditPlanSQLV2) : ℚ :=
  ((rows.filter (fun r => decide (r.uniqueKey = key))).map
    (fun r => r.Info.counter.orZero)).sum

/-- The counter of the row found under a key, 0 when there is no row. -/
def stateCounter (state : Option AuditPlanSQLV2) : ℚ :=
  match state with
  | none => 0
  | some stored => stored.Info.counter.orZero

/-- A number is a value of type `DECIMAL(M,D)`: it has at most `D` decimals and
is within the range of the type. -/
def isDecimal (M D : ℕ) (q : ℚ) : Prop :=
  mysql.roundDecimal D q = q ∧ |q| ≤ mysql.maxDecimal M D

/-- A numeric key of a document is missing, or a number of at most `bound` in
absolute value. -/
def JSONField.within (bound : ℚ) (field : JSONField ℚ) : Prop :=
  ∀ q, field = .value q → |q| ≤ bound

/-- A numeric key of a document is missing, or a number between 0 and `bound`. -/
def JSONField.upTo (bound : ℚ) (field : JSONField ℚ) : Prop :=
  ∀ q, field = .value q → 0 ≤ q ∧ q ≤ bound

/-- The numbers of a document that `UpdateSlowLogAuditPlanSQLs` reads are of the
sizes that its casts store: the counter is a natural number, and each average is
missing or at most 10^59 in absolute value. -/
def Info.moderate (info : Info) : Prop :=
  info.natCounter ∧ info.query_time_avg.within (10 ^ 59) ∧
    info.row_examined_avg.within (10 ^ 59)

/-- The numbers of a document that `UpdateSlowLogCollectAuditPlanSQLs` reads are
of the sizes that its casts store: the counter is a natural number,
`average_query_time` is missing or between 0 and 2^63, and `row_examined_avg` is
missing or at most 10^59 in absolute value. -/
def Info.collectModerate (info : Info) : Prop :=
  info.natCounter ∧ info.average_query_time.upTo (2 ^ 63) ∧
    info.row_examined_avg.within (10 ^ 59)

namespace sample

/-- A stored sample of the slow log collection: counter 3, `average_query_time` 10. -/
def collectStored : Info :=
  { counter := .value 3, average_query_time := .value 10 }

/-- An incoming sample of the slow log collection: counter 5, `average_query_time` 20. -/
def collectIncoming : Info :=
  { counter := .value 5, average_query_time := .value 20 }

/-- A stored sample whose counter is 0, with averages 10. -/
def zeroStored : Info :=
  { counter := .value 0, query_time_avg := .value 10, row_examined_avg := .value 10 }

/-- An incoming sample whose counter is 0, with averages 20. -/
def zeroIncoming : Info :=
  { counter := .value 0, query_time_avg := .value 20, row_examined_avg := .value 20 }

/-- An incoming sample with counter 5 and no average, as an old scanner sends it. -/
def noAverageIncoming : Info :=
  { counter := .value 5 }

/-- A stored sample with counter 3 whose `query_time_avg` is the JSON literal
`null`. -/
def nullAverageStored : Info :=
  { counter := .value 3, query_time_avg := .null }

/-- A sample whose counter is 2^53. -/
def hugeCounter : Info :=
  { counter := .value 9007199254740992 }

/-- A sample whose counter is 1. -/
def oneCounter : Info :=
  { counter := .value 1 }

/-- A sample whose counter is 2. -/
def twoCounter : Info :=
  { counter := .value 2 }

/-- A stored sample seen once whose `query_time_avg` is 0.000001. -/
def microInfo : Info :=
  { counter := .value 1, query_time_avg := .value (1 / 1000000) }

/-- An incoming sample seen once whose `query_time_avg` is 0.3. -/
def tenthsInfo : Info :=
  { counter := .value 1, query_time_avg := .value (3 / 10) }

/-- A stored sample whose `query_time_max` is 0.0000004. -/
def tinyMax : Info :=
  { counter := .value 1, query_time_max := .value (4 / 10000000) }

/-- An incoming sample whose `query_time_max` is 0. -/
def zeroMax : Info :=
  { counter := .value 1, query_time_max := .value 0 }

/-- A stored sample of an old scanner: no `first_query_at`, no `db_user`. -/
def legacyStored : Info :=
  { counter := .value 1, query_time_avg := .value 1 }

/-- An incoming sample with `first_query_at` and `db_user`. -/
def datedIncoming : Info :=
  { counter := .value 1, query_time_avg := .value 1,
    first_query_at := .value "2024-01-01T00:00:00Z", db_user := .value "root" }

/-- A record with counter 3 and averages 10, its `FingerprintMD5` set. -/
def averageRecord : AuditPlanSQLV2 :=
  { AuditPlanID := 1, Fingerprint := "select sleep(?)",
    FingerprintMD5 := "5d41402abc4b2a76b9719d911017c592",
    SQLContent := "select sleep(2)", Info := storedInfo, Schema := "db1" }

/-- A record of the same key with counter 5 and averages 20. -/
def secondAverageRecord : AuditPlanSQLV2 :=
  { AuditPlanID := 1, Fingerprint := "select sleep(?)",
    FingerprintMD5 := "5d41402abc4b2a76b9719d911017c592",
    SQLContent := "select sleep(3)", Info := incomingInfo, Schema := "db1" }

/-- A record of the same key with counter 5 and no average. -/
def noAverageRecord : AuditPlanSQLV2 :=
  { AuditPlanID := 1, Fingerprint := "select sleep(?)",
    FingerprintMD5 := "5d41402abc4b2a76b9719d911017c592",
    SQLContent := "select sleep(4)", Info := noAverageIncoming, Schema := "db1" }

/-- A record with counter 1 whose `query_time_avg` 0.1234567 has seven decimals. -/
def sevenDecimalsRecord : AuditPlanSQLV2 :=
  { AuditPlanID := 1, Fingerprint := "select sleep(?)",
    FingerprintMD5 := "5d41402abc4b2a76b9719d911017c592",
    SQLContent := "select sleep(2)",
    Info := { counter := .value 1, query_time_avg := .value (1234567 / 10000000) },
    Schema := "db1" }

/-- A record whose counter is 2^53. -/
def hugeRecord : AuditPlanSQLV2 :=
  { AuditPlanID := 1, Fingerprint := "select sleep(?)",
    FingerprintMD5 := "5d41402abc4b2a76b9719d911017c592",
    SQLContent := "select sleep(2)", Info := hugeCounter, Schema := "db1" }

/-- The key of the records above in a batch of plan 1. -/
def presetKey : Nat × String :=
  (1, "5d41402abc4b2a76b9719d911017c592")

/-- A sample seen from the endpoint `10.0.0.1`. -/
def endpointInfo : Info :=
  { counter := .value 1, endpoints := .value [some "10.0.0.1"] }

end sample

/-! ## `model/audit_plan.go`: `getBatchInsertRawSQLV2` -/

/-- Modelled from the spec: the record `SQLManageRecord`, whose declaration is
not among the sources: the fields that `getBatchInsertRawSQLV2` reads. -/
structure SQLManageRecord where
  ProjectId : String
  InstanceID : String
  SchemaName : String
  SqlFingerprint : String
  SqlText : String
  Info : Info
  deriving DecidableEq, Repr

/-- The function `getBatchInsertRawSQLV2`: one tuple of placeholders and nine
arguments for each record; `GetFingerprintMD5` is the method of
`SQLManageRecord`, which is not among the sources. -/
def getBatchInsertRawSQLV2 (GetFingerprintMD5 : SQLManageRecord → String) (auditPlanId : Nat)
    (sqls : List SQLManageRecord) : String × List SQLArg :=
  let acc := sqls.foldl
    (fun (acc : List String × List SQLArg) sql =>
      (acc.1 ++ ["(?, ?, ?, ?, ?, ?,?, ?, ?)"],
        acc.2 ++ [.string "audit_plan", .uint auditPlanId, .string sql.ProjectId,
          .string sql.InstanceID, .string sql.SchemaName, .string sql.SqlFingerprint,
          .string sql.SqlText, .json sql.Info, .string (GetFingerprintMD5 sql)]))
    ([], [])
  ("INSERT INTO `sql_manage_records` (`source`,`source_id`,`project_id`,`instance_name`,`schema_name`,`sql_fingerprint`, `sql_text`, `info`,`proj_fp_source_inst_schema_md5`) VALUES "
      ++ ", ".intercalate acc.1, acc.2)

/-- The number of placeholders `?` of a statement. -/
def placeholders (raw : String) : Nat :=
  raw.data.count '?'

/-- The number of statement separators `;` of a statement text. -/
def separators (raw : String) : Nat :=
  raw.data.count ';'

/-- The six arguments that `getBatchInsertRawSQL` appends for a record. -/
def recordArgs (Md5String : String → String) (auditPlanId : Nat) (sql : AuditPlanSQLV2) :
    List SQLArg :=
  [.uint auditPlanId, .string (sql.GetFingerprintMD5 Md5String), .string sql.Fingerprint,
    .string sql.SQLContent, .json sql.Info, .string sql.Schema]

/-- The nine arguments that `getBatchInsertRawSQLV2` appends for a record. -/
def recordArgsV2 (GetFingerprintMD5 : SQLManageRecord → String) (auditPlanId : Nat)
    (sql : SQLManageRecord) : List SQLArg :=
  [.string "audit_plan", .uint auditPlanId, .string sql.ProjectId, .string sql.InstanceID,
    .string sql.SchemaName, .string sql.SqlFingerprint, .string sql.SqlText, .json sql.Info,
    .string (GetFingerprintMD5 sql)]

/-- The text of the statement of `getBatchInsertRawSQL` before the value tuples. -/
def insertHead : String :=
  "INSERT INTO `audit_plan_sqls_v2` (`audit_plan_id`,`fingerprint_md5`, `fingerprint`, `sql_content`, `info`, `schema`) VALUES "

/-- The text of the statement of `getBatchInsertRawSQLV2` before the value tuples. -/
def insertHeadV2 : String :=
  "INSERT INTO `sql_manage_records` (`source`,`source_id`,`project_id`,`instance_name`,`schema_name`,`sql_fingerprint`, `sql_text`, `info`,`proj_fp_source_inst_schema_md5`) VALUES "

/-! ## `model/audit_plan.go`: the bulk replace -/

/-- The rows that `GetAuditPlanSQLs` finds: `WHERE audit_plan_id = ?`, the
sample set of the plan. -/
def GetAuditPlanSQLs (table : Table) (auditPlanId : Nat) : Table :=
  table.filter (fun r => decide (r.AuditPlanID = auditPlanId))

/-- The statement `DELETE FROM audit_plan_sqls_v2 WHERE audit_plan_id = ?` of
the two override functions (`Unscoped`: the rows are removed): the table after
it and its error. `fault` is the error of the storage when it does not execute
the statement (connection lost), which leaves the table as it was. -/
def execDelete (fault : Option String) (table : Table) (auditPlanId : Nat) :
    Table × Option String :=
  match fault with
  | some err => (table, some err)
  | none => (table.filter (fun r => decide (r.AuditPlanID ≠ auditPlanId)), none)

/-- The call `s.db.Exec(raw;, args...)` of `OverrideAuditPlanSQLs`, a plain
`INSERT` without `ON DUPLICATE KEY UPDATE`: the table after the statement and
its error. The statement as a whole fails, and leaves the table as it was, when
the storage does not execute it (`fault`), when it has no value tuple, and when
a value tuple has the unique key of a row of the table or of another tuple. -/
def execInsert (fault : Option String) (table : Table) (stmt : String × List SQLArg) :
    Table × Option String :=
  match fault with
  | some err => (table, some err)
  | none =>
    match valueTuples stmt.2 with
    | [] => (table, some "Error 1064: You have an error in your SQL syntax")
    | rows =>
      if (rows.map AuditPlanSQLV2.uniqueKey).Nodup ∧
          ∀ r ∈ rows, table.count r.uniqueKey = 0 then
        (table ++ rows, none)
      else (table, some "Error 1062: Duplicate entry")

/-- The function `OverrideAuditPlanSQLs` on the table: the table after the call
and the error returned. The DELETE and the INSERT are two calls of `s.db`,
without a transaction around them. -/
def OverrideAuditPlanSQLs (Md5String : String → String) (deleteFault insertFault : Option String)
    (table : Table) (auditPlanId : Nat) (sqls : List AuditPlanSQLV2) : Table × Option String :=
  match execDelete deleteFault table auditPlanId with
  | (table1, some err) => (table1, some err)
  | (table1, none) =>
    execInsert insertFault table1
      ((getBatchInsertRawSQL Md5String auditPlanId sqls).1 ++ ";",
        (getBatchInsertRawSQL Md5String auditPlanId sqls).2)

/-- The function `OverrideAuditPlanSQLsV2` on the pair of the table
`audit_plan_sqls_v2` and the table `sql_manage_records`: the DELETE is that of
`OverrideAuditPlanSQLs`, on `audit_plan_sqls_v2`; the INSERT of
`getBatchInsertRawSQLV2` goes to `sql_manage_records`, whose declaration is not
among the sources: `execInsertV2` is what the storage does with it. -/
def OverrideAuditPlanSQLsV2 {Records : Type} (GetFingerprintMD5 : SQLManageRecord → String)
    (execInsertV2 : Records → String × List SQLArg → Records × Option String)
    (deleteFault : Option String) (store : Table × Records) (auditPlanId : Nat)
    (sqls : List SQLManageRecord) : (Table × Records) × Option String :=
  match execDelete deleteFault store.1 auditPlanId with
  | (table1, some err) => ((table1, store.2), some err)
  | (table1, none) =>
    ((table1, (execInsertV2 store.2
        ((getBatchInsertRawSQLV2 GetFingerprintMD5 auditPlanId sqls).1 ++ ";",
          (getBatchInsertRawSQLV2 GetFingerprintMD5 auditPlanId sqls).2)).1),
      (execInsertV2 store.2
        ((getBatchInsertRawSQLV2 GetFingerprintMD5 auditPlanId sqls).1 ++ ";",
          (getBatchInsertRawSQLV2 GetFingerprintMD5 auditPlanId sqls).2)).2)

/-! ## `model/audit_plan.go`: `BatchUpdateBlackListCount`

A Go map is the list of its entries, with pairwise different keys; the order in
which `range` visits the entries is not fixed by the language. -/

/-- The record `BlackListAuditPlanSQL`; of the embedded `Model`, which is not
among the sources, the key `ID`; a time is a number. -/
structure BlackListAuditPlanSQL where
  ID : Nat
  ProjectId : String
  FilterContent : String
  Desc : String
  FilterType : String
  MatchedCount : Nat
  LastMatchTime : Option Nat
  deriving DecidableEq, Repr

/-- The assignment `countIdList[count] = append(countIdList[count], id)`. -/
def appendId (countIdList : List (Nat × List Nat)) (count id : Nat) : List (Nat × List Nat) :=
  match countIdList with
  | [] => [(count, [id])]
  | (c, idList) :: rest =>
    if c = count then (c, idList ++ [id]) :: rest else (c, idList) :: appendId rest count id

/-- The first loop of `BatchUpdateBlackListCount`: the blacklist ids grouped by
their count; `matchedIdCount` holds the entries `(id, count)` of the map in the
order in which `range` visits them. -/
def countIdList (matchedIdCount : List (Nat × Nat)) : List (Nat × List Nat) :=
  matchedIdCount.foldl (fun acc e => appendId acc e.2 e.1) []

/-- The row that the UPDATE leaves of a row it matches:
`matched_count = matched_count + ?`, `last_match_time = ?`. -/
def BlackListAuditPlanSQL.matched (row : BlackListAuditPlanSQL) (count lastMatchedTime : Nat) :
    BlackListAuditPlanSQL :=
  { row with MatchedCount := row.MatchedCount + count, LastMatchTime := some lastMatchedTime }

/-- The statement `UPDATE black_list_audit_plan_sqls SET matched_count =
matched_count + ?, last_match_time = ? WHERE id in (?)`: the table after it and
its error. The column of the Go `uint` is a `bigint unsigned`: a sum beyond
2^64 - 1 is an out of range error of the statement, which then changes no row. -/
def execUpdateMatched (table : List BlackListAuditPlanSQL) (count : Nat) (idList : List Nat)
    (lastMatchedTime : Nat) : List BlackListAuditPlanSQL × Option String :=
  if ∃ r ∈ table, r.ID ∈ idList ∧ 2 ^ 64 ≤ r.MatchedCount + count then
    (table, some "Error 1690: BIGINT UNSIGNED value is out of range")
  else
    (table.map (fun r => if r.ID ∈ idList then r.matched count lastMatchedTime else r), none)

/-- The second loop of `BatchUpdateBlackListCount` over the groups in the order
in which they are visited: it returns at the first error. -/
def updateGroups (table : List BlackListAuditPlanSQL) (groups : List (Nat × List Nat))
    (lastMatchedTime : Nat) : List BlackListAuditPlanSQL × Option String :=
  match groups with
  | [] => (table, none)
  | (count, idList) :: rest =>
    match execUpdateMatched table count idList lastMatchedTime with
    | (table1, some err) => (table1, some err)
    | (table1, none) => updateGroups table1 rest lastMatchedTime

/-- The function `BatchUpdateBlackListCount`: the table after the call and the
error returned; `rangeOrder` is the order in which `range` visits the groups of
`countIdList`. -/
def BatchUpdateBlackListCount
    (rangeOrder : List (Nat × List Nat) → List (Nat × List Nat))
    (table : List BlackListAuditPlanSQL) (matchedIdCount : List (Nat × Nat))
    (lastMatchedTime : Nat) : List BlackListAuditPlanSQL × Option String :=
  updateGroups table (rangeOrder (countIdList matchedIdCount)) lastMatchedTime

/-! ## Vocabulary of the statements about `BatchUpdateBlackListCount` -/

/-- The update of the rows of one blacklist id: its matched count is increased
by `count` and its last match time is set. -/
def updateOneId (table : List BlackListAuditPlanSQL) (id count lastMatchedTime : Nat) :
    List BlackListAuditPlanSQL :=
  table.map (fun r => if r.ID = id then r.matched count lastMatchedTime else r)

/-- The per-id update that the batch update is compared with: one update for
each entry `(id, count)` of the map. -/
def perIdUpdate (table : List BlackListAuditPlanSQL) (matchedIdCount : List (Nat × Nat))
    (lastMatchedTime : Nat) : List BlackListAuditPlanSQL :=
  matchedIdCount.foldl (fun acc e => updateOneId acc e.1 e.2 lastMatchedTime) table

/-- The count that the map gives a blacklist id, if it has the id. -/
def countOf (matchedIdCount : List (Nat × Nat)) (id : Nat) : Option Nat :=
  (matchedIdCount.find? (fun e => decide (e.1 = id))).map Prod.snd

/-- The row that the map asks for: the matched row when the map has its id, the
row itself when it has not. -/
def rowAfter (matchedIdCount : List (Nat × Nat)) (lastMatchedTime : Nat)
    (r : BlackListAuditPlanSQL) : BlackListAuditPlanSQL :=
  match countOf matchedIdCount r.ID with
  | some count => r.matched count lastMatchedTime
  | none => r

namespace sample

/-- Three blacklist rows with the ids 1, 2 and 3. -/
def blacklist : List BlackListAuditPlanSQL :=
  [{ ID := 1, ProjectId := "700300", FilterContent := "select 1", Desc := "",
      FilterType := "sql", MatchedCount := 10, LastMatchTime := none },
    { ID := 2, ProjectId := "700300", FilterContent := "10.0.0.1", Desc := "",
      FilterType := "ip", MatchedCount := 0, LastMatchTime := some 5 },
    { ID := 3, ProjectId := "700300", FilterContent := "root", Desc := "",
      FilterType := "db_user", MatchedCount := 7, LastMatchTime := none }]

/-- A map of matched counts: id 1 matched 4 times, id 2 matched 9 times and
id 5, which has no row, matched 4 times. -/
def matchedIdCount : List (Nat × Nat) :=
  [(1, 4), (2, 9), (5, 4)]

end sample

/-! ## Theorems: rule SQLE00121 -/

/-- One turn of the loop of `RuleSQLE00121`, in terms of `limitWithoutOrder`. -/
theorem RuleSQLE00121.scan_cons {Ctx : Type} (u : Util Ctx) (input : RuleHandlerInput Ctx)
    (s : ast.SelectStmt) (rest : List ast.SelectStmt) :
    RuleSQLE00121.scan u input (s :: rest) =
      if limitWithoutOrder s then u.AddResult input.Res input.Rule SQLE00121
      else RuleSQLE00121.scan u input rest := by
  obtain ⟨text, tables, wh, ob, lim⟩ := s
  cases lim with
  | none => simp [RuleSQLE00121.scan, limitWithoutOrder]
  | some l =>
    cases ob with
    | none => simp [RuleSQLE00121.scan, limitWithoutOrder]
    | some o =>
      by_cases h : o.Items = []
      · simp [RuleSQLE00121.scan, limitWithoutOrder, h]
      · simp [RuleSQLE00121.scan, limitWithoutOrder, h, List.isEmpty_iff]

/-- When no SELECT offends, the loop leaves the result list as it was. -/
theorem RuleSQLE00121.scan_clean {Ctx : Type} (u : Util Ctx) (input : RuleHandlerInput Ctx)
    (l : List ast.SelectStmt) (h : ∀ s ∈ l, limitWithoutOrder s = false) :
    RuleSQLE00121.scan u input l = input.Res := by
  induction l with
  | nil => rfl
  | cons s rest ih =>
    rw [RuleSQLE00121.scan_cons, h s (List.mem_cons_self _ _)]
    simpa using ih (fun t ht => h t (List.mem_cons_of_mem _ ht))

/-- The loop stops at the first offending SELECT with one added result,
whatever follows it. -/
theorem RuleSQLE00121.scan_first {Ctx : Type} (u : Util Ctx) (input : RuleHandlerInput Ctx)
    (pre : List ast.SelectStmt) (s : ast.SelectStmt) (post : List ast.SelectStmt)
    (hpre : ∀ p ∈ pre, limitWithoutOrder p = false) (hs : limitWithoutOrder s = true) :
    RuleSQLE00121.scan u input (pre ++ s :: post) =
      u.AddResult input.Res input.Rule SQLE00121 := by
  induction pre with
  | nil => simp [RuleSQLE00121.scan_cons, hs]
  | cons p pre ih =>
    rw [List.cons_append, RuleSQLE00121.scan_cons, hpre p (List.mem_cons_self _ _)]
    simpa using ih (fun t ht => hpre t (List.mem_cons_of_mem _ ht))

/-- When some SELECT offends, the loop adds exactly one result. -/
theorem RuleSQLE00121.scan_some {Ctx : Type} (u : Util Ctx) (input : RuleHandlerInput Ctx)
    (l : List ast.SelectStmt) (h : ∃ s ∈ l, limitWithoutOrder s = true) :
    RuleSQLE00121.scan u input l = u.AddResult input.Res input.Rule SQLE00121 := by
  induction l with
  | nil => simp at h
  | cons s rest ih =>
    rw [RuleSQLE00121.scan_cons]
    by_cases hs : limitWithoutOrder s = true
    · simp [hs]
    · obtain ⟨t, ht, hto⟩ := h
      have hne : t ≠ s := fun e => hs (e ▸ hto)
      have hmem : t ∈ rest := by
        rcases List.mem_cons.mp ht with e | e
        · exact absurd e hne
        · exact e
      simp only [hs]
      exact ih ⟨t, hmem, hto⟩

/-- On the five statement kinds it inspects, `RuleSQLE00121` is its loop over
the flattened SELECTs, and returns nil. -/
theorem RuleSQLE00121_eq_scan {Ctx : Type} (u : Util Ctx) (input : RuleHandlerInput Ctx)
    (hkind : input.Node.kind ≠ .other) :
    RuleSQLE00121 u input =
      { Res := RuleSQLE00121.scan u input (u.GetSelectStmt input.Node), Err := none, Log := [] } := by
  obtain ⟨ctx, rule, res, node⟩ := input
  cases node <;> first | rfl | exact absurd rfl hkind

/-- C1: for a single SELECT (one that flattens to itself), `RuleSQLE00121` adds
exactly one SQLE00121 result when the SELECT has a LIMIT clause and no ORDER BY
clause or an ORDER BY clause with zero items; it adds none when the SELECT has a
LIMIT clause and at least one ORDER BY item, and none when it has no LIMIT
clause. In each case it returns nil. -/
theorem RuleSQLE00121_single_select {Ctx : Type} (u : Util Ctx) (ctx : Ctx) (rule : Rule)
    (res : AuditResults) (s : ast.SelectStmt)
    (hflat : u.GetSelectStmt (.SelectStmt s) = [s]) :
    ((s.Limit ≠ none ∧ (s.OrderBy = none ∨ ∃ ob, s.OrderBy = some ob ∧ ob.Items.length = 0)) →
      RuleSQLE00121 u { Ctx := ctx, Rule := rule, Res := res, Node := .SelectStmt s } =
        { Res := u.AddResult res rule SQLE00121, Err := none, Log := [] }) ∧
    ((s.Limit ≠ none ∧ ∃ ob, s.OrderBy = some ob ∧ 0 < ob.Items.length) →
      RuleSQLE00121 u { Ctx := ctx, Rule := rule, Res := res, Node := .SelectStmt s } =
        { Res := res, Err := none, Log := [] }) ∧
    (s.Limit = none →
      RuleSQLE00121 u { Ctx := ctx, Rule := rule, Res := res, Node := .SelectStmt s } =
        { Res := res, Err := none, Log := [] }) := by
  have hrule : RuleSQLE00121 u { Ctx := ctx, Rule := rule, Res := res, Node := .SelectStmt s } =
      { Res := if limitWithoutOrder s then u.AddResult res rule SQLE00121 else res,
        Err := none, Log := [] } := by
    rw [RuleSQLE00121_eq_scan u _ (by simp [ast.Node.kind])]
    simp only [hflat, RuleSQLE00121.scan_cons, RuleSQLE00121.scan]
  obtain ⟨text, tables, wh, ob, lim⟩ := s
  refine ⟨?_, ?_, ?_⟩
  · rintro ⟨hl, ho⟩
    rw [hrule]
    have : limitWithoutOrder ⟨text, tables, wh, ob, lim⟩ = true := by
      cases lim with
      | none => exact absurd rfl hl
      | some l =>
        rcases ho with ho | ⟨o, ho, hlen⟩
        · simp only at ho
          subst ho
          simp [limitWithoutOrder]
        · simp only at ho
          subst ho
          simp [limitWithoutOrder, List.isEmpty_iff, List.length_eq_zero.mp hlen]
    simp [this]
  · rintro ⟨hl, o, ho, hlen⟩
    rw [hrule]
    have : limitWithoutOrder ⟨text, tables, wh, ob, lim⟩ = false := by
      simp only at ho
      subst ho
      have hne : o.Items ≠ [] := fun e => by simp [e] at hlen
      simp [limitWithoutOrder, List.isEmpty_iff, hne]
    simp [this]
  · intro hl
    rw [hrule]
    have : limitWithoutOrder ⟨text, tables, wh, ob, lim⟩ = false := by
      simp only at hl
      subst hl
      simp [limitWithoutOrder]
    simp [this]

/-- Witness of C1 on `SELECT * FROM t WHERE id=1 LIMIT 10`: exactly one result. -/
theorem RuleSQLE00121_single_select_witness :
    util.model.GetSelectStmt (.SelectStmt sample.selLimit) = [sample.selLimit] ∧
    RuleSQLE00121 util.model
        { Ctx := sample.oracle, Rule := sample.rule121, Res := [],
          Node := .SelectStmt sample.selLimit } =
      { Res := [{ Level := .notice, RuleName := "SQLE00121", Message := "limit without order by" }],
        Err := none, Log := [] } :=
  ⟨rfl, (RuleSQLE00121_single_select util.model sample.oracle sample.rule121 [] sample.selLimit
    rfl).1 ⟨by simp [sample.selLimit], Or.inl rfl⟩⟩

/-- C2: on a SELECT, UNION, INSERT, UPDATE or DELETE statement `RuleSQLE00121`
returns nil and calls AddResult at most once. If some flattened SELECT has a
LIMIT and no ordering term, the result list is that of one AddResult call; if
none has, the result list is unchanged. The call is made at the first such
SELECT and what follows it is not examined: whatever SELECTs follow the first
offending one, the loop gives the same result list. -/
theorem RuleSQLE00121_at_most_once {Ctx : Type} (u : Util Ctx) (input : RuleHandlerInput Ctx)
    (hkind : input.Node.kind ≠ .other) :
    (RuleSQLE00121 u input).Err = none ∧
    ((∃ s ∈ u.GetSelectStmt input.Node, limitWithoutOrder s = true) →
      (RuleSQLE00121 u input).Res = u.AddResult input.Res input.Rule SQLE00121) ∧
    ((∀ s ∈ u.GetSelectStmt input.Node, limitWithoutOrder s = false) →
      (RuleSQLE00121 u input).Res = input.Res) ∧
    (∀ pre s post, u.GetSelectStmt input.Node = pre ++ s :: post →
      (∀ p ∈ pre, limitWithoutOrder p = false) → limitWithoutOrder s = true →
      ∀ others, RuleSQLE00121.scan u input (pre ++ s :: others) =
        (RuleSQLE00121 u input).Res) := by
  rw [RuleSQLE00121_eq_scan u input hkind]
  refine ⟨rfl, ?_, ?_, ?_⟩
  · intro h
    exact RuleSQLE00121.scan_some u input _ h
  · intro h
    exact RuleSQLE00121.scan_clean u input _ h
  · intro pre s post hsel hpre hs others
    simp only [hsel]
    rw [RuleSQLE00121.scan_first u input pre s others hpre hs,
      RuleSQLE00121.scan_first u input pre s post hpre hs]

/-- Witness of C2 on a UNION whose two branches both offend: one result. -/
theorem RuleSQLE00121_at_most_once_witness :
    (ast.Node.UnionStmt sample.unionLimit).kind ≠ .other ∧
    (RuleSQLE00121 util.model
        { Ctx := sample.oracle, Rule := sample.rule121, Res := [],
          Node := .UnionStmt sample.unionLimit }).Res =
      [{ Level := .notice, RuleName := "SQLE00121", Message := "limit without order by" }] :=
  ⟨by decide, (RuleSQLE00121_at_most_once util.model
    { Ctx := sample.oracle, Rule := sample.rule121, Res := [],
      Node := .UnionStmt sample.unionLimit } (by decide)).2.1
    ⟨sample.selLimit, by simp [util.model, util.GetSelectStmt, sample.unionLimit], rfl⟩⟩

/-! ## Theorems: rule SQLE00111 -/

/-- The check does not read the result list of its input. -/
theorem checkExprAndIndex_res {Ctx : Type} (u : Util Ctx) (stmt : ast.Node)
    (whereClause : Option ast.ExprNode) (input : RuleHandlerInput Ctx) (res : AuditResults) :
    checkExprAndIndex u stmt whereClause { input with Res := res } =
      checkExprAndIndex u stmt whereClause input := rfl

/-- A WHERE clause with an arithmetic expression is flagged before any lookup. -/
theorem checkExprAndIndex_math {Ctx : Type} (u : Util Ctx) (stmt : ast.Node)
    (w : ast.ExprNode) (input : RuleHandlerInput Ctx) (hmath : u.GetMathOpExpr w ≠ []) :
    checkExprAndIndex u stmt (some w) input = (true, []) := by
  have : 0 < (u.GetMathOpExpr w).length := List.length_pos.mpr hmath
  simp [checkExprAndIndex, this]

/-- A WHERE clause without arithmetic expression and without function call is not flagged. -/
theorem checkExprAndIndex_plain {Ctx : Type} (u : Util Ctx) (stmt : ast.Node)
    (w : ast.ExprNode) (input : RuleHandlerInput Ctx) (hmath : u.GetMathOpExpr w = [])
    (hfunc : u.GetFuncExpr w = []) :
    checkExprAndIndex u stmt (some w) input = (false, []) := by
  simp [checkExprAndIndex, hmath, hfunc]

/-- Without arithmetic expression and with a successful lookup, the flag says
whether some function expression text is missing from the index expressions. -/
theorem checkExprAndIndex_ok {Ctx : Type} (u : Util Ctx) (stmt : ast.Node)
    (w : ast.ExprNode) (input : RuleHandlerInput Ctx) (idx : List String)
    (hmath : u.GetMathOpExpr w = [])
    (hlookup : u.GetIndexExpressionsForTables input.Ctx (u.GetTableNames stmt) = .ok idx) :
    checkExprAndIndex u stmt (some w) input =
      ((u.GetFuncExpr w).any (fun e => !IsStrInSlice e idx), []) := by
  by_cases hfunc : u.GetFuncExpr w = []
  · simp [checkExprAndIndex, hmath, hfunc]
  · have hlen : (u.GetFuncExpr w).length ≠ 0 := fun h => hfunc (List.length_eq_zero.mp h)
    simp [checkExprAndIndex, hmath, hlen, hlookup]

/-- With a function call, no arithmetic expression and a failed lookup, the
check logs the failure and does not flag. -/
theorem checkExprAndIndex_error {Ctx : Type} (u : Util Ctx) (stmt : ast.Node)
    (w : ast.ExprNode) (input : RuleHandlerInput Ctx) (err : String)
    (hmath : u.GetMathOpExpr w = []) (hfunc : u.GetFuncExpr w ≠ [])
    (hlookup : u.GetIndexExpressionsForTables input.Ctx (u.GetTableNames stmt) = .error err) :
    checkExprAndIndex u stmt (some w) input =
      (false, [getTableIndexFailed input.Node.Text err]) := by
  have hlen : (u.GetFuncExpr w).length ≠ 0 := fun h => hfunc (List.length_eq_zero.mp h)
  simp [checkExprAndIndex, hmath, hlen, hlookup]

/-- The flag of `any` over the function expressions, as a statement about membership. -/
theorem any_not_IsStrInSlice (funcExpr idx : List String) :
    funcExpr.any (fun e => !IsStrInSlice e idx) = true ↔ ∃ e ∈ funcExpr, e ∉ idx := by
  simp [IsStrInSlice, List.any_eq_true]

/-- The result list after the loop of `RuleSQLE00111`: one AddResult call for
each flagged SELECT. -/
theorem RuleSQLE00111.scan_fst {Ctx : Type} (u : Util Ctx) (stmt : ast.Node)
    (input : RuleHandlerInput Ctx) (l : List ast.SelectStmt) (res : AuditResults)
    (log : List String) :
    (RuleSQLE00111.scan u stmt input l (res, log)).1 =
      (fun r => u.AddResult r input.Rule SQLE00111)^[
        l.countP (fun s => (checkExprAndIndex u stmt s.Where input).1)] res := by
  induction l generalizing res log with
  | nil => rfl
  | cons s rest ih =>
    simp only [RuleSQLE00111.scan, checkExprAndIndex_res]
    by_cases h : (checkExprAndIndex u stmt s.Where input).1 = true
    · rw [if_pos h, ih, List.countP_cons_of_pos
        (fun s => (checkExprAndIndex u stmt s.Where input).1) rest h,
        Function.iterate_succ_apply]
    · rw [if_neg h, ih, List.countP_cons_of_neg
        (fun s => (checkExprAndIndex u stmt s.Where input).1) rest h]

/-- On a single SELECT, an UPDATE or a DELETE, `RuleSQLE00111` is one check of
the WHERE clause of the statement. -/
theorem RuleSQLE00111_eq_single {Ctx : Type} (u : Util Ctx) (input : RuleHandlerInput Ctx)
    (whereClause : Option ast.ExprNode) (hsingle : singleStmtWhere u input.Node whereClause) :
    RuleSQLE00111 u input = RuleSQLE00111.single u input.Node whereClause input := by
  obtain ⟨ctx, rule, res, node⟩ := input
  rcases hsingle with ⟨s, hn, hflat, hw⟩ | ⟨s, hn, hw⟩ | ⟨s, hn, hw⟩
  · simp only at hn hflat
    subst hn
    subst hw
    simp only [RuleSQLE00111, hflat, RuleSQLE00111.scan, RuleSQLE00111.single, List.nil_append]
    split <;> rfl
  · simp only at hn
    subst hn
    subst hw
    rfl
  · simp only at hn
    subst hn
    subst hw
    rfl

/-- The handler `RuleSQLE00111` returns nil on every input. -/
theorem RuleSQLE00111_err {Ctx : Type} (u : Util Ctx) (input : RuleHandlerInput Ctx) :
    (RuleSQLE00111 u input).Err = none := by
  obtain ⟨ctx, rule, res, node⟩ := input
  cases node <;> simp only [RuleSQLE00111, RuleSQLE00111.single] <;> first | rfl | (split <;> rfl)

/-- The result list after `RuleSQLE00111`: AddResult applied once for each
flagged WHERE clause among those the rule looks at. -/
theorem RuleSQLE00111_res {Ctx : Type} (u : Util Ctx) (input : RuleHandlerInput Ctx) :
    (RuleSQLE00111 u input).Res =
      (fun r => u.AddResult r input.Rule SQLE00111)^[
        (examinedWheres u input.Node).countP
          (fun wc => (checkExprAndIndex u input.Node wc input).1)] input.Res := by
  obtain ⟨ctx, rule, res, node⟩ := input
  cases node with
  | SelectStmt s =>
    simp only [RuleSQLE00111, examinedWheres, RuleSQLE00111.scan_fst, List.countP_map]
    rfl
  | UnionStmt s =>
    simp only [RuleSQLE00111, examinedWheres, RuleSQLE00111.scan_fst, List.countP_map]
    rfl
  | UpdateStmt s =>
    simp only [RuleSQLE00111, RuleSQLE00111.single, examinedWheres]
    by_cases h : (checkExprAndIndex u (.UpdateStmt s) s.Where ⟨ctx, rule, res, .UpdateStmt s⟩).1 = true
    · simp [h]
    · simp [h]
  | DeleteStmt s =>
    simp only [RuleSQLE00111, RuleSQLE00111.single, examinedWheres]
    by_cases h : (checkExprAndIndex u (.DeleteStmt s) s.Where ⟨ctx, rule, res, .DeleteStmt s⟩).1 = true
    · simp [h]
    · simp [h]
  | InsertStmt s => rfl
  | Other k t => rfl

/-- C3: when a WHERE clause that `RuleSQLE00111` looks at (that of a flattened
SELECT of a SELECT or UNION, or the own one of an UPDATE or DELETE) contains an
arithmetic expression, the rule reports a violation: AddResult is called at
least once, for every Schema Oracle. On a single SELECT, an UPDATE or a DELETE
the outcome is exactly one AddResult call, nil and no log line, and it is the
same for every index lookup function, succeeding or failing. -/
theorem RuleSQLE00111_arithmetic_always {Ctx : Type} (u : Util Ctx)
    (input : RuleHandlerInput Ctx) (w : ast.ExprNode)
    (hw : some w ∈ examinedWheres u input.Node) (hmath : u.GetMathOpExpr w ≠ []) :
    (∃ k, 0 < k ∧ (RuleSQLE00111 u input).Res =
      (fun r => u.AddResult r input.Rule SQLE00111)^[k] input.Res) ∧
    (singleStmtWhere u input.Node (some w) →
      ∀ lookup : Ctx → List String → Except String (List String),
        RuleSQLE00111 { u with GetIndexExpressionsForTables := lookup } input =
          { Res := u.AddResult input.Res input.Rule SQLE00111, Err := none, Log := [] }) := by
  refine ⟨⟨_, ?_, RuleSQLE00111_res u input⟩, ?_⟩
  · rw [List.countP_pos_iff]
    exact ⟨some w, hw, by rw [checkExprAndIndex_math u _ w input hmath]⟩
  · intro hsingle lookup
    have hs : singleStmtWhere { u with GetIndexExpressionsForTables := lookup } input.Node
        (some w) := hsingle
    rw [RuleSQLE00111_eq_single _ input (some w) hs]
    have hm : ({ u with GetIndexExpressionsForTables := lookup } : Util Ctx).GetMathOpExpr w ≠ [] :=
      hmath
    simp only [RuleSQLE00111.single, checkExprAndIndex_math _ _ w input hm]
    rfl

/-- Witness of C3 on `UPDATE t SET b=0 WHERE a+1=2`, table `t` having an index on `a+1`. -/
theorem RuleSQLE00111_arithmetic_always_witness :
    some sample.whereMath ∈ examinedWheres util.model (.UpdateStmt sample.updMath) ∧
    util.model.GetMathOpExpr sample.whereMath ≠ [] ∧
    RuleSQLE00111 util.model
        { Ctx := sample.oracle, Rule := sample.rule111, Res := [],
          Node := .UpdateStmt sample.updMath } =
      { Res := [{ Level := .notice, RuleName := "SQLE00111",
                  Message := "function or arithmetic on a column" }],
        Err := none, Log := [] } :=
  have hw : some sample.whereMath ∈ examinedWheres util.model (.UpdateStmt sample.updMath) := by
    simp [examinedWheres, sample.updMath]
  have hmath : util.model.GetMathOpExpr sample.whereMath ≠ [] := by
    simp [util.model, util.GetMathOpExpr, sample.whereMath, util.isMathOp, util.isColumn]
  ⟨hw, hmath, (RuleSQLE00111_arithmetic_always util.model
    { Ctx := sample.oracle, Rule := sample.rule111, Res := [],
      Node := .UpdateStmt sample.updMath } sample.whereMath hw hmath).2
    (Or.inr (Or.inl ⟨sample.updMath, rfl, rfl⟩)) util.GetIndexExpressionsForTables⟩

/-- C4: on a single SELECT, an UPDATE or a DELETE whose WHERE clause contains no
arithmetic expression and whose index-expression lookup, when it is reached
(the WHERE clause has a function call), succeeds with the set `idx`,
`RuleSQLE00111` returns nil, and reports a violation (one AddResult call) if
some function-call expression text of the WHERE clause is not in `idx`, and
leaves the result list unchanged otherwise. In particular nothing is reported
when the WHERE clause is absent, when it has no function call, and when every
function expression is in `idx`. -/
theorem RuleSQLE00111_function_index_iff {Ctx : Type} (u : Util Ctx)
    (input : RuleHandlerInput Ctx) (whereClause : Option ast.ExprNode) (idx : List String)
    (hsingle : singleStmtWhere u input.Node whereClause)
    (hmath : ∀ w, whereClause = some w → u.GetMathOpExpr w = [])
    (hlookup : ∀ w, whereClause = some w → u.GetFuncExpr w ≠ [] →
      u.GetIndexExpressionsForTables input.Ctx (u.GetTableNames input.Node) = .ok idx) :
    (RuleSQLE00111 u input).Err = none ∧
    ((∃ w, whereClause = some w ∧ ∃ e ∈ u.GetFuncExpr w, e ∉ idx) →
      (RuleSQLE00111 u input).Res = u.AddResult input.Res input.Rule SQLE00111) ∧
    ((¬ ∃ w, whereClause = some w ∧ ∃ e ∈ u.GetFuncExpr w, e ∉ idx) →
      (RuleSQLE00111 u input).Res = input.Res) ∧
    (whereClause = none → (RuleSQLE00111 u input).Res = input.Res) ∧
    (∀ w, whereClause = some w → u.GetFuncExpr w = [] →
      (RuleSQLE00111 u input).Res = input.Res) ∧
    (∀ w, whereClause = some w → (∀ e ∈ u.GetFuncExpr w, e ∈ idx) →
      (RuleSQLE00111 u input).Res = input.Res) := by
  have hflag : (checkExprAndIndex u input.Node whereClause input).1 = true ↔
      ∃ w, whereClause = some w ∧ ∃ e ∈ u.GetFuncExpr w, e ∉ idx := by
    cases whereClause with
    | none => simp [checkExprAndIndex]
    | some w =>
      by_cases hfunc : u.GetFuncExpr w = []
      · simp [checkExprAndIndex_plain u _ w input (hmath w rfl) hfunc, hfunc]
      · rw [checkExprAndIndex_ok u _ w input idx (hmath w rfl) (hlookup w rfl hfunc)]
        simp only [any_not_IsStrInSlice]
        constructor
        · intro h
          exact ⟨w, rfl, h⟩
        · rintro ⟨w2, hw2, h⟩
          cases hw2
          exact h
  have hyes : (∃ w, whereClause = some w ∧ ∃ e ∈ u.GetFuncExpr w, e ∉ idx) →
      (RuleSQLE00111 u input).Res = u.AddResult input.Res input.Rule SQLE00111 := by
    intro h
    rw [RuleSQLE00111_eq_single u input whereClause hsingle]
    simp only [RuleSQLE00111.single, hflag.mpr h, if_true]
  have hno : (¬ ∃ w, whereClause = some w ∧ ∃ e ∈ u.GetFuncExpr w, e ∉ idx) →
      (RuleSQLE00111 u input).Res = input.Res := by
    intro h
    rw [RuleSQLE00111_eq_single u input whereClause hsingle]
    have hf : ¬ (checkExprAndIndex u input.Node whereClause input).1 = true :=
      fun hc => h (hflag.mp hc)
    simp only [RuleSQLE00111.single, hf, if_false]
    simp
  refine ⟨RuleSQLE00111_err u input, hyes, hno, ?_, ?_, ?_⟩
  · intro hnone
    apply hno
    rintro ⟨w, hw, _⟩
    rw [hnone] at hw
    cases hw
  · intro w hw hfunc
    apply hno
    rintro ⟨w2, hw2, e, he, _⟩
    rw [hw] at hw2
    cases hw2
    rw [hfunc] at he
    cases he
  · intro w hw hall
    apply hno
    rintro ⟨w2, hw2, e, he, hne⟩
    rw [hw] at hw2
    cases hw2
    exact hne (hall e he)

/-- Witness of C4 on `SELECT * FROM t WHERE UPPER(name)='X'`: nothing is
reported when `t` has the functional index on `UPPER(name)`. -/
theorem RuleSQLE00111_function_index_iff_witness :
    singleStmtWhere util.model (.SelectStmt sample.selUpper) (some sample.whereUpper) ∧
    util.model.GetMathOpExpr sample.whereUpper = [] ∧
    util.model.GetIndexExpressionsForTables sample.oracle
      (util.model.GetTableNames (.SelectStmt sample.selUpper)) = .ok ["UPPER(name)", "a+1"] ∧
    (RuleSQLE00111 util.model
        { Ctx := sample.oracle, Rule := sample.rule111, Res := [],
          Node := .SelectStmt sample.selUpper }).Res = [] :=
  have hsingle : singleStmtWhere util.model (.SelectStmt sample.selUpper)
      (some sample.whereUpper) := Or.inl ⟨sample.selUpper, rfl, rfl, rfl⟩
  have hm : util.model.GetMathOpExpr sample.whereUpper = [] := rfl
  have hl : util.model.GetIndexExpressionsForTables sample.oracle
      (util.model.GetTableNames (.SelectStmt sample.selUpper)) = .ok ["UPPER(name)", "a+1"] := rfl
  ⟨hsingle, hm, hl, (RuleSQLE00111_function_index_iff util.model
    { Ctx := sample.oracle, Rule := sample.rule111, Res := [],
      Node := .SelectStmt sample.selUpper } (some sample.whereUpper) ["UPPER(name)", "a+1"]
    hsingle (fun w hw => by cases hw; exact hm) (fun w _ _ => hl)).2.2.2.2.2
    sample.whereUpper rfl (by decide)⟩

/-- The same SELECT on the table without that index: one violation. -/
theorem RuleSQLE00111_function_without_index :
    (RuleSQLE00111 util.model
        { Ctx := sample.oracle, Rule := sample.rule111, Res := [],
          Node := .SelectStmt sample.selUpperPlain }).Res =
      [{ Level := .notice, RuleName := "SQLE00111",
         Message := "function or arithmetic on a column" }] := by
  decide

/-- What `checkExprAndIndex` does on a single SELECT, an UPDATE or a DELETE:
function calls are checked against the function indexes and are reported only
if one of them has none (every function expression in the index-expression set,
no arithmetic expression and a successful lookup: no violation); a mathematical
operation is reported without any index check, whatever the indexes are. -/
theorem RuleSQLE00111_function_checked_arithmetic_not {Ctx : Type} (u : Util Ctx)
    (input : RuleHandlerInput Ctx) (w : ast.ExprNode)
    (hsingle : singleStmtWhere u input.Node (some w)) :
    (∀ idx, u.GetMathOpExpr w = [] →
      u.GetIndexExpressionsForTables input.Ctx (u.GetTableNames input.Node) = .ok idx →
      (∀ e ∈ u.GetFuncExpr w, e ∈ idx) →
      RuleSQLE00111 u input = { Res := input.Res, Err := none, Log := [] }) ∧
    (∀ idx, u.GetMathOpExpr w = [] →
      u.GetIndexExpressionsForTables input.Ctx (u.GetTableNames input.Node) = .ok idx →
      (∃ e ∈ u.GetFuncExpr w, e ∉ idx) →
      RuleSQLE00111 u input =
        { Res := u.AddResult input.Res input.Rule SQLE00111, Err := none, Log := [] }) ∧
    (u.GetMathOpExpr w ≠ [] →
      RuleSQLE00111 u input =
        { Res := u.AddResult input.Res input.Rule SQLE00111, Err := none, Log := [] }) := by
  rw [RuleSQLE00111_eq_single u input (some w) hsingle]
  refine ⟨?_, ?_, ?_⟩
  · intro idx hmath hlookup hall
    have hf : (u.GetFuncExpr w).any (fun e => !IsStrInSlice e idx) = false := by
      rw [Bool.eq_false_iff, Ne, any_not_IsStrInSlice]
      rintro ⟨e, he, hne⟩
      exact hne (hall e he)
    simp [RuleSQLE00111.single, checkExprAndIndex_ok u _ w input idx hmath hlookup, hf]
  · intro idx hmath hlookup hex
    have hf : (u.GetFuncExpr w).any (fun e => !IsStrInSlice e idx) = true :=
      (any_not_IsStrInSlice _ _).mpr hex
    simp [RuleSQLE00111.single, checkExprAndIndex_ok u _ w input idx hmath hlookup, hf]
  · intro hmath
    simp [RuleSQLE00111.single, checkExprAndIndex_math u _ w input hmath]

/-- The function call of `SELECT * FROM t WHERE UPPER(name)='X'` is checked
against the indexes and, being indexed, not reported. -/
theorem RuleSQLE00111_function_checked_arithmetic_not_witness :
    singleStmtWhere util.model (.SelectStmt sample.selUpper) (some sample.whereUpper) ∧
    RuleSQLE00111 util.model
        { Ctx := sample.oracle, Rule := sample.rule111, Res := [],
          Node := .SelectStmt sample.selUpper } =
      { Res := [], Err := none, Log := [] } :=
  ⟨Or.inl ⟨sample.selUpper, rfl, rfl, rfl⟩,
    (RuleSQLE00111_function_checked_arithmetic_not util.model
      { Ctx := sample.oracle, Rule := sample.rule111, Res := [],
        Node := .SelectStmt sample.selUpper } sample.whereUpper
      (Or.inl ⟨sample.selUpper, rfl, rfl, rfl⟩)).1 ["UPPER(name)", "a+1"]
      rfl rfl (by decide)⟩

/-- C5, the code at the failing input: in `UPDATE t SET b=0 WHERE a+1=2` the
only expression applied to a field is the mathematical operation `a+1`, table
`t` has an index on exactly that expression and the lookup succeeds, and the
rule reports a violation all the same, without having looked the index up. -/
theorem RuleSQLE00111_indexed_arithmetic_reported :
    (util.GetMathOpExpr sample.whereMath).map util.restore = ["a+1"] ∧
    util.GetFuncExpr sample.whereMath = [] ∧
    util.GetIndexExpressionsForTables sample.oracle
      (util.GetTableNames (.UpdateStmt sample.updMath)) = .ok ["UPPER(name)", "a+1"] ∧
    (∀ e ∈ (util.GetMathOpExpr sample.whereMath).map util.restore ++
        util.GetFuncExpr sample.whereMath, e ∈ ["UPPER(name)", "a+1"]) ∧
    RuleSQLE00111 util.model
        { Ctx := sample.oracle, Rule := sample.rule111, Res := [],
          Node := .UpdateStmt sample.updMath } =
      { Res := [{ Level := .notice, RuleName := "SQLE00111",
                  Message := "function or arithmetic on a column" }],
        Err := none, Log := [] } := by
  refine ⟨by decide, by decide, rfl, by decide, by decide⟩

/-! ## Theorems: one result per rule -/

/-- After `AddResult` the list holds one result of the rule if it held none,
and as many as before otherwise. -/
theorem resultCount_AddResult (res : AuditResults) (rule : Rule) (ruleName : String) :
    resultCount ruleName (AddResult res rule ruleName) =
      if resultCount ruleName res = 0 then 1 else resultCount ruleName res := by
  unfold AddResult resultCount
  by_cases h : res.any (fun r => r.RuleName == ruleName) = true
  · have hpos : 0 < res.countP (fun r => r.RuleName == ruleName) := by
      rw [List.countP_pos_iff]
      simpa [List.any_eq_true] using h
    rw [if_pos h, if_neg (Nat.pos_iff_ne_zero.mp hpos), List.countP_map]
    congr 1
    funext r
    by_cases hr : r.RuleName = ruleName
    · simp [hr]
    · simp [hr]
  · have hzero : res.countP (fun r => r.RuleName == ruleName) = 0 := by
      rw [List.countP_eq_zero]
      intro r hr hn
      exact h (List.any_eq_true.mpr ⟨r, hr, hn⟩)
    rw [if_neg h, if_pos hzero, List.countP_append, hzero]
    simp

/-- Repeated `AddResult` calls for one rule never leave more than one result of
that rule, and leave exactly one as soon as one call is made. -/
theorem resultCount_iterate_AddResult (rule : Rule) (ruleName : String) (k : Nat)
    (res : AuditResults) (hres : resultCount ruleName res ≤ 1) :
    resultCount ruleName ((fun r => AddResult r rule ruleName)^[k] res) ≤ 1 ∧
    (0 < k → resultCount ruleName ((fun r => AddResult r rule ruleName)^[k] res) = 1) := by
  induction k with
  | zero => exact ⟨hres, fun h => absurd h (Nat.lt_irrefl 0)⟩
  | succ k ih =>
    rw [Function.iterate_succ_apply', resultCount_AddResult]
    have h1 := ih.1
    by_cases hz : resultCount ruleName ((fun r => AddResult r rule ruleName)^[k] res) = 0
    · simp [hz]
    · have : resultCount ruleName ((fun r => AddResult r rule ruleName)^[k] res) = 1 := by omega
      simp [this]

/-- C6: with results recorded by `AddResult` as the rule engine is described
(one result per rule and statement), and a result list that holds at most one
SQLE00111 result before the rule runs, the list holds at most one SQLE00111
result after `RuleSQLE00111` has run on any statement, and exactly one as soon
as one WHERE clause is flagged; in particular a UNION with two or more flagged
SELECT branches ends with exactly one SQLE00111 result. -/
theorem RuleSQLE00111_one_result {Ctx : Type} (u : Util Ctx) (input : RuleHandlerInput Ctx)
    (hadd : u.AddResult = AddResult) (hres : resultCount SQLE00111 input.Res ≤ 1) :
    resultCount SQLE00111 (RuleSQLE00111 u input).Res ≤ 1 ∧
    (0 < (examinedWheres u input.Node).countP
        (fun wc => (checkExprAndIndex u input.Node wc input).1) →
      resultCount SQLE00111 (RuleSQLE00111 u input).Res = 1) ∧
    (∀ s, input.Node = .UnionStmt s →
      2 ≤ (u.GetSelectStmt input.Node).countP
        (fun b => (checkExprAndIndex u input.Node b.Where input).1) →
      resultCount SQLE00111 (RuleSQLE00111 u input).Res = 1) := by
  have key := resultCount_iterate_AddResult input.Rule SQLE00111
    ((examinedWheres u input.Node).countP (fun wc => (checkExprAndIndex u input.Node wc input).1))
    input.Res hres
  rw [RuleSQLE00111_res u input, hadd]
  refine ⟨key.1, key.2, ?_⟩
  intro s hs h2
  apply key.2
  have : (examinedWheres u input.Node).countP
      (fun wc => (checkExprAndIndex u input.Node wc input).1) =
      (u.GetSelectStmt input.Node).countP
        (fun b => (checkExprAndIndex u input.Node b.Where input).1) := by
    rw [hs]
    simp only [examinedWheres, List.countP_map]
    rfl
  omega

/-- Witness of C6 on a UNION whose two branches are both flagged. -/
theorem RuleSQLE00111_one_result_witness :
    util.model.AddResult = AddResult ∧
    resultCount SQLE00111 ([] : AuditResults) ≤ 1 ∧
    2 ≤ (util.model.GetSelectStmt (.UnionStmt sample.unionMath)).countP
      (fun b => (checkExprAndIndex util.model (.UnionStmt sample.unionMath) b.Where
        { Ctx := sample.oracle, Rule := sample.rule111, Res := [],
          Node := .UnionStmt sample.unionMath }).1) ∧
    resultCount SQLE00111 (RuleSQLE00111 util.model
        { Ctx := sample.oracle, Rule := sample.rule111, Res := [],
          Node := .UnionStmt sample.unionMath }).Res = 1 :=
  ⟨rfl, by decide, by decide, (RuleSQLE00111_one_result util.model
    { Ctx := sample.oracle, Rule := sample.rule111, Res := [],
      Node := .UnionStmt sample.unionMath } rfl (by decide)).2.2 sample.unionMath rfl
    (by decide)⟩

/-! ## Theorems: failure of the lookup, and other statement kinds -/

/-- C7: on a single SELECT, an UPDATE or a DELETE for which the index-expression
lookup through the Schema Oracle fails, `RuleSQLE00111` returns nil and leaves
the result list unchanged; the lookup is made, and its failure logged, when the
WHERE clause has a function call and no arithmetic expression (with an
arithmetic expression the rule reports before any lookup). `RuleSQLE00111`
returns nil on every input. -/
theorem RuleSQLE00111_lookup_failure {Ctx : Type} (u : Util Ctx)
    (input : RuleHandlerInput Ctx) (whereClause : Option ast.ExprNode) (err : String)
    (hsingle : singleStmtWhere u input.Node whereClause)
    (hmath : ∀ w, whereClause = some w → u.GetMathOpExpr w = [])
    (hfail : u.GetIndexExpressionsForTables input.Ctx (u.GetTableNames input.Node) =
      .error err) :
    (RuleSQLE00111 u input).Res = input.Res ∧
    (RuleSQLE00111 u input).Err = none ∧
    (∀ w, whereClause = some w → u.GetFuncExpr w ≠ [] →
      RuleSQLE00111 u input =
        { Res := input.Res, Err := none, Log := [getTableIndexFailed input.Node.Text err] }) ∧
    (∀ other : RuleHandlerInput Ctx, (RuleSQLE00111 u other).Err = none) := by
  have hreached : ∀ w, whereClause = some w → u.GetFuncExpr w ≠ [] →
      RuleSQLE00111 u input =
        { Res := input.Res, Err := none, Log := [getTableIndexFailed input.Node.Text err] } := by
    intro w hw hfunc
    subst hw
    rw [RuleSQLE00111_eq_single u input (some w) hsingle]
    simp [RuleSQLE00111.single,
      checkExprAndIndex_error u _ w input err (hmath w rfl) hfunc hfail]
  refine ⟨?_, RuleSQLE00111_err u input, hreached, fun other => RuleSQLE00111_err u other⟩
  cases whereClause with
  | none =>
    rw [RuleSQLE00111_eq_single u input none hsingle]
    simp [RuleSQLE00111.single, checkExprAndIndex]
  | some w =>
    by_cases hfunc : u.GetFuncExpr w = []
    · rw [RuleSQLE00111_eq_single u input (some w) hsingle]
      simp [RuleSQLE00111.single, checkExprAndIndex_plain u _ w input (hmath w rfl) hfunc]
    · rw [hreached w rfl hfunc]

/-- Witness of C7 on `SELECT * FROM missing WHERE UPPER(name)='X'`, a table the
oracle does not know. -/
theorem RuleSQLE00111_lookup_failure_witness :
    singleStmtWhere util.model (.SelectStmt sample.selUpperMissing) (some sample.whereUpper) ∧
    util.model.GetIndexExpressionsForTables sample.oracle
      (util.model.GetTableNames (.SelectStmt sample.selUpperMissing)) =
        .error "table not found: missing" ∧
    RuleSQLE00111 util.model
        { Ctx := sample.oracle, Rule := sample.rule111, Res := [],
          Node := .SelectStmt sample.selUpperMissing } =
      { Res := [], Err := none,
        Log := [getTableIndexFailed "SELECT * FROM missing WHERE UPPER(name)='X'"
          "table not found: missing"] } :=
  ⟨Or.inl ⟨sample.selUpperMissing, rfl, rfl, rfl⟩, rfl,
    (RuleSQLE00111_lookup_failure util.model
      { Ctx := sample.oracle, Rule := sample.rule111, Res := [],
        Node := .SelectStmt sample.selUpperMissing } (some sample.whereUpper)
      "table not found: missing" (Or.inl ⟨sample.selUpperMissing, rfl, rfl, rfl⟩)
      (fun w hw => by cases hw; rfl) rfl).2.2.1 sample.whereUpper rfl (by decide)⟩

/-- C8: each rule is a no-op on the statement kinds it does not inspect. On a
statement that is not a SELECT, UNION, UPDATE or DELETE `RuleSQLE00111` leaves
the result list unchanged and returns nil; on a statement that is not a SELECT,
UNION, INSERT, UPDATE or DELETE `RuleSQLE00121` does. -/
theorem rules_noop_on_other_kinds {Ctx : Type} (u : Util Ctx) (input : RuleHandlerInput Ctx) :
    ((input.Node.kind ≠ .select ∧ input.Node.kind ≠ .union ∧ input.Node.kind ≠ .update ∧
        input.Node.kind ≠ .delete) →
      RuleSQLE00111 u input = { Res := input.Res, Err := none, Log := [] }) ∧
    ((input.Node.kind ≠ .select ∧ input.Node.kind ≠ .union ∧ input.Node.kind ≠ .insert ∧
        input.Node.kind ≠ .update ∧ input.Node.kind ≠ .delete) →
      RuleSQLE00121 u input = { Res := input.Res, Err := none, Log := [] }) := by
  obtain ⟨ctx, rule, res, node⟩ := input
  constructor
  · rintro ⟨h1, h2, h3, h4⟩
    cases node <;> first | rfl | (exfalso; simp [ast.Node.kind] at h1 h2 h3 h4)
  · rintro ⟨h1, h2, h3, h4, h5⟩
    cases node <;> first | rfl | (exfalso; simp [ast.Node.kind] at h1 h2 h3 h4 h5)

/-- Witness of C8 on a CREATE TABLE statement, with a result of another rule in the list. -/
theorem rules_noop_on_other_kinds_witness :
    RuleSQLE00111 util.model
        { Ctx := sample.oracle, Rule := sample.rule111,
          Res := [{ Level := .warn, RuleName := "SQLE00001", Message := "other" }],
          Node := .Other "CreateTableStmt" "CREATE TABLE t (id INT)" } =
      { Res := [{ Level := .warn, RuleName := "SQLE00001", Message := "other" }],
        Err := none, Log := [] } :=
  (rules_noop_on_other_kinds util.model
    { Ctx := sample.oracle, Rule := sample.rule111,
      Res := [{ Level := .warn, RuleName := "SQLE00001", Message := "other" }],
      Node := .Other "CreateTableStmt" "CREATE TABLE t (id INT)" }).1
    ⟨by decide, by decide, by decide, by decide⟩

/-! ## Theorems: the merge key -/

/-- The escape of a control or HTML character is read back as that character. -/
theorem json.readHex_small (n : Nat) (h : n < 64) :
    Char.ofNat (4096 * json.unhex '0' + 256 * json.unhex '0' +
      16 * json.unhex (json.hex (n / 16)) + json.unhex (json.hex (n % 16))) = Char.ofNat n := by
  interval_cases n <;> rfl

/-- Reading one character back from an encoded text gives the character that
was encoded and the rest of the text. -/
theorem json.readRune_escapeRune (c : Char) (rest : List Char) :
    json.readRune (json.escapeRune c ++ rest) = some (c, rest) := by
  unfold json.escapeRune
  split_ifs with h1 h2 h3 h4 h5 h6 h7 h8
  · rcases h1 with h | h <;> subst h <;> simp +decide [json.readRune]
  · subst h2; simp +decide [json.readRune]
  · subst h3; simp +decide [json.readRune]
  · subst h4; simp +decide [json.readRune]
  · subst h5; simp +decide [json.readRune]
  · subst h6; simp +decide [json.readRune]
  · have hn : c.toNat < 64 := by
      rcases h7 with h | h | h | h
      · omega
      · subst h; decide
      · subst h; decide
      · subst h; decide
    have := json.readHex_small c.toNat hn
    simp +decide [json.readRune, this, Char.ofNat_toNat]
  · rcases h8 with h | h <;> subst h <;> simp +decide [json.readRune]
  · have : c ≠ json.backslash := fun h => h1 (Or.inr h)
    simp [json.readRune, this]

/-- Every character has a non-empty encoding. -/
theorem json.escapeRune_ne_nil (c : Char) : json.escapeRune c ≠ [] := by
  intro h
  have := json.readRune_escapeRune c []
  rw [h] at this
  simp [json.readRune] at this

/-- The encoding of strings is one-to-one. -/
theorem json.escape_inj (s t : List Char) (h : json.escape s = json.escape t) : s = t := by
  induction s generalizing t with
  | nil =>
    cases t with
    | nil => rfl
    | cons d t =>
      exfalso
      simp only [json.escape, List.flatMap_nil, List.flatMap_cons] at h
      exact json.escapeRune_ne_nil d (List.append_eq_nil.mp h.symm).1
  | cons c s ih =>
    cases t with
    | nil =>
      exfalso
      simp only [json.escape, List.flatMap_nil, List.flatMap_cons] at h
      exact json.escapeRune_ne_nil c (List.append_eq_nil.mp h).1
    | cons d t =>
      simp only [json.escape, List.flatMap_cons] at h
      have h1 := json.readRune_escapeRune c (s.flatMap json.escapeRune)
      have h2 := json.readRune_escapeRune d (t.flatMap json.escapeRune)
      rw [h, h2] at h1
      simp only [Option.some.injEq, Prod.mk.injEq] at h1
      obtain ⟨hd, hrest⟩ := h1
      subst hd
      rw [ih t hrest.symm]

/-- Two records with the same fingerprint and different schemas have different
identity documents. -/
theorem sqlIdentityJSON_ne_of_schema_ne (a b : AuditPlanSQLV2)
    (hf : a.Fingerprint = b.Fingerprint) (hs : a.Schema ≠ b.Schema) :
    a.sqlIdentityJSON ≠ b.sqlIdentityJSON := by
  intro h
  apply hs
  unfold AuditPlanSQLV2.sqlIdentityJSON at h
  rw [hf] at h
  have h1 := congrArg String.data h
  simp only at h1
  have h2 := List.append_cancel_right h1
  have h3 := List.append_cancel_left h2
  have h4 := json.escape_inj _ _ h3
  exact String.ext h4

/-- C9, as the code has it: for two records whose `FingerprintMD5` field is not
set, with the same fingerprint and different schema values, the identity
documents given to `Md5String` are different, and the merge keys of the two
records in a batch of one plan are equal exactly when `Md5String` gives the two
different documents the same digest. -/
theorem GetFingerprintMD5_schema_in_key (Md5String : String → String) (auditPlanId : Nat)
    (a b : AuditPlanSQLV2) (ha : a.FingerprintMD5 = "") (hb : b.FingerprintMD5 = "")
    (hf : a.Fingerprint = b.Fingerprint) (hs : a.Schema ≠ b.Schema) :
    a.sqlIdentityJSON ≠ b.sqlIdentityJSON ∧
    (mergeKey Md5String auditPlanId a = mergeKey Md5String auditPlanId b ↔
      Md5String a.sqlIdentityJSON = Md5String b.sqlIdentityJSON) := by
  refine ⟨sqlIdentityJSON_ne_of_schema_ne a b hf hs, ?_⟩
  simp [mergeKey, AuditPlanSQLV2.GetFingerprintMD5, ha, hb]

/-- Witness of the amended C9 on two fresh records of schemas `db1` and `db2`. -/
theorem GetFingerprintMD5_schema_in_key_witness :
    sample.freshDb1.FingerprintMD5 = "" ∧ sample.freshDb2.FingerprintMD5 = "" ∧
    sample.freshDb1.Fingerprint = sample.freshDb2.Fingerprint ∧
    sample.freshDb1.Schema ≠ sample.freshDb2.Schema ∧
    sample.freshDb1.sqlIdentityJSON ≠ sample.freshDb2.sqlIdentityJSON :=
  ⟨rfl, rfl, rfl, by decide,
    (GetFingerprintMD5_schema_in_key (fun s => s) 1 sample.freshDb1 sample.freshDb2 rfl rfl rfl
      (by decide)).1⟩

/-- Counterexample to C9 as stated: two records of one plan with the same
fingerprint and the schemas `db1` and `db2`, whose `FingerprintMD5` field is
already set to the same value, have the same merge key, whatever `Md5String` is. -/
theorem GetFingerprintMD5_preset_same_key :
    sample.presetDb1.AuditPlanID = sample.presetDb2.AuditPlanID ∧
    sample.presetDb1.Fingerprint = sample.presetDb2.Fingerprint ∧
    sample.presetDb1.Schema ≠ sample.presetDb2.Schema ∧
    ∀ Md5String : String → String,
      mergeKey Md5String 1 sample.presetDb1 = mergeKey Md5String 1 sample.presetDb2 :=
  ⟨rfl, rfl, by decide, fun _ => rfl⟩

/-! ## Theorems: the rounding of the casts to DECIMAL -/

/-- Rounding to the nearest integer moves a number by at most one half. -/
theorem mysql.roundHalfAway_error (q : ℚ) : |(mysql.roundHalfAway q : ℚ) - q| ≤ 1 / 2 := by
  unfold mysql.roundHalfAway
  split
  · have h1 := Int.floor_le (q + 1 / 2)
    have h2 := Int.lt_floor_add_one (q + 1 / 2)
    rw [abs_le]
    constructor <;> linarith
  · have h1 := Int.floor_le (-q + 1 / 2)
    have h2 := Int.lt_floor_add_one (-q + 1 / 2)
    push_cast
    rw [abs_le]
    constructor <;> linarith

/-- Rounding to `D` decimal places moves a number by at most half a unit of the
last place. -/
theorem mysql.roundDecimal_error (D : ℕ) (q : ℚ) :
    |mysql.roundDecimal D q - q| ≤ 1 / (2 * 10 ^ D) := by
  have hpos : (0 : ℚ) < 10 ^ D := by positivity
  have h := mysql.roundHalfAway_error (q * 10 ^ D)
  have e : mysql.roundDecimal D q - q =
      ((mysql.roundHalfAway (q * 10 ^ D) : ℚ) - q * 10 ^ D) / 10 ^ D := by
    unfold mysql.roundDecimal
    field_simp
    ring
  rw [e, abs_div, abs_of_pos hpos, div_le_iff₀ hpos]
  calc |(mysql.roundHalfAway (q * 10 ^ D) : ℚ) - q * 10 ^ D| ≤ 1 / 2 := h
    _ = 1 / (2 * 10 ^ D) * 10 ^ D := by field_simp

/-- A value within the range of `DECIMAL(M,D)` after rounding is cast to its rounding. -/
theorem mysql.castDecimal_in_range (M D : ℕ) (q : ℚ)
    (h : |mysql.roundDecimal D q| ≤ mysql.maxDecimal M D) :
    mysql.castDecimal M D (some q) = some (mysql.roundDecimal D q) := by
  have h1 := (abs_le.mp h).1
  have h2 := (abs_le.mp h).2
  simp [mysql.castDecimal, not_lt.mpr h2, not_lt.mpr h1]

/-! ## Theorems: the casts -/

/-- An integer is rounded to itself. -/
theorem mysql.roundHalfAway_int (n : ℤ) : mysql.roundHalfAway (n : ℚ) = n := by
  unfold mysql.roundHalfAway
  split
  · rw [Int.floor_eq_iff]
    constructor <;> linarith
  · have h : ⌊-(n : ℚ) + 1 / 2⌋ = -n := by
      rw [Int.floor_eq_iff]
      push_cast
      constructor <;> linarith
    rw [h, neg_neg]

/-- A value of type `DECIMAL(M,D)` is cast to itself. -/
theorem mysql.castDecimal_isDecimal (M D : ℕ) (q : ℚ) (h : isDecimal M D q) :
    mysql.castDecimal M D (some q) = some q := by
  have hr : |mysql.roundDecimal D q| ≤ mysql.maxDecimal M D := by rw [h.1]; exact h.2
  rw [mysql.castDecimal_in_range M D q hr, h.1]

/-- The number that `COALESCE(JSON_EXTRACT(info, '$.key'), 0)` gives. -/
theorem mysql.COALESCE_num_zero (field : JSONField ℚ) :
    mysql.COALESCE (mysql.num field) (some 0) = some field.orZero := by
  cases field <;> rfl

/-! ## Theorems: the maximum, the fill-once keys and the endpoints -/

/-- C17, as the code has it: the merged `query_time_max` is the larger of the
stored and the incoming value after each was cast to `DECIMAL(12,6)`, a missing
value counting as 0. When both values are `DECIMAL(12,6)` values (at most six
decimals, at most 999999.999999 in absolute value), it is their pairwise
maximum and therefore not lower than the stored value. -/
theorem UpdateSlowLogAuditPlanSQLs_query_time_max (info values : Info)
    (hs : isDecimal 12 6 info.query_time_max.orZero)
    (hi : isDecimal 12 6 values.query_time_max.orZero) :
    (UpdateSlowLogAuditPlanSQLs.info info values).query_time_max =
      .value (max info.query_time_max.orZero values.query_time_max.orZero) ∧
    info.query_time_max.orZero ≤
      max info.query_time_max.orZero values.query_time_max.orZero ∧
    values.query_time_max.orZero ≤
      max info.query_time_max.orZero values.query_time_max.orZero := by
  refine ⟨?_, le_max_left _ _, le_max_right _ _⟩
  simp only [UpdateSlowLogAuditPlanSQLs.info, UpdateSlowLogAuditPlanSQLs.query_time_max,
    mysql.COALESCE_num_zero, mysql.castDecimal_isDecimal 12 6 _ hs,
    mysql.castDecimal_isDecimal 12 6 _ hi, mysql.GREATEST, mysql.JSON_SET]

/-- Witness of the amended C17: stored maximum 10, incoming maximum 20. -/
theorem UpdateSlowLogAuditPlanSQLs_query_time_max_witness :
    isDecimal 12 6 ({ query_time_max := .value 10 } : Info).query_time_max.orZero ∧
    isDecimal 12 6 ({ query_time_max := .value 20 } : Info).query_time_max.orZero ∧
    (UpdateSlowLogAuditPlanSQLs.info { query_time_max := .value 10 }
        { query_time_max := .value 20 }).query_time_max =
      .value (max ({ query_time_max := .value 10 } : Info).query_time_max.orZero
        ({ query_time_max := .value 20 } : Info).query_time_max.orZero) :=
  have h10 : isDecimal 12 6 ({ query_time_max := .value 10 } : Info).query_time_max.orZero := by
    norm_num [isDecimal, JSONField.orZero, mysql.num, mysql.COALESCE, mysql.roundDecimal,
      mysql.maxDecimal, mysql.roundHalfAway, Int.floor_eq_iff, abs_le]
  have h20 : isDecimal 12 6 ({ query_time_max := .value 20 } : Info).query_time_max.orZero := by
    norm_num [isDecimal, JSONField.orZero, mysql.num, mysql.COALESCE, mysql.roundDecimal,
      mysql.maxDecimal, mysql.roundHalfAway, Int.floor_eq_iff, abs_le]
  ⟨h10, h20, (UpdateSlowLogAuditPlanSQLs_query_time_max { query_time_max := .value 10 }
    { query_time_max := .value 20 } h10 h20).1⟩

/-- Counterexample to C17 as stated: the stored `query_time_max` is 0.0000004,
the incoming one is 0; the merged value is 0, lower than the stored value and
not the maximum of the two. -/
theorem UpdateSlowLogAuditPlanSQLs_query_time_max_lowered :
    sample.tinyMax.query_time_max = .value (4 / 10000000) ∧
    sample.zeroMax.query_time_max = .value 0 ∧
    (UpdateSlowLogAuditPlanSQLs.info sample.tinyMax sample.zeroMax).query_time_max =
      .value 0 ∧
    (0 : ℚ) < 4 / 10000000 := by
  refine ⟨rfl, rfl, ?_, by norm_num⟩
  norm_num [UpdateSlowLogAuditPlanSQLs.info, UpdateSlowLogAuditPlanSQLs.query_time_max,
    sample.tinyMax, sample.zeroMax, mysql.num, mysql.COALESCE, mysql.GREATEST,
    mysql.castDecimal, mysql.roundDecimal, mysql.maxDecimal, mysql.roundHalfAway,
    mysql.JSON_SET, Int.floor_eq_iff]

/-- C18, the code at the failing input: the stored record has no
`first_query_at` and no `db_user`, the incoming record has both; the merged
values are the JSON literal `null`, not the incoming values. -/
theorem UpdateSlowLogAuditPlanSQLs_absent_not_filled :
    sample.legacyStored.first_query_at = .absent ∧
    sample.legacyStored.db_user = .absent ∧
    sample.datedIncoming.first_query_at = .value "2024-01-01T00:00:00Z" ∧
    sample.datedIncoming.db_user = .value "root" ∧
    (UpdateSlowLogAuditPlanSQLs.info sample.legacyStored sample.datedIncoming).first_query_at =
      .null ∧
    (UpdateSlowLogAuditPlanSQLs.info sample.legacyStored sample.datedIncoming).db_user =
      .null :=
  ⟨rfl, rfl, rfl, rfl, rfl, rfl⟩

/-- What `UpdateSlowLogAuditPlanSQLs` does with `first_query_at` and `db_user`:
a stored JSON literal `null` is replaced by the incoming value, a stored value
is kept, and a key that the stored document does not have becomes `null`. -/
theorem UpdateSlowLogAuditPlanSQLs_fill_once (info values : Info) :
    (info.first_query_at = .null →
      (UpdateSlowLogAuditPlanSQLs.info info values).first_query_at =
        mysql.JSON_SET_json (mysql.json values.first_query_at)) ∧
    (∀ time : String, info.first_query_at = .value time →
      (UpdateSlowLogAuditPlanSQLs.info info values).first_query_at = .value time) ∧
    (info.first_query_at = .absent →
      (UpdateSlowLogAuditPlanSQLs.info info values).first_query_at = .null) ∧
    (info.db_user = .null →
      (UpdateSlowLogAuditPlanSQLs.info info values).db_user =
        mysql.JSON_SET_json (mysql.json values.db_user)) ∧
    (∀ user : String, info.db_user = .value user →
      (UpdateSlowLogAuditPlanSQLs.info info values).db_user = .value user) ∧
    (info.db_user = .absent →
      (UpdateSlowLogAuditPlanSQLs.info info values).db_user = .null) := by
  refine ⟨?_, ?_, ?_, ?_, ?_, ?_⟩
  · intro h
    simp [UpdateSlowLogAuditPlanSQLs.info, h, mysql.json, mysql.IF_JSON_TYPE_NULL]
  · intro a h
    simp [UpdateSlowLogAuditPlanSQLs.info, h, mysql.json, mysql.IF_JSON_TYPE_NULL,
      mysql.JSON_SET_json]
  · intro h
    simp [UpdateSlowLogAuditPlanSQLs.info, h, mysql.json, mysql.IF_JSON_TYPE_NULL,
      mysql.JSON_SET_json]
  · intro h
    simp [UpdateSlowLogAuditPlanSQLs.info, h, mysql.json, mysql.IF_JSON_TYPE_NULL]
  · intro a h
    simp [UpdateSlowLogAuditPlanSQLs.info, h, mysql.json, mysql.IF_JSON_TYPE_NULL,
      mysql.JSON_SET_json]
  · intro h
    simp [UpdateSlowLogAuditPlanSQLs.info, h, mysql.json, mysql.IF_JSON_TYPE_NULL,
      mysql.JSON_SET_json]

/-- C19, as the code has it: when the stored and the incoming record both have
an array of endpoints, the merged `endpoints` is the stored array followed by
the incoming array: every stored endpoint is kept, every incoming endpoint is
added, and an endpoint is there as many times as in the two arrays together. -/
theorem UpdateSlowLogAuditPlanSQLs_endpoints_appended (info values : Info)
    (stored incoming : List (Option String))
    (hs : info.endpoints = .value stored) (hi : values.endpoints = .value incoming) :
    (UpdateSlowLogAuditPlanSQLs.info info values).endpoints = .value (stored ++ incoming) ∧
    (∀ e, e ∈ stored ++ incoming ↔ e ∈ stored ∨ e ∈ incoming) ∧
    (∀ e, (stored ++ incoming).count e = stored.count e + incoming.count e) := by
  refine ⟨?_, fun e => List.mem_append, fun e => List.count_append e stored incoming⟩
  simp [UpdateSlowLogAuditPlanSQLs.info, hs, hi, mysql.json, mysql.JSON_MERGE, mysql.asArray,
    mysql.JSON_SET_json]

/-- Witness of the amended C19 on two records seen from the endpoint `10.0.0.1`. -/
theorem UpdateSlowLogAuditPlanSQLs_endpoints_appended_witness :
    sample.endpointInfo.endpoints = .value [some "10.0.0.1"] ∧
    (UpdateSlowLogAuditPlanSQLs.info sample.endpointInfo sample.endpointInfo).endpoints =
      .value ([some "10.0.0.1"] ++ [some "10.0.0.1"]) :=
  ⟨rfl, (UpdateSlowLogAuditPlanSQLs_endpoints_appended sample.endpointInfo sample.endpointInfo
    [some "10.0.0.1"] [some "10.0.0.1"] rfl rfl).1⟩

/-- Counterexample to C19 as stated: the stored and the incoming record both
have the endpoint `10.0.0.1`, and the merged `endpoints` holds it twice. -/
theorem UpdateSlowLogAuditPlanSQLs_endpoint_twice :
    (UpdateSlowLogAuditPlanSQLs.info sample.endpointInfo sample.endpointInfo).endpoints =
      .value [some "10.0.0.1", some "10.0.0.1"] ∧
    ¬ [some "10.0.0.1", some "10.0.0.1"].Nodup :=
  ⟨rfl, by decide⟩

/-! ## Theorems: the batch statement, key by key -/

/-- The arguments that `getBatchInsertRawSQL` has gathered after some records. -/
theorem getBatchInsertRawSQL_foldl (Md5String : String → String) (auditPlanId : Nat)
    (sqls : List AuditPlanSQLV2) (pattern : List String) (args : List SQLArg) :
    (sqls.foldl
      (fun (acc : List String × List SQLArg) sql =>
        (acc.1 ++ ["(?, ?, ?, ?, ?, ?)"],
          acc.2 ++ [.uint auditPlanId, .string (sql.GetFingerprintMD5 Md5String),
            .string sql.Fingerprint, .string sql.SQLContent, .json sql.Info,
            .string sql.Schema]))
      (pattern, args)).2 =
    args ++ sqls.flatMap (fun sql =>
      [.uint auditPlanId, .string (sql.GetFingerprintMD5 Md5String),
        .string sql.Fingerprint, .string sql.SQLContent, .json sql.Info, .string sql.Schema]) := by
  induction sqls generalizing pattern args with
  | nil => simp
  | cons sql rest ih =>
    rw [List.foldl_cons, ih]
    simp [List.flatMap_cons, List.append_assoc]

/-- The value tuples of the statement of `getBatchInsertRawSQL` are the rows of
the records, in their order. -/
theorem valueTuples_getBatchInsertRawSQL (Md5String : String → String) (auditPlanId : Nat)
    (sqls : List AuditPlanSQLV2) :
    valueTuples (getBatchInsertRawSQL Md5String auditPlanId sqls).2 =
      sqls.map (valuesRow Md5String auditPlanId) := by
  simp only [getBatchInsertRawSQL, getBatchInsertRawSQL_foldl, List.nil_append]
  induction sqls with
  | nil => rfl
  | cons sql rest ih =>
    rw [List.flatMap_cons, List.map_cons, ← ih]
    rfl

/-- A table has a row with a key exactly when the search for the key finds one. -/
theorem Table.any_iff_find (table : Table) (key : Nat × String) :
    table.any (fun r => decide (r.uniqueKey = key)) = true ↔ table.find key ≠ none := by
  unfold Table.find
  induction table with
  | nil => simp
  | cons r rest ih =>
    by_cases h : r.uniqueKey = key
    · simp [h]
    · simp [h, ih]

/-- The row found under a key after one value tuple: the merge of the tuple
into the row found before when the tuple has that key, the row found before
otherwise. -/
theorem Table.find_insertOnDuplicateKeyUpdate
    (update : AuditPlanSQLV2 → AuditPlanSQLV2 → AuditPlanSQLV2)
    (hkey : ∀ stored incoming, (update stored incoming).uniqueKey = stored.uniqueKey)
    (table : Table) (row : AuditPlanSQLV2) (key : Nat × String) :
    Table.find (insertOnDuplicateKeyUpdate update table row) key =
      if row.uniqueKey = key then mergeInto update (table.find key) row
      else table.find key := by
  unfold insertOnDuplicateKeyUpdate
  by_cases hany : table.any (fun r => decide (r.uniqueKey = row.uniqueKey)) = true
  · rw [if_pos hany]
    have hfun : ((fun r => decide (r.uniqueKey = key)) ∘
        (fun r => if r.uniqueKey = row.uniqueKey then update r row else r)) =
        (fun r => decide (r.uniqueKey = key)) := by
      funext r
      by_cases hr : r.uniqueKey = row.uniqueKey
      · simp [hr, hkey]
      · simp [hr]
    unfold Table.find
    rw [List.find?_map, hfun]
    by_cases hk : row.uniqueKey = key
    · rw [if_pos hk]
      have hsome := (Table.any_iff_find table row.uniqueKey).mp hany
      rw [hk] at hsome
      unfold Table.find at hsome
      cases hf : List.find? (fun r => decide (r.uniqueKey = key)) table with
      | none => exact absurd hf hsome
      | some stored =>
        have hsk : stored.uniqueKey = key := by
          have := List.find?_some hf
          simpa using this
        simp [mergeInto, hsk, hk]
    · rw [if_neg hk]
      cases hf : List.find? (fun r => decide (r.uniqueKey = key)) table with
      | none => rfl
      | some stored =>
        have hsk : stored.uniqueKey = key := by
          have := List.find?_some hf
          simpa using this
        have hne : ¬ stored.uniqueKey = row.uniqueKey := fun h => hk (h ▸ hsk)
        simp [hne]
  · rw [if_neg hany]
    have hnone : table.find row.uniqueKey = none := by
      by_contra hc
      exact hany ((Table.any_iff_find table row.uniqueKey).mpr hc)
    unfold Table.find at hnone ⊢
    rw [List.find?_append]
    by_cases hk : row.uniqueKey = key
    · rw [if_pos hk, ← hk, hnone]
      simp [mergeInto]
    · rw [if_neg hk]
      simp [hk]

/-- The row found under a key after the value tuples of a batch: the tuples
that have the key, merged in their order into the row found before. -/
theorem Table.find_foldl_insertOnDuplicateKeyUpdate
    (update : AuditPlanSQLV2 → AuditPlanSQLV2 → AuditPlanSQLV2)
    (hkey : ∀ stored incoming, (update stored incoming).uniqueKey = stored.uniqueKey)
    (rows : List AuditPlanSQLV2) (table : Table) (key : Nat × String) :
    Table.find (rows.foldl (insertOnDuplicateKeyUpdate update) table) key =
      (rows.filter (fun r => decide (r.uniqueKey = key))).foldl (mergeInto update)
        (table.find key) := by
  induction rows generalizing table with
  | nil => rfl
  | cons row rest ih =>
    rw [List.foldl_cons, ih, Table.find_insertOnDuplicateKeyUpdate update hkey]
    by_cases hk : row.uniqueKey = key
    · simp [hk]
    · simp [hk]

/-- The search for a key finds nothing exactly when no row has the key. -/
theorem Table.find_eq_none_iff_count (table : Table) (key : Nat × String) :
    table.find key = none ↔ table.count key = 0 := by
  unfold Table.find Table.count
  rw [List.find?_eq_none, List.countP_eq_zero]

/-- The number of rows with a key after one value tuple: one more when the
tuple has the key and no row had it, unchanged otherwise. -/
theorem Table.count_insertOnDuplicateKeyUpdate
    (update : AuditPlanSQLV2 → AuditPlanSQLV2 → AuditPlanSQLV2)
    (hkey : ∀ stored incoming, (update stored incoming).uniqueKey = stored.uniqueKey)
    (table : Table) (row : AuditPlanSQLV2) (key : Nat × String) :
    Table.count (insertOnDuplicateKeyUpdate update table row) key =
      if row.uniqueKey = key ∧ table.count key = 0 then 1 else table.count key := by
  unfold insertOnDuplicateKeyUpdate
  by_cases hany : table.any (fun r => decide (r.uniqueKey = row.uniqueKey)) = true
  · rw [if_pos hany]
    have hfun : ((fun r => decide (r.uniqueKey = key)) ∘
        (fun r => if r.uniqueKey = row.uniqueKey then update r row else r)) =
        (fun r => decide (r.uniqueKey = key)) := by
      funext r
      by_cases hr : r.uniqueKey = row.uniqueKey
      · simp [hr, hkey]
      · simp [hr]
    have hcount : Table.count (table.map
        (fun r => if r.uniqueKey = row.uniqueKey then update r row else r)) key =
        table.count key := by
      unfold Table.count
      rw [List.countP_map, hfun]
    rw [hcount]
    by_cases hk : row.uniqueKey = key ∧ table.count key = 0
    · exfalso
      have hnone := (Table.find_eq_none_iff_count table key).mpr hk.2
      have hsome := (Table.any_iff_find table row.uniqueKey).mp hany
      rw [hk.1] at hsome
      exact hsome hnone
    · rw [if_neg hk]
  · rw [if_neg hany]
    have hnone : table.find row.uniqueKey = none := by
      by_contra hc
      exact hany ((Table.any_iff_find table row.uniqueKey).mpr hc)
    have hzero := (Table.find_eq_none_iff_count table row.uniqueKey).mp hnone
    have happ : Table.count (table ++ [row]) key =
        table.count key + if row.uniqueKey = key then 1 else 0 := by
      unfold Table.count
      rw [List.countP_append]
      by_cases hk : row.uniqueKey = key
      · simp [hk]
      · simp [hk]
    rw [happ]
    by_cases hk : row.uniqueKey = key
    · rw [hk] at hzero
      simp [hk, hzero]
    · simp [hk]

/-- The number of rows with a key after the value tuples of a batch, for a key
that no row had before: one when a tuple has the key, none otherwise. -/
theorem Table.count_foldl_insertOnDuplicateKeyUpdate
    (update : AuditPlanSQLV2 → AuditPlanSQLV2 → AuditPlanSQLV2)
    (hkey : ∀ stored incoming, (update stored incoming).uniqueKey = stored.uniqueKey)
    (rows : List AuditPlanSQLV2) (table : Table) (key : Nat × String) :
    Table.count (rows.foldl (insertOnDuplicateKeyUpdate update) table) key =
      if table.count key = 0 then
        (if rows.any (fun r => decide (r.uniqueKey = key)) then 1 else 0)
      else table.count key := by
  induction rows generalizing table with
  | nil => by_cases h : table.count key = 0 <;> simp [h]
  | cons row rest ih =>
    rw [List.foldl_cons, ih, Table.count_insertOnDuplicateKeyUpdate update hkey]
    by_cases hk : row.uniqueKey = key
    · by_cases hz : table.count key = 0
      · simp [hk, hz]
      · simp [hk, hz]
    · by_cases hz : table.count key = 0
      · simp [hk, hz]
      · simp [hk, hz]

/-- Merging tuples into the row under a key leaves no row only when there was
none and there is no tuple. -/
theorem foldl_mergeInto_eq_none
    (update : AuditPlanSQLV2 → AuditPlanSQLV2 → AuditPlanSQLV2)
    (rows : List AuditPlanSQLV2) (state : Option AuditPlanSQLV2) :
    rows.foldl (mergeInto update) state = none ↔ state = none ∧ rows = [] := by
  induction rows generalizing state with
  | nil => simp
  | cons row rest ih =>
    rw [List.foldl_cons, ih]
    cases state <;> simp [mergeInto]

/-- The SQL text of the row under a key after merging tuples: that of the last
tuple, for a statement with `sql_content = VALUES(sql_content)`. -/
theorem foldl_mergeInto_SQLContent
    (update : AuditPlanSQLV2 → AuditPlanSQLV2 → AuditPlanSQLV2)
    (hsql : ∀ stored incoming, (update stored incoming).SQLContent = incoming.SQLContent)
    (rows : List AuditPlanSQLV2) (state : Option AuditPlanSQLV2) (last merged : AuditPlanSQLV2)
    (hlast : rows.getLast? = some last)
    (hmerged : rows.foldl (mergeInto update) state = some merged) :
    merged.SQLContent = last.SQLContent := by
  induction rows generalizing state with
  | nil => simp at hlast
  | cons row rest ih =>
    cases rest with
    | nil =>
      simp only [List.getLast?_singleton, Option.some.injEq] at hlast
      subst hlast
      cases state with
      | none =>
        simp only [List.foldl_cons, List.foldl_nil, mergeInto, Option.some.injEq] at hmerged
        rw [← hmerged]
      | some stored =>
        simp only [List.foldl_cons, List.foldl_nil, mergeInto, Option.some.injEq] at hmerged
        rw [← hmerged, hsql]
    | cons next more =>
      rw [List.getLast?_cons_cons] at hlast
      rw [List.foldl_cons] at hmerged
      exact ih _ hlast hmerged

/-- The counter of a document whose counter is a natural number. -/
theorem Info.natCounter_orZero (info : Info) (n : ℕ) (h : info.counter = .value (n : ℚ)) :
    info.counter.orZero = n := by
  simp [JSONField.orZero, h, mysql.num, mysql.COALESCE]

/-- The sum of natural counters is not negative. -/
theorem counters_sum_nonneg (rows : List AuditPlanSQLV2)
    (hrows : ∀ r ∈ rows, r.Info.natCounter) :
    0 ≤ (rows.map (fun r => r.Info.counter.orZero)).sum := by
  induction rows with
  | nil => simp
  | cons row rest ih =>
    obtain ⟨n, hn⟩ := hrows row (List.mem_cons_self _ _)
    have hrest := ih (fun r hr => hrows r (List.mem_cons_of_mem _ hr))
    rw [List.map_cons, List.sum_cons, Info.natCounter_orZero _ n hn]
    have : (0 : ℚ) ≤ n := Nat.cast_nonneg n
    linarith

/-- The value tuples of a batch that have a key are those of the records that
have it as their merge key. -/
theorem filter_valuesRow (Md5String : String → String) (auditPlanId : Nat)
    (sqls : List AuditPlanSQLV2) (key : Nat × String) :
    (sqls.map (valuesRow Md5String auditPlanId)).filter
      (fun r => decide (r.uniqueKey = key)) =
    (sqls.filter (fun s => decide (mergeKey Md5String auditPlanId s = key))).map
      (valuesRow Md5String auditPlanId) := by
  rw [List.filter_map]
  rfl

/-- The sum of the counters of value tuples is the sum of the counters of their records. -/
theorem valuesRow_counters (Md5String : String → String) (auditPlanId : Nat)
    (sqls : List AuditPlanSQLV2) :
    ((sqls.map (valuesRow Md5String auditPlanId)).map (fun r => r.Info.counter.orZero)).sum =
      (sqls.map (fun s => s.Info.counter.orZero)).sum := by
  rw [List.map_map]
  rfl

/-- The count-weighted average of a value with itself is the value. -/
theorem weightedAverage_same (avg c : ℚ) (hc : c ≠ 0) : weightedAverage avg c avg c = avg := by
  unfold weightedAverage
  have h : c + c ≠ 0 := by
    intro h
    apply hc
    linarith
  field_simp
  ring

/-- The sum of natural counters is a natural number. -/
theorem counters_sum_nat (rows : List AuditPlanSQLV2)
    (hrows : ∀ r ∈ rows, r.Info.natCounter) :
    ∃ n : ℕ, (rows.map (fun r => r.Info.counter.orZero)).sum = n := by
  induction rows with
  | nil => exact ⟨0, by simp⟩
  | cons row rest ih =>
    obtain ⟨n, hn⟩ := hrows row (List.mem_cons_self _ _)
    obtain ⟨m, hm⟩ := ih (fun r hr => hrows r (List.mem_cons_of_mem _ hr))
    refine ⟨n + m, ?_⟩
    rw [List.map_cons, List.sum_cons, Info.natCounter_orZero _ n hn, hm]
    push_cast
    rfl

/-- A key of a document that is not absent has a number: 0 for the JSON `null`. -/
theorem mysql.num_of_ne_absent (field : JSONField ℚ) (h : field ≠ .absent) :
    ∃ x, mysql.num field = some x := by
  cases field with
  | absent => exact absurd rfl h
  | null => exact ⟨0, rfl⟩
  | value q => exact ⟨q, rfl⟩

/-! ## Theorems: the statement text and the arguments of a batch -/

/-- The loop of the two batch builders: after the records of `l` the pattern
list has one more tuple text for each record and the argument list has the
arguments of each record, in the order of the records. -/
theorem foldl_pattern_args {α : Type} (tuple : String) (g : α → List SQLArg) (l : List α)
    (pattern : List String) (args : List SQLArg) :
    l.foldl (fun (acc : List String × List SQLArg) x => (acc.1 ++ [tuple], acc.2 ++ g x))
      (pattern, args) =
    (pattern ++ List.replicate l.length tuple, args ++ l.flatMap g) := by
  induction l generalizing pattern args with
  | nil => simp
  | cons x rest ih =>
    rw [List.foldl_cons, ih]
    simp [List.replicate_succ, List.flatMap_cons, List.append_assoc]

/-- The occurrences of a character in the text that the loop of
`strings.Join` has built. -/
theorem intercalate_go_count (c : Char) (sep : String) (l : List String) (acc : String) :
    (String.intercalate.go acc sep l).data.count c =
      acc.data.count c + l.length * sep.data.count c +
        (l.map (fun x => x.data.count c)).sum := by
  induction l generalizing acc with
  | nil => simp [String.intercalate.go]
  | cons a rest ih =>
    rw [String.intercalate.go, ih]
    simp only [String.data_append, List.count_append, List.length_cons, List.map_cons,
      List.sum_cons]
    ring

/-- The occurrences of a character in `strings.Join(l, sep)`. -/
theorem intercalate_count (c : Char) (sep : String) (l : List String) :
    (sep.intercalate l).data.count c =
      (l.length - 1) * sep.data.count c + (l.map (fun x => x.data.count c)).sum := by
  cases l with
  | nil => simp [String.intercalate]
  | cons a rest =>
    rw [String.intercalate, intercalate_go_count]
    simp only [List.length_cons, List.map_cons, List.sum_cons, Nat.add_sub_cancel]
    ring

/-- The occurrences of a character in a statement text: those of the head and
those of the `n` tuple texts joined by `, `, when the separator has none. -/
theorem statement_count (c : Char) (head tuple : String) (n : Nat)
    (hsep : ", ".data.count c = 0) :
    (head ++ ", ".intercalate (List.replicate n tuple)).data.count c =
      head.data.count c + n * tuple.data.count c := by
  rw [String.data_append, List.count_append, intercalate_count, hsep]
  simp

/-- The statement of `getBatchInsertRawSQL`: its text and its arguments. -/
theorem getBatchInsertRawSQL_eq (Md5String : String → String) (auditPlanId : Nat)
    (sqls : List AuditPlanSQLV2) :
    getBatchInsertRawSQL Md5String auditPlanId sqls =
      (insertHead ++ ", ".intercalate (List.replicate sqls.length "(?, ?, ?, ?, ?, ?)"),
        sqls.flatMap (recordArgs Md5String auditPlanId)) := by
  have h := foldl_pattern_args "(?, ?, ?, ?, ?, ?)" (recordArgs Md5String auditPlanId) sqls [] []
  simp only [List.nil_append] at h
  unfold getBatchInsertRawSQL
  simp only [recordArgs] at h ⊢
  rw [h]
  rfl

/-- The statement of `getBatchInsertRawSQLV2`: its text and its arguments. -/
theorem getBatchInsertRawSQLV2_eq (GetFingerprintMD5 : SQLManageRecord → String)
    (auditPlanId : Nat) (sqls : List SQLManageRecord) :
    getBatchInsertRawSQLV2 GetFingerprintMD5 auditPlanId sqls =
      (insertHeadV2 ++
          ", ".intercalate (List.replicate sqls.length "(?, ?, ?, ?, ?, ?,?, ?, ?)"),
        sqls.flatMap (recordArgsV2 GetFingerprintMD5 auditPlanId)) := by
  have h := foldl_pattern_args "(?, ?, ?, ?, ?, ?,?, ?, ?)"
    (recordArgsV2 GetFingerprintMD5 auditPlanId) sqls [] []
  simp only [List.nil_append] at h
  unfold getBatchInsertRawSQLV2
  simp only [recordArgsV2] at h ⊢
  rw [h]
  rfl

/-- The number of the arguments of a batch whose records have `k` arguments each. -/
theorem flatMap_args_length {α : Type} (g : α → List SQLArg) (k : Nat) (l : List α)
    (hg : ∀ x, (g x).length = k) : (l.flatMap g).length = k * l.length := by
  induction l with
  | nil => simp
  | cons x rest ih =>
    rw [List.flatMap_cons, List.length_append, ih, hg, List.length_cons]
    ring

/-- C22: for a batch of n records `getBatchInsertRawSQL` builds one statement
text, the head of the INSERT followed by n value tuples of 6 placeholders
joined by `, `, and the 6 arguments of each record in the order of the records,
6n in all; `getBatchInsertRawSQLV2` builds one with n tuples of 9 placeholders
and 9n arguments. In both the number of placeholders of the text is the number
of arguments, and the text holds no `;`: the batch is one statement. -/
theorem getBatchInsertRawSQL_placeholders_match_args (Md5String : String → String)
    (GetFingerprintMD5 : SQLManageRecord → String) (auditPlanId : Nat)
    (sqls : List AuditPlanSQLV2) (sqlsV2 : List SQLManageRecord) :
    ((getBatchInsertRawSQL Md5String auditPlanId sqls).1 =
        insertHead ++ ", ".intercalate (List.replicate sqls.length "(?, ?, ?, ?, ?, ?)") ∧
      placeholders "(?, ?, ?, ?, ?, ?)" = 6 ∧
      (getBatchInsertRawSQL Md5String auditPlanId sqls).2 =
        sqls.flatMap (recordArgs Md5String auditPlanId) ∧
      (getBatchInsertRawSQL Md5String auditPlanId sqls).2.length = 6 * sqls.length ∧
      placeholders (getBatchInsertRawSQL Md5String auditPlanId sqls).1 =
        (getBatchInsertRawSQL Md5String auditPlanId sqls).2.length ∧
      separators (getBatchInsertRawSQL Md5String auditPlanId sqls).1 = 0) ∧
    ((getBatchInsertRawSQLV2 GetFingerprintMD5 auditPlanId sqlsV2).1 =
        insertHeadV2 ++
          ", ".intercalate (List.replicate sqlsV2.length "(?, ?, ?, ?, ?, ?,?, ?, ?)") ∧
      placeholders "(?, ?, ?, ?, ?, ?,?, ?, ?)" = 9 ∧
      (getBatchInsertRawSQLV2 GetFingerprintMD5 auditPlanId sqlsV2).2 =
        sqlsV2.flatMap (recordArgsV2 GetFingerprintMD5 auditPlanId) ∧
      (getBatchInsertRawSQLV2 GetFingerprintMD5 auditPlanId sqlsV2).2.length =
        9 * sqlsV2.length ∧
      placeholders (getBatchInsertRawSQLV2 GetFingerprintMD5 auditPlanId sqlsV2).1 =
        (getBatchInsertRawSQLV2 GetFingerprintMD5 auditPlanId sqlsV2).2.length ∧
      separators (getBatchInsertRawSQLV2 GetFingerprintMD5 auditPlanId sqlsV2).1 = 0) := by
  have hlen : (sqls.flatMap (recordArgs Md5String auditPlanId)).length = 6 * sqls.length :=
    flatMap_args_length _ 6 sqls (fun _ => rfl)
  have hlenV2 : (sqlsV2.flatMap (recordArgsV2 GetFingerprintMD5 auditPlanId)).length =
      9 * sqlsV2.length :=
    flatMap_args_length _ 9 sqlsV2 (fun _ => rfl)
  have hq : placeholders
      (insertHead ++ ", ".intercalate (List.replicate sqls.length "(?, ?, ?, ?, ?, ?)")) =
      6 * sqls.length := by
    unfold placeholders
    rw [statement_count _ _ _ _ (by decide)]
    have h0 : insertHead.data.count '?' = 0 := by decide
    have h6 : "(?, ?, ?, ?, ?, ?)".data.count '?' = 6 := by decide
    rw [h0, h6]
    ring
  have hqV2 : placeholders (insertHeadV2 ++
      ", ".intercalate (List.replicate sqlsV2.length "(?, ?, ?, ?, ?, ?,?, ?, ?)")) =
      9 * sqlsV2.length := by
    unfold placeholders
    rw [statement_count _ _ _ _ (by decide)]
    have h0 : insertHeadV2.data.count '?' = 0 := by decide
    have h9 : "(?, ?, ?, ?, ?, ?,?, ?, ?)".data.count '?' = 9 := by decide
    rw [h0, h9]
    ring
  have hs : separators
      (insertHead ++ ", ".intercalate (List.replicate sqls.length "(?, ?, ?, ?, ?, ?)")) =
      0 := by
    unfold separators
    rw [statement_count _ _ _ _ (by decide)]
    have h0 : insertHead.data.count ';' = 0 := by decide
    have h6 : "(?, ?, ?, ?, ?, ?)".data.count ';' = 0 := by decide
    rw [h0, h6]
    simp
  have hsV2 : separators (insertHeadV2 ++
      ", ".intercalate (List.replicate sqlsV2.length "(?, ?, ?, ?, ?, ?,?, ?, ?)")) =
      0 := by
    unfold separators
    rw [statement_count _ _ _ _ (by decide)]
    have h0 : insertHeadV2.data.count ';' = 0 := by decide
    have h9 : "(?, ?, ?, ?, ?, ?,?, ?, ?)".data.count ';' = 0 := by decide
    rw [h0, h9]
    simp
  rw [getBatchInsertRawSQL_eq, getBatchInsertRawSQLV2_eq]
  exact ⟨⟨rfl, by decide, rfl, hlen, by rw [hq, hlen], hs⟩,
    ⟨rfl, by decide, rfl, hlenV2, by rw [hqV2, hlenV2], hsV2⟩⟩

/-! ## Theorems: the bulk replace -/

/-- The INSERT of `OverrideAuditPlanSQLs` when the storage executes it: a syntax
error for the empty batch, a duplicate key error when two value tuples have one
key or a tuple has the key of a row, else the rows of the batch after those of
the table. -/
theorem execInsert_getBatchInsertRawSQL (Md5String : String → String) (table : Table)
    (auditPlanId : Nat) (sqls : List AuditPlanSQLV2) :
    execInsert none table
      ((getBatchInsertRawSQL Md5String auditPlanId sqls).1 ++ ";",
        (getBatchInsertRawSQL Md5String auditPlanId sqls).2) =
    if sqls = [] then (table, some "Error 1064: You have an error in your SQL syntax")
    else if ((sqls.map (valuesRow Md5String auditPlanId)).map AuditPlanSQLV2.uniqueKey).Nodup ∧
        ∀ r ∈ sqls.map (valuesRow Md5String auditPlanId), table.count r.uniqueKey = 0 then
      (table ++ sqls.map (valuesRow Md5String auditPlanId), none)
    else (table, some "Error 1062: Duplicate entry") := by
  unfold execInsert
  simp only [valueTuples_getBatchInsertRawSQL]
  cases sqls with
  | nil => rfl
  | cons sql rest => simp

/-- The keys of the value tuples of a batch are pairwise different exactly when
the values of `GetFingerprintMD5` of its records are. -/
theorem valuesRow_keys_nodup (Md5String : String → String) (auditPlanId : Nat)
    (sqls : List AuditPlanSQLV2) :
    ((sqls.map (valuesRow Md5String auditPlanId)).map AuditPlanSQLV2.uniqueKey).Nodup ↔
      (sqls.map (fun s => s.GetFingerprintMD5 Md5String)).Nodup := by
  have h : (sqls.map (valuesRow Md5String auditPlanId)).map AuditPlanSQLV2.uniqueKey =
      (sqls.map (fun s => s.GetFingerprintMD5 Md5String)).map (Prod.mk auditPlanId) := by
    rw [List.map_map, List.map_map]
    rfl
  rw [h]
  exact List.nodup_map_iff (fun a b hab => (Prod.mk.inj hab).2)

/-- After the DELETE no row has the key of a value tuple of the batch. -/
theorem count_after_delete (Md5String : String → String) (table : Table) (auditPlanId : Nat)
    (sqls : List AuditPlanSQLV2) :
    ∀ r ∈ sqls.map (valuesRow Md5String auditPlanId),
      Table.count (table.filter (fun r => decide (r.AuditPlanID ≠ auditPlanId)))
        r.uniqueKey = 0 := by
  intro r hr
  obtain ⟨s, _, rfl⟩ := List.mem_map.mp hr
  unfold Table.count
  rw [List.countP_eq_zero]
  intro x hx hkey
  have hne : x.AuditPlanID ≠ auditPlanId := by simpa using (List.mem_filter.mp hx).2
  have hk : x.uniqueKey = (valuesRow Md5String auditPlanId s).uniqueKey := by simpa using hkey
  exact hne (congrArg Prod.fst hk)

/-- The rows of a plan among the rows that the DELETE of another plan leaves. -/
theorem GetAuditPlanSQLs_after_delete (table : Table) (auditPlanId other : Nat) :
    GetAuditPlanSQLs (table.filter (fun r => decide (r.AuditPlanID ≠ auditPlanId))) other =
      if other = auditPlanId then [] else GetAuditPlanSQLs table other := by
  unfold GetAuditPlanSQLs
  rw [List.filter_filter]
  by_cases h : other = auditPlanId
  · rw [if_pos h, List.filter_eq_nil_iff]
    intro r _
    simp [h]
  · rw [if_neg h]
    apply List.filter_congr
    intro r _
    by_cases hr : r.AuditPlanID = other
    · simp [hr, h]
    · simp [hr]

/-- The rows of a plan among the value tuples of a batch. -/
theorem GetAuditPlanSQLs_valuesRow (Md5String : String → String) (auditPlanId other : Nat)
    (sqls : List AuditPlanSQLV2) :
    GetAuditPlanSQLs (sqls.map (valuesRow Md5String auditPlanId)) other =
      if other = auditPlanId then sqls.map (valuesRow Md5String auditPlanId) else [] := by
  unfold GetAuditPlanSQLs
  by_cases h : other = auditPlanId
  · rw [if_pos h, List.filter_eq_self]
    intro r hr
    obtain ⟨s, _, rfl⟩ := List.mem_map.mp hr
    simp [valuesRow, h]
  · rw [if_neg h, List.filter_eq_nil_iff]
    intro r hr
    obtain ⟨s, _, rfl⟩ := List.mem_map.mp hr
    simpa [valuesRow] using fun e : auditPlanId = other => h e.symm

/-- What `OverrideAuditPlanSQLs` returns when the storage executes both
statements: the three outcomes of the INSERT on the table that the DELETE left. -/
theorem OverrideAuditPlanSQLs_executed (Md5String : String → String) (table : Table)
    (auditPlanId : Nat) (sqls : List AuditPlanSQLV2) :
    OverrideAuditPlanSQLs Md5String none none table auditPlanId sqls =
    if sqls = [] then
      (table.filter (fun r => decide (r.AuditPlanID ≠ auditPlanId)),
        some "Error 1064: You have an error in your SQL syntax")
    else if (sqls.map (fun s => s.GetFingerprintMD5 Md5String)).Nodup then
      (table.filter (fun r => decide (r.AuditPlanID ≠ auditPlanId)) ++
        sqls.map (valuesRow Md5String auditPlanId), none)
    else (table.filter (fun r => decide (r.AuditPlanID ≠ auditPlanId)),
      some "Error 1062: Duplicate entry") := by
  unfold OverrideAuditPlanSQLs execDelete
  simp only [execInsert_getBatchInsertRawSQL, valuesRow_keys_nodup]
  by_cases h : sqls = []
  · simp [h]
  · by_cases hn : (sqls.map (fun s => s.GetFingerprintMD5 Md5String)).Nodup
    · rw [if_neg h, if_neg h, if_pos hn, if_pos ⟨hn, count_after_delete _ _ _ _⟩]
    · rw [if_neg h, if_neg h, if_neg hn, if_neg (fun hc => hn hc.1)]

/-- C21, as the code has it: `OverrideAuditPlanSQLs` runs the DELETE of the
rows of the plan and then the INSERT of the batch as two statements, without a
transaction. When the DELETE fails, the error is returned and the table is
unchanged. The call succeeds exactly when both statements are executed, the
batch is not empty and the values of `GetFingerprintMD5` of its records are
pairwise different; then the sample set of the plan is exactly the fresh batch.
When the DELETE was executed and the INSERT fails, the error is returned and
the sample set of the plan is empty: the prior set is not restored. The rows of
other plans are unchanged in every case. `OverrideAuditPlanSQLsV2` runs the same
DELETE on `audit_plan_sqls_v2` and returns the error of its INSERT into
`sql_manage_records`. -/
theorem OverrideAuditPlanSQLs_delete_then_insert (Md5String : String → String)
    (deleteFault insertFault : Option String) (table : Table) (auditPlanId : Nat)
    (sqls : List AuditPlanSQLV2) :
    (∀ err, deleteFault = some err →
      OverrideAuditPlanSQLs Md5String deleteFault insertFault table auditPlanId sqls = (table, some err)) ∧
    ((OverrideAuditPlanSQLs Md5String deleteFault insertFault table auditPlanId sqls).2 = none ↔
      deleteFault = none ∧ insertFault = none ∧ sqls ≠ [] ∧
        (sqls.map (fun s => s.GetFingerprintMD5 Md5String)).Nodup) ∧
    ((OverrideAuditPlanSQLs Md5String deleteFault insertFault table auditPlanId sqls).2 = none →
      GetAuditPlanSQLs (OverrideAuditPlanSQLs Md5String deleteFault insertFault table auditPlanId sqls).1 auditPlanId =
        sqls.map (valuesRow Md5String auditPlanId)) ∧
    (deleteFault = none → (OverrideAuditPlanSQLs Md5String deleteFault insertFault table auditPlanId sqls).2 ≠ none →
      GetAuditPlanSQLs (OverrideAuditPlanSQLs Md5String deleteFault insertFault table auditPlanId sqls).1 auditPlanId = []) ∧
    (∀ other, other ≠ auditPlanId →
      GetAuditPlanSQLs (OverrideAuditPlanSQLs Md5String deleteFault insertFault table auditPlanId sqls).1 other = GetAuditPlanSQLs table other) ∧
    (∀ (Records : Type) (GetFingerprintMD5 : SQLManageRecord → String)
      (execInsertV2 : Records → String × List SQLArg → Records × Option String)
      (records : Records) (sqlsV2 : List SQLManageRecord), deleteFault = none →
      GetAuditPlanSQLs (OverrideAuditPlanSQLsV2 GetFingerprintMD5 execInsertV2 deleteFault
        (table, records) auditPlanId sqlsV2).1.1 auditPlanId = [] ∧
      (OverrideAuditPlanSQLsV2 GetFingerprintMD5 execInsertV2 deleteFault
        (table, records) auditPlanId sqlsV2).2 =
        (execInsertV2 records
          ((getBatchInsertRawSQLV2 GetFingerprintMD5 auditPlanId sqlsV2).1 ++ ";",
            (getBatchInsertRawSQLV2 GetFingerprintMD5 auditPlanId sqlsV2).2)).2) := by
  have hgone : GetAuditPlanSQLs
      (table.filter (fun r => decide (r.AuditPlanID ≠ auditPlanId))) auditPlanId = [] := by
    rw [GetAuditPlanSQLs_after_delete, if_pos rfl]
  have hother : ∀ other, other ≠ auditPlanId → GetAuditPlanSQLs
      (table.filter (fun r => decide (r.AuditPlanID ≠ auditPlanId))) other =
      GetAuditPlanSQLs table other := by
    intro other h
    rw [GetAuditPlanSQLs_after_delete, if_neg h]
  have happend : ∀ other, GetAuditPlanSQLs
      (table.filter (fun r => decide (r.AuditPlanID ≠ auditPlanId)) ++
        sqls.map (valuesRow Md5String auditPlanId)) other =
      GetAuditPlanSQLs (table.filter (fun r => decide (r.AuditPlanID ≠ auditPlanId))) other ++
        GetAuditPlanSQLs (sqls.map (valuesRow Md5String auditPlanId)) other := by
    intro other
    unfold GetAuditPlanSQLs
    rw [List.filter_append]
  cases deleteFault with
  | some derr =>
    have h : OverrideAuditPlanSQLs Md5String (some derr) insertFault table auditPlanId sqls =
        (table, some derr) := rfl
    rw [h]
    refine ⟨fun err he => by rw [Option.some.inj he], ?_, ?_, ?_, fun _ _ => rfl, ?_⟩
    · simp
    · intro hn
      cases hn
    · intro hn
      cases hn
    · intro _ _ _ _ _ hn
      cases hn
  | none =>
    refine ⟨fun err he => (by cases he), ?_, ?_, ?_, ?_, ?_⟩
    case refine_5 =>
      intro Records GetFingerprintMD5 execInsertV2 records sqlsV2 _
      exact ⟨hgone, rfl⟩
    all_goals
      cases insertFault with
      | some ierr =>
        have h : OverrideAuditPlanSQLs Md5String none (some ierr) table auditPlanId sqls =
            (table.filter (fun r => decide (r.AuditPlanID ≠ auditPlanId)), some ierr) := rfl
        rw [h]
        first
          | exact hother
          | exact fun _ _ => hgone
          | (intro hn; cases hn)
          | simp
      | none =>
        rw [OverrideAuditPlanSQLs_executed]
        by_cases hs : sqls = []
        · rw [if_pos hs]
          first
            | exact hother
            | exact fun _ _ => hgone
            | (intro hn; cases hn)
            | simp [hs]
        · by_cases hn : (sqls.map (fun s => s.GetFingerprintMD5 Md5String)).Nodup
          · rw [if_neg hs, if_pos hn]
            first
              | (intro other ho
                 rw [happend, hother other ho, GetAuditPlanSQLs_valuesRow, if_neg ho,
                   List.append_nil])
              | (intro _ hne
                 exact absurd rfl hne)
              | (intro _
                 rw [happend, hgone, GetAuditPlanSQLs_valuesRow, if_pos rfl, List.nil_append])
              | simp [hs, hn]
          · rw [if_neg hs, if_neg hn]
            first
              | exact hother
              | exact fun _ _ => hgone
              | (intro hc; cases hc)
              | simp [hs, hn]

/-- Counterexample to C21 as stated: plan 1 has one sample. The override with
the empty batch, and the override with a batch of two records of one key, both
return an error and leave the plan without sample: the prior sample set is
neither kept nor replaced by the batch. -/
theorem OverrideAuditPlanSQLs_prior_samples_lost :
    GetAuditPlanSQLs [sample.averageRecord] 1 = [sample.averageRecord] ∧
    (∀ Md5String : String → String,
      OverrideAuditPlanSQLs Md5String none none [sample.averageRecord] 1 [] =
        ([], some "Error 1064: You have an error in your SQL syntax")) ∧
    (∀ Md5String : String → String,
      OverrideAuditPlanSQLs Md5String none none [sample.averageRecord] 1
          [sample.secondAverageRecord, sample.noAverageRecord] =
        ([], some "Error 1062: Duplicate entry")) := by
  refine ⟨rfl, fun _ => rfl, ?_⟩
  intro Md5String
  rw [OverrideAuditPlanSQLs_executed]
  simp +decide [AuditPlanSQLV2.GetFingerprintMD5, sample.secondAverageRecord,
    sample.noAverageRecord, sample.averageRecord]

/-! ## Theorems: the groups of `BatchUpdateBlackListCount` -/

/-- The counts of the groups after an assignment: a new count comes last. -/
theorem appendId_keys (groups : List (Nat × List Nat)) (count id : Nat) :
    (appendId groups count id).map Prod.fst =
      if count ∈ groups.map Prod.fst then groups.map Prod.fst
      else groups.map Prod.fst ++ [count] := by
  induction groups with
  | nil => simp [appendId]
  | cons g rest ih =>
    obtain ⟨c, idList⟩ := g
    unfold appendId
    by_cases h : c = count
    · simp [h]
    · have h2 : ¬ count = c := fun e => h e.symm
      rw [if_neg h, List.map_cons, ih]
      by_cases hm : count ∈ rest.map Prod.fst
      · simp [hm]
      · simp [hm, h2]

/-- The counts of the groups stay pairwise different. -/
theorem appendId_nodup (groups : List (Nat × List Nat)) (count id : Nat)
    (h : (groups.map Prod.fst).Nodup) : ((appendId groups count id).map Prod.fst).Nodup := by
  rw [appendId_keys]
  by_cases hm : count ∈ groups.map Prod.fst
  · rw [if_pos hm]
    exact h
  · rw [if_neg hm]
    exact List.Nodup.append h (List.nodup_singleton count) (by simpa using hm)

/-- The ids of the group of a count after an assignment: those before, and the
assigned id in the group of the assigned count. -/
theorem appendId_mem (groups : List (Nat × List Nat)) (count id c i : Nat) :
    (∃ idList, (c, idList) ∈ appendId groups count id ∧ i ∈ idList) ↔
      (∃ idList, (c, idList) ∈ groups ∧ i ∈ idList) ∨ (c = count ∧ i = id) := by
  induction groups with
  | nil =>
    simp only [appendId, List.mem_singleton, Prod.mk.injEq, List.not_mem_nil, false_and,
      exists_false, false_or]
    constructor
    · rintro ⟨l, ⟨rfl, rfl⟩, hi⟩
      exact ⟨rfl, List.mem_singleton.mp hi⟩
    · rintro ⟨rfl, rfl⟩
      exact ⟨[i], ⟨rfl, rfl⟩, List.mem_singleton_self i⟩
  | cons g rest ih =>
    obtain ⟨c0, idList0⟩ := g
    unfold appendId
    by_cases h : c0 = count
    · subst h
      rw [if_pos rfl]
      constructor
      · rintro ⟨l, hl, hi⟩
        rcases List.mem_cons.mp hl with e | e
        · obtain ⟨rfl, rfl⟩ := Prod.mk.inj e
          rcases List.mem_append.mp hi with hi | hi
          · exact Or.inl ⟨idList0, List.mem_cons_self _ _, hi⟩
          · exact Or.inr ⟨rfl, List.mem_singleton.mp hi⟩
        · exact Or.inl ⟨l, List.mem_cons_of_mem _ e, hi⟩
      · rintro (⟨l, hl, hi⟩ | ⟨rfl, rfl⟩)
        · rcases List.mem_cons.mp hl with e | e
          · obtain ⟨rfl, rfl⟩ := Prod.mk.inj e
            exact ⟨l ++ [id], List.mem_cons_self _ _, List.mem_append_left _ hi⟩
          · exact ⟨l, List.mem_cons_of_mem _ e, hi⟩
        · exact ⟨idList0 ++ [i], List.mem_cons_self _ _,
            List.mem_append_right _ (List.mem_singleton_self i)⟩
    · rw [if_neg h]
      constructor
      · rintro ⟨l, hl, hi⟩
        rcases List.mem_cons.mp hl with e | e
        · exact Or.inl ⟨l, by rw [e]; exact List.mem_cons_self _ _, hi⟩
        · rcases ih.mp ⟨l, e, hi⟩ with ⟨l2, hl2, hi2⟩ | hr
          · exact Or.inl ⟨l2, List.mem_cons_of_mem _ hl2, hi2⟩
          · exact Or.inr hr
      · rintro (⟨l, hl, hi⟩ | hr)
        · rcases List.mem_cons.mp hl with e | e
          · exact ⟨l, by rw [e]; exact List.mem_cons_self _ _, hi⟩
          · obtain ⟨l2, hl2, hi2⟩ := ih.mpr (Or.inl ⟨l, e, hi⟩)
            exact ⟨l2, List.mem_cons_of_mem _ hl2, hi2⟩
        · obtain ⟨l2, hl2, hi2⟩ := ih.mpr (Or.inr hr)
          exact ⟨l2, List.mem_cons_of_mem _ hl2, hi2⟩

/-- The first loop, from any groups: the counts stay pairwise different. -/
theorem foldl_appendId_nodup (entries : List (Nat × Nat)) (groups : List (Nat × List Nat))
    (h : (groups.map Prod.fst).Nodup) :
    ((entries.foldl (fun acc e => appendId acc e.2 e.1) groups).map Prod.fst).Nodup := by
  induction entries generalizing groups with
  | nil => exact h
  | cons e rest ih => exact ih _ (appendId_nodup groups e.2 e.1 h)

/-- The first loop, from any groups: the group of a count holds the ids it held
and the ids that the entries give that count. -/
theorem foldl_appendId_mem (entries : List (Nat × Nat)) (groups : List (Nat × List Nat))
    (c i : Nat) :
    (∃ idList, (c, idList) ∈ entries.foldl (fun acc e => appendId acc e.2 e.1) groups ∧
        i ∈ idList) ↔
      (∃ idList, (c, idList) ∈ groups ∧ i ∈ idList) ∨ (i, c) ∈ entries := by
  induction entries generalizing groups with
  | nil => simp
  | cons e rest ih =>
    rw [List.foldl_cons, ih, appendId_mem, List.mem_cons]
    obtain ⟨id, count⟩ := e
    simp only [Prod.mk.injEq]
    generalize (∃ idList, (c, idList) ∈ groups ∧ i ∈ idList) = before
    tauto

/-- The groups of `countIdList` have pairwise different counts. -/
theorem countIdList_nodup (matchedIdCount : List (Nat × Nat)) :
    ((countIdList matchedIdCount).map Prod.fst).Nodup :=
  foldl_appendId_nodup matchedIdCount [] List.nodup_nil

/-- The group of a count in `countIdList` holds exactly the ids that the map
gives that count. -/
theorem countIdList_mem (matchedIdCount : List (Nat × Nat)) (c i : Nat) :
    (∃ idList, (c, idList) ∈ countIdList matchedIdCount ∧ i ∈ idList) ↔
      (i, c) ∈ matchedIdCount := by
  unfold countIdList
  rw [foldl_appendId_mem]
  simp

/-- A map gives an id one count. -/
theorem entries_count_unique (matchedIdCount : List (Nat × Nat))
    (hmap : (matchedIdCount.map Prod.fst).Nodup) (i c1 c2 : Nat)
    (h1 : (i, c1) ∈ matchedIdCount) (h2 : (i, c2) ∈ matchedIdCount) : c1 = c2 := by
  induction matchedIdCount with
  | nil => cases h1
  | cons e rest ih =>
    rw [List.map_cons, List.nodup_cons] at hmap
    rcases List.mem_cons.mp h1 with e1 | e1 <;> rcases List.mem_cons.mp h2 with e2 | e2
    · rw [← e1] at e2
      exact ((Prod.mk.inj e2).2).symm
    · exact absurd (List.mem_map_of_mem Prod.fst e2) (by rw [← e1] at hmap; exact hmap.1)
    · exact absurd (List.mem_map_of_mem Prod.fst e1) (by rw [← e2] at hmap; exact hmap.1)
    · exact ih hmap.2 e1 e2

/-- The count of an id of the map is the count of its entry. -/
theorem countOf_eq_some_iff (matchedIdCount : List (Nat × Nat))
    (hmap : (matchedIdCount.map Prod.fst).Nodup) (i c : Nat) :
    countOf matchedIdCount i = some c ↔ (i, c) ∈ matchedIdCount := by
  unfold countOf
  constructor
  · intro h
    obtain ⟨e, he, hc⟩ := Option.map_eq_some'.mp h
    have hi : e.1 = i := by simpa using List.find?_some he
    have hmem := List.mem_of_find?_eq_some he
    obtain ⟨e1, e2⟩ := e
    simp only at hi hc
    rw [← hi, ← hc]
    exact hmem
  · intro h
    cases hf : matchedIdCount.find? (fun e => decide (e.1 = i)) with
    | none =>
      exfalso
      have := List.find?_eq_none.mp hf (i, c) h
      simp at this
    | some e =>
      have hi : e.1 = i := by simpa using List.find?_some hf
      have hmem := List.mem_of_find?_eq_some hf
      obtain ⟨e1, e2⟩ := e
      simp only at hi
      subst hi
      simp only [Option.map_some', Option.some.injEq]
      exact entries_count_unique matchedIdCount hmap e1 e2 c hmem h

/-- An id has no count exactly when the map has no entry of it. -/
theorem countOf_eq_none_iff (matchedIdCount : List (Nat × Nat)) (i : Nat) :
    countOf matchedIdCount i = none ↔ ∀ c, (i, c) ∉ matchedIdCount := by
  unfold countOf
  rw [Option.map_eq_none', List.find?_eq_none]
  constructor
  · intro h c hc
    have := h (i, c) hc
    simp at this
  · intro h e he hi
    obtain ⟨e1, e2⟩ := e
    have : e1 = i := by simpa using hi
    subst this
    exact h e2 he

/-- The per-id update, row by row: each row becomes the row that the map asks for. -/
theorem perIdUpdate_eq_map (matchedIdCount : List (Nat × Nat))
    (hmap : (matchedIdCount.map Prod.fst).Nodup) (table : List BlackListAuditPlanSQL)
    (lastMatchedTime : Nat) :
    perIdUpdate table matchedIdCount lastMatchedTime =
      table.map (rowAfter matchedIdCount lastMatchedTime) := by
  induction matchedIdCount generalizing table with
  | nil =>
    simp only [perIdUpdate, List.foldl_nil]
    rw [List.map_congr_left (g := id)]
    · simp
    · intro r _
      rfl
  | cons e rest ih =>
    obtain ⟨id, count⟩ := e
    rw [List.map_cons, List.nodup_cons] at hmap
    have hnone : countOf rest id = none := by
      rw [countOf_eq_none_iff]
      intro c hc
      exact hmap.1 (List.mem_map.mpr ⟨(id, c), hc, rfl⟩)
    have hstep : perIdUpdate table ((id, count) :: rest) lastMatchedTime =
        perIdUpdate (updateOneId table id count lastMatchedTime) rest lastMatchedTime := rfl
    rw [hstep, ih hmap.2, updateOneId, List.map_map]
    apply List.map_congr_left
    intro r _
    show rowAfter rest lastMatchedTime
        (if r.ID = id then r.matched count lastMatchedTime else r) =
      rowAfter ((id, count) :: rest) lastMatchedTime r
    by_cases hr : r.ID = id
    · subst hr
      have h1 : countOf ((r.ID, count) :: rest) r.ID = some count := by
        simp [countOf]
      have h2 : countOf rest (r.matched count lastMatchedTime).ID = none := hnone
      rw [if_pos rfl]
      unfold rowAfter
      rw [h1, h2]
    · have h1 : countOf ((id, count) :: rest) r.ID = countOf rest r.ID := by
        have : ¬ id = r.ID := fun e => hr e.symm
        simp [countOf, this]
      rw [if_neg hr]
      unfold rowAfter
      rw [h1]

/-- The id lists of groups with pairwise different counts, each holding ids that
the map gives the count of the group, are pairwise disjoint. -/
theorem groups_disjoint (matchedIdCount : List (Nat × Nat))
    (hmap : (matchedIdCount.map Prod.fst).Nodup) (groups : List (Nat × List Nat))
    (hkeys : (groups.map Prod.fst).Nodup)
    (hmem : ∀ g ∈ groups, ∀ i ∈ g.2, (i, g.1) ∈ matchedIdCount) :
    groups.Pairwise (fun g h => ∀ i, i ∈ g.2 → i ∉ h.2) := by
  have hp : groups.Pairwise (fun g h => g.1 ≠ h.1) := by
    have := hkeys
    unfold List.Nodup at this
    rwa [List.pairwise_map] at this
  refine List.Pairwise.imp_of_mem ?_ hp
  intro g h hg hh hne i hig hih
  exact hne (entries_count_unique matchedIdCount hmap i g.1 h.1 (hmem g hg i hig)
    (hmem h hh i hih))

/-- The statement of one group when no sum is out of range. -/
theorem execUpdateMatched_ok (table : List BlackListAuditPlanSQL) (count : Nat)
    (idList : List Nat) (lastMatchedTime : Nat)
    (hfit : ∀ r ∈ table, r.ID ∈ idList → r.MatchedCount + count < 2 ^ 64) :
    execUpdateMatched table count idList lastMatchedTime =
      (table.map (fun r => if r.ID ∈ idList then r.matched count lastMatchedTime else r),
        none) := by
  unfold execUpdateMatched
  rw [if_neg]
  rintro ⟨r, hr, hi, hlarge⟩
  exact absurd (hfit r hr hi) (not_lt.mpr hlarge)

/-- The statement of one group returns no error only when no sum is out of range. -/
theorem execUpdateMatched_err (table : List BlackListAuditPlanSQL) (count : Nat)
    (idList : List Nat) (lastMatchedTime : Nat)
    (h : (execUpdateMatched table count idList lastMatchedTime).2 = none) :
    ∀ r ∈ table, r.ID ∈ idList → r.MatchedCount + count < 2 ^ 64 := by
  intro r hr hi
  by_contra hlarge
  unfold execUpdateMatched at h
  rw [if_pos ⟨r, hr, hi, not_lt.mp hlarge⟩] at h
  cases h

/-- The second loop when no sum is out of range, over groups with pairwise
disjoint id lists that hold ids with the count of their group: no error, and
each row whose id is in a group becomes the row that the map asks for. -/
theorem updateGroups_ok (matchedIdCount : List (Nat × Nat)) (lastMatchedTime : Nat)
    (groups : List (Nat × List Nat))
    (hdisj : groups.Pairwise (fun g h => ∀ i, i ∈ g.2 → i ∉ h.2))
    (hcount : ∀ g ∈ groups, ∀ i ∈ g.2, countOf matchedIdCount i = some g.1)
    (table : List BlackListAuditPlanSQL)
    (hfit : ∀ g ∈ groups, ∀ r ∈ table, r.ID ∈ g.2 → r.MatchedCount + g.1 < 2 ^ 64) :
    updateGroups table groups lastMatchedTime =
      (table.map (fun r =>
        if ∃ g ∈ groups, r.ID ∈ g.2 then rowAfter matchedIdCount lastMatchedTime r else r),
        none) := by
  induction groups generalizing table with
  | nil =>
    unfold updateGroups
    simp
  | cons g rest ih =>
    obtain ⟨c, l⟩ := g
    rw [List.pairwise_cons] at hdisj
    have hhead : ∀ r ∈ table, r.ID ∈ l → r.MatchedCount + c < 2 ^ 64 :=
      fun r hr hi => hfit (c, l) (List.mem_cons_self _ _) r hr hi
    have hfit1 : ∀ g ∈ rest,
        ∀ r ∈ table.map (fun r => if r.ID ∈ l then r.matched c lastMatchedTime else r),
        r.ID ∈ g.2 → r.MatchedCount + g.1 < 2 ^ 64 := by
      intro g hg r1 hr1 hi
      obtain ⟨r, hr, rfl⟩ := List.mem_map.mp hr1
      by_cases hl : r.ID ∈ l
      · rw [if_pos hl] at hi
        exact absurd hi (hdisj.1 g hg r.ID hl)
      · rw [if_neg hl] at hi ⊢
        exact hfit g (List.mem_cons_of_mem _ hg) r hr hi
    unfold updateGroups
    rw [execUpdateMatched_ok table c l lastMatchedTime hhead]
    simp only
    rw [ih hdisj.2 (fun g hg => hcount g (List.mem_cons_of_mem _ hg)) _ hfit1, List.map_map]
    congr 1
    apply List.map_congr_left
    intro r _
    show (if ∃ g ∈ rest, (if r.ID ∈ l then r.matched c lastMatchedTime else r).ID ∈ g.2 then
        rowAfter matchedIdCount lastMatchedTime
          (if r.ID ∈ l then r.matched c lastMatchedTime else r)
      else (if r.ID ∈ l then r.matched c lastMatchedTime else r)) =
      if ∃ g ∈ (c, l) :: rest, r.ID ∈ g.2 then rowAfter matchedIdCount lastMatchedTime r
      else r
    by_cases hl : r.ID ∈ l
    · have hnot : ¬ ∃ g ∈ rest, (r.matched c lastMatchedTime).ID ∈ g.2 := by
        rintro ⟨g, hg, hi⟩
        exact hdisj.1 g hg r.ID hl hi
      have hyes : ∃ g ∈ (c, l) :: rest, r.ID ∈ g.2 := ⟨(c, l), List.mem_cons_self _ _, hl⟩
      have hc := hcount (c, l) (List.mem_cons_self _ _) r.ID hl
      simp only [if_pos hl]
      rw [if_neg hnot, if_pos hyes]
      unfold rowAfter
      rw [hc]
    · simp only [if_neg hl]
      by_cases hrest : ∃ g ∈ rest, r.ID ∈ g.2
      · have hyes : ∃ g ∈ (c, l) :: rest, r.ID ∈ g.2 := by
          obtain ⟨g, hg, hi⟩ := hrest
          exact ⟨g, List.mem_cons_of_mem _ hg, hi⟩
        rw [if_pos hrest, if_pos hyes]
      · have hno : ¬ ∃ g ∈ (c, l) :: rest, r.ID ∈ g.2 := by
          rintro ⟨g, hg, hi⟩
          rcases List.mem_cons.mp hg with e | e
          · rw [e] at hi
            exact hl hi
          · exact hrest ⟨g, e, hi⟩
        rw [if_neg hrest, if_neg hno]

/-- The second loop over groups with pairwise disjoint id lists returns no error
only when no sum is out of range. -/
theorem updateGroups_err (lastMatchedTime : Nat) (groups : List (Nat × List Nat))
    (hdisj : groups.Pairwise (fun g h => ∀ i, i ∈ g.2 → i ∉ h.2))
    (table : List BlackListAuditPlanSQL)
    (h : (updateGroups table groups lastMatchedTime).2 = none) :
    ∀ g ∈ groups, ∀ r ∈ table, r.ID ∈ g.2 → r.MatchedCount + g.1 < 2 ^ 64 := by
  induction groups generalizing table with
  | nil =>
    intro g hg
    cases hg
  | cons g rest ih =>
    obtain ⟨c, l⟩ := g
    rw [List.pairwise_cons] at hdisj
    have hexec : (execUpdateMatched table c l lastMatchedTime).2 = none := by
      cases hx : execUpdateMatched table c l lastMatchedTime with
      | mk table1 err =>
        cases err with
        | none => rfl
        | some e =>
          unfold updateGroups at h
          rw [hx] at h
          cases h
    have hhead := execUpdateMatched_err table c l lastMatchedTime hexec
    unfold updateGroups at h
    rw [execUpdateMatched_ok table c l lastMatchedTime hhead] at h
    simp only at h
    have hrest := ih hdisj.2 _ h
    intro g hg r hr hi
    rcases List.mem_cons.mp hg with e | e
    · rw [e] at hi ⊢
      exact hhead r hr hi
    · have hl : r.ID ∉ l := fun hl => hdisj.1 g e r.ID hl hi
      have hr1 : r ∈ table.map
          (fun r => if r.ID ∈ l then r.matched c lastMatchedTime else r) :=
        List.mem_map.mpr ⟨r, hr, by rw [if_neg hl]⟩
      exact hrest g e r hr1 hi

/-! ## Theorems: `BatchUpdateBlackListCount` and the per-id update -/

/-- The groups that the second loop visits: their counts are pairwise different
and the group of a count holds exactly the ids that the map gives that count. -/
theorem rangeOrder_groups (rangeOrder : List (Nat × List Nat) → List (Nat × List Nat))
    (matchedIdCount : List (Nat × Nat))
    (hrange : (rangeOrder (countIdList matchedIdCount)).Perm (countIdList matchedIdCount)) :
    ((rangeOrder (countIdList matchedIdCount)).map Prod.fst).Nodup ∧
    (∀ g ∈ rangeOrder (countIdList matchedIdCount), ∀ i ∈ g.2, (i, g.1) ∈ matchedIdCount) ∧
    (∀ i c, (i, c) ∈ matchedIdCount →
      ∃ g ∈ rangeOrder (countIdList matchedIdCount), g.1 = c ∧ i ∈ g.2) := by
  refine ⟨(hrange.map Prod.fst).nodup_iff.mpr (countIdList_nodup matchedIdCount), ?_, ?_⟩
  · intro g hg i hi
    exact (countIdList_mem matchedIdCount g.1 i).mp ⟨g.2, hrange.mem_iff.mp hg, hi⟩
  · intro i c hic
    obtain ⟨l, hl, hi⟩ := (countIdList_mem matchedIdCount c i).mpr hic
    exact ⟨(c, l), hrange.mem_iff.mpr hl, rfl, hi⟩

/-- When no sum is out of range, `BatchUpdateBlackListCount` returns no error
and leaves, row by row, the rows that the map asks for. -/
theorem BatchUpdateBlackListCount_ok
    (rangeOrder : List (Nat × List Nat) → List (Nat × List Nat))
    (table : List BlackListAuditPlanSQL) (matchedIdCount : List (Nat × Nat))
    (lastMatchedTime : Nat) (hmap : (matchedIdCount.map Prod.fst).Nodup)
    (hrange : (rangeOrder (countIdList matchedIdCount)).Perm (countIdList matchedIdCount))
    (hfit : ∀ r ∈ table, ∀ count, (r.ID, count) ∈ matchedIdCount → r.MatchedCount + count < 2 ^ 64) :
    BatchUpdateBlackListCount rangeOrder table matchedIdCount lastMatchedTime =
      (table.map (rowAfter matchedIdCount lastMatchedTime), none) := by
  obtain ⟨hkeys, hmem, hall⟩ := rangeOrder_groups rangeOrder matchedIdCount hrange
  have hdisj := groups_disjoint matchedIdCount hmap _ hkeys hmem
  have hcount : ∀ g ∈ rangeOrder (countIdList matchedIdCount), ∀ i ∈ g.2,
      countOf matchedIdCount i = some g.1 :=
    fun g hg i hi => (countOf_eq_some_iff matchedIdCount hmap i g.1).mpr (hmem g hg i hi)
  unfold BatchUpdateBlackListCount
  rw [updateGroups_ok matchedIdCount lastMatchedTime _ hdisj hcount table
    (fun g hg r hr hi => hfit r hr g.1 (hmem g hg r.ID hi))]
  congr 1
  apply List.map_congr_left
  intro r _
  by_cases hg : ∃ g ∈ rangeOrder (countIdList matchedIdCount), r.ID ∈ g.2
  · rw [if_pos hg]
  · rw [if_neg hg]
    have hnone : countOf matchedIdCount r.ID = none := by
      rw [countOf_eq_none_iff]
      intro c hc
      obtain ⟨g, hgm, _, hi⟩ := hall r.ID c hc
      exact hg ⟨g, hgm, hi⟩
    unfold rowAfter
    rw [hnone]

/-- When `BatchUpdateBlackListCount` returns no error, no sum is out of range. -/
theorem BatchUpdateBlackListCount_fit
    (rangeOrder : List (Nat × List Nat) → List (Nat × List Nat))
    (table : List BlackListAuditPlanSQL) (matchedIdCount : List (Nat × Nat))
    (lastMatchedTime : Nat) (hmap : (matchedIdCount.map Prod.fst).Nodup)
    (hrange : (rangeOrder (countIdList matchedIdCount)).Perm (countIdList matchedIdCount))
    (h : (BatchUpdateBlackListCount rangeOrder table matchedIdCount lastMatchedTime).2 = none) :
    ∀ r ∈ table, ∀ count, (r.ID, count) ∈ matchedIdCount → r.MatchedCount + count < 2 ^ 64 := by
  obtain ⟨hkeys, hmem, hall⟩ := rangeOrder_groups rangeOrder matchedIdCount hrange
  have hdisj := groups_disjoint matchedIdCount hmap _ hkeys hmem
  intro r hr count hc
  obtain ⟨g, hg, hgc, hi⟩ := hall r.ID count hc
  rw [← hgc]
  exact updateGroups_err lastMatchedTime _ hdisj table h g hg r hr hi

/-- The count of an id is the same in two lists of the entries of one map. -/
theorem countOf_perm (entries matchedIdCount : List (Nat × Nat))
    (hmap : (matchedIdCount.map Prod.fst).Nodup) (hperm : entries.Perm matchedIdCount)
    (i : Nat) : countOf entries i = countOf matchedIdCount i := by
  have hmap2 : (entries.map Prod.fst).Nodup := (hperm.map Prod.fst).nodup_iff.mpr hmap
  apply Option.ext
  intro c
  rw [Option.mem_def, Option.mem_def, countOf_eq_some_iff entries hmap2,
    countOf_eq_some_iff matchedIdCount hmap, hperm.mem_iff]

/-- C23: `BatchUpdateBlackListCount` on a map of blacklist id to matched count,
whatever the order in which `range` visits the entries of the map and the groups.
Each id of the map lies in exactly one count group, that of its count. The call
returns no error exactly when no sum `matched_count + count` is beyond 2^64 - 1,
and then the table it leaves is that of the per-id update: a row whose id is in
the map has its matched count increased by the count of its id, once, and its
last match time set to the given time; a row whose id is not in the map is
unchanged; and every order of the entries and of the groups leaves the same
table. -/
theorem BatchUpdateBlackListCount_per_id
    (rangeOrder : List (Nat × List Nat) → List (Nat × List Nat))
    (table : List BlackListAuditPlanSQL) (matchedIdCount : List (Nat × Nat))
    (lastMatchedTime : Nat) (hmap : (matchedIdCount.map Prod.fst).Nodup)
    (hrange : (rangeOrder (countIdList matchedIdCount)).Perm (countIdList matchedIdCount)) :
    (∀ id count, (id, count) ∈ matchedIdCount →
      ∃ g ∈ rangeOrder (countIdList matchedIdCount), g.1 = count ∧ id ∈ g.2 ∧
        ∀ h ∈ rangeOrder (countIdList matchedIdCount), id ∈ h.2 → h = g) ∧
    ((BatchUpdateBlackListCount rangeOrder table matchedIdCount lastMatchedTime).2 = none ↔
      ∀ r ∈ table, ∀ count, (r.ID, count) ∈ matchedIdCount → r.MatchedCount + count < 2 ^ 64) ∧
    ((BatchUpdateBlackListCount rangeOrder table matchedIdCount lastMatchedTime).2 = none →
      (BatchUpdateBlackListCount rangeOrder table matchedIdCount lastMatchedTime).1 =
        perIdUpdate table matchedIdCount lastMatchedTime ∧
      (BatchUpdateBlackListCount rangeOrder table matchedIdCount lastMatchedTime).1 =
        table.map (rowAfter matchedIdCount lastMatchedTime)) ∧
    (∀ r : BlackListAuditPlanSQL,
      (∀ count, (r.ID, count) ∈ matchedIdCount →
        rowAfter matchedIdCount lastMatchedTime r = r.matched count lastMatchedTime ∧
        (rowAfter matchedIdCount lastMatchedTime r).MatchedCount = r.MatchedCount + count ∧
        (rowAfter matchedIdCount lastMatchedTime r).LastMatchTime = some lastMatchedTime) ∧
      ((∀ count, (r.ID, count) ∉ matchedIdCount) →
        rowAfter matchedIdCount lastMatchedTime r = r)) ∧
    (∀ (entries : List (Nat × Nat))
      (rangeOrder2 : List (Nat × List Nat) → List (Nat × List Nat)),
      entries.Perm matchedIdCount →
      (rangeOrder2 (countIdList entries)).Perm (countIdList entries) →
      (BatchUpdateBlackListCount rangeOrder table matchedIdCount lastMatchedTime).2 = none →
      BatchUpdateBlackListCount rangeOrder2 table entries lastMatchedTime =
        BatchUpdateBlackListCount rangeOrder table matchedIdCount lastMatchedTime) := by
  obtain ⟨hkeys, hmem, hall⟩ := rangeOrder_groups rangeOrder matchedIdCount hrange
  refine ⟨?_, ?_, ?_, ?_, ?_⟩
  · intro id count hic
    obtain ⟨g, hg, hgc, hi⟩ := hall id count hic
    refine ⟨g, hg, hgc, hi, ?_⟩
    intro h hh hih
    have hc : h.1 = g.1 :=
      entries_count_unique matchedIdCount hmap id h.1 g.1 (hmem h hh id hih) (hmem g hg id hi)
    exact List.inj_on_of_nodup_map hkeys hh hg hc
  · constructor
    · exact BatchUpdateBlackListCount_fit rangeOrder table matchedIdCount lastMatchedTime hmap
        hrange
    · intro hfit
      rw [BatchUpdateBlackListCount_ok rangeOrder table matchedIdCount lastMatchedTime hmap
        hrange hfit]
  · intro h
    have hfit := BatchUpdateBlackListCount_fit rangeOrder table matchedIdCount lastMatchedTime
      hmap hrange h
    rw [BatchUpdateBlackListCount_ok rangeOrder table matchedIdCount lastMatchedTime hmap
      hrange hfit, perIdUpdate_eq_map matchedIdCount hmap]
    exact ⟨rfl, rfl⟩
  · intro r
    constructor
    · intro count hc
      have h := (countOf_eq_some_iff matchedIdCount hmap r.ID count).mpr hc
      have hrow : rowAfter matchedIdCount lastMatchedTime r =
          r.matched count lastMatchedTime := by
        unfold rowAfter
        rw [h]
      rw [hrow]
      exact ⟨rfl, rfl, rfl⟩
    · intro hno
      have h := (countOf_eq_none_iff matchedIdCount r.ID).mpr hno
      unfold rowAfter
      rw [h]
  · intro entries rangeOrder2 hperm hrange2 h
    have hfit := BatchUpdateBlackListCount_fit rangeOrder table matchedIdCount lastMatchedTime
      hmap hrange h
    have hmap2 : (entries.map Prod.fst).Nodup := (hperm.map Prod.fst).nodup_iff.mpr hmap
    have hfit2 : ∀ r ∈ table, ∀ count, (r.ID, count) ∈ entries →
        r.MatchedCount + count < 2 ^ 64 :=
      fun r hr count hc => hfit r hr count (hperm.mem_iff.mp hc)
    rw [BatchUpdateBlackListCount_ok rangeOrder table matchedIdCount lastMatchedTime hmap
      hrange hfit,
      BatchUpdateBlackListCount_ok rangeOrder2 table entries lastMatchedTime hmap2 hrange2
        hfit2]
    congr 1
    apply List.map_congr_left
    intro r _
    unfold rowAfter
    rw [countOf_perm entries matchedIdCount hmap hperm]

/-- Witness of C23: the three sample rows and the sample map, the groups visited
in the reverse of their order in `countIdList`: no error, and the table is that
of the per-id update: row 1 has the count 14, row 2 the count 9, both the time
100, and row 3 is as before. -/
theorem BatchUpdateBlackListCount_per_id_witness :
    (sample.matchedIdCount.map Prod.fst).Nodup ∧
    countIdList sample.matchedIdCount = [(4, [1, 5]), (9, [2])] ∧
    (BatchUpdateBlackListCount List.reverse sample.blacklist sample.matchedIdCount 100).2 =
      none ∧
    (BatchUpdateBlackListCount List.reverse sample.blacklist sample.matchedIdCount 100).1 =
      perIdUpdate sample.blacklist sample.matchedIdCount 100 ∧
    (perIdUpdate sample.blacklist sample.matchedIdCount 100).map
        (fun r => (r.ID, r.MatchedCount, r.LastMatchTime)) =
      [(1, 14, some 100), (2, 9, some 100), (3, 7, none)] :=
  have hmap : (sample.matchedIdCount.map Prod.fst).Nodup := by decide
  have hnone : (BatchUpdateBlackListCount List.reverse sample.blacklist
      sample.matchedIdCount 100).2 = none := by decide
  ⟨hmap, rfl, hnone,
    ((BatchUpdateBlackListCount_per_id List.reverse sample.blacklist sample.matchedIdCount 100
      hmap (List.reverse_perm _)).2.2.1 hnone).1, by decide⟩

/-! ## Theorems: the arithmetic of DOUBLE -/

theorem mysql.roundHalfEven_error (q : ℚ) : |(mysql.roundHalfEven q : ℚ) - q| ≤ 1 / 2 := by
  unfold mysql.roundHalfEven
  have h1 := Int.floor_le q
  have h2 := Int.lt_floor_add_one q
  split_ifs with ha hb hc
  · rw [abs_le]; constructor <;> linarith
  · push_cast; rw [abs_le]; constructor <;> linarith
  · rw [abs_le]; constructor <;> linarith
  · push_cast; rw [abs_le]; constructor <;> linarith

theorem mysql.roundHalfEven_int (n : ℤ) : mysql.roundHalfEven (n : ℚ) = n := by
  unfold mysql.roundHalfEven
  simp

theorem mysql.ulp_pos (q : ℚ) : 0 < mysql.ulp q := by
  unfold mysql.ulp
  positivity

theorem mysql.double_error_ulp (q : ℚ) : |mysql.double q - q| ≤ mysql.ulp q / 2 := by
  have hpos := mysql.ulp_pos q
  have h := mysql.roundHalfEven_error (q / mysql.ulp q)
  have e : mysql.double q - q = ((mysql.roundHalfEven (q / mysql.ulp q) : ℚ) - q / mysql.ulp q) * mysql.ulp q := by
    unfold mysql.double
    field_simp
  rw [e, abs_mul, abs_of_pos hpos]
  calc |(mysql.roundHalfEven (q / mysql.ulp q) : ℚ) - q / mysql.ulp q| * mysql.ulp q ≤ 1 / 2 * mysql.ulp q :=
        mul_le_mul_of_nonneg_right h hpos.le
    _ = mysql.ulp q / 2 := by ring

theorem mysql.double_zero : mysql.double 0 = 0 := by
  unfold mysql.double
  simp [mysql.roundHalfEven]

theorem mysql.eta_pos : 0 < mysql.eta := by
  unfold mysql.eta
  positivity

theorem mysql.eta_le : mysql.eta ≤ 1 / 2 ^ 100 := by
  unfold mysql.eta
  have h : (2 : ℚ) ^ (-(1075 : ℤ)) ≤ (2 : ℚ) ^ (-(100 : ℤ)) :=
    zpow_le_zpow_right₀ (by norm_num) (by norm_num)
  have e : (2 : ℚ) ^ (-(100 : ℤ)) = 1 / 2 ^ 100 := by
    rw [zpow_neg]
    norm_num
  rw [← e]
  exact h

theorem mysql.ulp_le (q : ℚ) (hq : q ≠ 0) : mysql.ulp q ≤ |q| / 2 ^ 52 + 2 * mysql.eta := by
  have habs : 0 < |q| := abs_pos.mpr hq
  unfold mysql.ulp
  by_cases h : -1022 ≤ Int.log 2 |q|
  · rw [max_eq_left h]
    have h1 : (2 : ℚ) ^ (Int.log 2 |q| - 52) = (2 : ℚ) ^ Int.log 2 |q| / 2 ^ 52 := by
      rw [zpow_sub₀ (by norm_num : (2 : ℚ) ≠ 0)]
      norm_cast
    rw [h1]
    have h2 : ((2 : ℕ) : ℚ) ^ Int.log 2 |q| ≤ |q| := Int.zpow_log_le_self (by norm_num) habs
    have h3 : (2 : ℚ) ^ Int.log 2 |q| / 2 ^ 52 ≤ |q| / 2 ^ 52 := by
      apply div_le_div_of_nonneg_right _ (by positivity)
      exact_mod_cast h2
    have := mysql.eta_pos
    linarith
  · rw [max_eq_right (le_of_lt (not_le.mp h))]
    have h1 : (2 : ℚ) ^ ((-1022 : ℤ) - 52) = 2 * mysql.eta := by
      unfold mysql.eta
      rw [show ((-1022 : ℤ) - 52) = -(1075 : ℤ) + 1 by norm_num,
        zpow_add₀ (by norm_num : (2 : ℚ) ≠ 0)]
      ring
    rw [h1]
    have : (0 : ℚ) ≤ |q| / 2 ^ 52 := by positivity
    linarith

theorem mysql.double_error (q : ℚ) : |mysql.double q - q| ≤ |q| / 2 ^ 53 + mysql.eta := by
  by_cases hq : q = 0
  · subst hq
    rw [mysql.double_zero]
    have := mysql.eta_pos
    simp
    exact this.le
  · have h1 := mysql.double_error_ulp q
    have h2 := mysql.ulp_le q hq
    have e1 : |q| / 2 ^ 53 = |q| / 2 ^ 52 / 2 := by ring
    linarith

/-- In the binade of exponent `e`. -/
theorem mysql.log_eq_of_binade (q : ℚ) (e : ℤ) (h1 : (2 : ℚ) ^ e ≤ |q|) (h2 : |q| < (2 : ℚ) ^ (e + 1)) :
    Int.log 2 |q| = e := by
  have hpos : 0 < |q| := lt_of_lt_of_le (by positivity) h1
  apply le_antisymm
  · have := (Int.lt_zpow_iff_log_lt (b := 2) (by norm_num) hpos (x := e + 1)).mp
      (by exact_mod_cast h2)
    omega
  · exact (Int.zpow_le_iff_le_log (b := 2) (by norm_num) hpos).mp (by exact_mod_cast h1)

theorem mysql.double_of_binade (q : ℚ) (e : ℤ) (h1 : (2 : ℚ) ^ e ≤ |q|)
    (h2 : |q| < (2 : ℚ) ^ (e + 1)) (he : -1022 ≤ e) :
    mysql.double q = (mysql.roundHalfEven (q / (2 : ℚ) ^ (e - 52)) : ℚ) * (2 : ℚ) ^ (e - 52) := by
  unfold mysql.double mysql.ulp
  rw [mysql.log_eq_of_binade q e h1 h2, max_eq_left he]

/-- Integers up to 2^53 in absolute value are doubles. -/
theorem mysql.double_int (n : ℤ) (h : |n| ≤ 2 ^ 53) : mysql.double (n : ℚ) = n := by
  by_cases hn : n = 0
  · subst hn
    simpa using mysql.double_zero
  have habs : (1 : ℚ) ≤ |(n : ℚ)| := by
    have : 1 ≤ |n| := Int.one_le_abs hn
    exact_mod_cast this
  have hle : |(n : ℚ)| ≤ 2 ^ 53 := by exact_mod_cast h
  have hpos : 0 < |(n : ℚ)| := lt_of_lt_of_le one_pos habs
  have hlog0 : 0 ≤ Int.log 2 |(n : ℚ)| := by
    have := (Int.zpow_le_iff_le_log (b := 2) (by norm_num) hpos (x := 0)).mp (by simpa using habs)
    exact this
  have hlog53 : Int.log 2 |(n : ℚ)| ≤ 53 := by
    have h1 := Int.log_mono_right (b := 2) hpos hle
    have h2 : Int.log 2 ((2 : ℚ) ^ 53) = 53 := by
      have h3 := Int.log_zpow (R := ℚ) (b := 2) (by norm_num) 53
      have e : ((2 : ℕ) : ℚ) ^ (53 : ℤ) = (2 : ℚ) ^ 53 := by norm_num
      rw [e] at h3
      exact h3
    omega
  -- the quotient by the unit of the last place is an integer
  have hint : ∃ m : ℤ, (n : ℚ) / mysql.ulp (n : ℚ) = m := by
    unfold mysql.ulp
    rw [max_eq_left (by omega)]
    by_cases h53 : Int.log 2 |(n : ℚ)| = 53
    · rw [h53]
      have hge : (2 : ℚ) ^ (53 : ℤ) ≤ |(n : ℚ)| := by
        have := Int.zpow_log_le_self (R := ℚ) (b := 2) (by norm_num) hpos
        rw [h53] at this
        exact_mod_cast this
      have heq : |(n : ℚ)| = 2 ^ 53 := le_antisymm hle (by exact_mod_cast hge)
      rcases abs_choice (n : ℚ) with hc | hc
      · refine ⟨2 ^ 52, ?_⟩
        rw [hc] at heq
        rw [heq]
        norm_num
      · refine ⟨-2 ^ 52, ?_⟩
        rw [hc] at heq
        have : (n : ℚ) = -2 ^ 53 := by linarith
        rw [this]
        norm_num
    · have hlt : Int.log 2 |(n : ℚ)| ≤ 52 := by omega
      obtain ⟨k, hk⟩ : ∃ k : ℕ, (52 : ℤ) - Int.log 2 |(n : ℚ)| = k :=
        ⟨(52 - Int.log 2 |(n : ℚ)|).toNat, by omega⟩
      refine ⟨n * 2 ^ k, ?_⟩
      have e : Int.log 2 |(n : ℚ)| - 52 = -(k : ℤ) := by omega
      rw [e, zpow_neg, div_inv_eq_mul, zpow_natCast]
      push_cast
      ring
  obtain ⟨m, hm⟩ := hint
  unfold mysql.double
  rw [hm, mysql.roundHalfEven_int, ← hm]
  have := mysql.ulp_pos (n : ℚ)
  field_simp


/-! ## Theorems: the divisor of `UpdateSlowLogAuditPlanSQLs` -/

/-- The quotient by a sum of two zero counters is NULL, whatever is divided. -/
theorem mysql.div_zero_counters (numerator : Option ℚ) :
    mysql.div numerator (mysql.add (some 0) (some 0)) = none := by
  cases numerator <;> simp [mysql.div, mysql.add, mysql.double_zero]

/-- C12, the code at the failing input: a stored and an incoming record that
both have counter 0 give the divisor `COALESCE(counter, 0) + COALESCE(counter, 1)`
the value 0; no 1 takes its place, the division yields NULL and both merged
averages are the JSON literal `null`. -/
theorem UpdateSlowLogAuditPlanSQLs_zero_divisor :
    mysql.add (mysql.COALESCE (mysql.num sample.zeroStored.counter) (some 0))
      (mysql.COALESCE (mysql.num sample.zeroIncoming.counter) (some 1)) = some 0 ∧
    (UpdateSlowLogAuditPlanSQLs.info sample.zeroStored sample.zeroIncoming).query_time_avg =
      .null ∧
    (UpdateSlowLogAuditPlanSQLs.info sample.zeroStored sample.zeroIncoming).row_examined_avg =
      .null := by
  refine ⟨?_, ?_, ?_⟩
  · simp [sample.zeroStored, sample.zeroIncoming, mysql.num, mysql.COALESCE, mysql.add,
      mysql.double_zero]
  · simp only [UpdateSlowLogAuditPlanSQLs.info, UpdateSlowLogAuditPlanSQLs.query_time_avg,
      sample.zeroStored, sample.zeroIncoming, mysql.num, mysql.COALESCE,
      mysql.div_zero_counters]
    rfl
  · simp only [UpdateSlowLogAuditPlanSQLs.info, UpdateSlowLogAuditPlanSQLs.row_examined_avg,
      sample.zeroStored, sample.zeroIncoming, mysql.num, mysql.COALESCE,
      mysql.div_zero_counters]
    rfl

/-! ## Theorems: the counter -/

/-- The sum of two integers is exact in DOUBLE when the integers and their sum
are at most 2^53 in absolute value. -/
theorem mysql.add_int (m n : ℤ) (hm : |m| ≤ 2 ^ 53) (hn : |n| ≤ 2 ^ 53)
    (hs : |m + n| ≤ 2 ^ 53) :
    mysql.add (some (m : ℚ)) (some (n : ℚ)) = some ((m + n : ℤ) : ℚ) := by
  simp only [mysql.add]
  rw [mysql.double_int m hm, mysql.double_int n hn]
  have h := mysql.double_int (m + n) hs
  push_cast at h ⊢
  rw [h]

/-- The cast of an integer to `SIGNED` is the integer. -/
theorem mysql.castSigned_int (n : ℤ) : mysql.castSigned (some (n : ℚ)) = some (n : ℚ) := by
  simp [mysql.castSigned, mysql.roundHalfEven_int]

/-- An integer of at most 2^53 in absolute value is within the signed 64-bit range. -/
theorem mysql.signedOutOfRange_int (n : ℤ) (h : |n| ≤ 2 ^ 53) :
    mysql.signedOutOfRange (some (n : ℚ)) = false := by
  have h1 := (abs_le.mp h).1
  have h2 := (abs_le.mp h).2
  simp only [mysql.signedOutOfRange, mysql.roundHalfEven_int, decide_eq_false_iff_not, not_or,
    not_lt]
  constructor <;> omega

/-- The counter expression of the four merge statements on two integer counters
whose sum is exact in DOUBLE: the sum, and no out of range error. -/
theorem mysql.counter_sum (info values : Info) (m n : ℤ)
    (hm : info.counter.orZero = m) (hn : values.counter.orZero = n)
    (hmb : |m| ≤ 2 ^ 53) (hnb : |n| ≤ 2 ^ 53) (hs : |m + n| ≤ 2 ^ 53) :
    mysql.JSON_SET (mysql.castSigned
      (mysql.add (mysql.COALESCE (mysql.num values.counter) (some 0))
        (mysql.COALESCE (mysql.num info.counter) (some 0)))) =
      .value (info.counter.orZero + values.counter.orZero) ∧
    mysql.signedOutOfRange
      (mysql.add (mysql.COALESCE (mysql.num values.counter) (some 0))
        (mysql.COALESCE (mysql.num info.counter) (some 0))) = false := by
  rw [mysql.COALESCE_num_zero, mysql.COALESCE_num_zero, hm, hn,
    mysql.add_int n m hnb hmb (by rwa [add_comm])]
  constructor
  · rw [mysql.castSigned_int]
    simp only [mysql.JSON_SET]
    push_cast
    rw [add_comm]
  · exact mysql.signedOutOfRange_int (n + m) (by rwa [add_comm])

/-- C14, as the code has it: in each merge path the merged counter is the stored
counter plus the incoming counter, a missing counter counting as 0, whenever the
two counters are integers and they and their sum are at most 2^53 in absolute
value, the range in which the DOUBLE addition of the statement is exact; the
cast to `SIGNED` then raises no error. -/
theorem merged_counter_is_sum (info values : Info) (m n : ℤ)
    (hm : info.counter.orZero = m) (hn : values.counter.orZero = n)
    (hmb : |m| ≤ 2 ^ 53) (hnb : |n| ≤ 2 ^ 53) (hs : |m + n| ≤ 2 ^ 53) :
    (UpdateDefaultAuditPlanSQLs.info info values).counter =
      .value (info.counter.orZero + values.counter.orZero) ∧
    (UpdateSlowLogAuditPlanSQLs.info info values).counter =
      .value (info.counter.orZero + values.counter.orZero) ∧
    (UpdateSlowLogCollectAuditPlanSQLs.info info values).counter =
      .value (info.counter.orZero + values.counter.orZero) ∧
    (UpdateSlowLogCollectAuditPlanSQLsV2.info info values).counter =
      .value (info.counter.orZero + values.counter.orZero) ∧
    UpdateDefaultAuditPlanSQLs.fails info values = false :=
  ⟨(mysql.counter_sum info values m n hm hn hmb hnb hs).1,
    (mysql.counter_sum info values m n hm hn hmb hnb hs).1,
    (mysql.counter_sum info values m n hm hn hmb hnb hs).1,
    (mysql.counter_sum info values m n hm hn hmb hnb hs).1,
    (mysql.counter_sum info values m n hm hn hmb hnb hs).2⟩

/-- Witness of the amended C14: counters 3 and 5 give 8. -/
theorem merged_counter_is_sum_witness :
    sample.storedInfo.counter.orZero = ((3 : ℤ) : ℚ) ∧
    sample.incomingInfo.counter.orZero = ((5 : ℤ) : ℚ) ∧
    (UpdateDefaultAuditPlanSQLs.info sample.storedInfo sample.incomingInfo).counter =
      .value (sample.storedInfo.counter.orZero + sample.incomingInfo.counter.orZero) ∧
    sample.storedInfo.counter.orZero + sample.incomingInfo.counter.orZero = 8 :=
  have h3 : sample.storedInfo.counter.orZero = ((3 : ℤ) : ℚ) := by
    norm_num [sample.storedInfo, JSONField.orZero, mysql.num, mysql.COALESCE]
  have h5 : sample.incomingInfo.counter.orZero = ((5 : ℤ) : ℚ) := by
    norm_num [sample.incomingInfo, JSONField.orZero, mysql.num, mysql.COALESCE]
  ⟨h3, h5, (merged_counter_is_sum sample.storedInfo sample.incomingInfo 3 5 h3 h5
    (by norm_num) (by norm_num) (by norm_num)).1, by rw [h3, h5]; norm_num⟩

/-- The DOUBLE nearest to 2^53 + 1 is 2^53: the tie goes to the even significand. -/
theorem mysql.double_tie : mysql.double 9007199254740993 = 9007199254740992 := by
  rw [mysql.double_of_binade 9007199254740993 53 (by norm_num [abs_of_pos])
    (by norm_num [abs_of_pos]) (by norm_num)]
  have hr : mysql.roundHalfEven (9007199254740993 / (2 : ℚ) ^ ((53 : ℤ) - 52)) =
      4503599627370496 := by
    have hf : ⌊(9007199254740993 : ℚ) / (2 : ℚ) ^ ((53 : ℤ) - 52)⌋ = 4503599627370496 := by
      rw [Int.floor_eq_iff]
      norm_num
    unfold mysql.roundHalfEven
    rw [hf]
    norm_num
  rw [hr]
  norm_num

/-- Counterexample to C14 as stated: a stored counter of 2^53 and an incoming
counter of 1 have the sum 2^53 + 1, and the merged counter of each path is 2^53. -/
theorem merged_counter_not_sum :
    sample.hugeCounter.counter.orZero + sample.oneCounter.counter.orZero =
      9007199254740993 ∧
    (UpdateDefaultAuditPlanSQLs.info sample.hugeCounter sample.oneCounter).counter =
      .value 9007199254740992 ∧
    (UpdateSlowLogAuditPlanSQLs.info sample.hugeCounter sample.oneCounter).counter =
      .value 9007199254740992 ∧
    (UpdateSlowLogCollectAuditPlanSQLs.info sample.hugeCounter sample.oneCounter).counter =
      .value 9007199254740992 ∧
    (UpdateSlowLogCollectAuditPlanSQLsV2.info sample.hugeCounter sample.oneCounter).counter =
      .value 9007199254740992 := by
  have h1 : mysql.double 1 = 1 := by
    simpa using mysql.double_int 1 (by norm_num)
  have h2 : mysql.double 9007199254740992 = 9007199254740992 := by
    simpa using mysql.double_int 9007199254740992 (by norm_num)
  have hsum : mysql.castSigned (mysql.add (some 1) (some 9007199254740992)) =
      some 9007199254740992 := by
    simp only [mysql.add, h1, h2]
    rw [show (1 : ℚ) + 9007199254740992 = 9007199254740993 by norm_num, mysql.double_tie]
    simpa using mysql.castSigned_int 9007199254740992
  refine ⟨?_, ?_, ?_, ?_, ?_⟩
  · norm_num [sample.hugeCounter, sample.oneCounter, JSONField.orZero, mysql.num,
      mysql.COALESCE]
  · simp only [UpdateDefaultAuditPlanSQLs.info, sample.hugeCounter, sample.oneCounter,
      mysql.num, mysql.COALESCE, hsum, mysql.JSON_SET]
  · simp only [UpdateSlowLogAuditPlanSQLs.info, UpdateSlowLogAuditPlanSQLs.counter,
      sample.hugeCounter, sample.oneCounter, mysql.num, mysql.COALESCE, hsum, mysql.JSON_SET]
  · simp only [UpdateSlowLogCollectAuditPlanSQLs.info, sample.hugeCounter, sample.oneCounter,
      mysql.num, mysql.COALESCE, hsum, mysql.JSON_SET]
  · simp only [UpdateSlowLogCollectAuditPlanSQLsV2.info, sample.hugeCounter,
      sample.oneCounter, mysql.num, mysql.COALESCE, hsum, mysql.JSON_SET]

/-! ## Theorems: the batch statement with its errors -/

/-- The result of a merge statement none of whose value tuples raises an error:
the value tuples of the records, taken in their order, and no error. -/
theorem execInsertOnDuplicateKeyUpdate_ok
    (update : AuditPlanSQLV2 → AuditPlanSQLV2 → AuditPlanSQLV2) (fails : Info → Info → Bool)
    (Md5String : String → String) (table : Table) (auditPlanId : Nat)
    (sqls : List AuditPlanSQLV2) (hne : sqls ≠ [])
    (hfails : batchFails update fails table (sqls.map (valuesRow Md5String auditPlanId)) = false) :
    execInsertOnDuplicateKeyUpdate update fails table
      (getBatchInsertRawSQL Md5String auditPlanId sqls) =
    ((sqls.map (valuesRow Md5String auditPlanId)).foldl (insertOnDuplicateKeyUpdate update) table,
      none) := by
  unfold execInsertOnDuplicateKeyUpdate
  rw [valueTuples_getBatchInsertRawSQL]
  cases sqls with
  | nil => exact absurd rfl hne
  | cons sql rest =>
    rw [List.map_cons] at hfails ⊢
    simp only [hfails]
    rfl

/-- No value tuple raises an error when the clause does not fail on any tuple
and the row that the tuples before it have left under its key. -/
theorem batchFails_eq_false
    (update : AuditPlanSQLV2 → AuditPlanSQLV2 → AuditPlanSQLV2)
    (hkey : ∀ stored incoming, (update stored incoming).uniqueKey = stored.uniqueKey)
    (fails : Info → Info → Bool) (rows : List AuditPlanSQLV2) (table : Table)
    (h : ∀ pre row post, rows = pre ++ row :: post → ∀ stored,
      (pre.filter (fun r => decide (r.uniqueKey = row.uniqueKey))).foldl (mergeInto update)
        (table.find row.uniqueKey) = some stored →
      fails stored.Info row.Info = false) :
    batchFails update fails table rows = false := by
  induction rows generalizing table with
  | nil => rfl
  | cons row rest ih =>
    unfold batchFails
    rw [Bool.or_eq_false_iff]
    constructor
    · unfold tupleFails
      cases hf : table.find row.uniqueKey with
      | none => rfl
      | some stored => exact h [] row rest rfl stored (by simpa using hf)
    · apply ih
      intro pre r post hrest stored hst
      apply h (row :: pre) r post (by rw [hrest]; rfl) stored
      rw [Table.find_insertOnDuplicateKeyUpdate update hkey] at hst
      by_cases hk : row.uniqueKey = r.uniqueKey
      · rw [if_pos hk] at hst
        rw [List.filter_cons_of_pos (by simpa using hk), List.foldl_cons]
        exact hst
      · rw [if_neg hk] at hst
        rw [List.filter_cons_of_neg (by simpa using hk)]
        exact hst

/-- The row that merged tuples leave is the row found before, one of the
tuples, or the result of an update. -/
theorem foldl_mergeInto_cases
    (update : AuditPlanSQLV2 → AuditPlanSQLV2 → AuditPlanSQLV2)
    (rows : List AuditPlanSQLV2) (state : Option AuditPlanSQLV2) (merged : AuditPlanSQLV2)
    (h : rows.foldl (mergeInto update) state = some merged) :
    state = some merged ∨ merged ∈ rows ∨ ∃ stored incoming, merged = update stored incoming := by
  induction rows generalizing state with
  | nil => exact Or.inl h
  | cons row rest ih =>
    rw [List.foldl_cons] at h
    rcases ih _ h with h1 | h1 | h1
    · cases state with
      | none =>
        simp only [mergeInto, Option.some.injEq] at h1
        exact Or.inr (Or.inl (by rw [← h1]; exact List.mem_cons_self _ _))
      | some stored =>
        simp only [mergeInto, Option.some.injEq] at h1
        exact Or.inr (Or.inr ⟨stored, row, h1.symm⟩)
    · exact Or.inr (Or.inl (List.mem_cons_of_mem _ h1))
    · exact Or.inr (Or.inr h1)

/-- The counter of the row under a key after merging tuples with natural
counters: the counter found before plus the counters of the tuples, as long as
that sum is at most 2^53. -/
theorem foldl_mergeInto_counter
    (update : AuditPlanSQLV2 → AuditPlanSQLV2 → AuditPlanSQLV2)
    (hcounter : ∀ stored incoming, (update stored incoming).Info.counter =
      mysql.JSON_SET (mysql.castSigned
        (mysql.add (mysql.COALESCE (mysql.num incoming.Info.counter) (some 0))
          (mysql.COALESCE (mysql.num stored.Info.counter) (some 0)))))
    (rows : List AuditPlanSQLV2) (state : Option AuditPlanSQLV2)
    (hstate : ∀ stored, state = some stored → stored.Info.natCounter)
    (hrows : ∀ r ∈ rows, r.Info.natCounter)
    (hrange : stateCounter state + (rows.map (fun r => r.Info.counter.orZero)).sum ≤ 2 ^ 53)
    (merged : AuditPlanSQLV2) (hmerged : rows.foldl (mergeInto update) state = some merged) :
    merged.Info.counter =
      .value (stateCounter state + (rows.map (fun r => r.Info.counter.orZero)).sum) := by
  induction rows generalizing state with
  | nil =>
    simp only [List.foldl_nil] at hmerged
    obtain ⟨n, hn⟩ := hstate merged hmerged
    subst hmerged
    simp [stateCounter, hn, JSONField.orZero, mysql.num, mysql.COALESCE]
  | cons row rest ih =>
    obtain ⟨n, hn⟩ := hrows row (List.mem_cons_self _ _)
    have hrest : ∀ r ∈ rest, r.Info.natCounter := fun r hr =>
      hrows r (List.mem_cons_of_mem _ hr)
    have hnonneg := counters_sum_nonneg rest hrest
    rw [List.map_cons, List.sum_cons, Info.natCounter_orZero _ n hn] at hrange ⊢
    rw [List.foldl_cons] at hmerged
    cases state with
    | none =>
      have hnext : stateCounter (mergeInto update none row) = n := by
        simp [mergeInto, stateCounter, Info.natCounter_orZero _ n hn]
      have := ih (mergeInto update none row)
        (fun stored hs => by
          simp only [mergeInto, Option.some.injEq] at hs
          subst hs
          exact ⟨n, hn⟩)
        hrest (by rw [hnext]; simpa [stateCounter] using hrange) hmerged
      rw [this, hnext]
      simp [stateCounter]
    | some stored =>
      obtain ⟨m, hm⟩ := hstate stored rfl
      have hmq : stateCounter (some stored) = m := by
        simp [stateCounter, Info.natCounter_orZero _ m hm]
      rw [hmq] at hrange
      have hle : (m : ℤ) + (n : ℤ) ≤ 2 ^ 53 := by
        have h1 : ((m : ℚ) + n) ≤ 2 ^ 53 := by linarith
        have h2 : (((m : ℤ) + (n : ℤ) : ℤ) : ℚ) ≤ ((2 ^ 53 : ℤ) : ℚ) := by
          push_cast
          linarith
        exact_mod_cast h2
      have hm0 : (0 : ℤ) ≤ m := Int.natCast_nonneg m
      have hn0 : (0 : ℤ) ≤ n := Int.natCast_nonneg n
      have hupd : (update stored row).Info.counter = .value ((m : ℚ) + n) := by
        rw [hcounter, (mysql.counter_sum stored.Info row.Info (m : ℤ) (n : ℤ)
          (by rw [Info.natCounter_orZero _ m hm]; simp)
          (by rw [Info.natCounter_orZero _ n hn]; simp)
          (by rw [abs_of_nonneg hm0]; omega) (by rw [abs_of_nonneg hn0]; omega)
          (by rw [abs_of_nonneg (by omega)]; omega)).1,
          Info.natCounter_orZero _ m hm, Info.natCounter_orZero _ n hn]
      have hnext : stateCounter (mergeInto update (some stored) row) = (m : ℚ) + n := by
        simp [mergeInto, stateCounter, JSONField.orZero, hupd, mysql.num, mysql.COALESCE]
      have := ih (mergeInto update (some stored) row)
        (fun merged1 hs => by
          simp only [mergeInto, Option.some.injEq] at hs
          subst hs
          exact ⟨m + n, by rw [hupd]; push_cast; rfl⟩)
        hrest (by rw [hnext]; linarith) hmerged
      rw [this, hnext, hmq]
      congr 1
      ring

/-- The counter clause of the merge statements raises no error on a tuple when
the tuples of its key have natural counters whose sum, with the counter found
before, is at most 2^53. -/
theorem counter_in_range
    (update : AuditPlanSQLV2 → AuditPlanSQLV2 → AuditPlanSQLV2)
    (hcounter : ∀ stored incoming, (update stored incoming).Info.counter =
      mysql.JSON_SET (mysql.castSigned
        (mysql.add (mysql.COALESCE (mysql.num incoming.Info.counter) (some 0))
          (mysql.COALESCE (mysql.num stored.Info.counter) (some 0)))))
    (pre : List AuditPlanSQLV2) (row : AuditPlanSQLV2) (state : Option AuditPlanSQLV2)
    (hstate : ∀ stored, state = some stored → stored.Info.natCounter)
    (hpre : ∀ r ∈ pre, r.Info.natCounter) (hrow : row.Info.natCounter)
    (hrange : stateCounter state + (pre.map (fun r => r.Info.counter.orZero)).sum +
      row.Info.counter.orZero ≤ 2 ^ 53)
    (stored : AuditPlanSQLV2) (hstored : pre.foldl (mergeInto update) state = some stored) :
    ∃ m n : ℕ, stored.Info.counter = .value (m : ℚ) ∧ row.Info.counter = .value (n : ℚ) ∧
      (m : ℚ) = stateCounter state + (pre.map (fun r => r.Info.counter.orZero)).sum ∧
      (m : ℚ) + n ≤ 2 ^ 53 ∧
      mysql.signedOutOfRange
        (mysql.add (mysql.COALESCE (mysql.num row.Info.counter) (some 0))
          (mysql.COALESCE (mysql.num stored.Info.counter) (some 0))) = false := by
  obtain ⟨n, hn⟩ := hrow
  rw [Info.natCounter_orZero _ n hn] at hrange
  have hn0 : (0 : ℚ) ≤ n := Nat.cast_nonneg n
  have hc := foldl_mergeInto_counter update hcounter pre state hstate hpre (by linarith)
    stored hstored
  obtain ⟨p, hp⟩ := counters_sum_nat pre hpre
  have hst : ∃ k : ℕ, stateCounter state = k := by
    cases state with
    | none => exact ⟨0, by simp [stateCounter]⟩
    | some s =>
      obtain ⟨k, hk⟩ := hstate s rfl
      exact ⟨k, by simp [stateCounter, Info.natCounter_orZero _ k hk]⟩
  obtain ⟨k, hk⟩ := hst
  rw [hk, hp] at hc hrange
  have hcm : stored.Info.counter = .value ((k + p : ℕ) : ℚ) := by
    rw [hc]; push_cast; rfl
  have hle : ((k + p : ℕ) : ℤ) + (n : ℤ) ≤ 2 ^ 53 := by
    have h2 : ((((k + p : ℕ) : ℤ) + (n : ℤ) : ℤ) : ℚ) ≤ ((2 ^ 53 : ℤ) : ℚ) := by
      push_cast
      linarith
    exact_mod_cast h2
  have hm0 : (0 : ℤ) ≤ ((k + p : ℕ) : ℤ) := Int.natCast_nonneg _
  have hn0z : (0 : ℤ) ≤ n := Int.natCast_nonneg n
  refine ⟨k + p, n, hcm, hn, by rw [hk, hp]; push_cast; rfl, by push_cast; linarith, ?_⟩
  exact (mysql.counter_sum stored.Info row.Info ((k + p : ℕ) : ℤ) (n : ℤ)
    (by rw [Info.natCounter_orZero _ (k + p) hcm]; simp)
    (by rw [Info.natCounter_orZero _ n hn]; simp)
    (by rw [abs_of_nonneg hm0]; omega) (by rw [abs_of_nonneg hn0z]; omega)
    (by rw [abs_of_nonneg (by omega)]; omega)).2

/-- The counters of the tuples of a key up to a tuple are at most those of all
the tuples of the key, when the counters are natural numbers. -/
theorem prefix_counters_le (pre post : List AuditPlanSQLV2) (row : AuditPlanSQLV2)
    (hrows : ∀ r ∈ pre ++ row :: post, r.Info.natCounter) :
    ((pre.filter (fun r => decide (r.uniqueKey = row.uniqueKey))).map
        (fun r => r.Info.counter.orZero)).sum + row.Info.counter.orZero ≤
      (((pre ++ row :: post).filter (fun r => decide (r.uniqueKey = row.uniqueKey))).map
        (fun r => r.Info.counter.orZero)).sum := by
  rw [List.filter_append, List.filter_cons_of_pos (by simp), List.map_append, List.sum_append,
    List.map_cons, List.sum_cons]
  have := counters_sum_nonneg (post.filter (fun r => decide (r.uniqueKey = row.uniqueKey)))
    (fun r hr => hrows r (List.mem_append_right _
      (List.mem_cons_of_mem _ (List.mem_filter.mp hr).1)))
  linarith

/-- No value tuple raises an error when the clause fails on no pair of
documents with natural counters of a sum of at most 2^53 that have the property
`P`, which the update gives: the rows met and the tuples have natural counters
and the property, and the counters of a key sum to at most 2^53. -/
theorem batchFails_eq_false_of_counters
    (update : AuditPlanSQLV2 → AuditPlanSQLV2 → AuditPlanSQLV2)
    (hkey : ∀ stored incoming, (update stored incoming).uniqueKey = stored.uniqueKey)
    (hcounter : ∀ stored incoming, (update stored incoming).Info.counter =
      mysql.JSON_SET (mysql.castSigned
        (mysql.add (mysql.COALESCE (mysql.num incoming.Info.counter) (some 0))
          (mysql.COALESCE (mysql.num stored.Info.counter) (some 0)))))
    (fails : Info → Info → Bool) (P : Info → Prop)
    (hP : ∀ stored incoming, P (update stored incoming).Info)
    (hfails : ∀ (stored incoming : Info) (m n : ℕ), stored.counter = .value (m : ℚ) →
      incoming.counter = .value (n : ℚ) → (m : ℚ) + n ≤ 2 ^ 53 → P stored → P incoming →
      mysql.signedOutOfRange
        (mysql.add (mysql.COALESCE (mysql.num incoming.counter) (some 0))
          (mysql.COALESCE (mysql.num stored.counter) (some 0))) = false →
      fails stored incoming = false)
    (rows : List AuditPlanSQLV2) (table : Table)
    (hstate : ∀ r ∈ rows, ∀ stored, table.find r.uniqueKey = some stored →
      stored.Info.natCounter ∧ P stored.Info)
    (hrows : ∀ r ∈ rows, r.Info.natCounter ∧ P r.Info)
    (hrange : ∀ r ∈ rows, stateCounter (table.find r.uniqueKey) +
      ((rows.filter (fun x => decide (x.uniqueKey = r.uniqueKey))).map
        (fun x => x.Info.counter.orZero)).sum ≤ 2 ^ 53) :
    batchFails update fails table rows = false := by
  apply batchFails_eq_false update hkey
  intro pre row post hsplit stored hst
  have hrowmem : row ∈ rows := by rw [hsplit]; simp
  have hpremem : ∀ r ∈ pre.filter (fun r => decide (r.uniqueKey = row.uniqueKey)), r ∈ rows :=
    fun r hr => by rw [hsplit]; exact List.mem_append_left _ (List.mem_filter.mp hr).1
  have hle := prefix_counters_le pre post row (fun r hr => (hrows r (by rw [hsplit]; exact hr)).1)
  have hr := hrange row hrowmem
  rw [hsplit] at hr
  obtain ⟨m, n, hm, hn, -, hmn, hsigned⟩ := counter_in_range update hcounter
    (pre.filter (fun r => decide (r.uniqueKey = row.uniqueKey))) row
    (table.find row.uniqueKey) (fun s hs => (hstate row hrowmem s hs).1)
    (fun r hr => (hrows r (hpremem r hr)).1) (hrows row hrowmem).1 (by linarith) stored hst
  have hPs : P stored.Info := by
    rcases foldl_mergeInto_cases update _ _ _ hst with h1 | h1 | ⟨s, i, h1⟩
    · exact (hstate row hrowmem stored h1).2
    · exact (hrows stored (hpremem stored h1)).2
    · rw [h1]
      exact hP s i
  exact hfails stored.Info row.Info m n hm hn hmn hPs (hrows row hrowmem).2 hsigned

/-- The row found under a key after merge statements on the value tuples of a
batch: the records of the batch that have the key, merged in their order into
the row found before. -/
theorem Table.find_foldl_valuesRow
    (update : AuditPlanSQLV2 → AuditPlanSQLV2 → AuditPlanSQLV2)
    (hkey : ∀ stored incoming, (update stored incoming).uniqueKey = stored.uniqueKey)
    (Md5String : String → String) (table : Table) (auditPlanId : Nat)
    (sqls : List AuditPlanSQLV2) (key : Nat × String) :
    Table.find ((sqls.map (valuesRow Md5String auditPlanId)).foldl
      (insertOnDuplicateKeyUpdate update) table) key =
    ((sqls.filter (fun s => decide (mergeKey Md5String auditPlanId s = key))).map
      (valuesRow Md5String auditPlanId)).foldl (mergeInto update) (table.find key) := by
  rw [Table.find_foldl_insertOnDuplicateKeyUpdate update hkey, filter_valuesRow]

/-- The counters of the value tuples of a key are those of the records of the key. -/
theorem valuesRow_key_counters (Md5String : String → String) (auditPlanId : Nat)
    (sqls : List AuditPlanSQLV2) (key : Nat × String) :
    (((sqls.map (valuesRow Md5String auditPlanId)).filter
      (fun r => decide (r.uniqueKey = key))).map (fun r => r.Info.counter.orZero)).sum =
    ((sqls.filter (fun s => decide (mergeKey Md5String auditPlanId s = key))).map
      (fun s => s.Info.counter.orZero)).sum := by
  rw [filter_valuesRow, valuesRow_counters]

/-- `UpdateDefaultAuditPlanSQLs` returns no error on a batch of records with
natural counters when the rows met have natural counters and the counters of
each key, with the counter stored, sum to at most 2^53; the table is then the
value tuples taken in their order. -/
theorem UpdateDefaultAuditPlanSQLs_ok (Md5String : String → String) (table : Table)
    (auditPlanId : Nat) (sqls : List AuditPlanSQLV2) (hne : sqls ≠ [])
    (hstate : ∀ s ∈ sqls, ∀ stored,
      table.find (mergeKey Md5String auditPlanId s) = some stored → stored.Info.natCounter)
    (hnat : ∀ s ∈ sqls, s.Info.natCounter)
    (hrange : ∀ s ∈ sqls, stateCounter (table.find (mergeKey Md5String auditPlanId s)) +
      ((sqls.filter (fun x => decide (mergeKey Md5String auditPlanId x =
        mergeKey Md5String auditPlanId s))).map (fun x => x.Info.counter.orZero)).sum ≤ 2 ^ 53) :
    UpdateDefaultAuditPlanSQLs Md5String table auditPlanId sqls =
      ((sqls.map (valuesRow Md5String auditPlanId)).foldl
        (insertOnDuplicateKeyUpdate UpdateDefaultAuditPlanSQLs.row) table, none) := by
  unfold UpdateDefaultAuditPlanSQLs
  apply execInsertOnDuplicateKeyUpdate_ok _ _ _ _ _ _ hne
  apply batchFails_eq_false_of_counters UpdateDefaultAuditPlanSQLs.row (fun _ _ => rfl)
    (fun _ _ => rfl) UpdateDefaultAuditPlanSQLs.fails (fun _ => True) (fun _ _ => trivial)
    (fun stored incoming m n _ _ _ _ _ h => h)
  · intro r hr stored hs
    obtain ⟨s, hs1, rfl⟩ := List.mem_map.mp hr
    exact ⟨hstate s hs1 stored hs, trivial⟩
  · intro r hr
    obtain ⟨s, hs1, rfl⟩ := List.mem_map.mp hr
    exact ⟨hnat s hs1, trivial⟩
  · intro r hr
    obtain ⟨s, hs1, rfl⟩ := List.mem_map.mp hr
    rw [valuesRow_key_counters]
    exact hrange s hs1

/-! ## Theorems: one record per merge key -/

/-- C20, as the code has it: `UpdateDefaultAuditPlanSQLs` merges a batch of
occurrences with natural counters, whose sum for each merge key is at most 2^53,
into a table that has no row of their merge keys
`(audit_plan_id, GetFingerprintMD5())`, without error and into exactly one row
for a key that occurs; its SQL text is that of the last occurrence of the key
and its counter is the sum of the counters of the occurrences of the key, which
is their number when each counts 1. A key without row and without occurrence
stays without row. -/
theorem UpdateDefaultAuditPlanSQLs_one_record_per_key (Md5String : String → String)
    (table : Table) (auditPlanId : Nat) (sqls : List AuditPlanSQLV2) (key : Nat × String)
    (last : AuditPlanSQLV2)
    (hfresh : ∀ s ∈ sqls, table.count (mergeKey Md5String auditPlanId s) = 0)
    (hnat : ∀ s ∈ sqls, s.Info.natCounter)
    (hrange : ∀ k, ((sqls.filter (fun s => decide (mergeKey Md5String auditPlanId s = k))).map
      (fun s => s.Info.counter.orZero)).sum ≤ 2 ^ 53)
    (hlast : (sqls.filter
      (fun s => decide (mergeKey Md5String auditPlanId s = key))).getLast? = some last) :
    (UpdateDefaultAuditPlanSQLs Md5String table auditPlanId sqls).2 = none ∧
    Table.count (UpdateDefaultAuditPlanSQLs Md5String table auditPlanId sqls).1 key = 1 ∧
    (∃ row, Table.find (UpdateDefaultAuditPlanSQLs Md5String table auditPlanId sqls).1 key =
        some row ∧
      row.SQLContent = last.SQLContent ∧
      row.Info.counter = .value
        ((sqls.filter (fun s => decide (mergeKey Md5String auditPlanId s = key))).map
          (fun s => s.Info.counter.orZero)).sum ∧
      ((∀ s ∈ sqls, mergeKey Md5String auditPlanId s = key → s.Info.counter = .value 1) →
        row.Info.counter = .value ((sqls.filter
          (fun s => decide (mergeKey Md5String auditPlanId s = key))).length : ℚ))) ∧
    (∀ other, table.count other = 0 →
      (∀ s ∈ sqls, mergeKey Md5String auditPlanId s ≠ other) →
      Table.count (UpdateDefaultAuditPlanSQLs Md5String table auditPlanId sqls).1 other = 0) := by
  have hkey : ∀ stored incoming,
      (UpdateDefaultAuditPlanSQLs.row stored incoming).uniqueKey = stored.uniqueKey :=
    fun _ _ => rfl
  have hocc : sqls.filter (fun s => decide (mergeKey Md5String auditPlanId s = key)) ≠ [] := by
    intro h
    rw [h] at hlast
    simp at hlast
  have hlastmem : last ∈ sqls.filter
      (fun s => decide (mergeKey Md5String auditPlanId s = key)) :=
    List.mem_of_getLast?_eq_some hlast
  have hlastkey : mergeKey Md5String auditPlanId last = key := by
    simpa using (List.mem_filter.mp hlastmem).2
  have hsqls : sqls ≠ [] := by
    intro h
    rw [h] at hocc
    exact hocc rfl
  have hnone : ∀ s ∈ sqls, table.find (mergeKey Md5String auditPlanId s) = none :=
    fun s hs => (Table.find_eq_none_iff_count table _).mpr (hfresh s hs)
  have hok := UpdateDefaultAuditPlanSQLs_ok Md5String table auditPlanId sqls hsqls
    (fun s hs stored hst => by rw [hnone s hs] at hst; cases hst) hnat
    (fun s hs => by
      rw [hnone s hs]
      simpa [stateCounter] using hrange (mergeKey Md5String auditPlanId s))
  have hfreshkey : table.count key = 0 := by
    rw [← hlastkey]
    exact hfresh last (List.mem_filter.mp hlastmem).1
  have hfind := Table.find_foldl_valuesRow UpdateDefaultAuditPlanSQLs.row hkey
    Md5String table auditPlanId sqls key
  rw [(Table.find_eq_none_iff_count table key).mpr hfreshkey] at hfind
  rw [hok]
  refine ⟨rfl, ?_, ?_, ?_⟩
  · show Table.count _ key = 1
    rw [Table.count_foldl_insertOnDuplicateKeyUpdate _ hkey, if_pos hfreshkey]
    have hany : (sqls.map (valuesRow Md5String auditPlanId)).any
        (fun r => decide (r.uniqueKey = key)) = true := by
      rw [List.any_eq_true]
      exact ⟨valuesRow Md5String auditPlanId last,
        List.mem_map_of_mem _ (List.mem_filter.mp hlastmem).1, by simpa using hlastkey⟩
    rw [if_pos hany]
  · show ∃ row, Table.find _ key = some row ∧ _
    cases hrow : Table.find ((sqls.map (valuesRow Md5String auditPlanId)).foldl
        (insertOnDuplicateKeyUpdate UpdateDefaultAuditPlanSQLs.row) table) key with
    | none =>
      exfalso
      rw [hfind, foldl_mergeInto_eq_none] at hrow
      exact hocc (List.map_eq_nil_iff.mp hrow.2)
    | some row =>
      rw [hfind] at hrow
      have hsum : row.Info.counter = .value
          ((sqls.filter (fun s => decide (mergeKey Md5String auditPlanId s = key))).map
            (fun s => s.Info.counter.orZero)).sum := by
        have hcounter := foldl_mergeInto_counter UpdateDefaultAuditPlanSQLs.row
          (fun _ _ => rfl)
          ((sqls.filter (fun s => decide (mergeKey Md5String auditPlanId s = key))).map
            (valuesRow Md5String auditPlanId)) none
          (fun stored hs => by cases hs)
          (fun r hr => by
            obtain ⟨s, hs, rfl⟩ := List.mem_map.mp hr
            exact hnat s (List.mem_filter.mp hs).1)
          (by rw [valuesRow_counters]; simpa [stateCounter] using hrange key)
          row hrow
        rw [valuesRow_counters] at hcounter
        rw [hcounter]
        simp [stateCounter]
      refine ⟨row, rfl, ?_, hsum, ?_⟩
      · have hl : ((sqls.filter
            (fun s => decide (mergeKey Md5String auditPlanId s = key))).map
            (valuesRow Md5String auditPlanId)).getLast? =
            some (valuesRow Md5String auditPlanId last) := by
          rw [List.getLast?_map, hlast]
          rfl
        exact foldl_mergeInto_SQLContent UpdateDefaultAuditPlanSQLs.row (fun _ _ => rfl)
          _ none (valuesRow Md5String auditPlanId last) row hl hrow
      · intro hone
        rw [hsum]
        congr 1
        have hmap : (sqls.filter
            (fun s => decide (mergeKey Md5String auditPlanId s = key))).map
            (fun s => s.Info.counter.orZero) =
            (sqls.filter (fun s => decide (mergeKey Md5String auditPlanId s = key))).map
              (fun _ => (1 : ℚ)) := by
          apply List.map_congr_left
          intro s hs
          have hm := List.mem_filter.mp hs
          rw [hone s hm.1 (by simpa using hm.2)]
          simp [JSONField.orZero, mysql.num, mysql.COALESCE]
        rw [hmap]
        simp
  · intro other hzero hother
    show Table.count _ other = 0
    rw [Table.count_foldl_insertOnDuplicateKeyUpdate _ hkey, if_pos hzero]
    have hany : ¬ (sqls.map (valuesRow Md5String auditPlanId)).any
        (fun r => decide (r.uniqueKey = other)) = true := by
      rw [List.any_eq_true]
      rintro ⟨r, hr, hk⟩
      obtain ⟨s, hs, rfl⟩ := List.mem_map.mp hr
      exact hother s hs (by simpa using hk)
    rw [if_neg hany]

/-- Witness of the amended C20: `select sleep(2)` with counter 3, then
`select sleep(4)` with counter 5, of one key, into the empty table: no error,
one row of the key, with the text `select sleep(4)` and the counter 8. -/
theorem UpdateDefaultAuditPlanSQLs_one_record_per_key_witness :
    ([sample.averageRecord, sample.noAverageRecord].filter
      (fun s => decide (mergeKey (fun s => s) 1 s = sample.presetKey))).getLast? =
      some sample.noAverageRecord ∧
    (UpdateDefaultAuditPlanSQLs (fun s => s) [] 1
      [sample.averageRecord, sample.noAverageRecord]).2 = none ∧
    Table.count (UpdateDefaultAuditPlanSQLs (fun s => s) [] 1
      [sample.averageRecord, sample.noAverageRecord]).1 sample.presetKey = 1 ∧
    ∃ row, Table.find (UpdateDefaultAuditPlanSQLs (fun s => s) [] 1
        [sample.averageRecord, sample.noAverageRecord]).1 sample.presetKey = some row ∧
      row.SQLContent = "select sleep(4)" ∧ row.Info.counter = .value 8 := by
  have hkeys : ∀ s ∈ [sample.averageRecord, sample.noAverageRecord],
      mergeKey (fun s => s) 1 s = sample.presetKey := by
    intro s hs
    simp only [List.mem_cons, List.mem_singleton, List.not_mem_nil, or_false] at hs
    rcases hs with rfl | rfl <;> rfl
  have hnat : ∀ s ∈ [sample.averageRecord, sample.noAverageRecord], s.Info.natCounter := by
    intro s hs
    simp only [List.mem_cons, List.mem_singleton, List.not_mem_nil, or_false] at hs
    rcases hs with rfl | rfl
    · exact ⟨3, rfl⟩
    · exact ⟨5, rfl⟩
  have hall : (([sample.averageRecord, sample.noAverageRecord]).map
      (fun s => s.Info.counter.orZero)).sum = 8 := by
    norm_num [sample.averageRecord, sample.noAverageRecord, sample.storedInfo,
      sample.noAverageIncoming, JSONField.orZero, mysql.num, mysql.COALESCE]
  have hrange : ∀ k, (([sample.averageRecord, sample.noAverageRecord].filter
      (fun s => decide (mergeKey (fun s => s) 1 s = k))).map
      (fun s => s.Info.counter.orZero)).sum ≤ 2 ^ 53 := by
    intro k
    by_cases hk : sample.presetKey = k
    · rw [List.filter_eq_self.mpr (fun s hs => by simpa [hkeys s hs] using hk), hall]
      norm_num
    · rw [List.filter_eq_nil_iff.mpr (fun s hs => by simpa [hkeys s hs] using hk)]
      norm_num
  have h := UpdateDefaultAuditPlanSQLs_one_record_per_key (fun s => s) [] 1
    [sample.averageRecord, sample.noAverageRecord] sample.presetKey sample.noAverageRecord
    (fun _ _ => rfl) hnat hrange rfl
  refine ⟨rfl, h.1, h.2.1, ?_⟩
  obtain ⟨row, hrow, hsql, hcounter, -⟩ := h.2.2.1
  have hfilter : [sample.averageRecord, sample.noAverageRecord].filter
      (fun s => decide (mergeKey (fun s => s) 1 s = sample.presetKey)) =
      [sample.averageRecord, sample.noAverageRecord] := rfl
  refine ⟨row, hrow, hsql, ?_⟩
  rw [hcounter, hfilter, hall]

/-- A batch of two records of different merge keys into the empty table gives
two rows and no error. -/
theorem UpdateDefaultAuditPlanSQLs_two_keys (Md5String : String → String) (auditPlanId : Nat)
    (a b : AuditPlanSQLV2)
    (h : mergeKey Md5String auditPlanId a ≠ mergeKey Md5String auditPlanId b) :
    UpdateDefaultAuditPlanSQLs Md5String [] auditPlanId [a, b] =
      ([valuesRow Md5String auditPlanId a, valuesRow Md5String auditPlanId b], none) := by
  unfold UpdateDefaultAuditPlanSQLs execInsertOnDuplicateKeyUpdate
  rw [valueTuples_getBatchInsertRawSQL]
  have h2 : (valuesRow Md5String auditPlanId a).uniqueKey ≠
      (valuesRow Md5String auditPlanId b).uniqueKey := h
  simp [batchFails, tupleFails, Table.find, insertOnDuplicateKeyUpdate, h2]

/-- Counterexample to C20 as stated: two occurrences of one fingerprint, seen in
the schemas `db1` and `db2`, are merged by `UpdateDefaultAuditPlanSQLs` into two
rows, one per schema, each with its own SQL text, unless `Md5String` gives their
two different identity documents the same digest. -/
theorem UpdateDefaultAuditPlanSQLs_one_fingerprint_two_records :
    sample.freshDb1.Fingerprint = sample.freshDb2.Fingerprint ∧
    sample.freshDb1.sqlIdentityJSON ≠ sample.freshDb2.sqlIdentityJSON ∧
    ∀ Md5String : String → String,
      Md5String sample.freshDb1.sqlIdentityJSON = Md5String sample.freshDb2.sqlIdentityJSON ∨
      ((UpdateDefaultAuditPlanSQLs Md5String [] 1 [sample.freshDb1, sample.freshDb2]).1 =
          [valuesRow Md5String 1 sample.freshDb1, valuesRow Md5String 1 sample.freshDb2] ∧
        (UpdateDefaultAuditPlanSQLs Md5String [] 1 [sample.freshDb1, sample.freshDb2]).2 =
          none ∧
        (UpdateDefaultAuditPlanSQLs Md5String [] 1
          [sample.freshDb1, sample.freshDb2]).1.length = 2) := by
  refine ⟨rfl, sqlIdentityJSON_ne_of_schema_ne _ _ rfl (by decide), ?_⟩
  intro Md5String
  by_cases h : Md5String sample.freshDb1.sqlIdentityJSON =
      Md5String sample.freshDb2.sqlIdentityJSON
  · exact Or.inl h
  · right
    have hk : mergeKey Md5String 1 sample.freshDb1 ≠ mergeKey Md5String 1 sample.freshDb2 := by
      intro hk
      apply h
      have := congrArg Prod.snd hk
      simpa [mergeKey, AuditPlanSQLV2.GetFingerprintMD5, sample.freshDb1, sample.freshDb2]
        using this
    rw [UpdateDefaultAuditPlanSQLs_two_keys Md5String 1 _ _ hk]
    exact ⟨rfl, rfl, rfl⟩

/-! ## Theorems: the error of the DOUBLE operations of an average -/

/-- The DOUBLE nearest to an approximation `x` of `y`: the error of `x` and the
rounding error add up. -/
theorem mysql.double_near (x y E V : ℚ) (h1 : |x - y| ≤ E) (h2 : |y| ≤ V) :
    |mysql.double x - y| ≤ E + (V + E) / 2 ^ 53 + mysql.eta := by
  have h3 := mysql.double_error x
  have h4 : |x| ≤ V + E := by
    calc |x| = |y + (x - y)| := by ring_nf
      _ ≤ |y| + |x - y| := abs_add _ _
      _ ≤ V + E := add_le_add h2 h1
  have h5 : |mysql.double x - y| ≤ |mysql.double x - x| + |x - y| := by
    calc |mysql.double x - y| = |(mysql.double x - x) + (x - y)| := by ring_nf
      _ ≤ _ := abs_add _ _
  have h6 : |x| / 2 ^ 53 ≤ (V + E) / 2 ^ 53 :=
    div_le_div_of_nonneg_right h4 (by positivity)
  linarith

/-- Rounding to the nearest integer keeps a number that is not negative so. -/
theorem mysql.roundHalfEven_nonneg (q : ℚ) (h : 0 ≤ q) : 0 ≤ mysql.roundHalfEven q := by
  have hf : 0 ≤ ⌊q⌋ := Int.floor_nonneg.mpr h
  unfold mysql.roundHalfEven
  split_ifs <;> omega

/-- The DOUBLE nearest to a number that is not negative is not negative. -/
theorem mysql.double_nonneg (q : ℚ) (h : 0 ≤ q) : 0 ≤ mysql.double q := by
  unfold mysql.double
  have hu := mysql.ulp_pos q
  have h1 : 0 ≤ mysql.roundHalfEven (q / mysql.ulp q) :=
    mysql.roundHalfEven_nonneg _ (div_nonneg h hu.le)
  have h2 : (0 : ℚ) ≤ (mysql.roundHalfEven (q / mysql.ulp q) : ℚ) := by exact_mod_cast h1
  exact mul_nonneg h2 hu.le

/-- Two integers less than 1 apart are equal. -/
theorem int_eq_of_abs_sub_lt_one (m k : ℤ) (h : |(m : ℚ) - k| < 1) : m = k := by
  have h1 : |((m - k : ℤ) : ℚ)| < 1 := by
    push_cast
    exact h
  have h2 : |m - k| < 1 := by exact_mod_cast h1
  have h3 := Int.abs_lt_one_iff.mp h2
  omega

/-- A number less than one half away from an integer rounds to it, halves to even. -/
theorem mysql.roundHalfEven_eq_of_near (x : ℚ) (k : ℤ) (h : |x - k| < 1 / 2) :
    mysql.roundHalfEven x = k := by
  apply int_eq_of_abs_sub_lt_one
  have h1 := mysql.roundHalfEven_error x
  calc |(mysql.roundHalfEven x : ℚ) - k| = |((mysql.roundHalfEven x : ℚ) - x) + (x - k)| := by
        ring_nf
    _ ≤ |(mysql.roundHalfEven x : ℚ) - x| + |x - k| := abs_add _ _
    _ < 1 := by linarith

/-- A number less than one half away from an integer rounds to it, halves away
from zero. -/
theorem mysql.roundHalfAway_eq_of_near (x : ℚ) (k : ℤ) (h : |x - k| < 1 / 2) :
    mysql.roundHalfAway x = k := by
  apply int_eq_of_abs_sub_lt_one
  have h1 := mysql.roundHalfAway_error x
  calc |(mysql.roundHalfAway x : ℚ) - k| = |((mysql.roundHalfAway x : ℚ) - x) + (x - k)| := by
        ring_nf
    _ ≤ |(mysql.roundHalfAway x : ℚ) - x| + |x - k| := abs_add _ _
    _ < 1 := by linarith

/-- An integer number of units of the last decimal is rounded to itself. -/
theorem mysql.roundDecimal_int_div (D : ℕ) (k : ℤ) :
    mysql.roundDecimal D ((k : ℚ) / 10 ^ D) = (k : ℚ) / 10 ^ D := by
  unfold mysql.roundDecimal
  have h : (k : ℚ) / 10 ^ D * 10 ^ D = k := by
    field_simp
  rw [h, mysql.roundHalfAway_int]

/-- Rounding to `D` decimals twice is rounding once. -/
theorem mysql.roundDecimal_idem (D : ℕ) (q : ℚ) :
    mysql.roundDecimal D (mysql.roundDecimal D q) = mysql.roundDecimal D q := by
  exact mysql.roundDecimal_int_div D (mysql.roundHalfAway (q * 10 ^ D))

/-- A number less than half a unit of the last decimal away from a number of
`D` decimals is rounded to it. -/
theorem mysql.roundDecimal_eq_of_near (D : ℕ) (w r : ℚ) (hw : mysql.roundDecimal D w = w)
    (h : |r - w| < 1 / (2 * 10 ^ D)) : mysql.roundDecimal D r = w := by
  have hpos : (0 : ℚ) < 10 ^ D := by positivity
  have hk : (mysql.roundHalfAway (w * 10 ^ D) : ℚ) = w * 10 ^ D := by
    have h1 := hw
    unfold mysql.roundDecimal at h1
    field_simp at h1
    linarith
  have hnear : |r * 10 ^ D - (mysql.roundHalfAway (w * 10 ^ D) : ℚ)| < 1 / 2 := by
    rw [hk, ← sub_mul, abs_mul, abs_of_pos hpos]
    have h2 : |r - w| * 10 ^ D < 1 / (2 * 10 ^ D) * 10 ^ D :=
      mul_lt_mul_of_pos_right h hpos
    have h3 : (1 : ℚ) / (2 * 10 ^ D) * 10 ^ D = 1 / 2 := by
      field_simp
      ring
    linarith
  unfold mysql.roundDecimal
  rw [mysql.roundHalfAway_eq_of_near _ _ hnear, hk]
  field_simp

/-- The largest value of a decimal type is not negative. -/
theorem mysql.maxDecimal_nonneg (M D : ℕ) : 0 ≤ mysql.maxDecimal M D := by
  unfold mysql.maxDecimal
  have h : (1 : ℚ) ≤ 10 ^ M := one_le_pow₀ (by norm_num)
  have hpos : (0 : ℚ) < 10 ^ D := by positivity
  exact div_nonneg (by linarith) hpos.le

/-- The largest value of a decimal type has `D` decimals. -/
theorem mysql.roundDecimal_maxDecimal (M D : ℕ) :
    mysql.roundDecimal D (mysql.maxDecimal M D) = mysql.maxDecimal M D := by
  have h : mysql.maxDecimal M D = ((10 ^ M - 1 : ℤ) : ℚ) / 10 ^ D := by
    unfold mysql.maxDecimal
    push_cast
    rfl
  rw [h, mysql.roundDecimal_int_div]

/-- The opposite of a number of `D` decimals has `D` decimals. -/
theorem mysql.roundDecimal_neg (D : ℕ) (q : ℚ) (h : mysql.roundDecimal D q = q) :
    mysql.roundDecimal D (-q) = -q := by
  have hk : -q = ((-mysql.roundHalfAway (q * 10 ^ D) : ℤ) : ℚ) / 10 ^ D := by
    have h1 := h
    unfold mysql.roundDecimal at h1
    push_cast
    rw [neg_div, h1]
  rw [hk, mysql.roundDecimal_int_div]

/-- The cast to `DECIMAL(M,D)` gives a value of the type, and one that is not
farther from a number within the range of the type than the rounded argument. -/
theorem mysql.castDecimal_spec (M D : ℕ) (r : ℚ) :
    ∃ v, mysql.castDecimal M D (some r) = some v ∧ isDecimal M D v ∧
      ∀ w, |w| ≤ mysql.maxDecimal M D → |v - w| ≤ |mysql.roundDecimal D r - w| := by
  have hmax := mysql.maxDecimal_nonneg M D
  unfold mysql.castDecimal
  simp only [Option.map_some']
  split_ifs with h1 h2
  · refine ⟨_, rfl, ⟨mysql.roundDecimal_maxDecimal M D, by rw [abs_of_nonneg hmax]⟩, ?_⟩
    intro w hw
    have hw2 := (abs_le.mp hw).2
    rw [abs_of_nonneg (by linarith), abs_of_nonneg (by linarith)]
    linarith
  · refine ⟨_, rfl, ⟨mysql.roundDecimal_neg D _ (mysql.roundDecimal_maxDecimal M D), by
      rw [abs_neg, abs_of_nonneg hmax]⟩, ?_⟩
    intro w hw
    have hw1 := (abs_le.mp hw).1
    rw [abs_of_nonpos (by linarith), abs_of_nonpos (by linarith)]
    linarith
  · refine ⟨_, rfl, ⟨mysql.roundDecimal_idem D r, abs_le.mpr ⟨by linarith, by linarith⟩⟩, ?_⟩
    intro w _
    exact le_refl _

/-- The decimal text of a DOUBLE reads back as the DOUBLE, or is its rounding to
17 significant digits. -/
theorem mysql.shortest_cases (q : ℚ) :
    mysql.double (mysql.shortest q) = q ∨ |mysql.shortest q - q| ≤ |q| / (2 * 10 ^ 16) := by
  unfold mysql.shortest
  cases h : (List.range 17).find?
      (fun n => decide (mysql.double (mysql.roundSig (n + 1) q) = q)) with
  | some n =>
    left
    have := List.find?_some h
    simpa using this
  | none =>
    right
    show |mysql.roundSig 17 q - q| ≤ |q| / (2 * 10 ^ 16)
    by_cases hq : q = 0
    · subst hq
      simp [mysql.roundSig, mysql.roundHalfEven]
    · have hq0 : 0 < |q| := abs_pos.mpr hq
      have hs : (0 : ℚ) < (10 : ℚ) ^ (Int.log 10 |q| + 1 - ((17 : ℕ) : ℤ)) := by positivity
      have hlog : (10 : ℚ) ^ (Int.log 10 |q|) ≤ |q| := by
        have := Int.zpow_log_le_self (b := 10) (by norm_num) hq0
        exact_mod_cast this
      have hsle : (10 : ℚ) ^ (Int.log 10 |q| + 1 - ((17 : ℕ) : ℤ)) ≤ |q| / 10 ^ 16 := by
        have he : Int.log 10 |q| + 1 - ((17 : ℕ) : ℤ) = Int.log 10 |q| + (-16 : ℤ) := by
          push_cast
          ring
        rw [he, zpow_add₀ (by norm_num : (10 : ℚ) ≠ 0)]
        have h16 : (10 : ℚ) ^ (-16 : ℤ) = 1 / 10 ^ 16 := by
          rw [zpow_neg]
          norm_num
        rw [h16, mul_one_div]
        exact div_le_div_of_nonneg_right hlog (by positivity)
      have herr := mysql.roundHalfEven_error
        (q / (10 : ℚ) ^ (Int.log 10 |q| + 1 - ((17 : ℕ) : ℤ)))
      unfold mysql.roundSig
      have heq : (mysql.roundHalfEven (q / (10 : ℚ) ^ (Int.log 10 |q| + 1 - ((17 : ℕ) : ℤ))) : ℚ) *
          (10 : ℚ) ^ (Int.log 10 |q| + 1 - ((17 : ℕ) : ℤ)) - q =
          ((mysql.roundHalfEven (q / (10 : ℚ) ^ (Int.log 10 |q| + 1 - ((17 : ℕ) : ℤ))) : ℚ) -
            q / (10 : ℚ) ^ (Int.log 10 |q| + 1 - ((17 : ℕ) : ℤ))) *
          (10 : ℚ) ^ (Int.log 10 |q| + 1 - ((17 : ℕ) : ℤ)) := by
        field_simp
      rw [heq, abs_mul, abs_of_pos hs]
      calc _ ≤ 1 / 2 * (10 : ℚ) ^ (Int.log 10 |q| + 1 - ((17 : ℕ) : ℤ)) :=
            mul_le_mul_of_nonneg_right herr hs.le
        _ ≤ 1 / 2 * (|q| / 10 ^ 16) := by gcongr
        _ = |q| / (2 * 10 ^ 16) := by ring

/-- The decimal text of a DOUBLE is as near to it as the next DOUBLE. -/
theorem mysql.shortest_near (q : ℚ) :
    |mysql.shortest q - q| ≤ |q| / 2 ^ 52 + 2 * mysql.eta := by
  have heta := mysql.eta_pos
  have hq0 := abs_nonneg q
  rcases mysql.shortest_cases q with h | h
  · have h1 := mysql.double_error (mysql.shortest q)
    rw [h] at h1
    have h2 : |mysql.shortest q| ≤ |q| + |mysql.shortest q - q| := by
      calc |mysql.shortest q| = |q + (mysql.shortest q - q)| := by ring_nf
        _ ≤ _ := abs_add _ _
    have h3 : |mysql.shortest q - q| = |q - mysql.shortest q| := abs_sub_comm _ _
    have h4 : |mysql.shortest q| / 2 ^ 53 ≤ (|q| + |mysql.shortest q - q|) / 2 ^ 53 :=
      div_le_div_of_nonneg_right h2 (by positivity)
    have h5 := abs_nonneg (mysql.shortest q - q)
    rw [← h3] at h1
    linarith
  · have h1 : |q| / (2 * 10 ^ 16) ≤ |q| / 2 ^ 52 :=
      div_le_div_of_nonneg_left hq0 (by positivity) (by norm_num)
    linarith

/-- A natural number of at most 2^53 is a DOUBLE. -/
theorem mysql.double_nat (c : ℕ) (h : (c : ℚ) ≤ 2 ^ 53) : mysql.double (c : ℚ) = c := by
  have h1 : ((c : ℤ) : ℚ) ≤ ((2 ^ 53 : ℤ) : ℚ) := by
    push_cast
    exact h
  have h2 : (c : ℤ) ≤ 2 ^ 53 := by exact_mod_cast h1
  have h3 := mysql.double_int (c : ℤ) (by rw [abs_of_nonneg (Int.natCast_nonneg c)]; exact h2)
  simpa using h3

/-- The product of an average of at most `M` in absolute value and a natural
counter, in DOUBLE: its distance from the exact product. -/
theorem mysql.mul_near (a M : ℚ) (c : ℕ) (ha : |a| ≤ M) (hc : (c : ℚ) ≤ 2 ^ 53) :
    ∃ p, mysql.mul (some a) (some (c : ℚ)) = some p ∧
      |p - a * c| ≤ 17 / 8 * (M * c / 2 ^ 53) + 9 / 8 * (mysql.eta * c) + mysql.eta := by
  refine ⟨_, rfl, ?_⟩
  rw [mysql.double_nat c hc]
  have hc0 : (0 : ℚ) ≤ c := Nat.cast_nonneg c
  have hM : 0 ≤ M := le_trans (abs_nonneg a) ha
  have heta := mysql.eta_pos
  have h1 := mysql.double_error a
  have h2 : |mysql.double a * c - a * c| ≤ M * c / 2 ^ 53 + mysql.eta * c := by
    rw [← sub_mul, abs_mul, abs_of_nonneg hc0]
    have h3 : |mysql.double a - a| ≤ M / 2 ^ 53 + mysql.eta := by
      have : |a| / 2 ^ 53 ≤ M / 2 ^ 53 := div_le_div_of_nonneg_right ha (by positivity)
      linarith
    calc |mysql.double a - a| * c ≤ (M / 2 ^ 53 + mysql.eta) * c :=
          mul_le_mul_of_nonneg_right h3 hc0
      _ = M * c / 2 ^ 53 + mysql.eta * c := by ring
  have h4 : |a * c| ≤ M * c := by
    rw [abs_mul, abs_of_nonneg hc0]
    exact mul_le_mul_of_nonneg_right ha hc0
  have h5 := mysql.double_near _ _ _ _ h2 h4
  have h6 : 0 ≤ M * c := mul_nonneg hM hc0
  have h7 : 0 ≤ mysql.eta * c := mul_nonneg heta.le hc0
  linarith

/-- The weighted sum of two averages of at most `M` in absolute value with
natural counters, in DOUBLE: its distance from the exact sum. -/
theorem mysql.weighted_sum_near (a b M : ℚ) (c d : ℕ) (ha : |a| ≤ M) (hb : |b| ≤ M)
    (hle : (c : ℚ) + d ≤ 2 ^ 53) :
    ∃ s, mysql.add (mysql.mul (some a) (some (c : ℚ))) (mysql.mul (some b) (some (d : ℚ))) =
        some s ∧
      |s - (a * c + b * d)| ≤ 9 / 2 * (M * (c + d) / 2 ^ 53) + 3 / 2 * (mysql.eta * (c + d)) +
        6 * mysql.eta := by
  have hc0 : (0 : ℚ) ≤ c := Nat.cast_nonneg c
  have hd0 : (0 : ℚ) ≤ d := Nat.cast_nonneg d
  have hM : 0 ≤ M := le_trans (abs_nonneg a) ha
  have heta := mysql.eta_pos
  obtain ⟨p1, hp1, he1⟩ := mysql.mul_near a M c ha (by linarith)
  obtain ⟨p2, hp2, he2⟩ := mysql.mul_near b M d hb (by linarith)
  rw [hp1, hp2]
  refine ⟨_, rfl, ?_⟩
  have h4c : |a * c| ≤ M * c := by
    rw [abs_mul, abs_of_nonneg hc0]
    exact mul_le_mul_of_nonneg_right ha hc0
  have h4d : |b * d| ≤ M * d := by
    rw [abs_mul, abs_of_nonneg hd0]
    exact mul_le_mul_of_nonneg_right hb hd0
  have hq1 := mysql.double_near _ _ _ _ he1 h4c
  have hq2 := mysql.double_near _ _ _ _ he2 h4d
  have h6c : 0 ≤ M * c := mul_nonneg hM hc0
  have h6d : 0 ≤ M * d := mul_nonneg hM hd0
  have h7c : 0 ≤ mysql.eta * c := mul_nonneg heta.le hc0
  have h7d : 0 ≤ mysql.eta * d := mul_nonneg heta.le hd0
  have hsum : |mysql.double p1 + mysql.double p2 - (a * c + b * d)| ≤
      13 / 4 * (M * (c + d) / 2 ^ 53) + 5 / 4 * (mysql.eta * (c + d)) + 17 / 4 * mysql.eta := by
    calc |mysql.double p1 + mysql.double p2 - (a * c + b * d)|
        = |(mysql.double p1 - a * c) + (mysql.double p2 - b * d)| := by ring_nf
      _ ≤ |mysql.double p1 - a * c| + |mysql.double p2 - b * d| := abs_add _ _
      _ ≤ _ := by
        have e1 : M * (c + d) = M * c + M * d := by ring
        have e2 : mysql.eta * (c + d) = mysql.eta * c + mysql.eta * d := by ring
        rw [e1, e2]
        linarith
  have hy : |a * c + b * d| ≤ M * (c + d) := by
    calc |a * c + b * d| ≤ |a * c| + |b * d| := abs_add _ _
      _ ≤ M * c + M * d := add_le_add h4c h4d
      _ = M * (c + d) := by ring
  have hs := mysql.double_near _ _ _ _ hsum hy
  have h6 : 0 ≤ M * (c + d) := by
    have : M * (c + d) = M * c + M * d := by ring
    linarith
  have h7 : 0 ≤ mysql.eta * (c + d) := by
    have : mysql.eta * (c + d) = mysql.eta * c + mysql.eta * d := by ring
    linarith
  show |mysql.double (mysql.double p1 + mysql.double p2) - (a * c + b * d)| ≤ _
  linarith

/-- The sum of two natural counters of a sum of at most 2^53 is exact in DOUBLE. -/
theorem mysql.add_nat (c d : ℕ) (hle : (c : ℚ) + d ≤ 2 ^ 53) :
    mysql.add (some (c : ℚ)) (some (d : ℚ)) = some ((c : ℚ) + d) := by
  have hc0 : (0 : ℚ) ≤ c := Nat.cast_nonneg c
  have hd0 : (0 : ℚ) ≤ d := Nat.cast_nonneg d
  simp only [mysql.add]
  rw [mysql.double_nat c (by linarith), mysql.double_nat d (by linarith)]
  have h := mysql.double_nat (c + d) (by push_cast; exact hle)
  push_cast at h
  rw [h]

/-- The count-weighted average of two numbers of at most `M` in absolute value
is at most `M` in absolute value. -/
theorem abs_weightedAverage_le (a b M : ℚ) (c d : ℕ) (ha : |a| ≤ M) (hb : |b| ≤ M)
    (hpos : 1 ≤ c + d) : |weightedAverage a c b d| ≤ M := by
  have hc0 : (0 : ℚ) ≤ c := Nat.cast_nonneg c
  have hd0 : (0 : ℚ) ≤ d := Nat.cast_nonneg d
  have hN : (1 : ℚ) ≤ (c : ℚ) + d := by exact_mod_cast hpos
  have hNpos : (0 : ℚ) < (c : ℚ) + d := by linarith
  unfold weightedAverage
  rw [abs_div, abs_of_pos hNpos, div_le_iff₀ hNpos]
  calc |a * c + b * d| ≤ |a * c| + |b * d| := abs_add _ _
    _ = |a| * c + |b| * d := by rw [abs_mul, abs_mul, abs_of_nonneg hc0, abs_of_nonneg hd0]
    _ ≤ M * c + M * d :=
      add_le_add (mul_le_mul_of_nonneg_right ha hc0) (mul_le_mul_of_nonneg_right hb hd0)
    _ = M * (c + d) := by ring

/-- The quotient of the merge in DOUBLE, on two averages of at most `M` in
absolute value and two natural counters of a sum between 1 and 2^53: its
distance from the count-weighted average. -/
theorem mysql.div_weighted_near (a b M : ℚ) (c d : ℕ) (ha : |a| ≤ M) (hb : |b| ≤ M)
    (hpos : 1 ≤ c + d) (hle : (c : ℚ) + d ≤ 2 ^ 53) :
    ∃ Q, mysql.div
        (mysql.add (mysql.mul (some a) (some (c : ℚ))) (mysql.mul (some b) (some (d : ℚ))))
        (mysql.add (some (c : ℚ)) (some (d : ℚ))) = some Q ∧
      |Q - weightedAverage a c b d| ≤ M / 2 ^ 50 + 12 * mysql.eta := by
  have hM : 0 ≤ M := le_trans (abs_nonneg a) ha
  have heta := mysql.eta_pos
  have hN : (1 : ℚ) ≤ (c : ℚ) + d := by exact_mod_cast hpos
  have hNpos : (0 : ℚ) < (c : ℚ) + d := by linarith
  obtain ⟨s, hs, hes⟩ := mysql.weighted_sum_near a b M c d ha hb hle
  have hdN : mysql.double ((c : ℚ) + d) = (c : ℚ) + d := by
    have h := mysql.double_nat (c + d) (by push_cast; exact hle)
    push_cast at h
    exact h
  rw [hs, mysql.add_nat c d hle]
  simp only [mysql.div, hdN, if_neg (ne_of_gt hNpos)]
  refine ⟨_, rfl, ?_⟩
  have hy : |a * c + b * d| ≤ M * (c + d) := by
    have hc0 : (0 : ℚ) ≤ c := Nat.cast_nonneg c
    have hd0 : (0 : ℚ) ≤ d := Nat.cast_nonneg d
    calc |a * c + b * d| ≤ |a * c| + |b * d| := abs_add _ _
      _ = |a| * c + |b| * d := by rw [abs_mul, abs_mul, abs_of_nonneg hc0, abs_of_nonneg hd0]
      _ ≤ M * c + M * d :=
        add_le_add (mul_le_mul_of_nonneg_right ha hc0) (mul_le_mul_of_nonneg_right hb hd0)
      _ = M * (c + d) := by ring
  have hs2 := mysql.double_near _ _ _ _ hes hy
  have hMN : 0 ≤ M * (c + d) := mul_nonneg hM hNpos.le
  have hetaN : mysql.eta ≤ mysql.eta * (c + d) := by
    calc mysql.eta = mysql.eta * 1 := by ring
      _ ≤ mysql.eta * (c + d) := mul_le_mul_of_nonneg_left hN heta.le
  have hquot : |mysql.double s / ((c : ℚ) + d) - weightedAverage a c b d| ≤
      6 * (M / 2 ^ 53) + 10 * mysql.eta := by
    unfold weightedAverage
    rw [← sub_div, abs_div, abs_of_pos hNpos, div_le_iff₀ hNpos]
    have e1 : (6 * (M / 2 ^ 53) + 10 * mysql.eta) * ((c : ℚ) + d) =
        6 * (M * (c + d) / 2 ^ 53) + 10 * (mysql.eta * (c + d)) := by ring
    rw [e1]
    linarith
  have hW := abs_weightedAverage_le a b M c d ha hb hpos
  have hfin := mysql.double_near _ _ _ _ hquot hW
  linarith

/-- A DOUBLE of at most 2^255 in absolute value is within the range of the type. -/
theorem mysql.doubleOutOfRange_of_le (q : ℚ) (h : |q| ≤ 2 ^ 255) :
    mysql.doubleOutOfRange (some q) = false := by
  have h1 : (2 : ℚ) ^ 255 < 2 ^ 1024 := pow_lt_pow_right₀ (by norm_num) (by norm_num)
  simp only [mysql.doubleOutOfRange, decide_eq_false_iff_not, not_le]
  linarith

/-- The largest average that the casts of the merge store, 10^59, times the
largest counter is far below the largest DOUBLE. -/
theorem mysql.range_bound : (10 : ℚ) ^ 59 * 2 ^ 53 ≤ 2 ^ 250 := by
  norm_num

/-- The products of the merge are far below the largest DOUBLE. -/
theorem mysql.range_bound_mul : (2 : ℚ) ^ 250 * 2 + 2 ^ 55 ≤ 2 ^ 255 := by
  norm_num

/-- The sum of the products of the merge is far below the largest DOUBLE. -/
theorem mysql.range_bound_add : (2 : ℚ) ^ 250 * 6 + 2 ^ 57 ≤ 2 ^ 255 := by
  norm_num

/-- The quotient of the merge is far below the largest DOUBLE. -/
theorem mysql.range_bound_div : ((2 : ℚ) ^ 250 * 12 + 2 ^ 59) * 2 + 1 ≤ 2 ^ 255 := by
  norm_num

/-- A number at most `E` away from a number of at most `V` in absolute value. -/
theorem abs_le_of_near (x y E V : ℚ) (h1 : |x - y| ≤ E) (h2 : |y| ≤ V) : |x| ≤ V + E := by
  calc |x| = |y + (x - y)| := by ring_nf
    _ ≤ |y| + |x - y| := abs_add _ _
    _ ≤ V + E := add_le_add h2 h1

/-- The DOUBLE operations of the weighted average of a merge stay within the
range of the type on averages of at most `M` in absolute value, or NULL, and
natural counters of a sum of at most 2^53, when `M` times 2^53 is at most 2^250. -/
theorem mysql.weighted_in_range (A B : Option ℚ) (M : ℚ) (c d e : ℕ)
    (hM0 : 0 ≤ M) (hMK : M * 2 ^ 53 ≤ 2 ^ 250)
    (hA : ∀ a, A = some a → |a| ≤ M) (hB : ∀ b, B = some b → |b| ≤ M)
    (hle : (c : ℚ) + d ≤ 2 ^ 53) (hle2 : (c : ℚ) + e ≤ 2 ^ 53) :
    mysql.doubleOutOfRange (mysql.mul A (some (c : ℚ))) = false ∧
    mysql.doubleOutOfRange (mysql.mul B (some (d : ℚ))) = false ∧
    mysql.doubleOutOfRange
      (mysql.add (mysql.mul A (some (c : ℚ))) (mysql.mul B (some (d : ℚ)))) = false ∧
    mysql.doubleOutOfRange (mysql.add (some (c : ℚ)) (some (e : ℚ))) = false ∧
    mysql.doubleOutOfRange
      (mysql.div (mysql.add (mysql.mul A (some (c : ℚ))) (mysql.mul B (some (d : ℚ))))
        (mysql.add (some (c : ℚ)) (some (e : ℚ)))) = false := by
  have hc0 : (0 : ℚ) ≤ c := Nat.cast_nonneg c
  have hd0 : (0 : ℚ) ≤ d := Nat.cast_nonneg d
  have he0 : (0 : ℚ) ≤ e := Nat.cast_nonneg e
  have heta := mysql.eta_pos
  have heta2 := mysql.eta_le
  have hsmall : (1 : ℚ) / 2 ^ 100 ≤ 1 := by norm_num
  have hN : mysql.doubleOutOfRange (mysql.add (some (c : ℚ)) (some (e : ℚ))) = false := by
    rw [mysql.add_nat c e hle2]
    apply mysql.doubleOutOfRange_of_le
    rw [abs_of_nonneg (by linarith)]
    have : (2 : ℚ) ^ 53 ≤ 2 ^ 250 := by norm_num
    linarith
  have hmul : ∀ (X : Option ℚ) (n : ℕ), (∀ a, X = some a → |a| ≤ M) → (n : ℚ) ≤ 2 ^ 53 →
      mysql.doubleOutOfRange (mysql.mul X (some (n : ℚ))) = false := by
    intro X n hX hn
    cases X with
    | none => rfl
    | some a =>
      obtain ⟨p, hp, hep⟩ := mysql.mul_near a M n (hX a rfl) hn
      rw [hp]
      apply mysql.doubleOutOfRange_of_le
      have hn0 : (0 : ℚ) ≤ n := Nat.cast_nonneg n
      have h1 : |a * n| ≤ M * n := by
        rw [abs_mul, abs_of_nonneg hn0]
        exact mul_le_mul_of_nonneg_right (hX a rfl) hn0
      have h2 := abs_le_of_near _ _ _ _ hep h1
      have h3 : mysql.eta * n ≤ 1 * 2 ^ 53 :=
        mul_le_mul (by linarith) hn hn0 (by norm_num)
      have h4 : M * n ≤ M * 2 ^ 53 :=
        mul_le_mul_of_nonneg_left hn hM0
      have h5 := mysql.range_bound_mul
      have h6 : M * n / 2 ^ 53 ≤ M * n := by
        apply div_le_self (mul_nonneg hM0 hn0)
        norm_num
      have h7 : (2 : ℚ) ^ 53 + 1 ≤ 2 ^ 55 := by norm_num
      linarith
  refine ⟨hmul A c hA (by linarith), hmul B d hB (by linarith), ?_, hN, ?_⟩
  · cases A with
    | none => rfl
    | some a =>
      cases B with
      | none => rfl
      | some b =>
        obtain ⟨s, hs, hes⟩ := mysql.weighted_sum_near a b M c d (hA a rfl) (hB b rfl) hle
        rw [hs]
        apply mysql.doubleOutOfRange_of_le
        have h1 : |a * c + b * d| ≤ M * ((c : ℚ) + d) := by
          calc |a * c + b * d| ≤ |a * c| + |b * d| := abs_add _ _
            _ = |a| * c + |b| * d := by
              rw [abs_mul, abs_mul, abs_of_nonneg hc0, abs_of_nonneg hd0]
            _ ≤ M * c + M * d :=
              add_le_add (mul_le_mul_of_nonneg_right (hA a rfl) hc0)
                (mul_le_mul_of_nonneg_right (hB b rfl) hd0)
            _ = M * ((c : ℚ) + d) := by ring
        have h2 := abs_le_of_near _ _ _ _ hes h1
        have h3 : mysql.eta * ((c : ℚ) + d) ≤ 1 * 2 ^ 53 :=
          mul_le_mul (by linarith) hle (by linarith) (by norm_num)
        have h4 : M * ((c : ℚ) + d) ≤ M * 2 ^ 53 :=
          mul_le_mul_of_nonneg_left hle hM0
        have h5 := mysql.range_bound_add
        have h6 : M * ((c : ℚ) + d) / 2 ^ 53 ≤ M * ((c : ℚ) + d) := by
          apply div_le_self (mul_nonneg hM0 (by linarith))
          norm_num
        have h7 : (2 : ℚ) ^ 55 ≤ 2 ^ 57 := by norm_num
        have h8 : (0 : ℚ) ≤ M * ((c : ℚ) + d) := mul_nonneg hM0 (by linarith)
        linarith
  · cases A with
    | none => rfl
    | some a =>
      cases B with
      | none => rfl
      | some b =>
        obtain ⟨s, hs, hes⟩ := mysql.weighted_sum_near a b M c d (hA a rfl) (hB b rfl) hle
        rw [hs, mysql.add_nat c e hle2]
        have hdN : mysql.double ((c : ℚ) + e) = (c : ℚ) + e := by
          have h := mysql.double_nat (c + e) (by push_cast; exact hle2)
          push_cast at h
          exact h
        simp only [mysql.div, hdN]
        split_ifs with h0
        · rfl
        · apply mysql.doubleOutOfRange_of_le
          have hce : (1 : ℚ) ≤ (c : ℚ) + e := by
            have h1 : c + e ≠ 0 := by
              intro h
              apply h0
              have : ((c + e : ℕ) : ℚ) = 0 := by rw [h]; simp
              push_cast at this
              exact this
            have h2 : 1 ≤ c + e := Nat.one_le_iff_ne_zero.mpr h1
            exact_mod_cast h2
          have h1 : |a * c + b * d| ≤ M * ((c : ℚ) + d) := by
            calc |a * c + b * d| ≤ |a * c| + |b * d| := abs_add _ _
              _ = |a| * c + |b| * d := by
                rw [abs_mul, abs_mul, abs_of_nonneg hc0, abs_of_nonneg hd0]
              _ ≤ M * c + M * d :=
                add_le_add (mul_le_mul_of_nonneg_right (hA a rfl) hc0)
                  (mul_le_mul_of_nonneg_right (hB b rfl) hd0)
              _ = M * ((c : ℚ) + d) := by ring
          have h2 := abs_le_of_near _ _ _ _ hes h1
          have h3 : mysql.eta * ((c : ℚ) + d) ≤ 1 * 2 ^ 53 :=
            mul_le_mul (by linarith) hle (by linarith) (by norm_num)
          have h4 : M * ((c : ℚ) + d) ≤ M * 2 ^ 53 :=
            mul_le_mul_of_nonneg_left hle hM0
          have h6 : M * ((c : ℚ) + d) / 2 ^ 53 ≤ M * ((c : ℚ) + d) := by
            apply div_le_self (mul_nonneg hM0 (by linarith))
            norm_num
          have h8 : (0 : ℚ) ≤ M * ((c : ℚ) + d) := mul_nonneg hM0 (by linarith)
          have hs1 : |s| ≤ 2 ^ 250 * 6 + 2 ^ 57 := by
            have h7 : (2 : ℚ) ^ 55 ≤ 2 ^ 57 := by norm_num
            linarith
          have hs2 := mysql.double_error s
          have hs3 : |mysql.double s| ≤ 2 ^ 250 * 12 + 2 ^ 59 := by
            have h9 := abs_le_of_near _ _ _ _ hs2 (le_refl |s|)
            have h10 : |s| / 2 ^ 53 ≤ |s| := by
              apply div_le_self (abs_nonneg s)
              norm_num
            have h11 : (2 : ℚ) ^ 57 * 2 + 1 ≤ 2 ^ 59 := by norm_num
            linarith
          have hq : |mysql.double s / ((c : ℚ) + e)| ≤ 2 ^ 250 * 12 + 2 ^ 59 := by
            rw [abs_div, abs_of_pos (by linarith : (0 : ℚ) < (c : ℚ) + e)]
            calc |mysql.double s| / ((c : ℚ) + e) ≤ |mysql.double s| / 1 :=
                  div_le_div_of_nonneg_left (abs_nonneg _) (by norm_num) hce
              _ = |mysql.double s| := by simp
              _ ≤ _ := hs3
          have hq2 := mysql.double_error (mysql.double s / ((c : ℚ) + e))
          have hq3 := abs_le_of_near _ _ _ _ hq2 (le_refl _)
          have hq4 : |mysql.double s / ((c : ℚ) + e)| / 2 ^ 53 ≤
              |mysql.double s / ((c : ℚ) + e)| := by
            apply div_le_self (abs_nonneg _)
            norm_num
          have h5 := mysql.range_bound_div
          linarith

/-- The cast to `DECIMAL(M,6)` of a DOUBLE quotient `Q` that approximates a
number `W` of the range of the type: a value of the type, half a millionth plus
the DOUBLE error away from `W` at most, and `W` itself when `W` has six decimals
and the DOUBLE error is small. -/
theorem mysql.castDecimalDouble_near (Mx : ℕ) (Q W M : ℚ)
    (hQ : |Q - W| ≤ M / 2 ^ 50 + 12 * mysql.eta) (hW : |W| ≤ M)
    (hM : M ≤ mysql.maxDecimal Mx 6) :
    ∃ v, mysql.castDecimalDouble Mx 6 (some Q) = some v ∧ isDecimal Mx 6 v ∧
      |v - W| ≤ 1 / (2 * 10 ^ 6) + (M + 1) / 2 ^ 49 ∧
      (M ≤ 2 ^ 27 → mysql.roundDecimal 6 W = W → v = W) := by
  have hM0 : 0 ≤ M := le_trans (abs_nonneg W) hW
  have heta := mysql.eta_pos
  have heta2 := mysql.eta_le
  have hQabs := abs_le_of_near _ _ _ _ hQ hW
  have hr := mysql.shortest_near Q
  have hrW : |mysql.shortest Q - W| ≤ (M + 1) / 2 ^ 49 := by
    have h1 : |mysql.shortest Q - W| ≤ |mysql.shortest Q - Q| + |Q - W| := by
      calc |mysql.shortest Q - W| = |(mysql.shortest Q - Q) + (Q - W)| := by ring_nf
        _ ≤ _ := abs_add _ _
    have h2 : |Q| / 2 ^ 52 ≤ (M + (M / 2 ^ 50 + 12 * mysql.eta)) / 2 ^ 52 :=
      div_le_div_of_nonneg_right hQabs (by positivity)
    linarith
  obtain ⟨v, hv, hdec, hnear⟩ := mysql.castDecimal_spec Mx 6 (mysql.shortest Q)
  have hv2 : mysql.castDecimalDouble Mx 6 (some Q) = some v := by
    unfold mysql.castDecimalDouble
    exact hv
  refine ⟨v, hv2, hdec, ?_, ?_⟩
  · have h1 := hnear W (le_trans hW hM)
    have h2 := mysql.roundDecimal_error 6 (mysql.shortest Q)
    have h3 : |mysql.roundDecimal 6 (mysql.shortest Q) - W| ≤
        |mysql.roundDecimal 6 (mysql.shortest Q) - mysql.shortest Q| +
          |mysql.shortest Q - W| := by
      calc |mysql.roundDecimal 6 (mysql.shortest Q) - W|
          = |(mysql.roundDecimal 6 (mysql.shortest Q) - mysql.shortest Q) +
            (mysql.shortest Q - W)| := by ring_nf
        _ ≤ _ := abs_add _ _
    linarith
  · intro hsmall hWdec
    have h1 : |mysql.shortest Q - W| < 1 / (2 * 10 ^ 6) := by
      have h2 : (M + 1) / 2 ^ 49 ≤ ((2 : ℚ) ^ 27 + 1) / 2 ^ 49 :=
        div_le_div_of_nonneg_right (by linarith) (by positivity)
      have h3 : ((2 : ℚ) ^ 27 + 1) / 2 ^ 49 < 1 / (2 * 10 ^ 6) := by norm_num
      linarith
    have h4 := mysql.roundDecimal_eq_of_near 6 W (mysql.shortest Q) hWdec h1
    have h5 := mysql.castDecimal_in_range Mx 6 (mysql.shortest Q)
      (by rw [h4]; exact le_trans hW hM)
    rw [h5, h4] at hv
    exact (Option.some.inj hv).symm

/-- The largest `DECIMAL(65,6)` is less than 10^59. -/
theorem mysql.maxDecimal_le : mysql.maxDecimal 65 6 ≤ 10 ^ 59 := by
  unfold mysql.maxDecimal
  norm_num

/-- The largest `DECIMAL(12,6)` is less than the largest `DECIMAL(65,6)`. -/
theorem mysql.maxDecimal_mono : mysql.maxDecimal 12 6 ≤ mysql.maxDecimal 65 6 := by
  unfold mysql.maxDecimal
  norm_num

/-- The largest `DECIMAL(12,6)` is less than 2^27. -/
theorem mysql.maxDecimal_small : mysql.maxDecimal 12 6 ≤ 2 ^ 27 := by
  unfold mysql.maxDecimal
  norm_num

/-- A value of type `DECIMAL(12,6)` or `DECIMAL(65,6)` is within 10^59. -/
theorem JSONField.within_of_le (bound : ℚ) (field : JSONField ℚ) (q : ℚ)
    (h : field = .value q) (hq : |q| ≤ bound) : field.within bound := by
  intro x hx
  rw [h] at hx
  cases hx
  exact hq

/-- The DOUBLE operations of the weighted average of a merge raise no error on
averages of at most 10^59 in absolute value, or missing, and natural counters of
a sum of at most 2^53. -/
theorem mysql.averageOutOfRange_eq_false
    (avgInfo avgValues infoCounter valuesCounter : JSONField ℚ) (c d : ℕ)
    (hc : infoCounter = .value (c : ℚ)) (hd : valuesCounter = .value (d : ℚ))
    (hle : (c : ℚ) + d ≤ 2 ^ 53)
    (h1 : avgInfo.within (10 ^ 59)) (h2 : avgValues.within (10 ^ 59)) :
    mysql.averageOutOfRange avgInfo avgValues infoCounter valuesCounter = false := by
  have h0 : |(0 : ℚ)| ≤ 10 ^ 59 := by
    rw [abs_zero]
    positivity
  have hA : ∀ a, mysql.COALESCE (mysql.num avgInfo) (mysql.num avgValues) = some a →
      |a| ≤ 10 ^ 59 := by
    intro a ha
    cases avgInfo with
    | absent =>
      cases avgValues with
      | absent => cases ha
      | null =>
        simp only [mysql.num, mysql.COALESCE, Option.some.injEq] at ha
        rw [← ha]
        exact h0
      | value q =>
        simp only [mysql.num, mysql.COALESCE, Option.some.injEq] at ha
        rw [← ha]
        exact h2 q rfl
    | null =>
      simp only [mysql.num, mysql.COALESCE, Option.some.injEq] at ha
      rw [← ha]
      exact h0
    | value q =>
      simp only [mysql.num, mysql.COALESCE, Option.some.injEq] at ha
      rw [← ha]
      exact h1 q rfl
  have hB : ∀ b, mysql.COALESCE (mysql.num avgValues) (some 0) = some b → |b| ≤ 10 ^ 59 := by
    intro b hb
    cases avgValues with
    | absent =>
      simp only [mysql.num, mysql.COALESCE, Option.some.injEq] at hb
      rw [← hb]
      exact h0
    | null =>
      simp only [mysql.num, mysql.COALESCE, Option.some.injEq] at hb
      rw [← hb]
      exact h0
    | value q =>
      simp only [mysql.num, mysql.COALESCE, Option.some.injEq] at hb
      rw [← hb]
      exact h2 q rfl
  obtain ⟨r1, r2, r3, r4, r5⟩ := mysql.weighted_in_range _ _ (10 ^ 59) c d d (by positivity)
    mysql.range_bound hA hB hle hle
  have e1 : mysql.COALESCE (mysql.num infoCounter) (some 0) = some (c : ℚ) := by rw [hc]; rfl
  have e2 : mysql.COALESCE (mysql.num valuesCounter) (some 0) = some (d : ℚ) := by rw [hd]; rfl
  have e3 : mysql.COALESCE (mysql.num valuesCounter) (some 1) = some (d : ℚ) := by rw [hd]; rfl
  unfold mysql.averageOutOfRange
  rw [e1, e2, e3, r1, r2, r3, r4, r5]
  rfl

/-- The weighted average of a merge as the statement computes and stores it, on
natural counters of a sum between 1 and 2^53, for the averages `a` and `b` that
the `COALESCE` expressions select, of at most `M` in absolute value: a value of
the type `DECIMAL(Mx,6)`, half a millionth plus the DOUBLE error away from the
count-weighted average at most, and equal to it when it has six decimals and the
averages are at most 2^27. -/
theorem mysql.average_merged (Mx : ℕ)
    (avgInfo avgValues infoCounter valuesCounter : JSONField ℚ) (a b M : ℚ) (c d : ℕ)
    (hA : mysql.COALESCE (mysql.num avgInfo) (mysql.num avgValues) = some a)
    (hB : mysql.COALESCE (mysql.num avgValues) (some 0) = some b)
    (hc : infoCounter = .value (c : ℚ)) (hd : valuesCounter = .value (d : ℚ))
    (hpos : 1 ≤ c + d) (hle : (c : ℚ) + d ≤ 2 ^ 53)
    (ha : |a| ≤ M) (hb : |b| ≤ M) (hM : M ≤ mysql.maxDecimal Mx 6) :
    ∃ v, mysql.JSON_SET (mysql.castDecimalDouble Mx 6
        (mysql.div
          (mysql.add
            (mysql.mul (mysql.COALESCE (mysql.num avgInfo) (mysql.num avgValues))
              (mysql.COALESCE (mysql.num infoCounter) (some 0)))
            (mysql.mul (mysql.COALESCE (mysql.num avgValues) (some 0))
              (mysql.COALESCE (mysql.num valuesCounter) (some 0))))
          (mysql.add (mysql.COALESCE (mysql.num infoCounter) (some 0))
            (mysql.COALESCE (mysql.num valuesCounter) (some 1))))) = .value v ∧
      isDecimal Mx 6 v ∧
      |v - weightedAverage a c b d| ≤ 1 / (2 * 10 ^ 6) + (M + 1) / 2 ^ 49 ∧
      (M ≤ 2 ^ 27 → mysql.roundDecimal 6 (weightedAverage a c b d) = weightedAverage a c b d →
        v = weightedAverage a c b d) := by
  have e1 : mysql.COALESCE (mysql.num infoCounter) (some 0) = some (c : ℚ) := by rw [hc]; rfl
  have e2 : mysql.COALESCE (mysql.num valuesCounter) (some 0) = some (d : ℚ) := by rw [hd]; rfl
  have e3 : mysql.COALESCE (mysql.num valuesCounter) (some 1) = some (d : ℚ) := by rw [hd]; rfl
  obtain ⟨Q, hQ, hQW⟩ := mysql.div_weighted_near a b M c d ha hb hpos hle
  obtain ⟨v, hv, hdec, hnear, hexact⟩ := mysql.castDecimalDouble_near Mx Q
    (weightedAverage a c b d) M hQW (abs_weightedAverage_le a b M c d ha hb hpos) hM
  rw [hA, hB, e1, e2, e3, hQ, hv]
  exact ⟨v, rfl, hdec, hnear, hexact⟩

/-! ## Theorems: the weighted average of the slow log -/

/-- The DOUBLE nearest to a number of the binade of 2^e that is less than half a
unit in the last place away from `k` units. -/
theorem mysql.double_eval (q : ℚ) (e k : ℤ) (h1 : (2 : ℚ) ^ e ≤ |q|)
    (h2 : |q| < (2 : ℚ) ^ (e + 1)) (he : -1022 ≤ e)
    (hk : |q / (2 : ℚ) ^ (e - 52) - k| < 1 / 2) :
    mysql.double q = (k : ℚ) * (2 : ℚ) ^ (e - 52) := by
  rw [mysql.double_of_binade q e h1 h2 he, mysql.roundHalfEven_eq_of_near _ k hk]

/-- The DOUBLE nearest to 0.000001. -/
theorem mysql.double_micro :
    mysql.double (1 / 1000000) = 4722366482869645 / 2 ^ 72 := by
  rw [mysql.double_eval (1 / 1000000) (-20) 4722366482869645
    (by norm_num [abs_of_pos]) (by norm_num [abs_of_pos]) (by norm_num)
    (by rw [abs_lt]; norm_num)]
  norm_num

/-- The DOUBLE nearest to 0.000001 is a DOUBLE. -/
theorem mysql.double_micro_idem :
    mysql.double (4722366482869645 / 2 ^ 72) = 4722366482869645 / 2 ^ 72 := by
  rw [mysql.double_eval (4722366482869645 / 2 ^ 72) (-20) 4722366482869645
    (by norm_num [abs_of_pos]) (by norm_num [abs_of_pos]) (by norm_num)
    (by rw [abs_lt]; norm_num)]
  norm_num

/-- The DOUBLE nearest to 0.3. -/
theorem mysql.double_tenths :
    mysql.double (3 / 10) = 5404319552844595 / 2 ^ 54 := by
  rw [mysql.double_eval (3 / 10) (-2) 5404319552844595
    (by norm_num [abs_of_pos]) (by norm_num [abs_of_pos]) (by norm_num)
    (by rw [abs_lt]; norm_num)]
  norm_num

/-- The DOUBLE nearest to 0.3 is a DOUBLE. -/
theorem mysql.double_tenths_idem :
    mysql.double (5404319552844595 / 2 ^ 54) = 5404319552844595 / 2 ^ 54 := by
  rw [mysql.double_eval (5404319552844595 / 2 ^ 54) (-2) 5404319552844595
    (by norm_num [abs_of_pos]) (by norm_num [abs_of_pos]) (by norm_num)
    (by rw [abs_lt]; norm_num)]
  norm_num

/-- The DOUBLE sum of the DOUBLEs nearest to 0.000001 and 0.3. -/
theorem mysql.double_micro_tenths :
    mysql.double (4722366482869645 / 2 ^ 72 + 5404319552844595 / 2 ^ 54) =
      5404337567243104 / 2 ^ 54 := by
  rw [mysql.double_eval (4722366482869645 / 2 ^ 72 + 5404319552844595 / 2 ^ 54) (-2)
    5404337567243104
    (by norm_num [abs_of_pos]) (by norm_num [abs_of_pos]) (by norm_num)
    (by rw [abs_lt]; norm_num)]
  norm_num

/-- The DOUBLE sum of the DOUBLEs nearest to 0.000001 and 0.3 is a DOUBLE. -/
theorem mysql.double_micro_tenths_idem :
    mysql.double (5404337567243104 / 2 ^ 54) = 5404337567243104 / 2 ^ 54 := by
  rw [mysql.double_eval (5404337567243104 / 2 ^ 54) (-2) 5404337567243104
    (by norm_num [abs_of_pos]) (by norm_num [abs_of_pos]) (by norm_num)
    (by rw [abs_lt]; norm_num)]
  norm_num

/-- Half the DOUBLE sum of the DOUBLEs nearest to 0.000001 and 0.3 is a DOUBLE. -/
theorem mysql.double_micro_tenths_half :
    mysql.double (5404337567243104 / 2 ^ 54 / 2) = 5404337567243104 / 2 ^ 55 := by
  rw [mysql.double_eval (5404337567243104 / 2 ^ 54 / 2) (-3) 5404337567243104
    (by norm_num [abs_of_pos]) (by norm_num [abs_of_pos]) (by norm_num)
    (by rw [abs_lt]; norm_num)]
  norm_num

/-- The quotient of the merge of the averages 0.000001 and 0.3, each seen once,
in DOUBLE: 0.15000049999999998, below their average 0.1500005. -/
theorem mysql.div_micro_tenths :
    mysql.div
      (mysql.add (mysql.mul (some (1 / 1000000)) (some 1)) (mysql.mul (some (3 / 10)) (some 1)))
      (mysql.add (some 1) (some 1)) = some (5404337567243104 / 2 ^ 55) := by
  have h1 : mysql.double 1 = 1 := by
    simpa using mysql.double_int 1 (by norm_num)
  have h2 : mysql.double 2 = 2 := by
    simpa using mysql.double_int 2 (by norm_num)
  have hp1 : mysql.mul (some (1 / 1000000)) (some 1) = some (4722366482869645 / 2 ^ 72) := by
    simp only [mysql.mul]
    rw [mysql.double_micro, h1, mul_one, mysql.double_micro_idem]
  have hp2 : mysql.mul (some (3 / 10)) (some 1) = some (5404319552844595 / 2 ^ 54) := by
    simp only [mysql.mul]
    rw [mysql.double_tenths, h1, mul_one, mysql.double_tenths_idem]
  have hn : mysql.add (some 1) (some 1) = some 2 := by
    simp only [mysql.add]
    rw [h1, show (1 : ℚ) + 1 = 2 by norm_num, h2]
  rw [hp1, hp2, hn]
  simp only [mysql.add, mysql.div]
  rw [mysql.double_micro_idem, mysql.double_tenths_idem, mysql.double_micro_tenths, h2,
    if_neg (by norm_num), mysql.double_micro_tenths_idem, mysql.double_micro_tenths_half]

/-- The decimal text of the DOUBLE 0.15000049999999998 is below 0.1500005. -/
theorem mysql.shortest_micro_tenths :
    1499995 / 10000000 < mysql.shortest (5404337567243104 / 2 ^ 55) ∧
      mysql.shortest (5404337567243104 / 2 ^ 55) < 1500005 / 10000000 := by
  have heta := mysql.eta_pos
  have heta2 := mysql.eta_le
  have hnear := mysql.shortest_near (5404337567243104 / 2 ^ 55)
  rw [abs_of_pos (by norm_num : (0 : ℚ) < 5404337567243104 / 2 ^ 55)] at hnear
  have hb := abs_le.mp hnear
  have hlo : (14 : ℚ) / 100 < mysql.shortest (5404337567243104 / 2 ^ 55) := by
    have : (14 : ℚ) / 100 < 5404337567243104 / 2 ^ 55 -
        (5404337567243104 / 2 ^ 55 / 2 ^ 52 + 2 * (1 / 2 ^ 100)) := by norm_num
    linarith [hb.1]
  have hhi : mysql.shortest (5404337567243104 / 2 ^ 55) < 16 / 100 := by
    have : (5404337567243104 : ℚ) / 2 ^ 55 +
        (5404337567243104 / 2 ^ 55 / 2 ^ 52 + 2 * (1 / 2 ^ 100)) < 16 / 100 := by norm_num
    linarith [hb.2]
  refine ⟨?_, ?_⟩
  · have : (1499995 : ℚ) / 10000000 < 5404337567243104 / 2 ^ 55 -
        (5404337567243104 / 2 ^ 55 / 2 ^ 52 + 2 * (1 / 2 ^ 100)) := by norm_num
    linarith [hb.1]
  · rcases mysql.shortest_cases (5404337567243104 / 2 ^ 55) with h | h
    · have habs : |mysql.shortest (5404337567243104 / 2 ^ 55)| =
          mysql.shortest (5404337567243104 / 2 ^ 55) := abs_of_pos (by linarith)
      have hd := mysql.double_of_binade (mysql.shortest (5404337567243104 / 2 ^ 55)) (-3)
        (by rw [habs]; norm_num; linarith) (by rw [habs]; norm_num; linarith) (by norm_num)
      rw [h] at hd
      have herr := mysql.roundHalfEven_error
        (mysql.shortest (5404337567243104 / 2 ^ 55) / (2 : ℚ) ^ ((-3 : ℤ) - 52))
      have hz : (2 : ℚ) ^ ((-3 : ℤ) - 52) = 1 / 2 ^ 55 := by norm_num
      rw [hz] at hd herr
      rw [one_div, div_inv_eq_mul] at hd herr
      generalize mysql.roundHalfEven
        (mysql.shortest (5404337567243104 / 2 ^ 55) * 2 ^ 55) = k at hd herr
      have hk : (k : ℚ) = 5404337567243104 := by
        field_simp at hd
        linarith
      rw [hk] at herr
      have hb2 := (abs_le.mp herr).1
      have : (5404337567243104 + 1 / 2 : ℚ) < 1500005 / 10000000 * 2 ^ 55 := by norm_num
      linarith
    · rw [abs_of_pos (by norm_num : (0 : ℚ) < 5404337567243104 / 2 ^ 55)] at h
      have hb3 := (abs_le.mp h).2
      have : (5404337567243104 : ℚ) / 2 ^ 55 + 5404337567243104 / 2 ^ 55 / (2 * 10 ^ 16) <
          1500005 / 10000000 := by norm_num
      linarith

/-- The DOUBLE error of an average of the range of `DECIMAL(12,6)` is less than
a hundred-millionth. -/
theorem mysql.maxDecimal_error : (mysql.maxDecimal 12 6 + 1) / 2 ^ 49 ≤ 1 / 10 ^ 8 := by
  unfold mysql.maxDecimal
  norm_num

/-- The number 16.25 has six decimals. -/
theorem mysql.roundDecimal_sample : mysql.roundDecimal 6 (65 / 4) = 65 / 4 := by
  have h : (65 / 4 : ℚ) = ((16250000 : ℤ) : ℚ) / 10 ^ 6 := by norm_num
  rw [h, mysql.roundDecimal_int_div]

/-- C10, as the code has it: when the stored and the incoming record have
natural counters, of a sum between 1 and 2^53, and both have the average, within
the range of the cast, the DOUBLE operations raise no error and the merged
`query_time_avg` and `row_examined_avg` are values of six decimals that are at
most half a millionth, plus the rounding error of the DOUBLE operations, away
from the count-weighted average
`(old_avg*old_count + incoming_avg*incoming_count) / (old_count + incoming_count)`;
they are that average when it has six decimals and the averages are at most
2^27. Counts 3 and 5 with averages 10 and 20 give counter 8 and average 16.25. -/
theorem UpdateSlowLogAuditPlanSQLs_weighted_average (info values : Info) (c d : ℕ)
    (hc : info.counter = .value (c : ℚ)) (hd : values.counter = .value (d : ℚ))
    (hpos : 1 ≤ c + d) (hle : (c : ℚ) + d ≤ 2 ^ 53) :
    (∀ a b : ℚ, info.query_time_avg = .value a → values.query_time_avg = .value b →
      |a| ≤ mysql.maxDecimal 12 6 → |b| ≤ mysql.maxDecimal 12 6 →
      mysql.averageOutOfRange info.query_time_avg values.query_time_avg info.counter
        values.counter = false ∧
      ∃ v, (UpdateSlowLogAuditPlanSQLs.info info values).query_time_avg = .value v ∧
        isDecimal 12 6 v ∧
        |v - weightedAverage a c b d| ≤ 1 / (2 * 10 ^ 6) + 1 / 10 ^ 8 ∧
        (mysql.roundDecimal 6 (weightedAverage a c b d) = weightedAverage a c b d →
          v = weightedAverage a c b d)) ∧
    (∀ a b M : ℚ, info.row_examined_avg = .value a → values.row_examined_avg = .value b →
      |a| ≤ M → |b| ≤ M → M ≤ mysql.maxDecimal 65 6 →
      mysql.averageOutOfRange info.row_examined_avg values.row_examined_avg info.counter
        values.counter = false ∧
      ∃ v, (UpdateSlowLogAuditPlanSQLs.info info values).row_examined_avg = .value v ∧
        isDecimal 65 6 v ∧
        |v - weightedAverage a c b d| ≤ 1 / (2 * 10 ^ 6) + (M + 1) / 2 ^ 49 ∧
        (M ≤ 2 ^ 27 →
          mysql.roundDecimal 6 (weightedAverage a c b d) = weightedAverage a c b d →
          v = weightedAverage a c b d)) ∧
    ((UpdateSlowLogAuditPlanSQLs.info sample.storedInfo sample.incomingInfo).counter =
        .value 8 ∧
      (UpdateSlowLogAuditPlanSQLs.info sample.storedInfo sample.incomingInfo).query_time_avg =
        .value (65 / 4) ∧
      (UpdateSlowLogAuditPlanSQLs.info sample.storedInfo sample.incomingInfo).row_examined_avg =
        .value (65 / 4)) := by
  refine ⟨?_, ?_, ?_, ?_, ?_⟩
  · intro a b ha hb hta htb
    refine ⟨mysql.averageOutOfRange_eq_false _ _ _ _ c d hc hd hle
      (JSONField.within_of_le _ _ a ha
        (le_trans hta (le_trans mysql.maxDecimal_mono mysql.maxDecimal_le)))
      (JSONField.within_of_le _ _ b hb
        (le_trans htb (le_trans mysql.maxDecimal_mono mysql.maxDecimal_le))), ?_⟩
    obtain ⟨v, hv, hdec, hnear, hexact⟩ := mysql.average_merged 12 info.query_time_avg
      values.query_time_avg info.counter values.counter a b (mysql.maxDecimal 12 6) c d
      (by rw [ha]; rfl) (by rw [hb]; rfl) hc hd hpos hle hta htb (le_refl _)
    exact ⟨v, hv, hdec, le_trans hnear (by linarith [mysql.maxDecimal_error]),
      hexact mysql.maxDecimal_small⟩
  · intro a b M ha hb hta htb hM
    refine ⟨mysql.averageOutOfRange_eq_false _ _ _ _ c d hc hd hle
      (JSONField.within_of_le _ _ a ha (le_trans hta (le_trans hM mysql.maxDecimal_le)))
      (JSONField.within_of_le _ _ b hb (le_trans htb (le_trans hM mysql.maxDecimal_le))), ?_⟩
    exact mysql.average_merged 65 info.row_examined_avg
      values.row_examined_avg info.counter values.counter a b M c d
      (by rw [ha]; rfl) (by rw [hb]; rfl) hc hd hpos hle hta htb hM
  · have h := (mysql.counter_sum sample.storedInfo sample.incomingInfo 3 5
      (by norm_num [sample.storedInfo, JSONField.orZero, mysql.num, mysql.COALESCE])
      (by norm_num [sample.incomingInfo, JSONField.orZero, mysql.num, mysql.COALESCE])
      (by norm_num) (by norm_num) (by norm_num)).1
    show UpdateSlowLogAuditPlanSQLs.counter sample.storedInfo sample.incomingInfo = .value 8
    unfold UpdateSlowLogAuditPlanSQLs.counter
    rw [h]
    norm_num [sample.storedInfo, sample.incomingInfo, JSONField.orZero, mysql.num,
      mysql.COALESCE]
  · obtain ⟨v, hv, -, -, hexact⟩ := mysql.average_merged 12 sample.storedInfo.query_time_avg
      sample.incomingInfo.query_time_avg sample.storedInfo.counter sample.incomingInfo.counter
      10 20 20 3 5 rfl rfl (by norm_num [sample.storedInfo])
      (by norm_num [sample.incomingInfo]) (by norm_num) (by norm_num)
      (by norm_num [abs_of_pos]) (by norm_num [abs_of_pos])
      (by norm_num [mysql.maxDecimal])
    have hw : weightedAverage 10 (3 : ℕ) 20 (5 : ℕ) = 65 / 4 := by
      norm_num [weightedAverage]
    rw [hw] at hexact
    have := hexact (by norm_num) mysql.roundDecimal_sample
    rw [this] at hv
    exact hv
  · obtain ⟨v, hv, -, -, hexact⟩ := mysql.average_merged 65 sample.storedInfo.row_examined_avg
      sample.incomingInfo.row_examined_avg sample.storedInfo.counter
      sample.incomingInfo.counter
      10 20 20 3 5 rfl rfl (by norm_num [sample.storedInfo])
      (by norm_num [sample.incomingInfo]) (by norm_num) (by norm_num)
      (by norm_num [abs_of_pos]) (by norm_num [abs_of_pos])
      (by norm_num [mysql.maxDecimal])
    have hw : weightedAverage 10 (3 : ℕ) 20 (5 : ℕ) = 65 / 4 := by
      norm_num [weightedAverage]
    rw [hw] at hexact
    have := hexact (by norm_num) mysql.roundDecimal_sample
    rw [this] at hv
    exact hv

/-- Witness of the amended C10 on the stored record with counter 3 and average
10 and the incoming record with counter 5 and average 20: the merged
`query_time_avg` is 16.25. -/
theorem UpdateSlowLogAuditPlanSQLs_weighted_average_witness :
    sample.storedInfo.counter = .value ((3 : ℕ) : ℚ) ∧
    sample.incomingInfo.counter = .value ((5 : ℕ) : ℚ) ∧
    sample.storedInfo.query_time_avg = .value 10 ∧
    sample.incomingInfo.query_time_avg = .value 20 ∧
    weightedAverage 10 (3 : ℕ) 20 (5 : ℕ) = 65 / 4 ∧
    ∃ v, (UpdateSlowLogAuditPlanSQLs.info sample.storedInfo sample.incomingInfo).query_time_avg =
        .value v ∧ v = 65 / 4 := by
  have h3 : sample.storedInfo.counter = .value ((3 : ℕ) : ℚ) := by
    norm_num [sample.storedInfo]
  have h5 : sample.incomingInfo.counter = .value ((5 : ℕ) : ℚ) := by
    norm_num [sample.incomingInfo]
  have hw : weightedAverage 10 (3 : ℕ) 20 (5 : ℕ) = 65 / 4 := by
    norm_num [weightedAverage]
  obtain ⟨-, v, hv, -, -, hexact⟩ :=
    (UpdateSlowLogAuditPlanSQLs_weighted_average sample.storedInfo sample.incomingInfo 3 5
      h3 h5 (by norm_num) (by norm_num)).1 10 20 rfl rfl
      (by norm_num [mysql.maxDecimal, abs_of_pos]) (by norm_num [mysql.maxDecimal, abs_of_pos])
  refine ⟨h3, h5, rfl, rfl, hw, v, hv, ?_⟩
  rw [hw] at hexact
  exact hexact mysql.roundDecimal_sample

/-- Counterexample to C10 as stated. A stored and an incoming record that both
have counter 1 and `query_time_avg` 2000000 have the weighted average 2000000,
and the merged `query_time_avg` is 999999.999999, the largest `DECIMAL(12,6)`.
A stored record with counter 1 and `query_time_avg` 0.000001 and an incoming one
with counter 1 and `query_time_avg` 0.3 have the weighted average 0.1500005,
which is 0.150001 to six decimals, and the merged `query_time_avg` is 0.150000:
the DOUBLE quotient is 0.15000049999999998. -/
theorem UpdateSlowLogAuditPlanSQLs_average_not_rounded :
    weightedAverage 2000000 1 2000000 1 = 2000000 ∧
    (UpdateSlowLogAuditPlanSQLs.info sample.longInfo sample.longInfo).query_time_avg =
      .value (999999999999 / 1000000) ∧
    weightedAverage (1 / 1000000) 1 (3 / 10) 1 = 1500005 / 10000000 ∧
    mysql.roundDecimal 6 (1500005 / 10000000) = 150001 / 1000000 ∧
    (UpdateSlowLogAuditPlanSQLs.info sample.microInfo sample.tenthsInfo).query_time_avg =
      .value (150000 / 1000000) := by
  have heta := mysql.eta_pos
  have heta2 := mysql.eta_le
  refine ⟨by norm_num [weightedAverage], ?_, by norm_num [weightedAverage], ?_, ?_⟩
  · obtain ⟨Q, hQ, hQW⟩ := mysql.div_weighted_near 2000000 2000000 2000000 1 1
      (by norm_num [abs_of_pos]) (by norm_num [abs_of_pos]) (by norm_num) (by norm_num)
    have hw : weightedAverage 2000000 ((1 : ℕ) : ℚ) 2000000 ((1 : ℕ) : ℚ) = 2000000 := by
      norm_num [weightedAverage]
    rw [hw] at hQW
    simp only [Nat.cast_one] at hQ
    have hb := abs_le.mp hQW
    have hQlo : (1999999 : ℚ) ≤ Q := by
      have : (2000000 : ℚ) / 2 ^ 50 + 12 * (1 / 2 ^ 100) ≤ 1 := by norm_num
      linarith [hb.1]
    have hQhi : Q ≤ 2000001 := by
      have : (2000000 : ℚ) / 2 ^ 50 + 12 * (1 / 2 ^ 100) ≤ 1 := by norm_num
      linarith [hb.2]
    have hr := mysql.shortest_near Q
    rw [abs_of_pos (by linarith : (0 : ℚ) < Q)] at hr
    have hr2 := (abs_le.mp hr).1
    have hrd := (abs_le.mp (mysql.roundDecimal_error 6 (mysql.shortest Q))).1
    have hlt : mysql.maxDecimal 12 6 < mysql.roundDecimal 6 (mysql.shortest Q) := by
      have h1 : mysql.maxDecimal 12 6 < 1000000 := by norm_num [mysql.maxDecimal]
      have h2 : Q / 2 ^ 52 ≤ 1 := by
        rw [div_le_one (by positivity)]
        have : (2000001 : ℚ) ≤ 2 ^ 52 := by norm_num
        linarith
      have h3 : (1 : ℚ) / (2 * 10 ^ 6) ≤ 1 := by norm_num
      have h4 : (2 : ℚ) * (1 / 2 ^ 100) ≤ 1 := by norm_num
      linarith
    show mysql.JSON_SET (mysql.castDecimalDouble 12 6 _) = _
    simp only [sample.longInfo, mysql.num, mysql.COALESCE]
    rw [hQ]
    simp only [mysql.castDecimalDouble, mysql.castDecimal, Option.map_some', if_pos hlt,
      mysql.JSON_SET]
    norm_num [mysql.maxDecimal]
  · have h : (1500005 / 10000000 : ℚ) * 10 ^ 6 = 1500005 / 10 := by norm_num
    unfold mysql.roundDecimal mysql.roundHalfAway
    rw [h]
    norm_num [Int.floor_eq_iff]
  · obtain ⟨hlo, hhi⟩ := mysql.shortest_micro_tenths
    have hdec : mysql.roundDecimal 6 (150000 / 1000000) = 150000 / 1000000 := by
      have h : (150000 / 1000000 : ℚ) = ((150000 : ℤ) : ℚ) / 10 ^ 6 := by norm_num
      rw [h, mysql.roundDecimal_int_div]
    have hnear : |mysql.shortest (5404337567243104 / 2 ^ 55) - 150000 / 1000000| <
        1 / (2 * 10 ^ 6) := by
      rw [abs_lt]
      constructor
      · have : (150000 / 1000000 : ℚ) - 1 / (2 * 10 ^ 6) = 1499995 / 10000000 := by norm_num
        linarith
      · have : (150000 / 1000000 : ℚ) + 1 / (2 * 10 ^ 6) = 1500005 / 10000000 := by norm_num
        linarith
    have hround := mysql.roundDecimal_eq_of_near 6 _ _ hdec hnear
    have hcast := mysql.castDecimal_in_range 12 6 (mysql.shortest (5404337567243104 / 2 ^ 55))
      (by rw [hround]; norm_num [mysql.maxDecimal, abs_of_pos])
    show mysql.JSON_SET (mysql.castDecimalDouble 12 6 _) = _
    simp only [sample.microInfo, sample.tenthsInfo, mysql.num, mysql.COALESCE]
    rw [mysql.div_micro_tenths]
    simp only [mysql.castDecimalDouble, Option.map_some']
    rw [hcast, hround]
    rfl

/-! ## Theorems: one side without average -/

/-- The count-weighted average of a number with itself is the number. -/
theorem weightedAverage_const (avg : ℚ) (c d : ℕ) (hpos : 1 ≤ c + d) :
    weightedAverage avg c avg d = avg := by
  have hN : (1 : ℚ) ≤ (c : ℚ) + d := by exact_mod_cast hpos
  unfold weightedAverage
  field_simp
  ring

/-- The number 3.75 has six decimals. -/
theorem mysql.roundDecimal_blended : mysql.roundDecimal 6 (15 / 4) = 15 / 4 := by
  have h : (15 / 4 : ℚ) = ((3750000 : ℤ) : ℚ) / 10 ^ 6 := by norm_num
  rw [h, mysql.roundDecimal_int_div]

/-- The number 10 has six decimals. -/
theorem mysql.roundDecimal_ten : mysql.roundDecimal 6 10 = 10 := by
  have h : (10 : ℚ) = ((10000000 : ℤ) : ℚ) / 10 ^ 6 := by norm_num
  rw [h, mysql.roundDecimal_int_div]

/-- C13, as the code has it: with natural counters of a sum between 1 and 2^53.
When the stored document has no key of the average and the incoming one has the
average, within the range of the cast, the merged `query_time_avg` and
`row_examined_avg` are values of six decimals at most half a millionth, plus the
rounding error of the DOUBLE operations, away from the incoming average, and
they are the incoming average when it has six decimals (and is at most 2^27).
When the incoming document has no average, its key missing or JSON `null`, the
incoming average is taken as 0 and the merged average is as near to the stored
average blended with it, `old_avg*old_count / (old_count + incoming_count)`. -/
theorem UpdateSlowLogAuditPlanSQLs_one_average_missing (info values : Info) (c d : ℕ)
    (hc : info.counter = .value (c : ℚ)) (hd : values.counter = .value (d : ℚ))
    (hpos : 1 ≤ c + d) (hle : (c : ℚ) + d ≤ 2 ^ 53) :
    (∀ b : ℚ, info.query_time_avg = .absent → values.query_time_avg = .value b →
      |b| ≤ mysql.maxDecimal 12 6 →
      mysql.averageOutOfRange info.query_time_avg values.query_time_avg info.counter
        values.counter = false ∧
      ∃ v, (UpdateSlowLogAuditPlanSQLs.info info values).query_time_avg = .value v ∧
        isDecimal 12 6 v ∧ |v - b| ≤ 1 / (2 * 10 ^ 6) + 1 / 10 ^ 8 ∧
        (mysql.roundDecimal 6 b = b → v = b)) ∧
    (∀ b M : ℚ, info.row_examined_avg = .absent → values.row_examined_avg = .value b →
      |b| ≤ M → M ≤ mysql.maxDecimal 65 6 →
      mysql.averageOutOfRange info.row_examined_avg values.row_examined_avg info.counter
        values.counter = false ∧
      ∃ v, (UpdateSlowLogAuditPlanSQLs.info info values).row_examined_avg = .value v ∧
        isDecimal 65 6 v ∧ |v - b| ≤ 1 / (2 * 10 ^ 6) + (M + 1) / 2 ^ 49 ∧
        (M ≤ 2 ^ 27 → mysql.roundDecimal 6 b = b → v = b)) ∧
    (∀ a : ℚ, info.query_time_avg = .value a →
      (values.query_time_avg = .absent ∨ values.query_time_avg = .null) →
      |a| ≤ mysql.maxDecimal 12 6 →
      mysql.averageOutOfRange info.query_time_avg values.query_time_avg info.counter
        values.counter = false ∧
      ∃ v, (UpdateSlowLogAuditPlanSQLs.info info values).query_time_avg = .value v ∧
        isDecimal 12 6 v ∧
        |v - weightedAverage a c 0 d| ≤ 1 / (2 * 10 ^ 6) + 1 / 10 ^ 8 ∧
        (mysql.roundDecimal 6 (weightedAverage a c 0 d) = weightedAverage a c 0 d →
          v = weightedAverage a c 0 d)) ∧
    (∀ a M : ℚ, info.row_examined_avg = .value a →
      (values.row_examined_avg = .absent ∨ values.row_examined_avg = .null) →
      |a| ≤ M → M ≤ mysql.maxDecimal 65 6 →
      mysql.averageOutOfRange info.row_examined_avg values.row_examined_avg info.counter
        values.counter = false ∧
      ∃ v, (UpdateSlowLogAuditPlanSQLs.info info values).row_examined_avg = .value v ∧
        isDecimal 65 6 v ∧
        |v - weightedAverage a c 0 d| ≤ 1 / (2 * 10 ^ 6) + (M + 1) / 2 ^ 49 ∧
        (M ≤ 2 ^ 27 →
          mysql.roundDecimal 6 (weightedAverage a c 0 d) = weightedAverage a c 0 d →
          v = weightedAverage a c 0 d)) := by
  have hzero : ∀ f : JSONField ℚ, (f = .absent ∨ f = .null) →
      mysql.COALESCE (mysql.num f) (some 0) = some 0 ∧ f.within (10 ^ 59) := by
    intro f hf
    rcases hf with rfl | rfl
    · exact ⟨rfl, fun q hq => by cases hq⟩
    · exact ⟨rfl, fun q hq => by cases hq⟩
  have habsent : (JSONField.absent : JSONField ℚ).within (10 ^ 59) := fun q hq => by cases hq
  refine ⟨?_, ?_, ?_, ?_⟩
  · intro b ha hb htb
    refine ⟨mysql.averageOutOfRange_eq_false _ _ _ _ c d hc hd hle (by rw [ha]; exact habsent)
      (JSONField.within_of_le _ _ b hb
        (le_trans htb (le_trans mysql.maxDecimal_mono mysql.maxDecimal_le))), ?_⟩
    obtain ⟨v, hv, hdec, hnear, hexact⟩ := mysql.average_merged 12 info.query_time_avg
      values.query_time_avg info.counter values.counter b b (mysql.maxDecimal 12 6) c d
      (by rw [ha, hb]; rfl) (by rw [hb]; rfl) hc hd hpos hle htb htb (le_refl _)
    rw [weightedAverage_const b c d hpos] at hnear hexact
    exact ⟨v, hv, hdec, le_trans hnear (by linarith [mysql.maxDecimal_error]),
      hexact mysql.maxDecimal_small⟩
  · intro b M ha hb htb hM
    refine ⟨mysql.averageOutOfRange_eq_false _ _ _ _ c d hc hd hle (by rw [ha]; exact habsent)
      (JSONField.within_of_le _ _ b hb (le_trans htb (le_trans hM mysql.maxDecimal_le))), ?_⟩
    obtain ⟨v, hv, hdec, hnear, hexact⟩ := mysql.average_merged 65 info.row_examined_avg
      values.row_examined_avg info.counter values.counter b b M c d
      (by rw [ha, hb]; rfl) (by rw [hb]; rfl) hc hd hpos hle htb htb hM
    rw [weightedAverage_const b c d hpos] at hnear hexact
    exact ⟨v, hv, hdec, hnear, hexact⟩
  · intro a ha hb hta
    have hM0 : (0 : ℚ) ≤ mysql.maxDecimal 12 6 := mysql.maxDecimal_nonneg 12 6
    refine ⟨mysql.averageOutOfRange_eq_false _ _ _ _ c d hc hd hle
      (JSONField.within_of_le _ _ a ha
        (le_trans hta (le_trans mysql.maxDecimal_mono mysql.maxDecimal_le)))
      (hzero _ hb).2, ?_⟩
    obtain ⟨v, hv, hdec, hnear, hexact⟩ := mysql.average_merged 12 info.query_time_avg
      values.query_time_avg info.counter values.counter a 0 (mysql.maxDecimal 12 6) c d
      (by rw [ha]; rfl) (hzero _ hb).1 hc hd hpos hle hta (by rw [abs_zero]; exact hM0)
      (le_refl _)
    exact ⟨v, hv, hdec, le_trans hnear (by linarith [mysql.maxDecimal_error]),
      hexact mysql.maxDecimal_small⟩
  · intro a M ha hb hta hM
    have hM0 : (0 : ℚ) ≤ M := le_trans (abs_nonneg a) hta
    refine ⟨mysql.averageOutOfRange_eq_false _ _ _ _ c d hc hd hle
      (JSONField.within_of_le _ _ a ha (le_trans hta (le_trans hM mysql.maxDecimal_le)))
      (hzero _ hb).2, ?_⟩
    exact mysql.average_merged 65 info.row_examined_avg
      values.row_examined_avg info.counter values.counter a 0 M c d
      (by rw [ha]; rfl) (hzero _ hb).1 hc hd hpos hle hta (by rw [abs_zero]; exact hM0) hM

/-- Witness of the amended C13: a stored record with counter 5 and no average
meets an incoming one with counter 3 and average 10; the merged `query_time_avg`
is 10. -/
theorem UpdateSlowLogAuditPlanSQLs_one_average_missing_witness :
    sample.noAverageIncoming.counter = .value ((5 : ℕ) : ℚ) ∧
    sample.storedInfo.counter = .value ((3 : ℕ) : ℚ) ∧
    sample.noAverageIncoming.query_time_avg = .absent ∧
    sample.storedInfo.query_time_avg = .value 10 ∧
    ∃ v, (UpdateSlowLogAuditPlanSQLs.info sample.noAverageIncoming
        sample.storedInfo).query_time_avg = .value v ∧ v = 10 := by
  have h5 : sample.noAverageIncoming.counter = .value ((5 : ℕ) : ℚ) := by
    norm_num [sample.noAverageIncoming]
  have h3 : sample.storedInfo.counter = .value ((3 : ℕ) : ℚ) := by
    norm_num [sample.storedInfo]
  obtain ⟨-, v, hv, -, -, hexact⟩ :=
    (UpdateSlowLogAuditPlanSQLs_one_average_missing sample.noAverageIncoming sample.storedInfo
      5 3 h5 h3 (by norm_num) (by norm_num)).1 10 rfl rfl
      (by norm_num [mysql.maxDecimal, abs_of_pos])
  exact ⟨h5, h3, rfl, rfl, v, hv, hexact mysql.roundDecimal_ten⟩

/-- Counterexample to C13 as stated: the stored record has counter 3 and average
10, the incoming one counter 5 and no average; the merged `query_time_avg` is
3.75, the stored average blended with a zero, and not 10. -/
theorem UpdateSlowLogAuditPlanSQLs_missing_average_blended :
    sample.storedInfo.query_time_avg = .value 10 ∧
    sample.noAverageIncoming.query_time_avg = .absent ∧
    (UpdateSlowLogAuditPlanSQLs.info sample.storedInfo sample.noAverageIncoming).query_time_avg =
      .value (15 / 4) := by
  refine ⟨rfl, rfl, ?_⟩
  obtain ⟨v, hv, -, -, hexact⟩ := mysql.average_merged 12 sample.storedInfo.query_time_avg
    sample.noAverageIncoming.query_time_avg sample.storedInfo.counter
    sample.noAverageIncoming.counter 10 0 10 3 5 rfl rfl (by norm_num [sample.storedInfo])
    (by norm_num [sample.noAverageIncoming]) (by norm_num) (by norm_num)
    (by norm_num [abs_of_pos]) (by norm_num) (by norm_num [mysql.maxDecimal])
  have hw : weightedAverage 10 (3 : ℕ) 0 (5 : ℕ) = 15 / 4 := by
    norm_num [weightedAverage]
  rw [hw] at hexact
  have := hexact (by norm_num) mysql.roundDecimal_blended
  rw [this] at hv
  exact hv

/-- The number 12.5 has six decimals. -/
theorem mysql.roundDecimal_halves : mysql.roundDecimal 6 (25 / 2) = 25 / 2 := by
  have h : (25 / 2 : ℚ) = ((12500000 : ℤ) : ℚ) / 10 ^ 6 := by norm_num
  rw [h, mysql.roundDecimal_int_div]

/-- A stored `query_time_avg` that is the JSON literal `null` is not replaced by
the incoming average: `COALESCE` keeps it and it counts as 0, so that the stored
counter 3 with the incoming counter 5 and average 20 leaves 12.5, where the
comment of the function has the incoming average 20. -/
theorem sample.stored_null_average :
    (UpdateSlowLogAuditPlanSQLs.info sample.nullAverageStored
      sample.incomingInfo).query_time_avg = .value (25 / 2) := by
  obtain ⟨v, hv, -, -, hexact⟩ := mysql.average_merged 12
    sample.nullAverageStored.query_time_avg sample.incomingInfo.query_time_avg
    sample.nullAverageStored.counter sample.incomingInfo.counter 0 20 20 3 5 rfl rfl
    (by norm_num [sample.nullAverageStored]) (by norm_num [sample.incomingInfo])
    (by norm_num) (by norm_num) (by norm_num) (by norm_num [abs_of_pos])
    (by norm_num [mysql.maxDecimal])
  have hw : weightedAverage 0 (3 : ℕ) 20 (5 : ℕ) = 25 / 2 := by
    norm_num [weightedAverage]
  rw [hw] at hexact
  have := hexact (by norm_num) mysql.roundDecimal_halves
  rw [this] at hv
  exact hv

/-! ## Theorems: the average of the slow log collection -/

/-- The operand `average + 0` of the slow log collection, in DOUBLE: its
distance from the average. -/
theorem mysql.add_zero_near (a M : ℚ) (ha : |a| ≤ M) :
    ∃ a2, mysql.add (some a) (some 0) = some a2 ∧
      |a2 - a| ≤ 17 / 8 * (M / 2 ^ 53) + 17 / 8 * mysql.eta ∧ (0 ≤ a → 0 ≤ a2) := by
  have hM : 0 ≤ M := le_trans (abs_nonneg a) ha
  have heta := mysql.eta_pos
  refine ⟨_, rfl, ?_, ?_⟩
  · rw [mysql.double_zero, add_zero]
    have h1 := mysql.double_error a
    have h2 : |mysql.double a - a| ≤ M / 2 ^ 53 + mysql.eta := by
      have : |a| / 2 ^ 53 ≤ M / 2 ^ 53 := div_le_div_of_nonneg_right ha (by positivity)
      linarith
    have h3 := mysql.double_near _ _ _ _ h2 ha
    linarith
  · intro h0
    rw [mysql.double_zero, add_zero]
    exact mysql.double_nonneg _ (mysql.double_nonneg _ h0)

/-- The difference of two count-weighted averages with the same counters is the
count-weighted average of the differences. -/
theorem weightedAverage_sub (a2 b2 a b c d : ℚ) :
    weightedAverage a2 c b2 d - weightedAverage a c b d =
      weightedAverage (a2 - a) c (b2 - b) d := by
  unfold weightedAverage
  ring

/-- The quotient of the merge is not negative when the averages and the
counters are not. -/
theorem mysql.div_weighted_nonneg (x y c d q : ℚ) (hx : 0 ≤ x) (hy : 0 ≤ y) (hc : 0 ≤ c)
    (hd : 0 ≤ d)
    (h : mysql.div (mysql.add (mysql.mul (some x) (some c)) (mysql.mul (some y) (some d)))
      (mysql.add (some c) (some d)) = some q) : 0 ≤ q := by
  simp only [mysql.mul, mysql.add, mysql.div] at h
  split_ifs at h
  have h2 := Option.some.inj h
  rw [← h2]
  apply mysql.double_nonneg
  apply div_nonneg
  · apply mysql.double_nonneg
    apply mysql.double_nonneg
    apply add_nonneg
    · apply mysql.double_nonneg
      apply mysql.double_nonneg
      exact mul_nonneg (mysql.double_nonneg _ hx) (mysql.double_nonneg _ hc)
    · apply mysql.double_nonneg
      apply mysql.double_nonneg
      exact mul_nonneg (mysql.double_nonneg _ hy) (mysql.double_nonneg _ hd)
  · apply mysql.double_nonneg
    apply mysql.double_nonneg
    exact add_nonneg (mysql.double_nonneg _ hc) (mysql.double_nonneg _ hd)

/-- The averages of the slow log collection, which are at most 2^63, stay below
2^63 + 2^12 as operands. -/
theorem mysql.collect_bound : ((2 : ℚ) ^ 63 + 2 ^ 12) * 2 ^ 53 ≤ 2 ^ 250 := by
  norm_num

/-- The quotient of the slow log collection rounds to less than 2^64. -/
theorem mysql.collect_bound_cast :
    (2 : ℚ) ^ 63 + 2 ^ 12 + ((2 ^ 63 + 2 ^ 12) / 2 ^ 50 + 12 * (1 / 2 ^ 100)) + 1 / 2 ≤
      2 ^ 64 - 1 := by
  norm_num

/-- The quotient of the merge on averages between 0 and `M`, at most
2^63 + 2^12, and natural counters of a sum between 1 and 2^53, in DOUBLE: it is
not negative, near the count-weighted average, and within the range of
`CAST(... AS UNSIGNED)`. -/
theorem mysql.unsigned_quotient (x y M : ℚ) (c d : ℕ) (hx0 : 0 ≤ x) (hy0 : 0 ≤ y)
    (hx : x ≤ M) (hy : y ≤ M) (hM : M ≤ 2 ^ 63 + 2 ^ 12) (hpos : 1 ≤ c + d)
    (hle : (c : ℚ) + d ≤ 2 ^ 53) :
    ∃ Q, mysql.div
        (mysql.add (mysql.mul (some x) (some (c : ℚ))) (mysql.mul (some y) (some (d : ℚ))))
        (mysql.add (some (c : ℚ)) (some (d : ℚ))) = some Q ∧
      0 ≤ Q ∧ |Q - weightedAverage x c y d| ≤ M / 2 ^ 50 + 12 * mysql.eta ∧
      mysql.unsignedOutOfRange (some Q) = false := by
  have heta := mysql.eta_pos
  have heta2 := mysql.eta_le
  have hM0 : 0 ≤ M := le_trans hx0 hx
  have hax : |x| ≤ M := by rw [abs_of_nonneg hx0]; exact hx
  have hay : |y| ≤ M := by rw [abs_of_nonneg hy0]; exact hy
  obtain ⟨Q, hQ, hQW⟩ := mysql.div_weighted_near x y M c d hax hay hpos hle
  have hQ0 : 0 ≤ Q := mysql.div_weighted_nonneg x y c d Q hx0 hy0 (Nat.cast_nonneg c)
    (Nat.cast_nonneg d) hQ
  refine ⟨Q, hQ, hQ0, hQW, ?_⟩
  have hW := abs_weightedAverage_le x y M c d hax hay hpos
  have hQabs := abs_le_of_near _ _ _ _ hQW hW
  rw [abs_of_nonneg hQ0] at hQabs
  have hk0 := mysql.roundHalfEven_nonneg Q hQ0
  have herr := (abs_le.mp (mysql.roundHalfEven_error Q)).2
  have hkle : (mysql.roundHalfEven Q : ℚ) ≤ ((2 ^ 64 - 1 : ℤ) : ℚ) := by
    push_cast
    have h1 := mysql.collect_bound_cast
    have h2 : M / 2 ^ 50 ≤ (2 ^ 63 + 2 ^ 12) / 2 ^ 50 :=
      div_le_div_of_nonneg_right hM (by positivity)
    linarith
  have hkle2 : mysql.roundHalfEven Q ≤ 2 ^ 64 - 1 := by exact_mod_cast hkle
  simp only [mysql.unsignedOutOfRange, decide_eq_false_iff_not, not_or, not_lt]
  exact ⟨hk0, hkle2⟩

/-- The operand `average + 0` of an average between 0 and 2^63 is between 0 and
2^63 + 2^12. -/
theorem mysql.add_zero_bound (a : ℚ) (ha0 : 0 ≤ a) (ha : a ≤ 2 ^ 63) :
    ∃ a2, mysql.add (some a) (some 0) = some a2 ∧ 0 ≤ a2 ∧ a2 ≤ 2 ^ 63 + 2 ^ 12 := by
  have heta := mysql.eta_pos
  have heta2 := mysql.eta_le
  obtain ⟨a2, h, hnear, hnn⟩ := mysql.add_zero_near a (2 ^ 63) (by
    rw [abs_of_nonneg ha0]; exact ha)
  refine ⟨a2, h, hnn ha0, ?_⟩
  have h1 := (abs_le.mp hnear).2
  have h2 : (17 : ℚ) / 8 * (2 ^ 63 / 2 ^ 53) + 17 / 8 * (1 / 2 ^ 100) ≤ 2 ^ 12 := by norm_num
  linarith

/-- The `average_query_time` of the slow log collection as the statement
computes and stores it, on averages between 0 and `M`, at most 2^63, and natural
counters of a sum between 1 and 2^53: a natural number at most one half, plus
the rounding error of the DOUBLE operations, away from the count-weighted
average, and no out of range error of the cast. -/
theorem mysql.collect_average_merged (a b M : ℚ) (c d : ℕ) (ha0 : 0 ≤ a) (hb0 : 0 ≤ b)
    (ha : a ≤ M) (hb : b ≤ M) (hM : M ≤ 2 ^ 63) (hpos : 1 ≤ c + d)
    (hle : (c : ℚ) + d ≤ 2 ^ 53) :
    ∃ k : ℤ, 0 ≤ k ∧
      mysql.castUnsigned (mysql.div
        (mysql.add (mysql.mul (mysql.add (some a) (some 0)) (some (c : ℚ)))
          (mysql.mul (mysql.add (some b) (some 0)) (some (d : ℚ))))
        (mysql.add (some (c : ℚ)) (some (d : ℚ)))) = some (k : ℚ) ∧
      mysql.unsignedOutOfRange (mysql.div
        (mysql.add (mysql.mul (mysql.add (some a) (some 0)) (some (c : ℚ)))
          (mysql.mul (mysql.add (some b) (some 0)) (some (d : ℚ))))
        (mysql.add (some (c : ℚ)) (some (d : ℚ)))) = false ∧
      |(k : ℚ) - weightedAverage a c b d| ≤ 1 / 2 + (M + 1) / 2 ^ 49 := by
  have heta := mysql.eta_pos
  have heta2 := mysql.eta_le
  have hM0 : 0 ≤ M := le_trans ha0 ha
  obtain ⟨a2, hA, hAnear, hAnn⟩ := mysql.add_zero_near a M (by rw [abs_of_nonneg ha0]; exact ha)
  obtain ⟨b2, hB, hBnear, hBnn⟩ := mysql.add_zero_near b M (by rw [abs_of_nonneg hb0]; exact hb)
  have hsmall : (17 : ℚ) / 8 * (M / 2 ^ 53) + 17 / 8 * mysql.eta ≤ 2 ^ 12 := by
    have h1 : M / 2 ^ 53 ≤ 2 ^ 63 / 2 ^ 53 := div_le_div_of_nonneg_right hM (by positivity)
    have h2 : (17 : ℚ) / 8 * (2 ^ 63 / 2 ^ 53) + 17 / 8 * (1 / 2 ^ 100) ≤ 2 ^ 12 := by norm_num
    linarith
  have ha2 : a2 ≤ M + (17 / 8 * (M / 2 ^ 53) + 17 / 8 * mysql.eta) := by
    linarith [(abs_le.mp hAnear).2]
  have hb2 : b2 ≤ M + (17 / 8 * (M / 2 ^ 53) + 17 / 8 * mysql.eta) := by
    linarith [(abs_le.mp hBnear).2]
  obtain ⟨Q, hQ, hQ0, hQW, hrange⟩ := mysql.unsigned_quotient a2 b2
    (M + (17 / 8 * (M / 2 ^ 53) + 17 / 8 * mysql.eta)) c d (hAnn ha0) (hBnn hb0) ha2 hb2
    (by linarith) hpos hle
  rw [hA, hB, hQ]
  refine ⟨mysql.roundHalfEven Q, mysql.roundHalfEven_nonneg Q hQ0, rfl, hrange, ?_⟩
  have hdiff : |weightedAverage a2 c b2 d - weightedAverage a c b d| ≤
      17 / 8 * (M / 2 ^ 53) + 17 / 8 * mysql.eta := by
    rw [weightedAverage_sub]
    exact abs_weightedAverage_le _ _ _ c d hAnear hBnear hpos
  have herr := mysql.roundHalfEven_error Q
  have htri : |(mysql.roundHalfEven Q : ℚ) - weightedAverage a c b d| ≤
      |(mysql.roundHalfEven Q : ℚ) - Q| + |Q - weightedAverage a2 c b2 d| +
        |weightedAverage a2 c b2 d - weightedAverage a c b d| := by
    calc |(mysql.roundHalfEven Q : ℚ) - weightedAverage a c b d|
        = |((mysql.roundHalfEven Q : ℚ) - Q) + (Q - weightedAverage a2 c b2 d) +
          (weightedAverage a2 c b2 d - weightedAverage a c b d)| := by ring_nf
      _ ≤ |((mysql.roundHalfEven Q : ℚ) - Q) + (Q - weightedAverage a2 c b2 d)| +
          |weightedAverage a2 c b2 d - weightedAverage a c b d| := abs_add _ _
      _ ≤ _ := by
        have := abs_add ((mysql.roundHalfEven Q : ℚ) - Q) (Q - weightedAverage a2 c b2 d)
        linarith
  have hfin : (M + (17 / 8 * (M / 2 ^ 53) + 17 / 8 * mysql.eta)) / 2 ^ 50 + 12 * mysql.eta +
      (17 / 8 * (M / 2 ^ 53) + 17 / 8 * mysql.eta) ≤ (M + 1) / 2 ^ 49 := by
    linarith
  linarith

/-- The operand `average + 0` of the slow log collection on a key that is
missing or between 0 and 2^63: NULL, or between 0 and 2^63 + 2^12. -/
theorem mysql.add_zero_upTo (field : JSONField ℚ) (h : field.upTo (2 ^ 63)) :
    ∀ x, mysql.add (mysql.num field) (some 0) = some x → 0 ≤ x ∧ x ≤ 2 ^ 63 + 2 ^ 12 := by
  intro x hx
  cases field with
  | absent => cases hx
  | null =>
    obtain ⟨a2, h2, h0, hle⟩ := mysql.add_zero_bound 0 (le_refl 0) (by norm_num)
    simp only [mysql.num] at hx
    rw [h2] at hx
    cases hx
    exact ⟨h0, hle⟩
  | value q =>
    obtain ⟨hq0, hq⟩ := h q rfl
    obtain ⟨a2, h2, h0, hle⟩ := mysql.add_zero_bound q hq0 hq
    simp only [mysql.num] at hx
    rw [h2] at hx
    cases hx
    exact ⟨h0, hle⟩

/-- The `average_query_time` of the slow log collection raises no error on
averages that are missing or between 0 and 2^63 and natural counters of a sum
of at most 2^53. -/
theorem mysql.collectAverageOutOfRange_eq_false
    (avgInfo avgValues infoCounter valuesCounter : JSONField ℚ) (c d : ℕ)
    (hc : infoCounter = .value (c : ℚ)) (hd : valuesCounter = .value (d : ℚ))
    (hle : (c : ℚ) + d ≤ 2 ^ 53)
    (h1 : avgInfo.upTo (2 ^ 63)) (h2 : avgValues.upTo (2 ^ 63)) :
    mysql.collectAverageOutOfRange avgInfo avgValues infoCounter valuesCounter = false := by
  have hA := mysql.add_zero_upTo avgInfo h1
  have hB := mysql.add_zero_upTo avgValues h2
  have e1 : mysql.num infoCounter = some (c : ℚ) := by rw [hc]; rfl
  have e2 : mysql.num valuesCounter = some (d : ℚ) := by rw [hd]; rfl
  obtain ⟨r1, r2, r3, r4, -⟩ := mysql.weighted_in_range
    (mysql.add (mysql.num avgInfo) (some 0)) (mysql.add (mysql.num avgValues) (some 0))
    (2 ^ 63 + 2 ^ 12) c d d (by positivity) mysql.collect_bound
    (fun a ha => by rw [abs_of_nonneg (hA a ha).1]; exact (hA a ha).2)
    (fun b hb => by rw [abs_of_nonneg (hB b hb).1]; exact (hB b hb).2) hle hle
  have r5 : mysql.unsignedOutOfRange
      (mysql.div
        (mysql.add
          (mysql.mul (mysql.add (mysql.num avgInfo) (some 0)) (some (c : ℚ)))
          (mysql.mul (mysql.add (mysql.num avgValues) (some 0)) (some (d : ℚ))))
        (mysql.add (some (c : ℚ)) (some (d : ℚ)))) = false := by
    cases hx : mysql.add (mysql.num avgInfo) (some 0) with
    | none => rfl
    | some x =>
      cases hy : mysql.add (mysql.num avgValues) (some 0) with
      | none => rfl
      | some y =>
        by_cases h0 : c + d = 0
        · have hc0 : c = 0 := by omega
          have hd0 : d = 0 := by omega
          subst hc0 hd0
          simp only [Nat.cast_zero]
          rw [mysql.div_zero_counters]
          rfl
        · obtain ⟨Q, hQ, -, -, hrange⟩ := mysql.unsigned_quotient x y (2 ^ 63 + 2 ^ 12) c d
            (hA x hx).1 (hB y hy).1 (hA x hx).2 (hB y hy).2 (le_refl _)
            (Nat.one_le_iff_ne_zero.mpr h0) hle
          rw [hQ]
          exact hrange
  unfold mysql.collectAverageOutOfRange
  rw [e1, e2, r1, r2, r3, r4, r5]
  rfl

/-- C11, as the code has it: in `UpdateSlowLogCollectAuditPlanSQLs` and
`UpdateSlowLogCollectAuditPlanSQLsV2`, when the stored and the incoming record
both have `average_query_time`, between 0 and 2^63, and natural counters of a
sum between 1 and 2^53, the statement raises no out of range error on the
average and the merged `average_query_time` is a natural number at most one
half, plus the rounding error of the DOUBLE operations, away from the
count-weighted average: `CAST(... AS UNSIGNED)` rounds the quotient to an
integer. -/
theorem UpdateSlowLogCollectAuditPlanSQLs_average_rounded (info values : Info)
    (a b M : ℚ) (c d : ℕ)
    (ha : info.average_query_time = .value a) (hc : info.counter = .value (c : ℚ))
    (hva : values.average_query_time = .value b) (hvc : values.counter = .value (d : ℚ))
    (hpos : 1 ≤ c + d) (hle : (c : ℚ) + d ≤ 2 ^ 53)
    (ha0 : 0 ≤ a) (hb0 : 0 ≤ b) (haM : a ≤ M) (hbM : b ≤ M) (hM : M ≤ 2 ^ 63) :
    mysql.collectAverageOutOfRange info.average_query_time values.average_query_time
      info.counter values.counter = false ∧
    ∃ k : ℤ, 0 ≤ k ∧
      (UpdateSlowLogCollectAuditPlanSQLs.info info values).average_query_time =
        .value (k : ℚ) ∧
      (UpdateSlowLogCollectAuditPlanSQLsV2.info info values).average_query_time =
        .value (k : ℚ) ∧
      |(k : ℚ) - weightedAverage a c b d| ≤ 1 / 2 + (M + 1) / 2 ^ 49 := by
  refine ⟨mysql.collectAverageOutOfRange_eq_false _ _ _ _ c d hc hvc hle
    (fun q hq => by rw [ha] at hq; cases hq; exact ⟨ha0, le_trans haM hM⟩)
    (fun q hq => by rw [hva] at hq; cases hq; exact ⟨hb0, le_trans hbM hM⟩), ?_⟩
  obtain ⟨k, hk0, hk, -, hnear⟩ := mysql.collect_average_merged a b M c d ha0 hb0 haM hbM hM
    hpos hle
  refine ⟨k, hk0, ?_, ?_, hnear⟩
  · simp only [UpdateSlowLogCollectAuditPlanSQLs.info, ha, hc, hva, hvc, mysql.num, hk,
      mysql.JSON_SET]
  · simp only [UpdateSlowLogCollectAuditPlanSQLsV2.info, ha, hc, hva, hvc, mysql.num, hk,
      mysql.JSON_SET]

/-- Witness of the amended C11 on counters 3 and 5 with averages 10 and 20: the
merged `average_query_time` is an integer less than 0.51 away from 16.25. -/
theorem UpdateSlowLogCollectAuditPlanSQLs_average_rounded_witness :
    sample.collectStored.average_query_time = .value 10 ∧
    sample.collectStored.counter = .value ((3 : ℕ) : ℚ) ∧
    sample.collectIncoming.average_query_time = .value 20 ∧
    sample.collectIncoming.counter = .value ((5 : ℕ) : ℚ) ∧
    weightedAverage 10 (3 : ℕ) 20 (5 : ℕ) = 65 / 4 ∧
    ∃ k : ℤ, (UpdateSlowLogCollectAuditPlanSQLs.info sample.collectStored
        sample.collectIncoming).average_query_time = .value (k : ℚ) ∧
      |(k : ℚ) - 65 / 4| ≤ 51 / 100 := by
  have h3 : sample.collectStored.counter = .value ((3 : ℕ) : ℚ) := by
    norm_num [sample.collectStored]
  have h5 : sample.collectIncoming.counter = .value ((5 : ℕ) : ℚ) := by
    norm_num [sample.collectIncoming]
  have hw : weightedAverage 10 (3 : ℕ) 20 (5 : ℕ) = 65 / 4 := by
    norm_num [weightedAverage]
  obtain ⟨-, k, -, hk, -, hnear⟩ :=
    UpdateSlowLogCollectAuditPlanSQLs_average_rounded sample.collectStored
      sample.collectIncoming 10 20 20 3 5 rfl h3 rfl h5 (by norm_num) (by norm_num)
      (by norm_num) (by norm_num) (by norm_num) (by norm_num) (by norm_num)
  rw [hw] at hnear
  refine ⟨rfl, h3, rfl, h5, hw, k, hk, le_trans hnear (by norm_num)⟩

/-- Counterexample to C11 as stated: counters 3 and 5 with `average_query_time`
10 and 20 have the weighted average 16.25, and both slow log collection paths
store 16. -/
theorem UpdateSlowLogCollectAuditPlanSQLs_average_not_exact :
    weightedAverage 10 3 20 5 = 65 / 4 ∧
    (UpdateSlowLogCollectAuditPlanSQLs.info sample.collectStored
        sample.collectIncoming).average_query_time = .value 16 ∧
    (UpdateSlowLogCollectAuditPlanSQLsV2.info sample.collectStored
        sample.collectIncoming).average_query_time = .value 16 := by
  obtain ⟨k, -, hk, -, hnear⟩ := mysql.collect_average_merged 10 20 20 3 5 (by norm_num)
    (by norm_num) (by norm_num) (by norm_num) (by norm_num) (by norm_num) (by norm_num)
  have hw : weightedAverage 10 ((3 : ℕ) : ℚ) 20 ((5 : ℕ) : ℚ) = 65 / 4 := by
    norm_num [weightedAverage]
  rw [hw] at hnear
  have hk16 : k = 16 := by
    apply int_eq_of_abs_sub_lt_one
    have h1 := abs_le.mp hnear
    rw [abs_lt]
    push_cast
    have h2 : (1 : ℚ) / 2 + (20 + 1) / 2 ^ 49 < 3 / 4 := by norm_num
    constructor <;> linarith [h1.1, h1.2]
  rw [hk16] at hk
  simp only [Nat.cast_ofNat, Int.cast_ofNat] at hk
  refine ⟨by norm_num [weightedAverage], ?_, ?_⟩
  · simp only [UpdateSlowLogCollectAuditPlanSQLs.info, sample.collectStored,
      sample.collectIncoming, mysql.num, hk, mysql.JSON_SET]
  · simp only [UpdateSlowLogCollectAuditPlanSQLsV2.info, sample.collectStored,
      sample.collectIncoming, mysql.num, hk, mysql.JSON_SET]

/-! ## Theorems: the sizes of the numbers that the merge stores -/

/-- Rounding to the nearest integer does not pass an integer. -/
theorem mysql.roundHalfEven_le (y : ℚ) (K : ℤ) (h : y ≤ K) : mysql.roundHalfEven y ≤ K := by
  have h1 := (abs_le.mp (mysql.roundHalfEven_error y)).2
  have h2 : (mysql.roundHalfEven y : ℚ) < ((K + 1 : ℤ) : ℚ) := by
    push_cast
    linarith
  have h3 : mysql.roundHalfEven y < K + 1 := by exact_mod_cast h2
  omega

/-- Rounding to the nearest DOUBLE does not pass a DOUBLE: a number between 0
and `m * 2^j`, for a natural `m` of at most 2^53, has its nearest DOUBLE at most
`m * 2^j`. -/
theorem mysql.double_le (x : ℚ) (m : ℕ) (j : ℤ) (hm : (m : ℚ) ≤ 2 ^ 53) (hj : -1074 ≤ j)
    (hx0 : 0 ≤ x) (hx : x ≤ m * (2 : ℚ) ^ j) : mysql.double x ≤ m * (2 : ℚ) ^ j := by
  rcases eq_or_lt_of_le hx0 with h0 | hpos
  · rw [← h0, mysql.double_zero]
    rw [← h0] at hx
    exact hx
  have habs : |x| = x := abs_of_pos hpos
  have hlog1 : (2 : ℚ) ^ (Int.log 2 x) ≤ x := Int.zpow_log_le_self (by norm_num) hpos
  have hlog2 : x < (2 : ℚ) ^ (Int.log 2 x + 1) := Int.lt_zpow_succ_log_self (by norm_num) x
  by_cases hij : max (Int.log 2 x) (-1022) - 52 ≤ j
  · -- the bound is a multiple of the unit in the last place
    unfold mysql.double mysql.ulp
    rw [habs]
    have hu : (0 : ℚ) < (2 : ℚ) ^ (max (Int.log 2 x) (-1022) - 52) := by positivity
    have hK : (m : ℚ) * (2 : ℚ) ^ j =
        (((m : ℤ) * 2 ^ (j - (max (Int.log 2 x) (-1022) - 52)).toNat : ℤ) : ℚ) *
          (2 : ℚ) ^ (max (Int.log 2 x) (-1022) - 52) := by
      push_cast
      rw [mul_assoc, ← zpow_natCast, Int.toNat_of_nonneg (by omega), ← zpow_add₀ (by norm_num)]
      congr 2
      ring
    rw [hK]
    apply mul_le_mul_of_nonneg_right _ hu.le
    have hle : x / (2 : ℚ) ^ (max (Int.log 2 x) (-1022) - 52) ≤
        (((m : ℤ) * 2 ^ (j - (max (Int.log 2 x) (-1022) - 52)).toNat : ℤ) : ℚ) := by
      rw [div_le_iff₀ hu, ← hK]
      exact hx
    exact_mod_cast mysql.roundHalfEven_le _ _ hle
  · -- the bound is the power of two at which the binade of `x` starts
    have hL : -1022 < Int.log 2 x := by
      by_contra hcon
      have : max (Int.log 2 x) (-1022) = -1022 := max_eq_right (by omega)
      rw [this] at hij
      omega
    have hmax : max (Int.log 2 x) (-1022) = Int.log 2 x := max_eq_left (by omega)
    rw [hmax] at hij
    have hj2 : j ≤ Int.log 2 x - 53 := by omega
    have hB : (m : ℚ) * (2 : ℚ) ^ j ≤ (2 : ℚ) ^ (Int.log 2 x) := by
      calc (m : ℚ) * (2 : ℚ) ^ j ≤ 2 ^ 53 * (2 : ℚ) ^ j :=
            mul_le_mul_of_nonneg_right hm (by positivity)
        _ ≤ 2 ^ 53 * (2 : ℚ) ^ (Int.log 2 x - 53) :=
            mul_le_mul_of_nonneg_left (zpow_le_zpow_right₀ (by norm_num) hj2) (by positivity)
        _ = (2 : ℚ) ^ (Int.log 2 x) := by
            rw [← zpow_natCast (2 : ℚ) 53, ← zpow_add₀ (by norm_num)]
            congr 1
            push_cast
            ring
    have hxeq : x = (2 : ℚ) ^ (Int.log 2 x) := le_antisymm (le_trans hx hB) hlog1
    have hd := mysql.double_of_binade x (Int.log 2 x) (by rw [habs]; exact hlog1)
      (by rw [habs]; exact hlog2) (by omega)
    have hq : x / (2 : ℚ) ^ (Int.log 2 x - 52) = (((2 : ℤ) ^ 52 : ℤ) : ℚ) := by
      rw [div_eq_iff (by positivity)]
      have h52 : ((((2 : ℤ) ^ 52 : ℤ) : ℚ)) = (2 : ℚ) ^ (52 : ℤ) := by norm_num
      rw [h52, ← zpow_add₀ (by norm_num)]
      have : (52 : ℤ) + (Int.log 2 x - 52) = Int.log 2 x := by ring
      rw [this]
      exact hxeq
    rw [hq, mysql.roundHalfEven_int] at hd
    have hdx : mysql.double x = x := by
      rw [hd, ← hq]
      field_simp
    rw [hdx]
    exact hx

/-- Rounding to the nearest DOUBLE does not pass a natural multiple of 2^63. -/
theorem mysql.double_le_nat (x : ℚ) (m : ℕ) (hm : (m : ℚ) ≤ 2 ^ 53) (hx0 : 0 ≤ x)
    (hx : x ≤ m * 2 ^ 63) : mysql.double x ≤ m * 2 ^ 63 := by
  have e : (2 : ℚ) ^ (63 : ℤ) = (2 : ℚ) ^ 63 := by norm_num
  have h := mysql.double_le x m 63 hm (by norm_num) hx0 (by rw [e]; exact hx)
  rw [e] at h
  exact h

/-- The quotient of the slow log collection on averages between 0 and 2^63 and
natural counters of a sum between 1 and 2^53 is between 0 and 2^63. -/
theorem mysql.collect_quotient_le (x y : ℚ) (c d : ℕ) (hx0 : 0 ≤ x) (hy0 : 0 ≤ y)
    (hx : x ≤ 2 ^ 63) (hy : y ≤ 2 ^ 63) (hpos : 1 ≤ c + d) (hle : (c : ℚ) + d ≤ 2 ^ 53)
    (q : ℚ)
    (h : mysql.div
      (mysql.add (mysql.mul (mysql.add (some x) (some 0)) (some (c : ℚ)))
        (mysql.mul (mysql.add (some y) (some 0)) (some (d : ℚ))))
      (mysql.add (some (c : ℚ)) (some (d : ℚ))) = some q) : 0 ≤ q ∧ q ≤ 2 ^ 63 := by
  have hc0 : (0 : ℚ) ≤ c := Nat.cast_nonneg c
  have hd0 : (0 : ℚ) ≤ d := Nat.cast_nonneg d
  have hN : (1 : ℚ) ≤ (c : ℚ) + d := by exact_mod_cast hpos
  have hone : ((1 : ℕ) : ℚ) ≤ 2 ^ 53 := by norm_num
  have hdc := mysql.double_nat c (by linarith)
  have hdd := mysql.double_nat d (by linarith)
  have hdN : mysql.double ((c : ℚ) + d) = (c : ℚ) + d := by
    have h := mysql.double_nat (c + d) (by push_cast; exact hle)
    push_cast at h
    exact h
  have hop : ∀ z : ℚ, 0 ≤ z → z ≤ 2 ^ 63 →
      0 ≤ mysql.double (mysql.double (mysql.double z + mysql.double 0)) ∧
        mysql.double (mysql.double (mysql.double z + mysql.double 0)) ≤ 2 ^ 63 := by
    intro z hz0 hz
    rw [mysql.double_zero, add_zero]
    have h1 : mysql.double z ≤ 2 ^ 63 := by
      have := mysql.double_le_nat z 1 hone hz0 (by simpa using hz)
      simpa using this
    have h1n := mysql.double_nonneg z hz0
    have h2 : mysql.double (mysql.double z) ≤ 2 ^ 63 := by
      have := mysql.double_le_nat _ 1 hone h1n (by simpa using h1)
      simpa using this
    have h2n := mysql.double_nonneg _ h1n
    have h3 : mysql.double (mysql.double (mysql.double z)) ≤ 2 ^ 63 := by
      have := mysql.double_le_nat _ 1 hone h2n (by simpa using h2)
      simpa using this
    exact ⟨mysql.double_nonneg _ h2n, h3⟩
  have hprod : ∀ (z : ℚ) (n : ℕ), 0 ≤ z → z ≤ 2 ^ 63 → (n : ℚ) ≤ 2 ^ 53 →
      0 ≤ mysql.double (mysql.double (z * n)) ∧
        mysql.double (mysql.double (z * n)) ≤ n * 2 ^ 63 := by
    intro z n hz0 hz hn
    have hn0 : (0 : ℚ) ≤ n := Nat.cast_nonneg n
    have h0 : 0 ≤ z * n := mul_nonneg hz0 hn0
    have h1 : z * n ≤ n * 2 ^ 63 := by
      calc z * n ≤ 2 ^ 63 * n := mul_le_mul_of_nonneg_right hz hn0
        _ = n * 2 ^ 63 := by ring
    have h2 := mysql.double_le_nat _ n hn h0 h1
    have h2n := mysql.double_nonneg _ h0
    exact ⟨mysql.double_nonneg _ h2n, mysql.double_le_nat _ n hn h2n h2⟩
  simp only [mysql.mul, mysql.add, mysql.div, hdc, hdd, hdN] at h
  rw [if_neg (by linarith)] at h
  have hq := Option.some.inj h
  obtain ⟨hx1, hx2⟩ := hop x hx0 hx
  obtain ⟨hy1, hy2⟩ := hop y hy0 hy
  obtain ⟨hp1, hp2⟩ := hprod _ c hx1 hx2 (by linarith)
  obtain ⟨hq1, hq2⟩ := hprod _ d hy1 hy2 (by linarith)
  have hs0 : 0 ≤ mysql.double (mysql.double (mysql.double (mysql.double (mysql.double x +
      mysql.double 0)) * c)) + mysql.double (mysql.double (mysql.double (mysql.double
        (mysql.double y + mysql.double 0)) * d)) := add_nonneg hp1 hq1
  have hs1 : mysql.double (mysql.double (mysql.double (mysql.double (mysql.double x +
      mysql.double 0)) * c)) + mysql.double (mysql.double (mysql.double (mysql.double
        (mysql.double y + mysql.double 0)) * d)) ≤ ((c + d : ℕ) : ℚ) * 2 ^ 63 := by
    push_cast
    linarith
  have hs2 := mysql.double_le_nat _ (c + d) (by push_cast; exact hle) hs0 hs1
  have hs2n := mysql.double_nonneg _ hs0
  have hs3 := mysql.double_le_nat _ (c + d) (by push_cast; exact hle) hs2n hs2
  have hs3n := mysql.double_nonneg _ hs2n
  push_cast at hs3
  have hquot0 : 0 ≤ mysql.double (mysql.double (mysql.double (mysql.double (mysql.double
      (mysql.double (mysql.double x + mysql.double 0)) * c)) + mysql.double (mysql.double
        (mysql.double (mysql.double (mysql.double y + mysql.double 0)) * d)))) /
      ((c : ℚ) + d) := div_nonneg hs3n (by linarith)
  have hquot : mysql.double (mysql.double (mysql.double (mysql.double (mysql.double
      (mysql.double (mysql.double x + mysql.double 0)) * c)) + mysql.double (mysql.double
        (mysql.double (mysql.double (mysql.double y + mysql.double 0)) * d)))) /
      ((c : ℚ) + d) ≤ 2 ^ 63 := by
    rw [div_le_iff₀ (by linarith)]
    linarith
  have hfin := mysql.double_le_nat _ 1 hone hquot0 (by simpa using hquot)
  rw [← hq]
  exact ⟨mysql.double_nonneg _ hquot0, by simpa using hfin⟩

/-- A numeric key between 0 and a bound, as a number: NULL, or a number between
0 and the bound. -/
theorem mysql.num_upTo (field : JSONField ℚ) (bound : ℚ) (hb : 0 ≤ bound)
    (h : field.upTo bound) :
    mysql.num field = none ∨ ∃ x, mysql.num field = some x ∧ 0 ≤ x ∧ x ≤ bound := by
  cases field with
  | absent => exact Or.inl rfl
  | null => exact Or.inr ⟨0, rfl, le_refl 0, hb⟩
  | value q => exact Or.inr ⟨q, rfl, h q rfl⟩

/-- The merged `average_query_time` of the slow log collection is missing or
between 0 and 2^63 when the stored and the incoming one are, on natural
counters of a sum of at most 2^53. -/
theorem mysql.collect_average_upTo
    (avgInfo avgValues infoCounter valuesCounter : JSONField ℚ) (c d : ℕ)
    (hc : infoCounter = .value (c : ℚ)) (hd : valuesCounter = .value (d : ℚ))
    (hle : (c : ℚ) + d ≤ 2 ^ 53)
    (h1 : avgInfo.upTo (2 ^ 63)) (h2 : avgValues.upTo (2 ^ 63)) :
    (mysql.JSON_SET (mysql.castUnsigned
      (mysql.div
        (mysql.add
          (mysql.mul (mysql.add (mysql.num avgInfo) (some 0)) (mysql.num infoCounter))
          (mysql.mul (mysql.add (mysql.num avgValues) (some 0)) (mysql.num valuesCounter)))
        (mysql.add (mysql.num infoCounter) (mysql.num valuesCounter))))).upTo (2 ^ 63) := by
  have e1 : mysql.num infoCounter = some (c : ℚ) := by rw [hc]; rfl
  have e2 : mysql.num valuesCounter = some (d : ℚ) := by rw [hd]; rfl
  rw [e1, e2]
  intro q hq
  rcases mysql.num_upTo avgInfo (2 ^ 63) (by positivity) h1 with hx | ⟨x, hx, hx0, hxle⟩
  · rw [hx] at hq
    simp [mysql.add, mysql.mul, mysql.div, mysql.castUnsigned, mysql.JSON_SET] at hq
  rcases mysql.num_upTo avgValues (2 ^ 63) (by positivity) h2 with hy | ⟨y, hy, hy0, hyle⟩
  · rw [hy] at hq
    cases hm : mysql.mul (mysql.add (mysql.num avgInfo) (some 0)) (some (c : ℚ)) with
    | none =>
      rw [hm] at hq
      simp [mysql.add, mysql.mul, mysql.div, mysql.castUnsigned, mysql.JSON_SET] at hq
    | some p =>
      rw [hm] at hq
      simp [mysql.add, mysql.mul, mysql.div, mysql.castUnsigned, mysql.JSON_SET] at hq
  rw [hx, hy] at hq
  by_cases h0 : c + d = 0
  · have hc0 : c = 0 := by omega
    have hd0 : d = 0 := by omega
    subst hc0 hd0
    simp only [Nat.cast_zero] at hq
    rw [mysql.div_zero_counters] at hq
    simp [mysql.castUnsigned, mysql.JSON_SET] at hq
  · cases hdiv : mysql.div
        (mysql.add (mysql.mul (mysql.add (some x) (some 0)) (some (c : ℚ)))
          (mysql.mul (mysql.add (some y) (some 0)) (some (d : ℚ))))
        (mysql.add (some (c : ℚ)) (some (d : ℚ))) with
    | none =>
      rw [hdiv] at hq
      simp [mysql.castUnsigned, mysql.JSON_SET] at hq
    | some Q =>
      rw [hdiv] at hq
      obtain ⟨hQ0, hQle⟩ := mysql.collect_quotient_le x y c d hx0 hy0 hxle hyle
        (Nat.one_le_iff_ne_zero.mpr h0) hle Q hdiv
      simp only [mysql.castUnsigned, Option.map_some', mysql.JSON_SET,
        JSONField.value.injEq] at hq
      rw [← hq]
      have hk0 := mysql.roundHalfEven_nonneg Q hQ0
      have hk1 := mysql.roundHalfEven_le Q (2 ^ 63) (by push_cast; exact hQle)
      constructor
      · exact_mod_cast hk0
      · have : ((mysql.roundHalfEven Q : ℤ) : ℚ) ≤ ((2 ^ 63 : ℤ) : ℚ) := by exact_mod_cast hk1
        push_cast at this
        exact this

/-- The merged average of a cast to `DECIMAL(M,6)` is missing or within the
largest value of the type. -/
theorem mysql.castDecimalDouble_within (Mx : ℕ) (X : Option ℚ) (bound : ℚ)
    (hb : mysql.maxDecimal Mx 6 ≤ bound) :
    (mysql.JSON_SET (mysql.castDecimalDouble Mx 6 X)).within bound := by
  intro q hq
  cases X with
  | none => simp [mysql.castDecimalDouble, mysql.castDecimal, mysql.JSON_SET] at hq
  | some Q =>
    obtain ⟨v, hv, hdec, -⟩ := mysql.castDecimal_spec Mx 6 (mysql.shortest Q)
    have hv2 : mysql.castDecimalDouble Mx 6 (some Q) = some v := by
      unfold mysql.castDecimalDouble
      exact hv
    rw [hv2] at hq
    simp only [mysql.JSON_SET, JSONField.value.injEq] at hq
    rw [← hq]
    exact le_trans hdec.2 hb

/-- One value tuple with a natural counter merged into the row of its key, which
has a natural counter: the counter of the row left is natural, the sum of the
two, when that is at most 2^53. -/
theorem mergeInto_counter
    (update : AuditPlanSQLV2 → AuditPlanSQLV2 → AuditPlanSQLV2)
    (hcounter : ∀ stored incoming, (update stored incoming).Info.counter =
      mysql.JSON_SET (mysql.castSigned
        (mysql.add (mysql.COALESCE (mysql.num incoming.Info.counter) (some 0))
          (mysql.COALESCE (mysql.num stored.Info.counter) (some 0)))))
    (state : Option AuditPlanSQLV2) (row : AuditPlanSQLV2)
    (hstate : ∀ stored, state = some stored → stored.Info.natCounter)
    (hrow : row.Info.natCounter)
    (hrange : stateCounter state + row.Info.counter.orZero ≤ 2 ^ 53) :
    ∃ merged, mergeInto update state row = some merged ∧ merged.Info.natCounter ∧
      stateCounter (some merged) = stateCounter state + row.Info.counter.orZero := by
  have h := foldl_mergeInto_counter update hcounter [row] state hstate
    (fun r hr => by rw [List.mem_singleton.mp hr]; exact hrow)
    (by simpa using hrange)
  cases hm : mergeInto update state row with
  | none => cases state <;> simp [mergeInto] at hm
  | some merged =>
    have hc := h merged (by simpa using hm)
    simp only [List.map_cons, List.map_nil, List.sum_cons, List.sum_nil, add_zero] at hc
    obtain ⟨n, hn⟩ := hrow
    have hst : ∃ k : ℕ, stateCounter state = k := by
      cases state with
      | none => exact ⟨0, by simp [stateCounter]⟩
      | some s =>
        obtain ⟨k, hk⟩ := hstate s rfl
        exact ⟨k, by simp [stateCounter, Info.natCounter_orZero _ k hk]⟩
    obtain ⟨k, hk⟩ := hst
    rw [hk, Info.natCounter_orZero _ n hn] at hc
    have hnat : merged.Info.counter = .value ((k + n : ℕ) : ℚ) := by
      rw [hc]
      push_cast
      rfl
    refine ⟨merged, rfl, ⟨k + n, hnat⟩, ?_⟩
    rw [hk, Info.natCounter_orZero _ n hn]
    show merged.Info.counter.orZero = _
    rw [Info.natCounter_orZero _ (k + n) hnat]
    push_cast
    rfl

/-- A property of the documents that an update keeps, on natural counters of a
sum of at most 2^53, holds of the row that merged value tuples leave under a
key. -/
theorem foldl_mergeInto_invariant
    (update : AuditPlanSQLV2 → AuditPlanSQLV2 → AuditPlanSQLV2)
    (hcounter : ∀ stored incoming, (update stored incoming).Info.counter =
      mysql.JSON_SET (mysql.castSigned
        (mysql.add (mysql.COALESCE (mysql.num incoming.Info.counter) (some 0))
          (mysql.COALESCE (mysql.num stored.Info.counter) (some 0)))))
    (P : Info → Prop)
    (hP : ∀ (stored incoming : AuditPlanSQLV2) (m n : ℕ),
      stored.Info.counter = .value (m : ℚ) → incoming.Info.counter = .value (n : ℚ) →
      (m : ℚ) + n ≤ 2 ^ 53 → P stored.Info → P incoming.Info →
      P (update stored incoming).Info)
    (rows : List AuditPlanSQLV2) (state : Option AuditPlanSQLV2)
    (hstate : ∀ stored, state = some stored → stored.Info.natCounter ∧ P stored.Info)
    (hrows : ∀ r ∈ rows, r.Info.natCounter ∧ P r.Info)
    (hrange : stateCounter state + (rows.map (fun r => r.Info.counter.orZero)).sum ≤ 2 ^ 53)
    (merged : AuditPlanSQLV2) (hmerged : rows.foldl (mergeInto update) state = some merged) :
    P merged.Info := by
  induction rows generalizing state with
  | nil => exact (hstate merged hmerged).2
  | cons row rest ih =>
    have hrest : ∀ r ∈ rest, r.Info.natCounter ∧ P r.Info := fun r hr =>
      hrows r (List.mem_cons_of_mem _ hr)
    have hnonneg := counters_sum_nonneg rest (fun r hr => (hrest r hr).1)
    rw [List.map_cons, List.sum_cons] at hrange
    obtain ⟨next, hnext, hnat, hsc⟩ := mergeInto_counter update hcounter state row
      (fun s hs => (hstate s hs).1) (hrows row (List.mem_cons_self _ _)).1 (by linarith)
    rw [List.foldl_cons, hnext] at hmerged
    apply ih (some next) _ hrest (by rw [hsc]; linarith) hmerged
    intro s hs
    cases hs
    refine ⟨hnat, ?_⟩
    cases state with
    | none =>
      simp only [mergeInto, Option.some.injEq] at hnext
      rw [← hnext]
      exact (hrows row (List.mem_cons_self _ _)).2
    | some stored =>
      simp only [mergeInto, Option.some.injEq] at hnext
      rw [← hnext]
      obtain ⟨m, hm⟩ := (hstate stored rfl).1
      obtain ⟨n, hn⟩ := (hrows row (List.mem_cons_self _ _)).1
      have hmn : (m : ℚ) + n ≤ 2 ^ 53 := by
        have h1 : stateCounter (some stored) = m := by
          simp [stateCounter, Info.natCounter_orZero _ m hm]
        rw [h1, Info.natCounter_orZero _ n hn] at hrange
        linarith
      exact hP stored row m n hm hn hmn (hstate stored rfl).2
        (hrows row (List.mem_cons_self _ _)).2

/-- No value tuple raises an error when the clause fails on no pair of
documents with natural counters of a sum of at most 2^53 that have a property
`P`, which the update keeps on such documents: the rows met and the tuples have
natural counters and the property, and the counters of a key sum to at most
2^53. -/
theorem batchFails_eq_false_of_invariant
    (update : AuditPlanSQLV2 → AuditPlanSQLV2 → AuditPlanSQLV2)
    (hkey : ∀ stored incoming, (update stored incoming).uniqueKey = stored.uniqueKey)
    (hcounter : ∀ stored incoming, (update stored incoming).Info.counter =
      mysql.JSON_SET (mysql.castSigned
        (mysql.add (mysql.COALESCE (mysql.num incoming.Info.counter) (some 0))
          (mysql.COALESCE (mysql.num stored.Info.counter) (some 0)))))
    (fails : Info → Info → Bool) (P : Info → Prop)
    (hP : ∀ (stored incoming : AuditPlanSQLV2) (m n : ℕ),
      stored.Info.counter = .value (m : ℚ) → incoming.Info.counter = .value (n : ℚ) →
      (m : ℚ) + n ≤ 2 ^ 53 → P stored.Info → P incoming.Info →
      P (update stored incoming).Info)
    (hfails : ∀ (stored incoming : Info) (m n : ℕ), stored.counter = .value (m : ℚ) →
      incoming.counter = .value (n : ℚ) → (m : ℚ) + n ≤ 2 ^ 53 → P stored → P incoming →
      mysql.signedOutOfRange
        (mysql.add (mysql.COALESCE (mysql.num incoming.counter) (some 0))
          (mysql.COALESCE (mysql.num stored.counter) (some 0))) = false →
      fails stored incoming = false)
    (rows : List AuditPlanSQLV2) (table : Table)
    (hstate : ∀ r ∈ rows, ∀ stored, table.find r.uniqueKey = some stored →
      stored.Info.natCounter ∧ P stored.Info)
    (hrows : ∀ r ∈ rows, r.Info.natCounter ∧ P r.Info)
    (hrange : ∀ r ∈ rows, stateCounter (table.find r.uniqueKey) +
      ((rows.filter (fun x => decide (x.uniqueKey = r.uniqueKey))).map
        (fun x => x.Info.counter.orZero)).sum ≤ 2 ^ 53) :
    batchFails update fails table rows = false := by
  apply batchFails_eq_false update hkey
  intro pre row post hsplit stored hst
  have hrowmem : row ∈ rows := by rw [hsplit]; simp
  have hpremem : ∀ r ∈ pre.filter (fun r => decide (r.uniqueKey = row.uniqueKey)), r ∈ rows :=
    fun r hr => by rw [hsplit]; exact List.mem_append_left _ (List.mem_filter.mp hr).1
  have hle := prefix_counters_le pre post row (fun r hr => (hrows r (by rw [hsplit]; exact hr)).1)
  have hr := hrange row hrowmem
  rw [hsplit] at hr
  have hrownn : 0 ≤ row.Info.counter.orZero := by
    obtain ⟨n, hn⟩ := (hrows row hrowmem).1
    rw [Info.natCounter_orZero _ n hn]
    exact Nat.cast_nonneg n
  obtain ⟨m, n, hm, hn, -, hmn, hsigned⟩ := counter_in_range update hcounter
    (pre.filter (fun r => decide (r.uniqueKey = row.uniqueKey))) row
    (table.find row.uniqueKey) (fun s hs => (hstate row hrowmem s hs).1)
    (fun r hr => (hrows r (hpremem r hr)).1) (hrows row hrowmem).1 (by linarith) stored hst
  have hPs : P stored.Info := foldl_mergeInto_invariant update hcounter P hP
    (pre.filter (fun r => decide (r.uniqueKey = row.uniqueKey))) (table.find row.uniqueKey)
    (hstate row hrowmem) (fun r hr => hrows r (hpremem r hr)) (by linarith) stored hst
  exact hfails stored.Info row.Info m n hm hn hmn hPs (hrows row hrowmem).2 hsigned

/-- The result of a merge statement none of whose value tuples raises an error:
the table is the value tuples of the records taken in their order, and the
error is none for a batch with a record, the syntax error for an empty batch. -/
theorem execInsertOnDuplicateKeyUpdate_table
    (update : AuditPlanSQLV2 → AuditPlanSQLV2 → AuditPlanSQLV2) (fails : Info → Info → Bool)
    (Md5String : String → String) (table : Table) (auditPlanId : Nat)
    (sqls : List AuditPlanSQLV2)
    (hfails : batchFails update fails table (sqls.map (valuesRow Md5String auditPlanId)) = false) :
    (execInsertOnDuplicateKeyUpdate update fails table
      (getBatchInsertRawSQL Md5String auditPlanId sqls)).1 =
      (sqls.map (valuesRow Md5String auditPlanId)).foldl (insertOnDuplicateKeyUpdate update)
        table ∧
    ((execInsertOnDuplicateKeyUpdate update fails table
      (getBatchInsertRawSQL Md5String auditPlanId sqls)).2 = none ↔ sqls ≠ []) := by
  cases sqls with
  | nil =>
    unfold execInsertOnDuplicateKeyUpdate
    rw [valueTuples_getBatchInsertRawSQL]
    simp
  | cons sql rest =>
    rw [execInsertOnDuplicateKeyUpdate_ok update fails Md5String table auditPlanId
      (sql :: rest) (by simp) hfails]
    simp

/-- The documents of the rows that `UpdateSlowLogAuditPlanSQLs` writes have
averages of the sizes that its casts store. -/
theorem UpdateSlowLogAuditPlanSQLs_row_within (stored incoming : AuditPlanSQLV2) :
    (UpdateSlowLogAuditPlanSQLs.row stored incoming).Info.query_time_avg.within (10 ^ 59) ∧
    (UpdateSlowLogAuditPlanSQLs.row stored incoming).Info.row_examined_avg.within (10 ^ 59) :=
  ⟨mysql.castDecimalDouble_within 12 _ _ (le_trans mysql.maxDecimal_mono mysql.maxDecimal_le),
    mysql.castDecimalDouble_within 65 _ _ mysql.maxDecimal_le⟩

/-- The clause of `UpdateSlowLogAuditPlanSQLs` raises no error on documents with
natural counters of a sum of at most 2^53 and averages that are missing or at
most 10^59 in absolute value. -/
theorem UpdateSlowLogAuditPlanSQLs_fails_eq_false (stored incoming : Info) (m n : ℕ)
    (hm : stored.counter = .value (m : ℚ)) (hn : incoming.counter = .value (n : ℚ))
    (hmn : (m : ℚ) + n ≤ 2 ^ 53)
    (hs : stored.query_time_avg.within (10 ^ 59) ∧ stored.row_examined_avg.within (10 ^ 59))
    (hi : incoming.query_time_avg.within (10 ^ 59) ∧
      incoming.row_examined_avg.within (10 ^ 59))
    (hsigned : mysql.signedOutOfRange
      (mysql.add (mysql.COALESCE (mysql.num incoming.counter) (some 0))
        (mysql.COALESCE (mysql.num stored.counter) (some 0))) = false) :
    UpdateSlowLogAuditPlanSQLs.fails stored incoming = false := by
  unfold UpdateSlowLogAuditPlanSQLs.fails
  rw [hsigned, mysql.averageOutOfRange_eq_false _ _ _ _ m n hm hn hmn hs.1 hi.1,
    mysql.averageOutOfRange_eq_false _ _ _ _ m n hm hn hmn hs.2 hi.2]
  rfl

/-- The clause of `UpdateSlowLogCollectAuditPlanSQLs` raises no error on
documents with natural counters of a sum of at most 2^53, `average_query_time`
missing or between 0 and 2^63 and `row_examined_avg` missing or at most 10^59 in
absolute value. -/
theorem UpdateSlowLogCollectAuditPlanSQLs_fails_eq_false (stored incoming : Info) (m n : ℕ)
    (hm : stored.counter = .value (m : ℚ)) (hn : incoming.counter = .value (n : ℚ))
    (hmn : (m : ℚ) + n ≤ 2 ^ 53)
    (hs : stored.average_query_time.upTo (2 ^ 63) ∧ stored.row_examined_avg.within (10 ^ 59))
    (hi : incoming.average_query_time.upTo (2 ^ 63) ∧
      incoming.row_examined_avg.within (10 ^ 59))
    (hsigned : mysql.signedOutOfRange
      (mysql.add (mysql.COALESCE (mysql.num incoming.counter) (some 0))
        (mysql.COALESCE (mysql.num stored.counter) (some 0))) = false) :
    UpdateSlowLogCollectAuditPlanSQLs.fails stored incoming = false := by
  unfold UpdateSlowLogCollectAuditPlanSQLs.fails
  rw [hsigned, mysql.collectAverageOutOfRange_eq_false _ _ _ _ m n hm hn hmn hs.1 hi.1,
    mysql.averageOutOfRange_eq_false _ _ _ _ m n hm hn hmn hs.2 hi.2]
  rfl

/-- The documents of the rows that `UpdateSlowLogCollectAuditPlanSQLs` writes
have averages of the sizes that its casts store, when the documents merged have. -/
theorem UpdateSlowLogCollectAuditPlanSQLs_row_within (stored incoming : AuditPlanSQLV2)
    (m n : ℕ) (hm : stored.Info.counter = .value (m : ℚ))
    (hn : incoming.Info.counter = .value (n : ℚ)) (hmn : (m : ℚ) + n ≤ 2 ^ 53)
    (hs : stored.Info.average_query_time.upTo (2 ^ 63) ∧
      stored.Info.row_examined_avg.within (10 ^ 59))
    (hi : incoming.Info.average_query_time.upTo (2 ^ 63) ∧
      incoming.Info.row_examined_avg.within (10 ^ 59)) :
    (UpdateSlowLogCollectAuditPlanSQLs.row stored incoming).Info.average_query_time.upTo
      (2 ^ 63) ∧
    (UpdateSlowLogCollectAuditPlanSQLs.row stored incoming).Info.row_examined_avg.within
      (10 ^ 59) :=
  ⟨mysql.collect_average_upTo _ _ _ _ m n hm hn hmn hs.1 hi.1,
    mysql.castDecimalDouble_within 65 _ _ mysql.maxDecimal_le⟩

/-- A merge statement on a batch of records with natural counters and a
property `P` that the update keeps and on which the clause does not fail, when
the rows met have natural counters and the property and the counters of each
key, with the counter stored, sum to at most 2^53: the table is the value tuples
taken in their order; the error is none unless the batch is empty; the row under
a key is the records of the key merged in their order into the row found before;
and the row under the key of a record has the property and the sum as counter. -/
theorem merge_run
    (update : AuditPlanSQLV2 → AuditPlanSQLV2 → AuditPlanSQLV2)
    (hkey : ∀ stored incoming, (update stored incoming).uniqueKey = stored.uniqueKey)
    (hcounter : ∀ stored incoming, (update stored incoming).Info.counter =
      mysql.JSON_SET (mysql.castSigned
        (mysql.add (mysql.COALESCE (mysql.num incoming.Info.counter) (some 0))
          (mysql.COALESCE (mysql.num stored.Info.counter) (some 0)))))
    (fails : Info → Info → Bool) (P : Info → Prop)
    (hP : ∀ (stored incoming : AuditPlanSQLV2) (m n : ℕ),
      stored.Info.counter = .value (m : ℚ) → incoming.Info.counter = .value (n : ℚ) →
      (m : ℚ) + n ≤ 2 ^ 53 → P stored.Info → P incoming.Info →
      P (update stored incoming).Info)
    (hfails : ∀ (stored incoming : Info) (m n : ℕ), stored.counter = .value (m : ℚ) →
      incoming.counter = .value (n : ℚ) → (m : ℚ) + n ≤ 2 ^ 53 → P stored → P incoming →
      mysql.signedOutOfRange
        (mysql.add (mysql.COALESCE (mysql.num incoming.counter) (some 0))
          (mysql.COALESCE (mysql.num stored.counter) (some 0))) = false →
      fails stored incoming = false)
    (Md5String : String → String) (table : Table) (auditPlanId : Nat)
    (sqls : List AuditPlanSQLV2)
    (hstate : ∀ s ∈ sqls, ∀ stored,
      table.find (mergeKey Md5String auditPlanId s) = some stored →
      stored.Info.natCounter ∧ P stored.Info)
    (hrows : ∀ s ∈ sqls, s.Info.natCounter ∧ P s.Info)
    (hrange : ∀ s ∈ sqls, stateCounter (table.find (mergeKey Md5String auditPlanId s)) +
      ((sqls.filter (fun x => decide (mergeKey Md5String auditPlanId x =
        mergeKey Md5String auditPlanId s))).map (fun x => x.Info.counter.orZero)).sum ≤ 2 ^ 53) :
    ((execInsertOnDuplicateKeyUpdate update fails table
      (getBatchInsertRawSQL Md5String auditPlanId sqls)).2 = none ↔ sqls ≠ []) ∧
    (∀ k, Table.find (execInsertOnDuplicateKeyUpdate update fails table
        (getBatchInsertRawSQL Md5String auditPlanId sqls)).1 k =
      ((sqls.filter (fun s => decide (mergeKey Md5String auditPlanId s = k))).map
        (valuesRow Md5String auditPlanId)).foldl (mergeInto update) (table.find k)) ∧
    (∀ s ∈ sqls, ∃ merged, Table.find (execInsertOnDuplicateKeyUpdate update fails table
        (getBatchInsertRawSQL Md5String auditPlanId sqls)).1
        (mergeKey Md5String auditPlanId s) = some merged ∧
      merged.Info.natCounter ∧ P merged.Info ∧
      merged.Info.counter = .value
        (stateCounter (table.find (mergeKey Md5String auditPlanId s)) +
          ((sqls.filter (fun x => decide (mergeKey Md5String auditPlanId x =
            mergeKey Md5String auditPlanId s))).map (fun x => x.Info.counter.orZero)).sum)) := by
  have hbatch : batchFails update fails table (sqls.map (valuesRow Md5String auditPlanId)) =
      false := by
    apply batchFails_eq_false_of_invariant update hkey hcounter fails P hP hfails
    · intro r hr stored hs
      obtain ⟨s, hs1, rfl⟩ := List.mem_map.mp hr
      exact hstate s hs1 stored hs
    · intro r hr
      obtain ⟨s, hs1, rfl⟩ := List.mem_map.mp hr
      exact hrows s hs1
    · intro r hr
      obtain ⟨s, hs1, rfl⟩ := List.mem_map.mp hr
      rw [valuesRow_key_counters]
      exact hrange s hs1
  obtain ⟨htable, herr⟩ := execInsertOnDuplicateKeyUpdate_table update fails Md5String table
    auditPlanId sqls hbatch
  have hfind : ∀ k, Table.find (execInsertOnDuplicateKeyUpdate update fails table
        (getBatchInsertRawSQL Md5String auditPlanId sqls)).1 k =
      ((sqls.filter (fun s => decide (mergeKey Md5String auditPlanId s = k))).map
        (valuesRow Md5String auditPlanId)).foldl (mergeInto update) (table.find k) := by
    intro k
    rw [htable, Table.find_foldl_valuesRow update hkey]
  refine ⟨herr, hfind, ?_⟩
  intro s hs
  have hrowsk : ∀ r ∈ (sqls.filter (fun x => decide (mergeKey Md5String auditPlanId x =
      mergeKey Md5String auditPlanId s))).map (valuesRow Md5String auditPlanId),
      r.Info.natCounter ∧ P r.Info := by
    intro r hr
    obtain ⟨x, hx, rfl⟩ := List.mem_map.mp hr
    exact hrows x (List.mem_filter.mp hx).1
  have hr := hrange s hs
  rw [← valuesRow_counters Md5String auditPlanId] at hr
  cases hm : ((sqls.filter (fun x => decide (mergeKey Md5String auditPlanId x =
      mergeKey Md5String auditPlanId s))).map (valuesRow Md5String auditPlanId)).foldl
      (mergeInto update) (table.find (mergeKey Md5String auditPlanId s)) with
  | none =>
    exfalso
    have h1 := ((foldl_mergeInto_eq_none update _ _).mp hm).2
    have h2 : s ∈ sqls.filter (fun x => decide (mergeKey Md5String auditPlanId x =
        mergeKey Md5String auditPlanId s)) := List.mem_filter.mpr ⟨hs, by simp⟩
    rw [List.map_eq_nil_iff.mp h1] at h2
    cases h2
  | some merged =>
    have hc := foldl_mergeInto_counter update hcounter _ _
      (fun st hst => (hstate s hs st hst).1) (fun r hr2 => (hrowsk r hr2).1) hr merged hm
    have hp := foldl_mergeInto_invariant update hcounter P hP _ _ (hstate s hs) hrowsk hr
      merged hm
    rw [valuesRow_counters] at hc
    have hnat : merged.Info.natCounter := by
      obtain ⟨p, hp2⟩ := counters_sum_nat _ (fun r hr2 => (hrowsk r hr2).1)
      rw [valuesRow_counters] at hp2
      have hst : ∃ k : ℕ, stateCounter (table.find (mergeKey Md5String auditPlanId s)) = k := by
        cases hf : table.find (mergeKey Md5String auditPlanId s) with
        | none => exact ⟨0, by simp [stateCounter]⟩
        | some st =>
          obtain ⟨k, hk⟩ := (hstate s hs st hf).1
          exact ⟨k, by simp [stateCounter, Info.natCounter_orZero _ k hk]⟩
      obtain ⟨k, hk⟩ := hst
      exact ⟨k + p, by rw [hc, hk, hp2]; push_cast; rfl⟩
    exact ⟨merged, by rw [hfind, hm], hnat, hp, hc⟩

/-- `UpdateSlowLogAuditPlanSQLs` on a batch of records with numbers of the sizes
that its casts store, when the rows met have such numbers and the counters of
each key, with the counter stored, sum to at most 2^53: no error unless the
batch is empty; the row under a key is the records of the key merged in their
order into the row found before; the row under the key of a record has numbers
of those sizes and the sum as counter. -/
theorem UpdateSlowLogAuditPlanSQLs_run (Md5String : String → String) (table : Table)
    (auditPlanId : Nat) (sqls : List AuditPlanSQLV2)
    (hstate : ∀ s ∈ sqls, ∀ stored,
      table.find (mergeKey Md5String auditPlanId s) = some stored → stored.Info.moderate)
    (hrows : ∀ s ∈ sqls, s.Info.moderate)
    (hrange : ∀ s ∈ sqls, stateCounter (table.find (mergeKey Md5String auditPlanId s)) +
      ((sqls.filter (fun x => decide (mergeKey Md5String auditPlanId x =
        mergeKey Md5String auditPlanId s))).map (fun x => x.Info.counter.orZero)).sum ≤ 2 ^ 53) :
    ((UpdateSlowLogAuditPlanSQLs Md5String table auditPlanId sqls).2 = none ↔ sqls ≠ []) ∧
    (∀ k, Table.find (UpdateSlowLogAuditPlanSQLs Md5String table auditPlanId sqls).1 k =
      ((sqls.filter (fun s => decide (mergeKey Md5String auditPlanId s = k))).map
        (valuesRow Md5String auditPlanId)).foldl (mergeInto UpdateSlowLogAuditPlanSQLs.row)
        (table.find k)) ∧
    (∀ s ∈ sqls, ∃ merged,
      Table.find (UpdateSlowLogAuditPlanSQLs Md5String table auditPlanId sqls).1
        (mergeKey Md5String auditPlanId s) = some merged ∧
      merged.Info.moderate ∧
      merged.Info.counter = .value
        (stateCounter (table.find (mergeKey Md5String auditPlanId s)) +
          ((sqls.filter (fun x => decide (mergeKey Md5String auditPlanId x =
            mergeKey Md5String auditPlanId s))).map (fun x => x.Info.counter.orZero)).sum)) := by
  obtain ⟨h1, h2, h3⟩ := merge_run UpdateSlowLogAuditPlanSQLs.row (fun _ _ => rfl)
    (fun _ _ => rfl) UpdateSlowLogAuditPlanSQLs.fails
    (fun info => info.query_time_avg.within (10 ^ 59) ∧ info.row_examined_avg.within (10 ^ 59))
    (fun stored incoming _ _ _ _ _ _ _ => UpdateSlowLogAuditPlanSQLs_row_within stored incoming)
    UpdateSlowLogAuditPlanSQLs_fails_eq_false Md5String table auditPlanId sqls
    (fun s hs stored hst => ⟨(hstate s hs stored hst).1, (hstate s hs stored hst).2⟩)
    (fun s hs => ⟨(hrows s hs).1, (hrows s hs).2⟩) hrange
  refine ⟨h1, h2, ?_⟩
  intro s hs
  obtain ⟨merged, hm, hnat, hp, hc⟩ := h3 s hs
  exact ⟨merged, hm, ⟨hnat, hp⟩, hc⟩

/-- `UpdateSlowLogCollectAuditPlanSQLs` on a batch of records with numbers of
the sizes that its casts store, when the rows met have such numbers and the
counters of each key, with the counter stored, sum to at most 2^53: no error
unless the batch is empty; the row under a key is the records of the key merged
in their order into the row found before; the row under the key of a record has
numbers of those sizes and the sum as counter. -/
theorem UpdateSlowLogCollectAuditPlanSQLs_run (Md5String : String → String) (table : Table)
    (auditPlanId : Nat) (sqls : List AuditPlanSQLV2)
    (hstate : ∀ s ∈ sqls, ∀ stored,
      table.find (mergeKey Md5String auditPlanId s) = some stored →
      stored.Info.collectModerate)
    (hrows : ∀ s ∈ sqls, s.Info.collectModerate)
    (hrange : ∀ s ∈ sqls, stateCounter (table.find (mergeKey Md5String auditPlanId s)) +
      ((sqls.filter (fun x => decide (mergeKey Md5String auditPlanId x =
        mergeKey Md5String auditPlanId s))).map (fun x => x.Info.counter.orZero)).sum ≤ 2 ^ 53) :
    ((UpdateSlowLogCollectAuditPlanSQLs Md5String table auditPlanId sqls).2 = none ↔
      sqls ≠ []) ∧
    (∀ k, Table.find (UpdateSlowLogCollectAuditPlanSQLs Md5String table auditPlanId sqls).1 k =
      ((sqls.filter (fun s => decide (mergeKey Md5String auditPlanId s = k))).map
        (valuesRow Md5String auditPlanId)).foldl
        (mergeInto UpdateSlowLogCollectAuditPlanSQLs.row) (table.find k)) ∧
    (∀ s ∈ sqls, ∃ merged,
      Table.find (UpdateSlowLogCollectAuditPlanSQLs Md5String table auditPlanId sqls).1
        (mergeKey Md5String auditPlanId s) = some merged ∧
      merged.Info.collectModerate ∧
      merged.Info.counter = .value
        (stateCounter (table.find (mergeKey Md5String auditPlanId s)) +
          ((sqls.filter (fun x => decide (mergeKey Md5String auditPlanId x =
            mergeKey Md5String auditPlanId s))).map (fun x => x.Info.counter.orZero)).sum)) := by
  obtain ⟨h1, h2, h3⟩ := merge_run UpdateSlowLogCollectAuditPlanSQLs.row (fun _ _ => rfl)
    (fun _ _ => rfl) UpdateSlowLogCollectAuditPlanSQLs.fails
    (fun info => info.average_query_time.upTo (2 ^ 63) ∧
      info.row_examined_avg.within (10 ^ 59))
    UpdateSlowLogCollectAuditPlanSQLs_row_within
    UpdateSlowLogCollectAuditPlanSQLs_fails_eq_false Md5String table auditPlanId sqls
    (fun s hs stored hst => ⟨(hstate s hs stored hst).1, (hstate s hs stored hst).2⟩)
    (fun s hs => ⟨(hrows s hs).1, (hrows s hs).2⟩) hrange
  refine ⟨h1, h2, ?_⟩
  intro s hs
  obtain ⟨merged, hm, hnat, hp, hc⟩ := h3 s hs
  exact ⟨merged, hm, ⟨hnat, hp⟩, hc⟩

/-! ## Theorems: the same batch twice -/

/-- Two values of `D` decimals less than a unit of the last decimal apart are
equal. -/
theorem mysql.roundDecimal_eq_of_close (D : ℕ) (v w : ℚ) (hv : mysql.roundDecimal D v = v)
    (hw : mysql.roundDecimal D w = w) (h : |v - w| < 1 / 10 ^ D) : v = w := by
  have hpos : (0 : ℚ) < 10 ^ D := by positivity
  have hkv : (mysql.roundHalfAway (v * 10 ^ D) : ℚ) = v * 10 ^ D := by
    have h1 := hv
    unfold mysql.roundDecimal at h1
    field_simp at h1
    linarith
  have hkw : (mysql.roundHalfAway (w * 10 ^ D) : ℚ) = w * 10 ^ D := by
    have h1 := hw
    unfold mysql.roundDecimal at h1
    field_simp at h1
    linarith
  have hk : mysql.roundHalfAway (v * 10 ^ D) = mysql.roundHalfAway (w * 10 ^ D) := by
    apply int_eq_of_abs_sub_lt_one
    rw [hkv, hkw, ← sub_mul, abs_mul, abs_of_pos hpos]
    calc |v - w| * 10 ^ D < 1 / 10 ^ D * 10 ^ D := mul_lt_mul_of_pos_right h hpos
      _ = 1 := by field_simp
  have h2 : v * 10 ^ D = w * 10 ^ D := by rw [← hkv, ← hkw, hk]
  exact mul_right_cancel₀ (ne_of_gt hpos) h2

/-- The counter of a row found, as a number, when it is a value. -/
theorem stateCounter_value (merged : AuditPlanSQLV2) (q : ℚ)
    (h : merged.Info.counter = .value q) : stateCounter (some merged) = q := by
  simp [stateCounter, JSONField.orZero, h, mysql.num, mysql.COALESCE]

/-- `UpdateSlowLogAuditPlanSQLs` run twice with the same batch on a table that
has no row of its merge keys, the records having numbers of the sizes that the
casts store and twice the counters of each key summing to at most 2^53: neither
run returns an error unless the batch is empty; the row under a key after each
run is the records of the key merged into the row found before the run; under
the key of a record, the counter after the first run is the sum of the counters
of the records of the key, and after the second run 2 times that sum. -/
theorem UpdateSlowLogAuditPlanSQLs_twice (Md5String : String → String) (table : Table)
    (auditPlanId : Nat) (sqls : List AuditPlanSQLV2)
    (hfresh : ∀ s ∈ sqls, table.find (mergeKey Md5String auditPlanId s) = none)
    (hmod : ∀ s ∈ sqls, s.Info.moderate)
    (hrange : ∀ k, 2 * ((sqls.filter
      (fun s => decide (mergeKey Md5String auditPlanId s = k))).map
        (fun s => s.Info.counter.orZero)).sum ≤ 2 ^ 53) :
    ((UpdateSlowLogAuditPlanSQLs Md5String table auditPlanId sqls).2 = none ↔ sqls ≠ []) ∧
    ((UpdateSlowLogAuditPlanSQLs Md5String
      (UpdateSlowLogAuditPlanSQLs Md5String table auditPlanId sqls).1 auditPlanId sqls).2 =
        none ↔ sqls ≠ []) ∧
    (∀ k, Table.find (UpdateSlowLogAuditPlanSQLs Md5String table auditPlanId sqls).1 k =
      ((sqls.filter (fun s => decide (mergeKey Md5String auditPlanId s = k))).map
        (valuesRow Md5String auditPlanId)).foldl (mergeInto UpdateSlowLogAuditPlanSQLs.row)
        (table.find k)) ∧
    (∀ k, Table.find (UpdateSlowLogAuditPlanSQLs Md5String
        (UpdateSlowLogAuditPlanSQLs Md5String table auditPlanId sqls).1 auditPlanId sqls).1 k =
      ((sqls.filter (fun s => decide (mergeKey Md5String auditPlanId s = k))).map
        (valuesRow Md5String auditPlanId)).foldl (mergeInto UpdateSlowLogAuditPlanSQLs.row)
        (Table.find (UpdateSlowLogAuditPlanSQLs Md5String table auditPlanId sqls).1 k)) ∧
    (∀ s ∈ sqls, ∃ once twice,
      Table.find (UpdateSlowLogAuditPlanSQLs Md5String table auditPlanId sqls).1
        (mergeKey Md5String auditPlanId s) = some once ∧
      Table.find (UpdateSlowLogAuditPlanSQLs Md5String
        (UpdateSlowLogAuditPlanSQLs Md5String table auditPlanId sqls).1 auditPlanId sqls).1
        (mergeKey Md5String auditPlanId s) = some twice ∧
      once.Info.counter = .value
        ((sqls.filter (fun x => decide (mergeKey Md5String auditPlanId x =
          mergeKey Md5String auditPlanId s))).map (fun x => x.Info.counter.orZero)).sum ∧
      twice.Info.counter = .value
        (2 * ((sqls.filter (fun x => decide (mergeKey Md5String auditPlanId x =
          mergeKey Md5String auditPlanId s))).map (fun x => x.Info.counter.orZero)).sum)) := by
  have hnonneg : ∀ k, 0 ≤ ((sqls.filter
      (fun s => decide (mergeKey Md5String auditPlanId s = k))).map
        (fun s => s.Info.counter.orZero)).sum := by
    intro k
    have := counters_sum_nonneg ((sqls.filter
      (fun s => decide (mergeKey Md5String auditPlanId s = k))).map
        (valuesRow Md5String auditPlanId))
      (fun r hr => by
        obtain ⟨x, hx, rfl⟩ := List.mem_map.mp hr
        exact (hmod x (List.mem_filter.mp hx).1).1)
    rw [valuesRow_counters] at this
    exact this
  obtain ⟨e1, f1, m1⟩ := UpdateSlowLogAuditPlanSQLs_run Md5String table auditPlanId sqls
    (fun s hs stored hst => by rw [hfresh s hs] at hst; cases hst) hmod
    (fun s hs => by
      rw [hfresh s hs]
      have h1 := hrange (mergeKey Md5String auditPlanId s)
      have h2 := hnonneg (mergeKey Md5String auditPlanId s)
      simp only [stateCounter, zero_add]
      linarith)
  have hstate2 : ∀ s ∈ sqls, ∀ stored,
      Table.find (UpdateSlowLogAuditPlanSQLs Md5String table auditPlanId sqls).1
        (mergeKey Md5String auditPlanId s) = some stored →
      stored.Info.moderate ∧ stateCounter (some stored) =
        ((sqls.filter (fun x => decide (mergeKey Md5String auditPlanId x =
          mergeKey Md5String auditPlanId s))).map (fun x => x.Info.counter.orZero)).sum := by
    intro s hs stored hst
    obtain ⟨merged, hm, hmm, hc⟩ := m1 s hs
    rw [hm] at hst
    cases hst
    refine ⟨hmm, ?_⟩
    rw [stateCounter_value _ _ hc, hfresh s hs]
    simp [stateCounter]
  obtain ⟨e2, f2, m2⟩ := UpdateSlowLogAuditPlanSQLs_run Md5String
    (UpdateSlowLogAuditPlanSQLs Md5String table auditPlanId sqls).1 auditPlanId sqls
    (fun s hs stored hst => (hstate2 s hs stored hst).1) hmod
    (fun s hs => by
      obtain ⟨merged, hm, -, -⟩ := m1 s hs
      rw [hm, (hstate2 s hs merged hm).2]
      have h1 := hrange (mergeKey Md5String auditPlanId s)
      linarith)
  refine ⟨e1, e2, f1, f2, ?_⟩
  intro s hs
  obtain ⟨once, ho, -, hoc⟩ := m1 s hs
  obtain ⟨twice, ht, -, htc⟩ := m2 s hs
  refine ⟨once, twice, ho, ht, ?_, ?_⟩
  · rw [hoc, hfresh s hs]
    simp [stateCounter]
  · rw [htc, ho, (hstate2 s hs once ho).2, two_mul]

/-- The averages that `UpdateSlowLogAuditPlanSQLs` leaves when a record with a
natural counter that is not 0 meets itself: each is a value of six decimals at
most half a millionth, plus the rounding error of the DOUBLE operations, away
from the average of the record, and the average of the record when that has six
decimals. -/
theorem UpdateSlowLogAuditPlanSQLs_info_self (info : Info) (n : ℕ)
    (hn : info.counter = .value (n : ℚ)) (hn0 : n ≠ 0) (hle : (n : ℚ) + n ≤ 2 ^ 53) :
    (∀ avg, info.query_time_avg = .value avg → |avg| ≤ mysql.maxDecimal 12 6 →
      ∃ v, (UpdateSlowLogAuditPlanSQLs.info info info).query_time_avg = .value v ∧
        isDecimal 12 6 v ∧ |v - avg| ≤ 1 / (2 * 10 ^ 6) + 1 / 10 ^ 8 ∧
        (mysql.roundDecimal 6 avg = avg → v = avg)) ∧
    (∀ avg M, info.row_examined_avg = .value avg → |avg| ≤ M →
      M ≤ mysql.maxDecimal 65 6 →
      ∃ v, (UpdateSlowLogAuditPlanSQLs.info info info).row_examined_avg = .value v ∧
        isDecimal 65 6 v ∧ |v - avg| ≤ 1 / (2 * 10 ^ 6) + (M + 1) / 2 ^ 49 ∧
        (M ≤ 2 ^ 27 → mysql.roundDecimal 6 avg = avg → v = avg)) := by
  have hpos : 1 ≤ n + n := by omega
  constructor
  · intro avg havg hr
    obtain ⟨v, hv, hdec, hnear, hexact⟩ := mysql.average_merged 12 info.query_time_avg
      info.query_time_avg info.counter info.counter avg avg (mysql.maxDecimal 12 6) n n
      (by rw [havg]; rfl) (by rw [havg]; rfl) hn hn hpos hle hr hr (le_refl _)
    rw [weightedAverage_const avg n n hpos] at hnear hexact
    exact ⟨v, hv, hdec, le_trans hnear (by linarith [mysql.maxDecimal_error]),
      hexact mysql.maxDecimal_small⟩
  · intro avg M havg hr hM
    obtain ⟨v, hv, hdec, hnear, hexact⟩ := mysql.average_merged 65 info.row_examined_avg
      info.row_examined_avg info.counter info.counter avg avg M n n
      (by rw [havg]; rfl) (by rw [havg]; rfl) hn hn hpos hle hr hr hM
    rw [weightedAverage_const avg n n hpos] at hnear hexact
    exact ⟨v, hv, hdec, hnear, hexact⟩

/-- C15, as the code has it: `UpdateSlowLogAuditPlanSQLs` run twice with the same
batch on a table that has no row of the merge keys of the batch, when the
records have natural counters, twice whose sum for each key is at most 2^53, and
averages that are missing or at most 10^59 in absolute value. Neither run
returns an error. The counter of the row of a key that occurs is after the
first run the sum of the counters of the records of the key, and after the
second run 2 times that sum. When the key occurs once in the batch, the row
after the first run is the record as sent, and, its counter not being 0, each of
its two averages, within the range of the cast, is after the second run a value
of six decimals at most half a millionth, plus the rounding error of the DOUBLE
operations, away from the average sent: it is unchanged when the average sent
has six decimals (and, for `row_examined_avg`, is at most 2^27). -/
theorem UpdateSlowLogAuditPlanSQLs_same_batch_twice (Md5String : String → String)
    (table : Table) (auditPlanId : Nat) (sqls : List AuditPlanSQLV2) (key : Nat × String)
    (hfresh : ∀ s ∈ sqls, table.find (mergeKey Md5String auditPlanId s) = none)
    (hmod : ∀ s ∈ sqls, s.Info.moderate)
    (hrange : ∀ k, 2 * ((sqls.filter
      (fun s => decide (mergeKey Md5String auditPlanId s = k))).map
        (fun s => s.Info.counter.orZero)).sum ≤ 2 ^ 53)
    (hocc : sqls.filter (fun s => decide (mergeKey Md5String auditPlanId s = key)) ≠ []) :
    (UpdateSlowLogAuditPlanSQLs Md5String table auditPlanId sqls).2 = none ∧
    (UpdateSlowLogAuditPlanSQLs Md5String
      (UpdateSlowLogAuditPlanSQLs Md5String table auditPlanId sqls).1 auditPlanId sqls).2 =
        none ∧
    (∃ once twice,
      Table.find (UpdateSlowLogAuditPlanSQLs Md5String table auditPlanId sqls).1 key =
        some once ∧
      Table.find (UpdateSlowLogAuditPlanSQLs Md5String
        (UpdateSlowLogAuditPlanSQLs Md5String table auditPlanId sqls).1 auditPlanId sqls).1 key =
        some twice ∧
      once.Info.counter = .value
        ((sqls.filter (fun s => decide (mergeKey Md5String auditPlanId s = key))).map
          (fun s => s.Info.counter.orZero)).sum ∧
      twice.Info.counter = .value
        (2 * ((sqls.filter (fun s => decide (mergeKey Md5String auditPlanId s = key))).map
          (fun s => s.Info.counter.orZero)).sum)) ∧
    (∀ a, sqls.filter (fun s => decide (mergeKey Md5String auditPlanId s = key)) = [a] →
      Table.find (UpdateSlowLogAuditPlanSQLs Md5String table auditPlanId sqls).1 key =
        some (valuesRow Md5String auditPlanId a) ∧
      ∃ twice,
        Table.find (UpdateSlowLogAuditPlanSQLs Md5String
          (UpdateSlowLogAuditPlanSQLs Md5String table auditPlanId sqls).1 auditPlanId sqls).1
          key = some twice ∧
        (a.Info.counter ≠ .value 0 →
          (∀ avg, a.Info.query_time_avg = .value avg → |avg| ≤ mysql.maxDecimal 12 6 →
            ∃ v, twice.Info.query_time_avg = .value v ∧ isDecimal 12 6 v ∧
              |v - avg| ≤ 1 / (2 * 10 ^ 6) + 1 / 10 ^ 8 ∧
              (mysql.roundDecimal 6 avg = avg →
                twice.Info.query_time_avg = a.Info.query_time_avg)) ∧
          (∀ avg M, a.Info.row_examined_avg = .value avg → |avg| ≤ M →
            M ≤ mysql.maxDecimal 65 6 →
            ∃ v, twice.Info.row_examined_avg = .value v ∧ isDecimal 65 6 v ∧
              |v - avg| ≤ 1 / (2 * 10 ^ 6) + (M + 1) / 2 ^ 49 ∧
              (M ≤ 2 ^ 27 → mysql.roundDecimal 6 avg = avg →
                twice.Info.row_examined_avg = a.Info.row_examined_avg)))) := by
  obtain ⟨e1, e2, f1, f2, hcount⟩ := UpdateSlowLogAuditPlanSQLs_twice Md5String table
    auditPlanId sqls hfresh hmod hrange
  obtain ⟨s0, hs0⟩ := List.exists_mem_of_ne_nil _ hocc
  have hs0mem := (List.mem_filter.mp hs0).1
  have hs0key : mergeKey Md5String auditPlanId s0 = key := by
    simpa using (List.mem_filter.mp hs0).2
  have hsqls : sqls ≠ [] := List.ne_nil_of_mem hs0mem
  refine ⟨e1.mpr hsqls, e2.mpr hsqls, ?_, ?_⟩
  · have := hcount s0 hs0mem
    rw [hs0key] at this
    exact this
  · intro a ha
    have hamem : a ∈ sqls.filter
        (fun s => decide (mergeKey Md5String auditPlanId s = key)) := by
      rw [ha]
      exact List.mem_singleton_self a
    have hm := List.mem_filter.mp hamem
    have hakey : mergeKey Md5String auditPlanId a = key := by simpa using hm.2
    have hnone : table.find key = none := by
      rw [← hakey]
      exact hfresh a hm.1
    have h1 : Table.find (UpdateSlowLogAuditPlanSQLs Md5String table auditPlanId sqls).1 key =
        some (valuesRow Md5String auditPlanId a) := by
      rw [f1 key, ha, hnone]
      rfl
    have h2 : Table.find (UpdateSlowLogAuditPlanSQLs Md5String
        (UpdateSlowLogAuditPlanSQLs Md5String table auditPlanId sqls).1 auditPlanId sqls).1
        key = some (UpdateSlowLogAuditPlanSQLs.row (valuesRow Md5String auditPlanId a)
          (valuesRow Md5String auditPlanId a)) := by
      rw [f2 key, h1, ha]
      rfl
    refine ⟨h1, _, h2, ?_⟩
    intro hzero
    obtain ⟨n, hn⟩ := (hmod a hm.1).1
    have hn0 : n ≠ 0 := by
      intro h
      apply hzero
      rw [hn, h]
      simp
    have hle : (n : ℚ) + n ≤ 2 ^ 53 := by
      have h3 := hrange key
      rw [ha] at h3
      simp only [List.map_cons, List.map_nil, List.sum_cons, List.sum_nil, add_zero] at h3
      rw [Info.natCounter_orZero _ n hn] at h3
      linarith
    obtain ⟨hq, hrow⟩ := UpdateSlowLogAuditPlanSQLs_info_self a.Info n hn hn0 hle
    constructor
    · intro avg havg hr
      obtain ⟨v, hv, hdec, hnear, hexact⟩ := hq avg havg hr
      refine ⟨v, hv, hdec, hnear, ?_⟩
      intro hd
      rw [havg, ← hexact hd]
      exact hv
    · intro avg M havg hr hM
      obtain ⟨v, hv, hdec, hnear, hexact⟩ := hrow avg M havg hr hM
      refine ⟨v, hv, hdec, hnear, ?_⟩
      intro hsmall hd
      rw [havg, ← hexact hsmall hd]
      exact hv

/-- A document with a natural counter and averages that are missing or at most
10^6 in absolute value has numbers of the sizes that the casts store. -/
theorem Info.moderate_of_small (info : Info) (n : ℕ) (hn : info.counter = .value (n : ℚ))
    (h1 : info.query_time_avg.within (10 ^ 6)) (h2 : info.row_examined_avg.within (10 ^ 6)) :
    info.moderate := by
  have h : (10 : ℚ) ^ 6 ≤ 10 ^ 59 := by norm_num
  exact ⟨⟨n, hn⟩, fun q hq => le_trans (h1 q hq) h, fun q hq => le_trans (h2 q hq) h⟩

/-- The sample with counter 3 and averages 10 has numbers of the sizes that the
casts store. -/
theorem sample.storedInfo_moderate : sample.storedInfo.moderate := by
  apply Info.moderate_of_small _ 3 (by norm_num [sample.storedInfo])
  · intro q hq
    simp only [sample.storedInfo, JSONField.value.injEq] at hq
    rw [← hq]
    norm_num [abs_of_pos]
  · intro q hq
    simp only [sample.storedInfo, JSONField.value.injEq] at hq
    rw [← hq]
    norm_num [abs_of_pos]

/-- Witness of the amended C15: the record with counter 3 and averages 10, sent
twice, ends with counter 6 and `query_time_avg` 10, and neither run returns an
error. -/
theorem UpdateSlowLogAuditPlanSQLs_same_batch_twice_witness :
    [sample.averageRecord].filter
      (fun s => decide (mergeKey (fun s => s) 1 s = sample.presetKey)) =
      [sample.averageRecord] ∧
    (UpdateSlowLogAuditPlanSQLs (fun s => s) [] 1 [sample.averageRecord]).2 = none ∧
    (UpdateSlowLogAuditPlanSQLs (fun s => s)
      (UpdateSlowLogAuditPlanSQLs (fun s => s) [] 1 [sample.averageRecord]).1 1
      [sample.averageRecord]).2 = none ∧
    ∃ twice, Table.find (UpdateSlowLogAuditPlanSQLs (fun s => s)
        (UpdateSlowLogAuditPlanSQLs (fun s => s) [] 1 [sample.averageRecord]).1 1
        [sample.averageRecord]).1 sample.presetKey = some twice ∧
      twice.Info.counter = .value 6 ∧ twice.Info.query_time_avg = .value 10 := by
  have hfilter : [sample.averageRecord].filter
      (fun s => decide (mergeKey (fun s => s) 1 s = sample.presetKey)) =
      [sample.averageRecord] := rfl
  have hall : (([sample.averageRecord]).map (fun s => s.Info.counter.orZero)).sum = 3 := by
    norm_num [sample.averageRecord, sample.storedInfo, JSONField.orZero, mysql.num,
      mysql.COALESCE]
  have hkeys : ∀ s ∈ [sample.averageRecord],
      mergeKey (fun s => s) 1 s = sample.presetKey := by
    intro s hs
    rw [List.mem_singleton.mp hs]
    rfl
  have hrange : ∀ k, 2 * (([sample.averageRecord].filter
      (fun s => decide (mergeKey (fun s => s) 1 s = k))).map
        (fun s => s.Info.counter.orZero)).sum ≤ 2 ^ 53 := by
    intro k
    by_cases hk : sample.presetKey = k
    · rw [List.filter_eq_self.mpr (fun s hs => by simpa [hkeys s hs] using hk), hall]
      norm_num
    · rw [List.filter_eq_nil_iff.mpr (fun s hs => by simpa [hkeys s hs] using hk)]
      norm_num
  have h := UpdateSlowLogAuditPlanSQLs_same_batch_twice (fun s => s) [] 1
    [sample.averageRecord] sample.presetKey (fun _ _ => rfl)
    (fun s hs => by rw [List.mem_singleton.mp hs]; exact sample.storedInfo_moderate)
    hrange (by rw [hfilter]; simp)
  refine ⟨hfilter, h.1, h.2.1, ?_⟩
  obtain ⟨once, twice, _, h2, _, hc2⟩ := h.2.2.1
  obtain ⟨_, twice2, h2b, havg⟩ := h.2.2.2 sample.averageRecord hfilter
  rw [h2] at h2b
  cases h2b
  refine ⟨twice, h2, ?_, ?_⟩
  · rw [hc2, hfilter, hall]
    norm_num
  · have hzero : sample.averageRecord.Info.counter ≠ .value 0 := by
      simp [sample.averageRecord, sample.storedInfo]
    obtain ⟨v, -, -, -, hsame⟩ := (havg hzero).1 10 rfl
      (by norm_num [mysql.maxDecimal, abs_of_pos])
    exact hsame mysql.roundDecimal_ten

/-- The number 0.123457 has six decimals. -/
theorem mysql.roundDecimal_seven : mysql.roundDecimal 6 (123457 / 1000000) =
    123457 / 1000000 := by
  have h : (123457 / 1000000 : ℚ) = ((123457 : ℤ) : ℚ) / 10 ^ 6 := by norm_num
  rw [h, mysql.roundDecimal_int_div]

/-- The record with counter 1 and the average 0.1234567 has numbers of the sizes
that the casts store. -/
theorem sample.sevenDecimalsRecord_moderate : sample.sevenDecimalsRecord.Info.moderate := by
  apply Info.moderate_of_small _ 1 (by norm_num [sample.sevenDecimalsRecord])
  · intro q hq
    simp only [sample.sevenDecimalsRecord, JSONField.value.injEq] at hq
    rw [← hq]
    norm_num [abs_of_pos]
  · intro q hq
    simp [sample.sevenDecimalsRecord] at hq

/-- Counterexample to C15 as stated: a record with counter 1 and
`query_time_avg` 0.1234567 is stored as sent by the first run of
`UpdateSlowLogAuditPlanSQLs`; the run of the identical batch again leaves
`query_time_avg` 0.123457, whatever `Md5String` is. -/
theorem UpdateSlowLogAuditPlanSQLs_retry_changes_average :
    sample.sevenDecimalsRecord.Info.counter = .value 1 ∧
    sample.sevenDecimalsRecord.Info.query_time_avg = .value (1234567 / 10000000) ∧
    ∀ Md5String : String → String,
      (Table.find (UpdateSlowLogAuditPlanSQLs Md5String [] 1
        [sample.sevenDecimalsRecord]).1 sample.presetKey).map
          (fun r => r.Info.query_time_avg) = some (.value (1234567 / 10000000)) ∧
      (Table.find (UpdateSlowLogAuditPlanSQLs Md5String
        (UpdateSlowLogAuditPlanSQLs Md5String [] 1 [sample.sevenDecimalsRecord]).1 1
        [sample.sevenDecimalsRecord]).1 sample.presetKey).map
          (fun r => r.Info.query_time_avg) = some (.value (123457 / 1000000)) := by
  refine ⟨rfl, rfl, ?_⟩
  intro Md5String
  have hfilter : [sample.sevenDecimalsRecord].filter
      (fun s => decide (mergeKey Md5String 1 s = sample.presetKey)) =
      [sample.sevenDecimalsRecord] := rfl
  have hall : (([sample.sevenDecimalsRecord]).map (fun s => s.Info.counter.orZero)).sum = 1 := by
    norm_num [sample.sevenDecimalsRecord, JSONField.orZero, mysql.num, mysql.COALESCE]
  have hkeys : ∀ s ∈ [sample.sevenDecimalsRecord],
      mergeKey Md5String 1 s = sample.presetKey := by
    intro s hs
    rw [List.mem_singleton.mp hs]
    rfl
  have hrange : ∀ k, 2 * (([sample.sevenDecimalsRecord].filter
      (fun s => decide (mergeKey Md5String 1 s = k))).map
        (fun s => s.Info.counter.orZero)).sum ≤ 2 ^ 53 := by
    intro k
    by_cases hk : sample.presetKey = k
    · rw [List.filter_eq_self.mpr (fun s hs => by simpa [hkeys s hs] using hk), hall]
      norm_num
    · rw [List.filter_eq_nil_iff.mpr (fun s hs => by simpa [hkeys s hs] using hk)]
      norm_num
  obtain ⟨-, -, f1, f2, -⟩ := UpdateSlowLogAuditPlanSQLs_twice Md5String [] 1
    [sample.sevenDecimalsRecord] (fun _ _ => rfl)
    (fun s hs => by rw [List.mem_singleton.mp hs]; exact sample.sevenDecimalsRecord_moderate)
    hrange
  have h1 : Table.find (UpdateSlowLogAuditPlanSQLs Md5String [] 1
      [sample.sevenDecimalsRecord]).1 sample.presetKey =
      some (valuesRow Md5String 1 sample.sevenDecimalsRecord) := by
    rw [f1 sample.presetKey, hfilter]
    rfl
  have h2 : Table.find (UpdateSlowLogAuditPlanSQLs Md5String
      (UpdateSlowLogAuditPlanSQLs Md5String [] 1 [sample.sevenDecimalsRecord]).1 1
      [sample.sevenDecimalsRecord]).1 sample.presetKey =
      some (UpdateSlowLogAuditPlanSQLs.row (valuesRow Md5String 1 sample.sevenDecimalsRecord)
        (valuesRow Md5String 1 sample.sevenDecimalsRecord)) := by
    rw [f2 sample.presetKey, h1, hfilter]
    rfl
  rw [h1, h2]
  refine ⟨rfl, ?_⟩
  obtain ⟨v, hv, hdec, hnear, -⟩ := (UpdateSlowLogAuditPlanSQLs_info_self
    sample.sevenDecimalsRecord.Info 1 (by norm_num [sample.sevenDecimalsRecord])
    (by norm_num) (by norm_num)).1 (1234567 / 10000000) rfl
    (by norm_num [mysql.maxDecimal, abs_of_pos])
  have hclose : |v - 123457 / 1000000| < 1 / 10 ^ 6 := by
    have h3 := abs_le.mp hnear
    rw [abs_lt]
    constructor
    · have : (123457 / 1000000 : ℚ) - 1 / 10 ^ 6 <
          1234567 / 10000000 - (1 / (2 * 10 ^ 6) + 1 / 10 ^ 8) := by norm_num
      linarith [h3.1]
    · have : (1234567 / 10000000 : ℚ) + (1 / (2 * 10 ^ 6) + 1 / 10 ^ 8) <
          123457 / 1000000 + 1 / 10 ^ 6 := by norm_num
      linarith [h3.2]
  have hveq := mysql.roundDecimal_eq_of_close 6 v _ hdec.1 mysql.roundDecimal_seven hclose
  rw [hveq] at hv
  simp only [Option.map_some']
  congr 1

/-! ## Theorems: the order of two batches -/

/-- The row that value tuples with natural counters and a property `P`, which
the update keeps, leave under a key, merged into a row with a natural counter
and the property, the counters summing to at most 2^53: it has a natural counter
and the property, and the counter found is the counter found before plus the
counters of the tuples. -/
theorem foldl_mergeInto_state
    (update : AuditPlanSQLV2 → AuditPlanSQLV2 → AuditPlanSQLV2)
    (hcounter : ∀ stored incoming, (update stored incoming).Info.counter =
      mysql.JSON_SET (mysql.castSigned
        (mysql.add (mysql.COALESCE (mysql.num incoming.Info.counter) (some 0))
          (mysql.COALESCE (mysql.num stored.Info.counter) (some 0)))))
    (P : Info → Prop)
    (hP : ∀ (stored incoming : AuditPlanSQLV2) (m n : ℕ),
      stored.Info.counter = .value (m : ℚ) → incoming.Info.counter = .value (n : ℚ) →
      (m : ℚ) + n ≤ 2 ^ 53 → P stored.Info → P incoming.Info →
      P (update stored incoming).Info)
    (rows : List AuditPlanSQLV2) (state : Option AuditPlanSQLV2)
    (hstate : ∀ stored, state = some stored → stored.Info.natCounter ∧ P stored.Info)
    (hrows : ∀ r ∈ rows, r.Info.natCounter ∧ P r.Info)
    (hrange : stateCounter state + (rows.map (fun r => r.Info.counter.orZero)).sum ≤ 2 ^ 53) :
    (∀ merged, rows.foldl (mergeInto update) state = some merged →
      merged.Info.natCounter ∧ P merged.Info) ∧
    stateCounter (rows.foldl (mergeInto update) state) =
      stateCounter state + (rows.map (fun r => r.Info.counter.orZero)).sum := by
  have hst : ∃ k : ℕ, stateCounter state = k := by
    cases state with
    | none => exact ⟨0, by simp [stateCounter]⟩
    | some s =>
      obtain ⟨k, hk⟩ := (hstate s rfl).1
      exact ⟨k, by simp [stateCounter, Info.natCounter_orZero _ k hk]⟩
  obtain ⟨k, hk⟩ := hst
  obtain ⟨p, hp⟩ := counters_sum_nat rows (fun r hr => (hrows r hr).1)
  cases hm : rows.foldl (mergeInto update) state with
  | none =>
    obtain ⟨h1, h2⟩ := (foldl_mergeInto_eq_none update rows state).mp hm
    subst h1 h2
    exact ⟨fun merged h => (by cases h), by simp [stateCounter]⟩
  | some merged =>
    have hc := foldl_mergeInto_counter update hcounter rows state
      (fun s hs => (hstate s hs).1) (fun r hr => (hrows r hr).1) hrange merged hm
    have hp2 := foldl_mergeInto_invariant update hcounter P hP rows state hstate hrows hrange
      merged hm
    refine ⟨fun m2 h2 => ?_, stateCounter_value merged _ hc⟩
    cases h2
    exact ⟨⟨k + p, by rw [hc, hk, hp]; push_cast; rfl⟩, hp2⟩

/-- The counters of the records of a key in two batches one after the other. -/
theorem counters_append (Md5String : String → String) (auditPlanId : Nat)
    (A B : List AuditPlanSQLV2) (k : Nat × String) :
    (((A ++ B).filter (fun s => decide (mergeKey Md5String auditPlanId s = k))).map
      (fun s => s.Info.counter.orZero)).sum =
    ((A.filter (fun s => decide (mergeKey Md5String auditPlanId s = k))).map
      (fun s => s.Info.counter.orZero)).sum +
    ((B.filter (fun s => decide (mergeKey Md5String auditPlanId s = k))).map
      (fun s => s.Info.counter.orZero)).sum := by
  rw [List.filter_append, List.map_append, List.sum_append]

/-- The counters of the records of a key with natural counters are not negative. -/
theorem counters_key_nonneg (Md5String : String → String) (auditPlanId : Nat)
    (A : List AuditPlanSQLV2) (k : Nat × String) (h : ∀ s ∈ A, s.Info.natCounter) :
    0 ≤ ((A.filter (fun s => decide (mergeKey Md5String auditPlanId s = k))).map
      (fun s => s.Info.counter.orZero)).sum := by
  have := counters_sum_nonneg ((A.filter
    (fun s => decide (mergeKey Md5String auditPlanId s = k))).map
      (valuesRow Md5String auditPlanId))
    (fun r hr => by
      obtain ⟨x, hx, rfl⟩ := List.mem_map.mp hr
      exact h x (List.mem_filter.mp hx).1)
  rw [valuesRow_counters] at this
  exact this

/-- The counter found under a key is not negative when it is a natural number. -/
theorem stateCounter_nonneg (state : Option AuditPlanSQLV2)
    (h : ∀ stored, state = some stored → stored.Info.natCounter) : 0 ≤ stateCounter state := by
  cases state with
  | none => simp [stateCounter]
  | some s =>
    obtain ⟨k, hk⟩ := h s rfl
    simp [stateCounter, Info.natCounter_orZero _ k hk]

/-- Two merge statements one after the other, on batches `A` and `B` of records
with natural counters and a property `P` that the update keeps and on which the
clause does not fail, when the rows met have natural counters and the property
and the counters of each key in both batches, with the counter stored, sum to at
most 2^53: neither statement returns an error unless its batch is empty, and the
row under a key is the records of the key of `A`, then those of `B`, merged in
that order into the row found before. -/
theorem merge_two_runs
    (update : AuditPlanSQLV2 → AuditPlanSQLV2 → AuditPlanSQLV2)
    (hkey : ∀ stored incoming, (update stored incoming).uniqueKey = stored.uniqueKey)
    (hcounter : ∀ stored incoming, (update stored incoming).Info.counter =
      mysql.JSON_SET (mysql.castSigned
        (mysql.add (mysql.COALESCE (mysql.num incoming.Info.counter) (some 0))
          (mysql.COALESCE (mysql.num stored.Info.counter) (some 0)))))
    (fails : Info → Info → Bool) (P : Info → Prop)
    (hP : ∀ (stored incoming : AuditPlanSQLV2) (m n : ℕ),
      stored.Info.counter = .value (m : ℚ) → incoming.Info.counter = .value (n : ℚ) →
      (m : ℚ) + n ≤ 2 ^ 53 → P stored.Info → P incoming.Info →
      P (update stored incoming).Info)
    (hfails : ∀ (stored incoming : Info) (m n : ℕ), stored.counter = .value (m : ℚ) →
      incoming.counter = .value (n : ℚ) → (m : ℚ) + n ≤ 2 ^ 53 → P stored → P incoming →
      mysql.signedOutOfRange
        (mysql.add (mysql.COALESCE (mysql.num incoming.counter) (some 0))
          (mysql.COALESCE (mysql.num stored.counter) (some 0))) = false →
      fails stored incoming = false)
    (Md5String : String → String) (table : Table) (auditPlanId : Nat)
    (A B : List AuditPlanSQLV2)
    (hstate : ∀ s ∈ A ++ B, ∀ stored,
      table.find (mergeKey Md5String auditPlanId s) = some stored →
      stored.Info.natCounter ∧ P stored.Info)
    (hrows : ∀ s ∈ A ++ B, s.Info.natCounter ∧ P s.Info)
    (hrange : ∀ s ∈ A ++ B, stateCounter (table.find (mergeKey Md5String auditPlanId s)) +
      (((A ++ B).filter (fun x => decide (mergeKey Md5String auditPlanId x =
        mergeKey Md5String auditPlanId s))).map (fun x => x.Info.counter.orZero)).sum ≤
          2 ^ 53) :
    ((execInsertOnDuplicateKeyUpdate update fails table
      (getBatchInsertRawSQL Md5String auditPlanId A)).2 = none ↔ A ≠ []) ∧
    ((execInsertOnDuplicateKeyUpdate update fails
      (execInsertOnDuplicateKeyUpdate update fails table
        (getBatchInsertRawSQL Md5String auditPlanId A)).1
      (getBatchInsertRawSQL Md5String auditPlanId B)).2 = none ↔ B ≠ []) ∧
    (∀ k, Table.find (execInsertOnDuplicateKeyUpdate update fails
        (execInsertOnDuplicateKeyUpdate update fails table
          (getBatchInsertRawSQL Md5String auditPlanId A)).1
        (getBatchInsertRawSQL Md5String auditPlanId B)).1 k =
      (((A.filter (fun s => decide (mergeKey Md5String auditPlanId s = k))) ++
        (B.filter (fun s => decide (mergeKey Md5String auditPlanId s = k)))).map
        (valuesRow Md5String auditPlanId)).foldl (mergeInto update) (table.find k)) := by
  have hA : ∀ s ∈ A, s ∈ A ++ B := fun s hs => List.mem_append_left _ hs
  have hB : ∀ s ∈ B, s ∈ A ++ B := fun s hs => List.mem_append_right _ hs
  have hnatA : ∀ s ∈ A, s.Info.natCounter := fun s hs => (hrows s (hA s hs)).1
  have hnatB : ∀ s ∈ B, s.Info.natCounter := fun s hs => (hrows s (hB s hs)).1
  obtain ⟨e1, f1, -⟩ := merge_run update hkey hcounter fails P hP hfails Md5String table
    auditPlanId A (fun s hs => hstate s (hA s hs)) (fun s hs => hrows s (hA s hs))
    (fun s hs => by
      have h1 := hrange s (hA s hs)
      rw [counters_append] at h1
      have h2 := counters_key_nonneg Md5String auditPlanId B
        (mergeKey Md5String auditPlanId s) hnatB
      linarith)
  have hafter : ∀ s ∈ A ++ B,
      (∀ merged, Table.find (execInsertOnDuplicateKeyUpdate update fails table
        (getBatchInsertRawSQL Md5String auditPlanId A)).1
          (mergeKey Md5String auditPlanId s) = some merged →
        merged.Info.natCounter ∧ P merged.Info) ∧
      stateCounter (Table.find (execInsertOnDuplicateKeyUpdate update fails table
        (getBatchInsertRawSQL Md5String auditPlanId A)).1
          (mergeKey Md5String auditPlanId s)) =
        stateCounter (table.find (mergeKey Md5String auditPlanId s)) +
          ((A.filter (fun x => decide (mergeKey Md5String auditPlanId x =
            mergeKey Md5String auditPlanId s))).map (fun x => x.Info.counter.orZero)).sum := by
    intro s hs
    rw [f1]
    have h := foldl_mergeInto_state update hcounter P hP
      ((A.filter (fun x => decide (mergeKey Md5String auditPlanId x =
        mergeKey Md5String auditPlanId s))).map (valuesRow Md5String auditPlanId))
      (table.find (mergeKey Md5String auditPlanId s)) (hstate s hs)
      (fun r hr => by
        obtain ⟨x, hx, rfl⟩ := List.mem_map.mp hr
        exact hrows x (hA x (List.mem_filter.mp hx).1))
      (by
        rw [valuesRow_counters]
        have h1 := hrange s hs
        rw [counters_append] at h1
        have h2 := counters_key_nonneg Md5String auditPlanId B
          (mergeKey Md5String auditPlanId s) hnatB
        linarith)
    rw [valuesRow_counters] at h
    exact h
  obtain ⟨e2, f2, -⟩ := merge_run update hkey hcounter fails P hP hfails Md5String
    (execInsertOnDuplicateKeyUpdate update fails table
      (getBatchInsertRawSQL Md5String auditPlanId A)).1 auditPlanId B
    (fun s hs stored hst => (hafter s (hB s hs)).1 stored hst)
    (fun s hs => hrows s (hB s hs))
    (fun s hs => by
      rw [(hafter s (hB s hs)).2]
      have h1 := hrange s (hB s hs)
      rw [counters_append] at h1
      linarith)
  refine ⟨e1, e2, ?_⟩
  intro k
  rw [f2, f1, List.map_append, List.foldl_append]

/-- The counter of the row under a key does not depend on the order in which
tuples with natural counters are merged, as long as the sum is at most 2^53. -/
theorem foldl_mergeInto_counter_perm
    (update : AuditPlanSQLV2 → AuditPlanSQLV2 → AuditPlanSQLV2)
    (hcounter : ∀ stored incoming, (update stored incoming).Info.counter =
      mysql.JSON_SET (mysql.castSigned
        (mysql.add (mysql.COALESCE (mysql.num incoming.Info.counter) (some 0))
          (mysql.COALESCE (mysql.num stored.Info.counter) (some 0)))))
    (rows1 rows2 : List AuditPlanSQLV2) (hperm : rows1.Perm rows2)
    (state : Option AuditPlanSQLV2)
    (hstate : ∀ stored, state = some stored → stored.Info.natCounter)
    (hrows : ∀ r ∈ rows1, r.Info.natCounter)
    (hrange : stateCounter state + (rows1.map (fun r => r.Info.counter.orZero)).sum ≤ 2 ^ 53) :
    (rows1.foldl (mergeInto update) state).map (fun r => r.Info.counter) =
      (rows2.foldl (mergeInto update) state).map (fun r => r.Info.counter) := by
  have hsum : (rows1.map (fun r => r.Info.counter.orZero)).sum =
      (rows2.map (fun r => r.Info.counter.orZero)).sum := (hperm.map _).sum_eq
  have hrows2 : ∀ r ∈ rows2, r.Info.natCounter := fun r hr => hrows r (hperm.mem_iff.mpr hr)
  cases h1 : rows1.foldl (mergeInto update) state with
  | none =>
    obtain ⟨hs, hr⟩ := (foldl_mergeInto_eq_none update rows1 state).mp h1
    subst hr
    have h2 : rows2 = [] := List.Perm.nil_eq hperm |>.symm
    subst h2
    simp [hs]
  | some m1 =>
    cases h2 : rows2.foldl (mergeInto update) state with
    | none =>
      exfalso
      obtain ⟨hs, hr⟩ := (foldl_mergeInto_eq_none update rows2 state).mp h2
      subst hr
      have hnil : rows1 = [] := List.Perm.eq_nil hperm
      subst hnil
      rw [List.foldl_nil, hs] at h1
      cases h1
    | some m2 =>
      simp only [Option.map_some']
      rw [foldl_mergeInto_counter update hcounter rows1 state hstate hrows hrange m1 h1,
        foldl_mergeInto_counter update hcounter rows2 state hstate hrows2
          (by rw [← hsum]; exact hrange) m2 h2, hsum]

/-- Addition of SQL values does not depend on the order of its operands. -/
theorem mysql.add_swap (a b : Option ℚ) : mysql.add a b = mysql.add b a := by
  cases a <;> cases b <;> simp [mysql.add, add_comm]

/-- The quotient of the merge with the average and the counter present on both
sides is the same when the two sides are exchanged. -/
theorem mysql.div_weighted_comm (p x q y : ℚ) :
    mysql.div
      (mysql.add
        (mysql.mul (mysql.COALESCE (some p) (some q)) (mysql.COALESCE (some x) (some 0)))
        (mysql.mul (mysql.COALESCE (some q) (some 0)) (mysql.COALESCE (some y) (some 0))))
      (mysql.add (mysql.COALESCE (some x) (some 0)) (mysql.COALESCE (some y) (some 1))) =
    mysql.div
      (mysql.add
        (mysql.mul (mysql.COALESCE (some q) (some p)) (mysql.COALESCE (some y) (some 0)))
        (mysql.mul (mysql.COALESCE (some p) (some 0)) (mysql.COALESCE (some x) (some 0))))
      (mysql.add (mysql.COALESCE (some y) (some 0)) (mysql.COALESCE (some x) (some 1))) := by
  simp only [mysql.COALESCE]
  rw [mysql.add_swap (mysql.mul (some p) (some x)), mysql.add_swap (some x)]

/-- The `query_time_avg` of `UpdateSlowLogAuditPlanSQLs` is the same in both
orders when both documents have the counter and the average. -/
theorem UpdateSlowLogAuditPlanSQLs_query_time_avg_comm (a b : Info)
    (hca : a.counter ≠ .absent) (hcb : b.counter ≠ .absent)
    (ha : a.query_time_avg ≠ .absent) (hb : b.query_time_avg ≠ .absent) :
    UpdateSlowLogAuditPlanSQLs.query_time_avg a b =
      UpdateSlowLogAuditPlanSQLs.query_time_avg b a := by
  obtain ⟨x, hx⟩ := mysql.num_of_ne_absent _ hca
  obtain ⟨y, hy⟩ := mysql.num_of_ne_absent _ hcb
  obtain ⟨p, hp⟩ := mysql.num_of_ne_absent _ ha
  obtain ⟨q, hq⟩ := mysql.num_of_ne_absent _ hb
  unfold UpdateSlowLogAuditPlanSQLs.query_time_avg
  rw [hx, hy, hp, hq, mysql.div_weighted_comm]

/-- The `row_examined_avg` of `UpdateSlowLogAuditPlanSQLs` is the same in both
orders when both documents have the counter and the average. -/
theorem UpdateSlowLogAuditPlanSQLs_row_examined_avg_comm (a b : Info)
    (hca : a.counter ≠ .absent) (hcb : b.counter ≠ .absent)
    (ha : a.row_examined_avg ≠ .absent) (hb : b.row_examined_avg ≠ .absent) :
    UpdateSlowLogAuditPlanSQLs.row_examined_avg a b =
      UpdateSlowLogAuditPlanSQLs.row_examined_avg b a := by
  obtain ⟨x, hx⟩ := mysql.num_of_ne_absent _ hca
  obtain ⟨y, hy⟩ := mysql.num_of_ne_absent _ hcb
  obtain ⟨p, hp⟩ := mysql.num_of_ne_absent _ ha
  obtain ⟨q, hq⟩ := mysql.num_of_ne_absent _ hb
  unfold UpdateSlowLogAuditPlanSQLs.row_examined_avg
  rw [hx, hy, hp, hq, mysql.div_weighted_comm]

/-- The `row_examined_avg` of `UpdateSlowLogCollectAuditPlanSQLs` is the same in
both orders when both documents have the counter and the average. -/
theorem UpdateSlowLogCollectAuditPlanSQLs_row_examined_avg_comm (a b : Info)
    (hca : a.counter ≠ .absent) (hcb : b.counter ≠ .absent)
    (ha : a.row_examined_avg ≠ .absent) (hb : b.row_examined_avg ≠ .absent) :
    (UpdateSlowLogCollectAuditPlanSQLs.info a b).row_examined_avg =
      (UpdateSlowLogCollectAuditPlanSQLs.info b a).row_examined_avg := by
  obtain ⟨x, hx⟩ := mysql.num_of_ne_absent _ hca
  obtain ⟨y, hy⟩ := mysql.num_of_ne_absent _ hcb
  obtain ⟨p, hp⟩ := mysql.num_of_ne_absent _ ha
  obtain ⟨q, hq⟩ := mysql.num_of_ne_absent _ hb
  simp only [UpdateSlowLogCollectAuditPlanSQLs.info]
  rw [hx, hy, hp, hq, mysql.div_weighted_comm]

/-- The `average_query_time` of `UpdateSlowLogCollectAuditPlanSQLs`, computed
without `COALESCE`, is the same in both orders. -/
theorem UpdateSlowLogCollectAuditPlanSQLs_average_query_time_comm (a b : Info) :
    (UpdateSlowLogCollectAuditPlanSQLs.info a b).average_query_time =
      (UpdateSlowLogCollectAuditPlanSQLs.info b a).average_query_time := by
  simp only [UpdateSlowLogCollectAuditPlanSQLs.info]
  rw [mysql.add_swap (mysql.num a.counter) (mysql.num b.counter),
    mysql.add_swap (mysql.mul (mysql.add (mysql.num a.average_query_time) (some 0))
      (mysql.num a.counter))]

/-- `UpdateSlowLogAuditPlanSQLs` on a batch `A` and then on a batch `B`, the
records and the rows met having numbers of the sizes that the casts store and
the counters of each key summing to at most 2^53: neither call returns an error
unless its batch is empty, and the row under a key is the records of the key of
`A`, then those of `B`, merged in that order into the row found before. -/
theorem UpdateSlowLogAuditPlanSQLs_two_runs (Md5String : String → String) (table : Table)
    (auditPlanId : Nat) (A B : List AuditPlanSQLV2)
    (hstate : ∀ s ∈ A ++ B, ∀ stored,
      table.find (mergeKey Md5String auditPlanId s) = some stored → stored.Info.moderate)
    (hmod : ∀ s ∈ A ++ B, s.Info.moderate)
    (hrange : ∀ s ∈ A ++ B, stateCounter (table.find (mergeKey Md5String auditPlanId s)) +
      (((A ++ B).filter (fun x => decide (mergeKey Md5String auditPlanId x =
        mergeKey Md5String auditPlanId s))).map (fun x => x.Info.counter.orZero)).sum ≤
          2 ^ 53) :
    ((UpdateSlowLogAuditPlanSQLs Md5String table auditPlanId A).2 = none ↔ A ≠ []) ∧
    ((UpdateSlowLogAuditPlanSQLs Md5String
      (UpdateSlowLogAuditPlanSQLs Md5String table auditPlanId A).1 auditPlanId B).2 = none ↔
        B ≠ []) ∧
    (∀ k, Table.find (UpdateSlowLogAuditPlanSQLs Md5String
        (UpdateSlowLogAuditPlanSQLs Md5String table auditPlanId A).1 auditPlanId B).1 k =
      (((A.filter (fun s => decide (mergeKey Md5String auditPlanId s = k))) ++
        (B.filter (fun s => decide (mergeKey Md5String auditPlanId s = k)))).map
        (valuesRow Md5String auditPlanId)).foldl (mergeInto UpdateSlowLogAuditPlanSQLs.row)
        (table.find k)) :=
  merge_two_runs UpdateSlowLogAuditPlanSQLs.row (fun _ _ => rfl)
    (fun _ _ => rfl) UpdateSlowLogAuditPlanSQLs.fails
    (fun info => info.query_time_avg.within (10 ^ 59) ∧ info.row_examined_avg.within (10 ^ 59))
    (fun stored incoming _ _ _ _ _ _ _ => UpdateSlowLogAuditPlanSQLs_row_within stored incoming)
    UpdateSlowLogAuditPlanSQLs_fails_eq_false Md5String table auditPlanId A B
    (fun s hs stored hst => ⟨(hstate s hs stored hst).1, (hstate s hs stored hst).2⟩)
    (fun s hs => ⟨(hmod s hs).1, (hmod s hs).2⟩) hrange

/-- `UpdateSlowLogCollectAuditPlanSQLs` on a batch `A` and then on a batch `B`,
the records and the rows met having numbers of the sizes that the casts store
and the counters of each key summing to at most 2^53: neither call returns an
error unless its batch is empty, and the row under a key is the records of the
key of `A`, then those of `B`, merged in that order into the row found before. -/
theorem UpdateSlowLogCollectAuditPlanSQLs_two_runs (Md5String : String → String)
    (table : Table) (auditPlanId : Nat) (A B : List AuditPlanSQLV2)
    (hstate : ∀ s ∈ A ++ B, ∀ stored,
      table.find (mergeKey Md5String auditPlanId s) = some stored →
      stored.Info.collectModerate)
    (hmod : ∀ s ∈ A ++ B, s.Info.collectModerate)
    (hrange : ∀ s ∈ A ++ B, stateCounter (table.find (mergeKey Md5String auditPlanId s)) +
      (((A ++ B).filter (fun x => decide (mergeKey Md5String auditPlanId x =
        mergeKey Md5String auditPlanId s))).map (fun x => x.Info.counter.orZero)).sum ≤
          2 ^ 53) :
    ((UpdateSlowLogCollectAuditPlanSQLs Md5String table auditPlanId A).2 = none ↔ A ≠ []) ∧
    ((UpdateSlowLogCollectAuditPlanSQLs Md5String
      (UpdateSlowLogCollectAuditPlanSQLs Md5String table auditPlanId A).1 auditPlanId B).2 =
        none ↔ B ≠ []) ∧
    (∀ k, Table.find (UpdateSlowLogCollectAuditPlanSQLs Md5String
        (UpdateSlowLogCollectAuditPlanSQLs Md5String table auditPlanId A).1 auditPlanId B).1 k =
      (((A.filter (fun s => decide (mergeKey Md5String auditPlanId s = k))) ++
        (B.filter (fun s => decide (mergeKey Md5String auditPlanId s = k)))).map
        (valuesRow Md5String auditPlanId)).foldl
        (mergeInto UpdateSlowLogCollectAuditPlanSQLs.row) (table.find k)) :=
  merge_two_runs UpdateSlowLogCollectAuditPlanSQLs.row (fun _ _ => rfl)
    (fun _ _ => rfl) UpdateSlowLogCollectAuditPlanSQLs.fails
    (fun info => info.average_query_time.upTo (2 ^ 63) ∧
      info.row_examined_avg.within (10 ^ 59))
    UpdateSlowLogCollectAuditPlanSQLs_row_within
    UpdateSlowLogCollectAuditPlanSQLs_fails_eq_false Md5String table auditPlanId A B
    (fun s hs stored hst => ⟨(hstate s hs stored hst).1, (hstate s hs stored hst).2⟩)
    (fun s hs => ⟨(hmod s hs).1, (hmod s hs).2⟩) hrange

/-- The counters of the records of a key in two batches do not depend on the
order of the batches. -/
theorem counters_append_comm (Md5String : String → String) (auditPlanId : Nat)
    (A B : List AuditPlanSQLV2) (k : Nat × String) :
    (((B ++ A).filter (fun s => decide (mergeKey Md5String auditPlanId s = k))).map
      (fun s => s.Info.counter.orZero)).sum =
    (((A ++ B).filter (fun s => decide (mergeKey Md5String auditPlanId s = k))).map
      (fun s => s.Info.counter.orZero)).sum := by
  rw [counters_append, counters_append, add_comm]

/-- The counter found under a key after value tuples of two batches were merged
does not depend on the order of the batches, when the row found before and the
records of the key have natural counters that sum to at most 2^53. -/
theorem foldl_mergeInto_counter_comm
    (update : AuditPlanSQLV2 → AuditPlanSQLV2 → AuditPlanSQLV2)
    (hcounter : ∀ stored incoming, (update stored incoming).Info.counter =
      mysql.JSON_SET (mysql.castSigned
        (mysql.add (mysql.COALESCE (mysql.num incoming.Info.counter) (some 0))
          (mysql.COALESCE (mysql.num stored.Info.counter) (some 0)))))
    (Md5String : String → String) (table : Table) (auditPlanId : Nat)
    (A B : List AuditPlanSQLV2) (key : Nat × String)
    (hstate : ∀ s ∈ A ++ B, ∀ stored,
      table.find (mergeKey Md5String auditPlanId s) = some stored → stored.Info.natCounter)
    (hnat : ∀ s ∈ A ++ B, s.Info.natCounter)
    (hrange : ∀ s ∈ A ++ B, stateCounter (table.find (mergeKey Md5String auditPlanId s)) +
      (((A ++ B).filter (fun x => decide (mergeKey Md5String auditPlanId x =
        mergeKey Md5String auditPlanId s))).map (fun x => x.Info.counter.orZero)).sum ≤
          2 ^ 53) :
    ((((A.filter (fun s => decide (mergeKey Md5String auditPlanId s = key))) ++
      (B.filter (fun s => decide (mergeKey Md5String auditPlanId s = key)))).map
      (valuesRow Md5String auditPlanId)).foldl (mergeInto update) (table.find key)).map
        (fun r => r.Info.counter) =
    ((((B.filter (fun s => decide (mergeKey Md5String auditPlanId s = key))) ++
      (A.filter (fun s => decide (mergeKey Md5String auditPlanId s = key)))).map
      (valuesRow Md5String auditPlanId)).foldl (mergeInto update) (table.find key)).map
        (fun r => r.Info.counter) := by
  by_cases hk : ∃ s ∈ A ++ B, mergeKey Md5String auditPlanId s = key
  · obtain ⟨s, hs, hsk⟩ := hk
    subst hsk
    apply foldl_mergeInto_counter_perm update hcounter _ _
      (List.Perm.map _ List.perm_append_comm) _ (hstate s hs)
    · intro r hr
      obtain ⟨x, hx, rfl⟩ := List.mem_map.mp hr
      rw [← List.filter_append] at hx
      exact hnat x (List.mem_filter.mp hx).1
    · rw [valuesRow_counters, ← List.filter_append]
      exact hrange s hs
  · have hA : A.filter (fun s => decide (mergeKey Md5String auditPlanId s = key)) = [] := by
      rw [List.filter_eq_nil_iff]
      intro s hs hsk
      exact hk ⟨s, List.mem_append_left _ hs, by simpa using hsk⟩
    have hB : B.filter (fun s => decide (mergeKey Md5String auditPlanId s = key)) = [] := by
      rw [List.filter_eq_nil_iff]
      intro s hs hsk
      exact hk ⟨s, List.mem_append_right _ hs, by simpa using hsk⟩
    rw [hA, hB]

/-- C16, as the code has it: two batches `A` and `B` of one audit plan merged
into a table by `UpdateSlowLogAuditPlanSQLs`, or by
`UpdateSlowLogCollectAuditPlanSQLs`, in the order `A`, `B` and in the order `B`,
`A`, when the records and the rows met have natural counters, which for each key
sum to at most 2^53, and averages of the sizes that the casts store. No call
with a record returns an error. The counter found under a key is the same in
both orders. When the key has no row in the table and occurs once in each batch,
the merged `query_time_avg` and `row_examined_avg` are the same in both orders
if both records carry that average, and the merged `average_query_time` is the
same in both orders. -/
theorem merge_order_counter_and_averages (Md5String : String → String) (table : Table)
    (auditPlanId : Nat) (A B : List AuditPlanSQLV2) (key : Nat × String)
    (slowAB slowBA collectAB collectBA : Table × Option String)
    (hsAB : UpdateSlowLogAuditPlanSQLs Md5String
      (UpdateSlowLogAuditPlanSQLs Md5String table auditPlanId A).1 auditPlanId B = slowAB)
    (hsBA : UpdateSlowLogAuditPlanSQLs Md5String
      (UpdateSlowLogAuditPlanSQLs Md5String table auditPlanId B).1 auditPlanId A = slowBA)
    (hcAB : UpdateSlowLogCollectAuditPlanSQLs Md5String
      (UpdateSlowLogCollectAuditPlanSQLs Md5String table auditPlanId A).1 auditPlanId B =
      collectAB)
    (hcBA : UpdateSlowLogCollectAuditPlanSQLs Md5String
      (UpdateSlowLogCollectAuditPlanSQLs Md5String table auditPlanId B).1 auditPlanId A =
      collectBA)
    (hstate : ∀ s ∈ A ++ B, ∀ stored,
      table.find (mergeKey Md5String auditPlanId s) = some stored →
      stored.Info.moderate ∧ stored.Info.collectModerate)
    (hmod : ∀ s ∈ A ++ B, s.Info.moderate ∧ s.Info.collectModerate)
    (hrange : ∀ s ∈ A ++ B, stateCounter (table.find (mergeKey Md5String auditPlanId s)) +
      (((A ++ B).filter (fun x => decide (mergeKey Md5String auditPlanId x =
        mergeKey Md5String auditPlanId s))).map (fun x => x.Info.counter.orZero)).sum ≤
          2 ^ 53) :
    ((slowAB.2 = none ↔ B ≠ []) ∧ (slowBA.2 = none ↔ A ≠ []) ∧
      (collectAB.2 = none ↔ B ≠ []) ∧ (collectBA.2 = none ↔ A ≠ [])) ∧
    ((Table.find slowAB.1 key).map (fun r => r.Info.counter) =
        (Table.find slowBA.1 key).map (fun r => r.Info.counter) ∧
      (Table.find collectAB.1 key).map (fun r => r.Info.counter) =
        (Table.find collectBA.1 key).map (fun r => r.Info.counter)) ∧
    (∀ a b, table.find key = none →
      A.filter (fun s => decide (mergeKey Md5String auditPlanId s = key)) = [a] →
      B.filter (fun s => decide (mergeKey Md5String auditPlanId s = key)) = [b] →
      (∃ ab ba, Table.find slowAB.1 key = some ab ∧ Table.find slowBA.1 key = some ba ∧
        (a.Info.query_time_avg ≠ .absent → b.Info.query_time_avg ≠ .absent →
          ab.Info.query_time_avg = ba.Info.query_time_avg) ∧
        (a.Info.row_examined_avg ≠ .absent → b.Info.row_examined_avg ≠ .absent →
          ab.Info.row_examined_avg = ba.Info.row_examined_avg)) ∧
      (∃ ab ba, Table.find collectAB.1 key = some ab ∧ Table.find collectBA.1 key = some ba ∧
        ab.Info.average_query_time = ba.Info.average_query_time ∧
        (a.Info.row_examined_avg ≠ .absent → b.Info.row_examined_avg ≠ .absent →
          ab.Info.row_examined_avg = ba.Info.row_examined_avg))) := by
  have hswap : ∀ s, s ∈ B ++ A → s ∈ A ++ B := by
    intro s hs
    rcases List.mem_append.mp hs with h | h
    · exact List.mem_append_right _ h
    · exact List.mem_append_left _ h
  have hrange2 : ∀ s ∈ B ++ A,
      stateCounter (table.find (mergeKey Md5String auditPlanId s)) +
      (((B ++ A).filter (fun x => decide (mergeKey Md5String auditPlanId x =
        mergeKey Md5String auditPlanId s))).map (fun x => x.Info.counter.orZero)).sum ≤
          2 ^ 53 := by
    intro s hs
    rw [counters_append_comm]
    exact hrange s (hswap s hs)
  obtain ⟨-, esAB, fsAB⟩ := UpdateSlowLogAuditPlanSQLs_two_runs Md5String table auditPlanId
    A B (fun s hs stored hst => (hstate s hs stored hst).1) (fun s hs => (hmod s hs).1) hrange
  obtain ⟨-, esBA, fsBA⟩ := UpdateSlowLogAuditPlanSQLs_two_runs Md5String table auditPlanId
    B A (fun s hs stored hst => (hstate s (hswap s hs) stored hst).1)
    (fun s hs => (hmod s (hswap s hs)).1) hrange2
  obtain ⟨-, ecAB, fcAB⟩ := UpdateSlowLogCollectAuditPlanSQLs_two_runs Md5String table
    auditPlanId A B (fun s hs stored hst => (hstate s hs stored hst).2)
    (fun s hs => (hmod s hs).2) hrange
  obtain ⟨-, ecBA, fcBA⟩ := UpdateSlowLogCollectAuditPlanSQLs_two_runs Md5String table
    auditPlanId B A (fun s hs stored hst => (hstate s (hswap s hs) stored hst).2)
    (fun s hs => (hmod s (hswap s hs)).2) hrange2
  subst hsAB hsBA hcAB hcBA
  refine ⟨⟨esAB, esBA, ecAB, ecBA⟩, ⟨?_, ?_⟩, ?_⟩
  · rw [fsAB key, fsBA key]
    exact foldl_mergeInto_counter_comm UpdateSlowLogAuditPlanSQLs.row (fun _ _ => rfl)
      Md5String table auditPlanId A B key
      (fun s hs stored hst => (hstate s hs stored hst).1.1) (fun s hs => (hmod s hs).1.1) hrange
  · rw [fcAB key, fcBA key]
    exact foldl_mergeInto_counter_comm UpdateSlowLogCollectAuditPlanSQLs.row (fun _ _ => rfl)
      Md5String table auditPlanId A B key
      (fun s hs stored hst => (hstate s hs stored hst).1.1) (fun s hs => (hmod s hs).1.1) hrange
  · intro a b hfresh ha hb
    have hamem : a ∈ A := by
      have : a ∈ A.filter (fun s => decide (mergeKey Md5String auditPlanId s = key)) := by
        rw [ha]
        exact List.mem_singleton_self a
      exact (List.mem_filter.mp this).1
    have hbmem : b ∈ B := by
      have : b ∈ B.filter (fun s => decide (mergeKey Md5String auditPlanId s = key)) := by
        rw [hb]
        exact List.mem_singleton_self b
      exact (List.mem_filter.mp this).1
    have hca : a.Info.counter ≠ .absent := by
      obtain ⟨n, hn⟩ := (hmod a (List.mem_append_left _ hamem)).1.1
      rw [hn]
      intro h
      cases h
    have hcb : b.Info.counter ≠ .absent := by
      obtain ⟨n, hn⟩ := (hmod b (List.mem_append_right _ hbmem)).1.1
      rw [hn]
      intro h
      cases h
    rw [fsAB key, fsBA key, fcAB key, fcBA key, ha, hb, hfresh]
    refine ⟨⟨_, _, rfl, rfl, ?_, ?_⟩, ⟨_, _, rfl, rfl, ?_, ?_⟩⟩
    · intro haa hab
      exact UpdateSlowLogAuditPlanSQLs_query_time_avg_comm a.Info b.Info hca hcb haa hab
    · intro haa hab
      exact UpdateSlowLogAuditPlanSQLs_row_examined_avg_comm a.Info b.Info hca hcb haa hab
    · exact UpdateSlowLogCollectAuditPlanSQLs_average_query_time_comm a.Info b.Info
    · intro haa hab
      exact UpdateSlowLogCollectAuditPlanSQLs_row_examined_avg_comm a.Info b.Info hca hcb haa hab

/-- A document with a natural counter, no `average_query_time` and a
`row_examined_avg` that is missing or at most 10^6 in absolute value has numbers
of the sizes that the casts of the slow log collection store. -/
theorem Info.collectModerate_of_small (info : Info) (n : ℕ)
    (hn : info.counter = .value (n : ℚ)) (h1 : info.average_query_time = .absent)
    (h2 : info.row_examined_avg.within (10 ^ 6)) : info.collectModerate := by
  have h : (10 : ℚ) ^ 6 ≤ 10 ^ 59 := by norm_num
  exact ⟨⟨n, hn⟩, fun q hq => (by rw [h1] at hq; cases hq), fun q hq => le_trans (h2 q hq) h⟩

/-- The sample with counter 3 and averages 10 has numbers of the sizes that the
casts of the slow log collection store. -/
theorem sample.storedInfo_collectModerate : sample.storedInfo.collectModerate := by
  apply Info.collectModerate_of_small _ 3 (by norm_num [sample.storedInfo]) rfl
  intro q hq
  simp only [sample.storedInfo, JSONField.value.injEq] at hq
  rw [← hq]
  norm_num [abs_of_pos]

/-- The sample with counter 5 and averages 20 has numbers of the sizes that the
casts store. -/
theorem sample.incomingInfo_moderate : sample.incomingInfo.moderate := by
  apply Info.moderate_of_small _ 5 (by norm_num [sample.incomingInfo])
  · intro q hq
    simp only [sample.incomingInfo, JSONField.value.injEq] at hq
    rw [← hq]
    norm_num [abs_of_pos]
  · intro q hq
    simp only [sample.incomingInfo, JSONField.value.injEq] at hq
    rw [← hq]
    norm_num [abs_of_pos]

/-- The sample with counter 5 and averages 20 has numbers of the sizes that the
casts of the slow log collection store. -/
theorem sample.incomingInfo_collectModerate : sample.incomingInfo.collectModerate := by
  apply Info.collectModerate_of_small _ 5 (by norm_num [sample.incomingInfo]) rfl
  intro q hq
  simp only [sample.incomingInfo, JSONField.value.injEq] at hq
  rw [← hq]
  norm_num [abs_of_pos]

/-- The sample with counter 5 and no average has numbers of the sizes that the
casts store. -/
theorem sample.noAverageIncoming_moderate : sample.noAverageIncoming.moderate := by
  apply Info.moderate_of_small _ 5 (by norm_num [sample.noAverageIncoming])
  · intro q hq
    simp [sample.noAverageIncoming] at hq
  · intro q hq
    simp [sample.noAverageIncoming] at hq

/-- Witness of the amended C16: the record with counter 3 and averages 10 in one
batch, the record of the same key with counter 5 and averages 20 in the other:
no error, and the counter and `query_time_avg` under the key are the same in
both orders. -/
theorem merge_order_counter_and_averages_witness :
    (UpdateSlowLogAuditPlanSQLs (fun s => s)
      (UpdateSlowLogAuditPlanSQLs (fun s => s) [] 1 [sample.averageRecord]).1 1
      [sample.secondAverageRecord]).2 = none ∧
    (Table.find (UpdateSlowLogAuditPlanSQLs (fun s => s)
      (UpdateSlowLogAuditPlanSQLs (fun s => s) [] 1 [sample.averageRecord]).1 1
      [sample.secondAverageRecord]).1 sample.presetKey).map (fun r => r.Info.counter) =
    (Table.find (UpdateSlowLogAuditPlanSQLs (fun s => s)
      (UpdateSlowLogAuditPlanSQLs (fun s => s) [] 1 [sample.secondAverageRecord]).1 1
      [sample.averageRecord]).1 sample.presetKey).map (fun r => r.Info.counter) ∧
    (Table.find (UpdateSlowLogAuditPlanSQLs (fun s => s)
      (UpdateSlowLogAuditPlanSQLs (fun s => s) [] 1 [sample.averageRecord]).1 1
      [sample.secondAverageRecord]).1 sample.presetKey).map (fun r => r.Info.query_time_avg) =
    (Table.find (UpdateSlowLogAuditPlanSQLs (fun s => s)
      (UpdateSlowLogAuditPlanSQLs (fun s => s) [] 1 [sample.secondAverageRecord]).1 1
      [sample.averageRecord]).1 sample.presetKey).map (fun r => r.Info.query_time_avg) := by
  have hmod : ∀ s ∈ [sample.averageRecord] ++ [sample.secondAverageRecord],
      s.Info.moderate ∧ s.Info.collectModerate := by
    intro s hs
    simp only [List.mem_append, List.mem_singleton] at hs
    rcases hs with rfl | rfl
    · exact ⟨sample.storedInfo_moderate, sample.storedInfo_collectModerate⟩
    · exact ⟨sample.incomingInfo_moderate, sample.incomingInfo_collectModerate⟩
  have hall : (([sample.averageRecord, sample.secondAverageRecord]).map
      (fun s => s.Info.counter.orZero)).sum = 8 := by
    norm_num [sample.averageRecord, sample.secondAverageRecord, sample.storedInfo,
      sample.incomingInfo, JSONField.orZero, mysql.num, mysql.COALESCE]
  have hrange : ∀ s ∈ [sample.averageRecord] ++ [sample.secondAverageRecord],
      stateCounter (Table.find [] (mergeKey (fun s => s) 1 s)) +
      ((([sample.averageRecord] ++ [sample.secondAverageRecord]).filter
        (fun x => decide (mergeKey (fun s => s) 1 x = mergeKey (fun s => s) 1 s))).map
          (fun x => x.Info.counter.orZero)).sum ≤ 2 ^ 53 := by
    intro s hs
    simp only [List.mem_append, List.mem_singleton] at hs
    rcases hs with rfl | rfl
    · have hf : ([sample.averageRecord] ++ [sample.secondAverageRecord]).filter
          (fun x => decide (mergeKey (fun s => s) 1 x =
            mergeKey (fun s => s) 1 sample.averageRecord)) =
          [sample.averageRecord, sample.secondAverageRecord] := rfl
      rw [hf, hall]
      norm_num [stateCounter, Table.find]
    · have hf : ([sample.averageRecord] ++ [sample.secondAverageRecord]).filter
          (fun x => decide (mergeKey (fun s => s) 1 x =
            mergeKey (fun s => s) 1 sample.secondAverageRecord)) =
          [sample.averageRecord, sample.secondAverageRecord] := rfl
      rw [hf, hall]
      norm_num [stateCounter, Table.find]
  have h := merge_order_counter_and_averages (fun s => s) [] 1 [sample.averageRecord]
    [sample.secondAverageRecord] sample.presetKey _ _ _ _ rfl rfl rfl rfl
    (fun _ _ stored hst => by cases hst) hmod hrange
  refine ⟨h.1.1.mpr (by simp), h.2.1.1, ?_⟩
  obtain ⟨ab, ba, hab, hba, havg, -⟩ :=
    (h.2.2 sample.averageRecord sample.secondAverageRecord rfl rfl rfl).1
  rw [hab, hba]
  simp only [Option.map_some']
  have hne : ∀ q : ℚ, JSONField.value q ≠ .absent := fun q hq => by cases hq
  rw [havg (hne 10) (hne 20)]

/-- The stored sample with counter 3 and average 10 met by the sample with
counter 5 and no average: the merged `query_time_avg` is 3.75. -/
theorem sample.blended_average :
    UpdateSlowLogAuditPlanSQLs.query_time_avg sample.storedInfo sample.noAverageIncoming =
      .value (15 / 4) := by
  obtain ⟨v, hv, -, -, hexact⟩ := mysql.average_merged 12 sample.storedInfo.query_time_avg
    sample.noAverageIncoming.query_time_avg sample.storedInfo.counter
    sample.noAverageIncoming.counter 10 0 10 3 5 rfl rfl (by norm_num [sample.storedInfo])
    (by norm_num [sample.noAverageIncoming]) (by norm_num) (by norm_num)
    (by norm_num [abs_of_pos]) (by norm_num) (by norm_num [mysql.maxDecimal])
  have hw : weightedAverage 10 (3 : ℕ) 0 (5 : ℕ) = 15 / 4 := by
    norm_num [weightedAverage]
  rw [hw] at hexact
  have := hexact (by norm_num) mysql.roundDecimal_blended
  rw [this] at hv
  exact hv

/-- The stored sample with counter 5 and no average met by the sample with
counter 3 and average 10: the merged `query_time_avg` is 10. -/
theorem sample.adopted_average :
    UpdateSlowLogAuditPlanSQLs.query_time_avg sample.noAverageIncoming sample.storedInfo =
      .value 10 := by
  obtain ⟨v, hv, -, -, hexact⟩ := mysql.average_merged 12
    sample.noAverageIncoming.query_time_avg sample.storedInfo.query_time_avg
    sample.noAverageIncoming.counter sample.storedInfo.counter 10 10 10 5 3 rfl rfl
    (by norm_num [sample.noAverageIncoming]) (by norm_num [sample.storedInfo]) (by norm_num)
    (by norm_num) (by norm_num [abs_of_pos]) (by norm_num [abs_of_pos])
    (by norm_num [mysql.maxDecimal])
  rw [weightedAverage_const 10 5 3 (by norm_num)] at hexact
  have := hexact (by norm_num) mysql.roundDecimal_ten
  rw [this] at hv
  exact hv

/-- The number 2^53 + 2 is a DOUBLE. -/
theorem mysql.double_above_tie : mysql.double 9007199254740994 = 9007199254740994 := by
  rw [mysql.double_of_binade 9007199254740994 53 (by norm_num [abs_of_pos])
    (by norm_num [abs_of_pos]) (by norm_num)]
  have hr : mysql.roundHalfEven (9007199254740994 / (2 : ℚ) ^ ((53 : ℤ) - 52)) =
      4503599627370497 := by
    have hf : ⌊(9007199254740994 : ℚ) / (2 : ℚ) ^ ((53 : ℤ) - 52)⌋ = 4503599627370497 := by
      rw [Int.floor_eq_iff]
      norm_num
    unfold mysql.roundHalfEven
    rw [hf]
    norm_num
  rw [hr]
  norm_num

/-- The DOUBLE nearest to 2^53 + 3 is 2^53 + 4: the tie goes to the even
significand. -/
theorem mysql.double_tie_up : mysql.double 9007199254740995 = 9007199254740996 := by
  rw [mysql.double_of_binade 9007199254740995 53 (by norm_num [abs_of_pos])
    (by norm_num [abs_of_pos]) (by norm_num)]
  have hr : mysql.roundHalfEven (9007199254740995 / (2 : ℚ) ^ ((53 : ℤ) - 52)) =
      4503599627370498 := by
    have hf : ⌊(9007199254740995 : ℚ) / (2 : ℚ) ^ ((53 : ℤ) - 52)⌋ = 4503599627370497 := by
      rw [Int.floor_eq_iff]
      norm_num
    unfold mysql.roundHalfEven
    rw [hf]
    norm_num
  rw [hr]
  norm_num

/-- A stored counter of 2^53 merged with the counters 1 and 2: in this order the
counter ends as 2^53 + 2, in the other order as 2^53 + 4. -/
theorem sample.counter_order :
    (UpdateSlowLogAuditPlanSQLs.info
      (UpdateSlowLogAuditPlanSQLs.info sample.hugeCounter sample.oneCounter)
      sample.twoCounter).counter = .value 9007199254740994 ∧
    (UpdateSlowLogAuditPlanSQLs.info
      (UpdateSlowLogAuditPlanSQLs.info sample.hugeCounter sample.twoCounter)
      sample.oneCounter).counter = .value 9007199254740996 := by
  have h1 : mysql.double 1 = 1 := by
    simpa using mysql.double_int 1 (by norm_num)
  have h2 : mysql.double 2 = 2 := by
    simpa using mysql.double_int 2 (by norm_num)
  have h53 : mysql.double 9007199254740992 = 9007199254740992 := by
    simpa using mysql.double_int 9007199254740992 (by norm_num)
  have s1 : mysql.castSigned (mysql.add (some 1) (some 9007199254740992)) =
      some 9007199254740992 := by
    simp only [mysql.add, h1, h53]
    rw [show (1 : ℚ) + 9007199254740992 = 9007199254740993 by norm_num, mysql.double_tie]
    simpa using mysql.castSigned_int 9007199254740992
  have s2 : mysql.castSigned (mysql.add (some 2) (some 9007199254740992)) =
      some 9007199254740994 := by
    simp only [mysql.add, h2, h53]
    rw [show (2 : ℚ) + 9007199254740992 = 9007199254740994 by norm_num,
      mysql.double_above_tie]
    simpa using mysql.castSigned_int 9007199254740994
  have s3 : mysql.castSigned (mysql.add (some 1) (some 9007199254740994)) =
      some 9007199254740996 := by
    simp only [mysql.add, h1, mysql.double_above_tie]
    rw [show (1 : ℚ) + 9007199254740994 = 9007199254740995 by norm_num,
      mysql.double_tie_up]
    simpa using mysql.castSigned_int 9007199254740996
  have c1 : (UpdateSlowLogAuditPlanSQLs.info sample.hugeCounter sample.oneCounter).counter =
      .value 9007199254740992 := by
    simp only [UpdateSlowLogAuditPlanSQLs.info, UpdateSlowLogAuditPlanSQLs.counter,
      sample.hugeCounter, sample.oneCounter, mysql.num, mysql.COALESCE, s1, mysql.JSON_SET]
  have c2 : (UpdateSlowLogAuditPlanSQLs.info sample.hugeCounter sample.twoCounter).counter =
      .value 9007199254740994 := by
    simp only [UpdateSlowLogAuditPlanSQLs.info, UpdateSlowLogAuditPlanSQLs.counter,
      sample.hugeCounter, sample.twoCounter, mysql.num, mysql.COALESCE, s2, mysql.JSON_SET]
  constructor
  · show UpdateSlowLogAuditPlanSQLs.counter
      (UpdateSlowLogAuditPlanSQLs.info sample.hugeCounter sample.oneCounter)
      sample.twoCounter = _
    unfold UpdateSlowLogAuditPlanSQLs.counter
    rw [c1]
    simp only [sample.twoCounter, mysql.num, mysql.COALESCE, s2, mysql.JSON_SET]
  · show UpdateSlowLogAuditPlanSQLs.counter
      (UpdateSlowLogAuditPlanSQLs.info sample.hugeCounter sample.twoCounter)
      sample.oneCounter = _
    unfold UpdateSlowLogAuditPlanSQLs.counter
    rw [c2]
    simp only [sample.oneCounter, mysql.num, mysql.COALESCE, s3, mysql.JSON_SET]

/-- Counterexample to C16 as stated. The record with counter 3 and
`query_time_avg` 10 and the record of the same key with counter 5 and no
`query_time_avg`, each a batch of `UpdateSlowLogAuditPlanSQLs` for plan 1: the
first then the second leaves `query_time_avg` 3.75, the second then the first
leaves 10, whatever `Md5String` is. A stored counter of 2^53 merged with the
counters 1 and 2 ends as 2^53 + 2 in this order and as 2^53 + 4 in the other. -/
theorem UpdateSlowLogAuditPlanSQLs_order_changes_average :
    (UpdateSlowLogAuditPlanSQLs.info
      (UpdateSlowLogAuditPlanSQLs.info sample.hugeCounter sample.oneCounter)
      sample.twoCounter).counter = .value 9007199254740994 ∧
    (UpdateSlowLogAuditPlanSQLs.info
      (UpdateSlowLogAuditPlanSQLs.info sample.hugeCounter sample.twoCounter)
      sample.oneCounter).counter = .value 9007199254740996 ∧
    sample.averageRecord.Info.counter = .value 3 ∧
    sample.averageRecord.Info.query_time_avg = .value 10 ∧
    sample.noAverageRecord.Info.counter = .value 5 ∧
    sample.noAverageRecord.Info.query_time_avg = .absent ∧
    ∀ Md5String : String → String,
      (Table.find (UpdateSlowLogAuditPlanSQLs Md5String
        (UpdateSlowLogAuditPlanSQLs Md5String [] 1 [sample.averageRecord]).1 1
        [sample.noAverageRecord]).1 sample.presetKey).map
          (fun r => r.Info.query_time_avg) = some (.value (15 / 4)) ∧
      (Table.find (UpdateSlowLogAuditPlanSQLs Md5String
        (UpdateSlowLogAuditPlanSQLs Md5String [] 1 [sample.noAverageRecord]).1 1
        [sample.averageRecord]).1 sample.presetKey).map
          (fun r => r.Info.query_time_avg) = some (.value 10) := by
  refine ⟨sample.counter_order.1, sample.counter_order.2, rfl, rfl, rfl, rfl, ?_⟩
  intro Md5String
  have hA : [sample.averageRecord].filter
      (fun s => decide (mergeKey Md5String 1 s = sample.presetKey)) =
      [sample.averageRecord] := rfl
  have hB : [sample.noAverageRecord].filter
      (fun s => decide (mergeKey Md5String 1 s = sample.presetKey)) =
      [sample.noAverageRecord] := rfl
  have hall : (([sample.averageRecord, sample.noAverageRecord]).map
      (fun s => s.Info.counter.orZero)).sum = 8 := by
    norm_num [sample.averageRecord, sample.noAverageRecord, sample.storedInfo,
      sample.noAverageIncoming, JSONField.orZero, mysql.num, mysql.COALESCE]
  have hall2 : (([sample.noAverageRecord, sample.averageRecord]).map
      (fun s => s.Info.counter.orZero)).sum = 8 := by
    norm_num [sample.averageRecord, sample.noAverageRecord, sample.storedInfo,
      sample.noAverageIncoming, JSONField.orZero, mysql.num, mysql.COALESCE]
  have hmod : ∀ s ∈ [sample.averageRecord] ++ [sample.noAverageRecord], s.Info.moderate := by
    intro s hs
    simp only [List.mem_append, List.mem_singleton] at hs
    rcases hs with rfl | rfl
    · exact sample.storedInfo_moderate
    · exact sample.noAverageIncoming_moderate
  have hmod2 : ∀ s ∈ [sample.noAverageRecord] ++ [sample.averageRecord], s.Info.moderate := by
    intro s hs
    simp only [List.mem_append, List.mem_singleton] at hs
    rcases hs with rfl | rfl
    · exact sample.noAverageIncoming_moderate
    · exact sample.storedInfo_moderate
  have hrange : ∀ s ∈ [sample.averageRecord] ++ [sample.noAverageRecord],
      stateCounter (Table.find [] (mergeKey Md5String 1 s)) +
      ((([sample.averageRecord] ++ [sample.noAverageRecord]).filter
        (fun x => decide (mergeKey Md5String 1 x = mergeKey Md5String 1 s))).map
          (fun x => x.Info.counter.orZero)).sum ≤ 2 ^ 53 := by
    intro s hs
    simp only [List.mem_append, List.mem_singleton] at hs
    rcases hs with rfl | rfl
    · have hf : ([sample.averageRecord] ++ [sample.noAverageRecord]).filter
          (fun x => decide (mergeKey Md5String 1 x =
            mergeKey Md5String 1 sample.averageRecord)) =
          [sample.averageRecord, sample.noAverageRecord] := rfl
      rw [hf, hall]
      norm_num [stateCounter, Table.find]
    · have hf : ([sample.averageRecord] ++ [sample.noAverageRecord]).filter
          (fun x => decide (mergeKey Md5String 1 x =
            mergeKey Md5String 1 sample.noAverageRecord)) =
          [sample.averageRecord, sample.noAverageRecord] := rfl
      rw [hf, hall]
      norm_num [stateCounter, Table.find]
  have hrange2 : ∀ s ∈ [sample.noAverageRecord] ++ [sample.averageRecord],
      stateCounter (Table.find [] (mergeKey Md5String 1 s)) +
      ((([sample.noAverageRecord] ++ [sample.averageRecord]).filter
        (fun x => decide (mergeKey Md5String 1 x = mergeKey Md5String 1 s))).map
          (fun x => x.Info.counter.orZero)).sum ≤ 2 ^ 53 := by
    intro s hs
    simp only [List.mem_append, List.mem_singleton] at hs
    rcases hs with rfl | rfl
    · have hf : ([sample.noAverageRecord] ++ [sample.averageRecord]).filter
          (fun x => decide (mergeKey Md5String 1 x =
            mergeKey Md5String 1 sample.noAverageRecord)) =
          [sample.noAverageRecord, sample.averageRecord] := rfl
      rw [hf, hall2]
      norm_num [stateCounter, Table.find]
    · have hf : ([sample.noAverageRecord] ++ [sample.averageRecord]).filter
          (fun x => decide (mergeKey Md5String 1 x =
            mergeKey Md5String 1 sample.averageRecord)) =
          [sample.noAverageRecord, sample.averageRecord] := rfl
      rw [hf, hall2]
      norm_num [stateCounter, Table.find]
  obtain ⟨-, -, f1⟩ := UpdateSlowLogAuditPlanSQLs_two_runs Md5String [] 1
    [sample.averageRecord] [sample.noAverageRecord] (fun _ _ stored hst => by cases hst)
    hmod hrange
  obtain ⟨-, -, f2⟩ := UpdateSlowLogAuditPlanSQLs_two_runs Md5String [] 1
    [sample.noAverageRecord] [sample.averageRecord] (fun _ _ stored hst => by cases hst)
    hmod2 hrange2
  rw [f1 sample.presetKey, f2 sample.presetKey, hA, hB]
  constructor
  · show some (UpdateSlowLogAuditPlanSQLs.query_time_avg sample.storedInfo
      sample.noAverageIncoming) = _
    rw [sample.blended_average]
  · show some (UpdateSlowLogAuditPlanSQLs.query_time_avg sample.noAverageIncoming
      sample.storedInfo) = _
    rw [sample.adopted_average]

end sqle
